import Mathlib

/-!
# Princesse (Lode Runner for the P8X game system): gameplay core

A shallow embedding of `src/main.cpp` and `src/src/misc.cpp`.

* The program's globals (`game`, `player[]`, `vram[]`, `sprites[]`) are one explicit
  `State` record; every C function that touches them is a function on `State`.
* C arrays are total maps from the C index to the element (C has no bounds checks);
  the loops only visit the indices the source visits.
* `u8`, `u16`, `s8` are `Nat`/`Int` with explicit truncation (`u8`, `s8of`, `% 65536`);
  `s32` is `Int`, `>> n` on it is floor division by `2 ^ n` and `/` is `Int.tdiv`.
* Sound triggers (`TriggerFx`) have no effect on the modelled state and are left out.
* Values that come from outside the program (joypad, `rand()`, the result of `Ai`)
  are explicit inputs of the tick functions.
-/

namespace Princesse

/-! ## Constants -/

/-- Constants of the tile set, video mode and joypad headers, which are not part of the
sources: every function takes them as a parameter. -/
structure Consts where
  TILE_BG : Nat
  TILE_BREAKABLE : Nat
  TILE_UNBREAKABLE : Nat
  TILE_LADDER : Nat
  TILE_ROPE : Nat
  TILE_BREAKABLE_FAKE : Nat
  TILE_GOLD1 : Nat
  TILE_GOLD2 : Nat
  TILE_GOLD3 : Nat
  TILE_GOLD4 : Nat
  TILE_DESTROY1 : Nat
  TILE_DESTROY5 : Nat
  TILE_BG_HOLE : Nat
  TILE_BG_STEP_ON : Nat
  TILE_SHADOW : Nat
  TILE_GOLD_STATS : Nat
  TILE_CURSOR : Nat
  TILE_BLACK : Nat
  CHAR_ZERO : Nat
  VRAM_TILES_H : Nat
  SCREEN_TILES_H : Nat
  SCREEN_TILES_V : Nat
  SPRITE_FLIP_X : Nat
  BTN_A : Nat
  BTN_START : Nat
  BTN_SELECT : Nat
  BTN_UP : Nat
  BTN_DOWN : Nat
  BTN_LEFT : Nat
  BTN_RIGHT : Nat
  /-- tile written by `Print` for a character code -/
  font : Nat → Nat
  /-- the four tiles between `TILE_DESTROY1` and `TILE_DESTROY5` used by the brick animation -/
  TILE_DESTROY2 : Nat
  TILE_DESTROY3 : Nat
  TILE_DESTROY4 : Nat

/-- Modelled from the spec: `TILE_WIDTH`, the tile width in pixels (header constant; the
sources mix `TILE_WIDTH` with `>> 3` and `* 8`). -/
def TILE_WIDTH : Nat := 8

/-- Modelled from the spec: `TILE_HEIGHT`, the tile height in pixels (header constant; the
sources mix `TILE_HEIGHT` with `/ 12` and `* 12`). -/
def TILE_HEIGHT : Nat := 12

def MAX_PLAYERS : Nat := 6
def LEVEL_SIZE : Nat := 224
def LEVELS_COUNT : Nat := 50
def FIELD_WIDTH : Nat := 28
def FIELD_HEIGHT : Nat := 16

def ACTION_NONE : Nat := 0
def ACTION_WALK : Nat := 1
def ACTION_FALL : Nat := 2
def ACTION_CLIMB : Nat := 3
def ACTION_CLING : Nat := 4
def ACTION_FIRE : Nat := 5
def ACTION_DIE : Nat := 6
def ACTION_INHOLE : Nat := 7
def ACTION_RESPAWN : Nat := 8

/-- `#define SPR_INDEX_PLAYER MAX_PLAYERS-1`; every use in the sources parses as `5`. -/
def SPR_INDEX_PLAYER : Nat := MAX_PLAYERS - 1

def SPR_WALK1 : Nat := 0
def SPR_WALK2 : Nat := 1
def SPR_WALK3 : Nat := 2
def SPR_WALK4 : Nat := 3
def SPR_FALL : Nat := 4
def SPR_CLIMB1 : Nat := 5
def SPR_CLIMB2 : Nat := 6
def SPR_CLING1 : Nat := 7
def SPR_CLING2 : Nat := 8
def SPR_CLING3 : Nat := 9
def SPR_FIRE : Nat := 10
def SPR_EXIT1 : Nat := 10
def SPR_BEAM1 : Nat := 11
def SPR_BEAM2 : Nat := 12
def SPR_BEAM3 : Nat := 13
def SPR_BEAM4 : Nat := 14
def SPR_BEAM5 : Nat := 15
def SPR_BEAM6 : Nat := 16
def SPR_ENEMY_OFFSET : Nat := 17

def GOLD_STATE_VISIBLE : Nat := 0
def GOLD_STATE_CAPTURED : Nat := 1
def GOLD_STATE_COLLECTED : Nat := 2

def ANIMATION_SLOTS_COUNT : Nat := 32
def ANIM_CMD_END : Nat := 0
def ANIM_CMD_SETTILE : Nat := 1
def ANIM_CMD_SETSPRITE : Nat := 2
def ANIM_CMD_TURNOFFSPRITE : Nat := 3
def ANIM_CMD_SETSPRITEATTR : Nat := 4
def ANIM_CMD_FLIP_SPRITE_ATTR : Nat := 5
def ANIM_CMD_DELAY : Nat := 0x80

def MAX_GOLD : Nat := 32

def AI_ACTION_CLIMB_DOWN : Nat := 4

/-- `#define SPR_OFF SCREEN_TILES_H*TILE_WIDTH`. -/
def SPR_OFF (K : Consts) : Nat := K.SCREEN_TILES_H * TILE_WIDTH

/-! ## Machine integers -/

/-- Conversion of an `int` value to `uint8_t`. -/
def u8 (v : Int) : Nat := (v % 256).toNat

/-- Conversion of an `int` value to `int8_t`. -/
def s8of (v : Int) : Int := (v + 128) % 256 - 128

/-- Conversion of an `int` value to `uint16_t`. -/
def u16 (v : Int) : Nat := (v % 65536).toNat

/-- Pixel part of a 24:8 fixed-point `s32`: `v >> 8`. -/
def px (v : Int) : Int := v / 256

/-! ## Data model -/

/-- `struct Player`. -/
structure Player where
  x : Int
  y : Int
  playerSpeed : Int
  frame : Nat
  frameSpeed : Nat
  dir : Int
  action : Nat
  lastAction : Nat
  lives : Nat
  spriteIndex : Nat
  active : Bool
  died : Bool
  tileAtFeet : Nat
  tileAtHead : Nat
  tileUnder : Nat
  capturedGoldId : Int
  lastCapturedGoldId : Int
  capturedGoldDelay : Nat
  lastAiAction : Nat
  aiTarget : Int
  respawnX : Nat
  stuckDelay : Nat
deriving DecidableEq, Repr, Inhabited

/-- `struct Gold`. -/
structure Gold where
  x : Nat
  y : Nat
  state : Nat
deriving DecidableEq, Repr, Inhabited

/-- `struct Animation`; `commandStream` is the pointer into a command array: `none` is
`NULL`, `some l` points at the bytes `l` that remain up to the end of the array. -/
structure Animation where
  commandStream : Option (List Nat)
  commandCount : Nat
  x : Nat
  y : Nat
  delay : Nat
  param1 : Nat
deriving DecidableEq, Repr, Inhabited

/-- Modelled from the spec: one entry of the sprite table of the rendering collaborator
(position, tile index, flip flags). -/
structure Sprite where
  x : Nat
  y : Nat
  tileIndex : Nat
  flags : Nat
deriving DecidableEq, Repr, Inhabited

/-- `struct Game`. `gold` is indexed by the C index (an `s8` in the callers). -/
structure Game where
  goldCount : Nat
  goldCollected : Nat
  goldAnimFrame : Nat
  goldAnimSpeed : Nat
  gold : Int → Gold
  animations : Nat → Animation
  level : Nat
  totalLevels : Nat
  exitLadders : Bool
  levelComplete : Bool
  levelRestart : Bool
  levelQuit : Bool
  demoSaveLevel : Nat
  displayCredits : Bool
  map : Nat → Nat

/-- The globals of the program: `game`, `player[]`, the tile grid `vram[]` and the sprite
table `sprites[]`. -/
structure State where
  game : Game
  player : Nat → Player
  vram : Nat → Nat
  sprites : Nat → Sprite

/-! ## Animation command streams -/

def playerWalkFrames : List Nat := [SPR_WALK1, SPR_WALK3, SPR_WALK2, SPR_WALK4, SPR_WALK3, SPR_WALK2]
def playerClimbFrames : List Nat := [SPR_CLIMB1, SPR_CLIMB2, SPR_CLIMB2, SPR_CLIMB1]
def playerClingFrames : List Nat := [SPR_CLING1, SPR_CLING2, SPR_CLING3]

def anim_destroyBrick (K : Consts) : List Nat :=
  [ANIM_CMD_DELAY ||| 15,
   ANIM_CMD_SETTILE, K.TILE_DESTROY1, ANIM_CMD_DELAY ||| 5,
   ANIM_CMD_SETTILE, K.TILE_DESTROY2, ANIM_CMD_DELAY ||| 5,
   ANIM_CMD_SETTILE, K.TILE_DESTROY3, ANIM_CMD_DELAY ||| 5,
   ANIM_CMD_SETTILE, K.TILE_DESTROY4, ANIM_CMD_DELAY ||| 5,
   ANIM_CMD_SETTILE, K.TILE_DESTROY5, ANIM_CMD_DELAY ||| 5,
   ANIM_CMD_SETTILE, K.TILE_BG_HOLE, ANIM_CMD_DELAY ||| 127, ANIM_CMD_DELAY ||| 110,
   ANIM_CMD_SETTILE, K.TILE_DESTROY5, ANIM_CMD_DELAY ||| 5,
   ANIM_CMD_SETTILE, K.TILE_DESTROY4, ANIM_CMD_DELAY ||| 5,
   ANIM_CMD_SETTILE, K.TILE_DESTROY3, ANIM_CMD_DELAY ||| 5,
   ANIM_CMD_SETTILE, K.TILE_DESTROY2, ANIM_CMD_DELAY ||| 5,
   ANIM_CMD_SETTILE, K.TILE_DESTROY1, ANIM_CMD_DELAY ||| 5,
   ANIM_CMD_SETTILE, K.TILE_BREAKABLE,
   ANIM_CMD_END]

def anim_fire : List Nat :=
  [ANIM_CMD_SETSPRITE, SPR_BEAM1, ANIM_CMD_DELAY ||| 2,
   ANIM_CMD_SETSPRITE, SPR_BEAM2, ANIM_CMD_DELAY ||| 2,
   ANIM_CMD_SETSPRITE, SPR_BEAM3, ANIM_CMD_DELAY ||| 2,
   ANIM_CMD_SETSPRITE, SPR_BEAM4, ANIM_CMD_DELAY ||| 2,
   ANIM_CMD_SETSPRITE, SPR_BEAM5, ANIM_CMD_DELAY ||| 2,
   ANIM_CMD_SETSPRITE, SPR_BEAM6, ANIM_CMD_DELAY ||| 2,
   ANIM_CMD_TURNOFFSPRITE,
   ANIM_CMD_END]

def anim_getout_of_hole : List Nat :=
  [ANIM_CMD_SETSPRITE, SPR_FALL + SPR_ENEMY_OFFSET, ANIM_CMD_DELAY ||| 0,
   ANIM_CMD_FLIP_SPRITE_ATTR, 1, ANIM_CMD_DELAY ||| 3,
   ANIM_CMD_FLIP_SPRITE_ATTR, 1, ANIM_CMD_DELAY ||| 3,
   ANIM_CMD_FLIP_SPRITE_ATTR, 1, ANIM_CMD_DELAY ||| 3,
   ANIM_CMD_FLIP_SPRITE_ATTR, 1, ANIM_CMD_DELAY ||| 3,
   ANIM_CMD_FLIP_SPRITE_ATTR, 1, ANIM_CMD_DELAY ||| 3,
   ANIM_CMD_FLIP_SPRITE_ATTR, 1, ANIM_CMD_DELAY ||| 3,
   ANIM_CMD_SETSPRITE, SPR_WALK4 + SPR_ENEMY_OFFSET, ANIM_CMD_DELAY ||| 10,
   ANIM_CMD_SETSPRITE, SPR_EXIT1 + SPR_ENEMY_OFFSET, ANIM_CMD_DELAY ||| 20,
   ANIM_CMD_END]

/-! ## State access -/

/-- Assignment to fields of `player[id]`. -/
def setPlayer (s : State) (id : Nat) (f : Player → Player) : State :=
  { s with player := Function.update s.player id (f (s.player id)) }

/-- Assignment to fields of `sprites[i]`. -/
def setSprite (s : State) (i : Nat) (f : Sprite → Sprite) : State :=
  { s with sprites := Function.update s.sprites i (f (s.sprites i)) }

/-- Assignment to fields of `game.animations[i]`. -/
def setAnim (s : State) (i : Nat) (f : Animation → Animation) : State :=
  { s with game := { s.game with
      animations := Function.update s.game.animations i (f (s.game.animations i)) } }

/-- Assignment to fields of `game.gold[i]`. -/
def setGold (s : State) (i : Int) (f : Gold → Gold) : State :=
  { s with game := { s.game with gold := Function.update s.game.gold i (f (s.game.gold i)) } }

/-- Modelled from the spec: `SetTile(col,row,tileId)` of the rendering collaborator, which
writes the cell read back by the `GetTile` functions, `vram[row * VRAM_TILES_H + col]`. -/
def SetTile (K : Consts) (x y tile : Nat) (s : State) : State :=
  { s with vram := Function.update s.vram (y * K.VRAM_TILES_H + x) tile }

/-! ## Tile grid queries (`misc.cpp`) -/

def GetTileOnSide (K : Consts) (vram : Nat → Nat) (x y : Nat) (dir : Int) : Nat :=
  let disp : Nat := if dir = -1 then 0 else 7
  vram (((y + (TILE_HEIGHT - 1)) / TILE_HEIGHT) * K.VRAM_TILES_H + ((x + disp) >>> 3))

def GetTileUnder (K : Consts) (vram : Nat → Nat) (x y : Nat) : Nat :=
  if y ≥ (FIELD_HEIGHT - 1) * TILE_HEIGHT then K.TILE_UNBREAKABLE
  else vram (((y + TILE_HEIGHT) / TILE_HEIGHT) * K.VRAM_TILES_H + ((x + 4) >>> 3))

def GetTileAtFeet (K : Consts) (vram : Nat → Nat) (x y : Nat) : Nat :=
  vram (((y + (TILE_HEIGHT - 1)) / TILE_HEIGHT) * K.VRAM_TILES_H + ((x + 4) >>> 3))

def GetTileAtHead (K : Consts) (vram : Nat → Nat) (x y : Nat) : Nat :=
  vram (((y + 1) / TILE_HEIGHT) * K.VRAM_TILES_H + ((x + 4) >>> 3))

/-- The loop of `IsTileSolid` over the enemy slots `i, i+1, ..` (`n` iterations left). -/
def IsTileSolid.loop (player : Nat → Player) (srcX srcY : Nat) : Nat → Nat → Bool
  | 0, _ => false
  | n + 1, i =>
    if (player i).active && decide (i < SPR_INDEX_PLAYER) then
      let destX := u8 (px (player i).x / 8)
      let destY := u8 (Int.tdiv (px (player i).y) TILE_HEIGHT)
      if srcX = destX ∧ srcY + 1 = destY then true
      else IsTileSolid.loop player srcX srcY n (i + 1)
    else IsTileSolid.loop player srcX srcY n (i + 1)

def IsTileSolid (K : Consts) (player : Nat → Player) (tileId id : Nat) : Bool :=
  if tileId = K.TILE_BREAKABLE ∨ tileId = K.TILE_UNBREAKABLE ∨ tileId = K.TILE_LADDER
      ∨ tileId = K.TILE_BG_STEP_ON then true
  else if tileId ≥ K.TILE_DESTROY1 ∧ tileId ≤ K.TILE_DESTROY5 then
    let srcX := u8 ((px (player id).x + 4) / 8)
    let srcY := u8 (Int.tdiv (px (player id).y) TILE_HEIGHT)
    IsTileSolid.loop player srcX srcY SPR_INDEX_PLAYER 0
  else false

def IsTileBlocking (K : Consts) (tileId : Nat) : Bool :=
  decide (tileId = K.TILE_BREAKABLE ∨ tileId = K.TILE_UNBREAKABLE ∨ tileId = K.TILE_BG_STEP_ON)

def IsTileGold (K : Consts) (tileId : Nat) : Bool :=
  decide (tileId = K.TILE_GOLD1 ∨ tileId = K.TILE_GOLD2 ∨ tileId = K.TILE_GOLD3
    ∨ tileId = K.TILE_GOLD4)

def IsTileHole (K : Consts) (tileId : Nat) : Bool :=
  decide (tileId = K.TILE_BG_HOLE ∨ (tileId ≥ K.TILE_DESTROY1 ∧ tileId ≤ K.TILE_DESTROY5))

def IsTileBG (K : Consts) (tileId : Nat) : Bool :=
  decide (tileId = K.TILE_BG ∨ tileId = K.TILE_SHADOW)

def RoundYpos (id : Nat) (s : State) : State :=
  setPlayer s id (fun p => { p with y := (Int.tdiv (px p.y) TILE_HEIGHT * TILE_HEIGHT) * 256 })

/-! ## Animation scheduler (`misc.cpp`) -/

/-- The slot contents after the six assignments of `TriggerAnimation`. -/
def Animation.bound (animation : Option (List Nat)) (x y param1 : Nat) : Animation :=
  { commandStream := animation, commandCount := 0, delay := 0, x := x, y := y, param1 := param1 }

/-- The loop of `TriggerAnimation` from slot `i` on (`n` iterations left). The arguments
`x`, `y`, `param1` are the `uint8_t` values received. -/
def TriggerAnimation.loop (animation : Option (List Nat)) (x y param1 : Nat) (s : State) :
    Nat → Nat → State × Int
  | 0, _ => (s, -1)
  | n + 1, i =>
    if (s.game.animations i).commandStream = none then
      (setAnim s i (fun _ => Animation.bound animation x y param1), (i : Int))
    else TriggerAnimation.loop animation x y param1 s n (i + 1)

def TriggerAnimation (animation : Option (List Nat)) (x y param1 : Nat) (s : State) :
    State × Int :=
  TriggerAnimation.loop animation x y param1 s ANIMATION_SLOTS_COUNT 0

/-- How the command loop of one slot in `ProcessAnimations` ends. -/
inductive AnimRun where
  /-- a delay command ended the group; the loop over the slots goes on -/
  | delayed (s : State)
  /-- `ANIM_CMD_END`: the slot is freed and `ProcessAnimations` returns -/
  | ended (s : State)
  /-- the pointer ran past the last byte of the command array -/
  | overrun

/-- The `while (complete == false)` loop of `ProcessAnimations` for slot `i`, reading from
the pointer given as the list of remaining bytes. -/
def ProcessAnimations.run (K : Consts) (i x y : Nat) : List Nat → State → AnimRun
  | [], _ => .overrun
  | command :: ptr, s =>
    if command &&& 0x80 ≠ 0 then
      .delayed (setAnim s i (fun a =>
        { a with delay := command &&& 0x7f, commandStream := some ptr }))
    else
      let bump (t : State) : State :=
        setAnim t i (fun a => { a with commandCount := (a.commandCount + 1) % 256 })
      let param1 := (s.game.animations i).param1
      if command = ANIM_CMD_END then
        .ended (setAnim s i (fun a => { a with commandStream := none }))
      else if command = ANIM_CMD_SETTILE then
        match ptr with
        | [] => .overrun
        | t :: ptr2 => ProcessAnimations.run K i x y ptr2 (bump (SetTile K x y t s))
      else if command = ANIM_CMD_SETSPRITE then
        match ptr with
        | [] => .overrun
        | t :: ptr2 =>
          let s1 := if (s.game.animations i).commandCount = 0 then
              setSprite s param1 (fun sp => { sp with x := x, y := y })
            else s
          ProcessAnimations.run K i x y ptr2
            (bump (setSprite s1 param1 (fun sp => { sp with tileIndex := t })))
      else if command = ANIM_CMD_TURNOFFSPRITE then
        ProcessAnimations.run K i x y ptr
          (bump (setSprite s param1 (fun sp => { sp with x := SPR_OFF K })))
      else if command = ANIM_CMD_SETSPRITEATTR then
        match ptr with
        | [] => .overrun
        | t :: ptr2 =>
          ProcessAnimations.run K i x y ptr2
            (bump (setSprite s param1 (fun sp => { sp with flags := t })))
      else if command = ANIM_CMD_FLIP_SPRITE_ATTR then
        match ptr with
        | [] => .overrun
        | t :: ptr2 =>
          ProcessAnimations.run K i x y ptr2
            (bump (setSprite s param1 (fun sp => { sp with flags := sp.flags ^^^ t })))
      else ProcessAnimations.run K i x y ptr (bump s)

/-- The loop of `ProcessAnimations` over the slots `i, i+1, ..` (`n` iterations left);
`none` when a command array is overrun. -/
def ProcessAnimations.loop (K : Consts) : Nat → Nat → State → Option State
  | 0, _, s => some s
  | n + 1, i, s =>
    match (s.game.animations i).commandStream with
    | none => ProcessAnimations.loop K n (i + 1) s
    | some ptr =>
      if (s.game.animations i).delay > 0 then
        ProcessAnimations.loop K n (i + 1)
          (setAnim s i (fun a => { a with delay := a.delay - 1 }))
      else
        match ProcessAnimations.run K i (s.game.animations i).x (s.game.animations i).y ptr s with
        | .delayed s2 => ProcessAnimations.loop K n (i + 1) s2
        | .ended s2 => some s2
        | .overrun => none

def ProcessAnimations (K : Consts) (s : State) : Option State :=
  ProcessAnimations.loop K ANIMATION_SLOTS_COUNT 0 s

/-! ## Inputs from outside the program -/

/-- Modelled from the spec: the outcome of one call of `Ai(id)`, whose body is not in the
sources: the movement intent it returns (a joypad bitmask) and the values it leaves in the
enemy's pathing fields (last AI decision, pathing target, stuck counter). -/
structure AiResult where
  joy : Nat
  lastAiAction : Nat
  aiTarget : Int
  stuckDelay : Nat
deriving DecidableEq, Repr, Inhabited

/-- What one call of `ProcessPlayer` reads from outside: the joypad (`ReadJoypad(0)`), the
value of `rand()` (each path calls it at most once), the outcome of `Ai`, and the joypad
readings that `PauseMenu` sees before the confirming press. -/
structure Input where
  joy : Nat
  rnd : Nat
  ai : AiResult
  menu : List Nat
deriving DecidableEq, Repr, Inhabited

/-- Modelled from the spec: `Ai(id)`, whose body is not in the sources; it returns the
intent and writes the enemy's pathing fields. -/
def Ai (r : AiResult) (id : Nat) (s : State) : State × Nat :=
  (setPlayer s id (fun p =>
    { p with lastAiAction := r.lastAiAction, aiTarget := r.aiTarget,
             stuckDelay := r.stuckDelay }), r.joy % 65536)

/-! ## Text output helpers -/

/-- Modelled from the spec: `Print(x,y,text)` of the rendering collaborator, one font tile
per character from column `x` on. -/
def Print (K : Consts) (x y : Nat) (text : List Nat) (s : State) : State :=
  (text.foldl (fun (acc : Nat × State) c => (acc.1 + 1, SetTile K acc.1 y (K.font c) acc.2))
    (x, s)).2

/-- Modelled from the spec: `Fill(x,y,w,h,tile)` of the rendering collaborator. -/
def Fill (K : Consts) (x y w h tile : Nat) (s : State) : State :=
  (List.range h).foldl (fun s1 cy =>
    (List.range w).foldl (fun s2 cx => SetTile K (x + cx) (y + cy) tile s2) s1) s

def PrintByte2 (K : Consts) (x y val : Nat) (s : State) : State :=
  let c0 := val % 10
  let s1 := SetTile K x y (c0 + K.CHAR_ZERO) s
  let val1 := val / 10
  let c1 := val1 % 10
  if val1 > 0 then SetTile K (x - 1) y (c1 + K.CHAR_ZERO) s1
  else SetTile K (x - 1) y K.CHAR_ZERO s1

def UpdateInfo (K : Consts) (s : State) : State :=
  PrintByte2 K 22 16 s.game.goldCollected s

/-! ## Action handlers (`main.cpp`) -/

/-- `(id < SPR_INDEX_PLAYER ? SPR_ENEMY_OFFSET : 0)`. -/
def enemyOffset (id : Nat) : Nat := if id < SPR_INDEX_PLAYER then SPR_ENEMY_OFFSET else 0

/-- `(player[id].dir == 1 ? 0 : SPRITE_FLIP_X)`. -/
def flipFlags (K : Consts) (dir : Int) : Nat := if dir = 1 then 0 else K.SPRITE_FLIP_X

/-- The two entry blocks of `Walk`: "round corner" when exiting ladders
(`lastAction == ACTION_CLIMB`) and the frame reset (`lastAction != ACTION_WALK`). -/
def Walk.entry (id : Nat) (s : State) : State :=
  -- "round corner" when exiting ladders
  let s :=
    if (s.player id).lastAction = ACTION_CLIMB then
      let tmp : Int := u16 (Int.tdiv (px (s.player id).y) TILE_HEIGHT * TILE_HEIGHT)
      if |tmp - px (s.player id).y| ≤ 4 then
        setPlayer s id (fun p => { p with y := (tmp % 256) * 256 })
      else s
    else s
  if (s.player id).lastAction ≠ ACTION_WALK then
    setPlayer s id (fun p => { p with frame := 0 }) else s

/-- The branch of `Walk` taken when the step is not blocked: move, animate, and the
transitions to Cling and Fall. `newX`, `newY`, `tileAtHead`, `tileAtFeet` are the locals of
`Walk`. -/
def Walk.move (K : Consts) (id : Nat) (dir : Int) (newX : Int) (newY tileAtHead tileAtFeet : Nat)
    (s : State) : State :=
  let s := setPlayer s id (fun p => { p with x := p.x + p.playerSpeed * dir })
  let s := setPlayer s id (fun p => { p with frame := (p.frame + p.frameSpeed) % 256 })
  let s := if (s.player id).frame >>> 4 ≥ playerWalkFrames.length then
      setPlayer s id (fun p => { p with frame := 0 }) else s
  if tileAtHead = K.TILE_ROPE then
    RoundYpos id (setPlayer s id (fun p => { p with action := ACTION_CLING }))
  else if ¬ IsTileSolid K s.player (GetTileUnder K s.vram (u8 newX) newY) id
      ∧ tileAtFeet ≠ K.TILE_LADDER then
    let s := setPlayer s id (fun p => { p with action := ACTION_FALL })
    let s := if (s.player id).x / 2048 < ((s.player id).x + 0x400) / 2048 then
        setPlayer s id (fun p => { p with x := p.x + 0x800 }) else s
    setPlayer s id (fun p => { p with x := Int.land p.x 0xf8ff })
  else s

/-- The end of `Walk`: the sprite of the entity and `lastAction = ACTION_WALK`. -/
def Walk.finish (K : Consts) (id newY : Nat) (s : State) : State :=
  let p := s.player id
  let s := setSprite s p.spriteIndex (fun sp =>
    { sp with tileIndex := playerWalkFrames.getD (p.frame >>> 4) 0 + enemyOffset id,
              flags := flipFlags K p.dir, x := u8 (px p.x), y := newY })
  setPlayer s id (fun p => { p with lastAction := ACTION_WALK })

def Walk (K : Consts) (id : Nat) (dir : Int) (s : State) : State :=
  let s := Walk.entry id s
  let s := setPlayer s id (fun p => { p with dir := dir, action := ACTION_WALK })
  let newX : Int := px ((s.player id).x + (s.player id).playerSpeed * dir)
  let newY : Nat := u8 (px (s.player id).y)
  let tileAtHead := GetTileAtHead K s.vram (u8 newX) newY
  let tileAtFeet := GetTileAtFeet K s.vram (u8 newX) newY
  let s :=
    -- check if player is not blocked by screen limit or a wall
    if (newX ≥ 0 ∧ newX < ((K.SCREEN_TILES_H * TILE_WIDTH : Nat) : Int))
        ∧ ¬ IsTileBlocking K (GetTileOnSide K s.vram (u8 newX) newY dir) then
      Walk.move K id dir newX newY tileAtHead tileAtFeet s
    else
      -- blocked!
      if id < SPR_INDEX_PLAYER then setPlayer s id (fun p => { p with dir := -p.dir })
      else s
  Walk.finish K id newY s

/-- The animation step of a climb move and the final `lastAction = ACTION_CLIMB` of
`Climb` (the part of `Climb` after the exit test). -/
def Climb.finish (K : Consts) (id : Nat) (s : State) : State :=
  let s := setPlayer s id (fun p => { p with frame := (p.frame + p.frameSpeed) % 256 })
  let s := if (s.player id).frame >>> 4 ≥ playerClimbFrames.length then
      setPlayer s id (fun p => { p with frame := 0 }) else s
  let p := s.player id
  let s := setSprite s p.spriteIndex (fun sp =>
    { sp with tileIndex := playerClimbFrames.getD (p.frame >>> 4) 0 + enemyOffset id,
              flags := if (p.frame >>> 5) &&& 1 = 0 then 0 else K.SPRITE_FLIP_X,
              x := u8 (px p.x), y := u8 (px p.y) })
  setPlayer s id (fun p => { p with lastAction := ACTION_CLIMB })

/-- The entry block of `Climb` (`lastAction != ACTION_CLIMB`): reset the frame counter and
round X to the tile column. -/
def Climb.entry (id : Nat) (s : State) : State :=
  if (s.player id).lastAction ≠ ACTION_CLIMB then
    let s := setPlayer s id (fun p => { p with frame := 0 })
    if (s.player id).x / 2048 < ((s.player id).x + 0x400) / 2048 then
      -- round X position to align to tile
      setPlayer s id (fun p => { p with x := Int.land (p.x + 0x800) 0xf8ff })
    else s
  else s

def Climb (K : Consts) (id : Nat) (dir : Int) (s : State) : State :=
  let s := Climb.entry id s
  let s := setPlayer s id (fun p => { p with action := ACTION_CLIMB, dir := dir })
  let y : Nat := u8 (px (s.player id).y)
  let p0 := s.player id
  let isLadder : Bool :=
    if dir = 1 then decide (p0.tileAtHead = K.TILE_LADDER ∨ p0.tileUnder = K.TILE_LADDER)
    else decide (p0.tileAtFeet = K.TILE_LADDER ∨ p0.tileAtHead = K.TILE_LADDER)
  if isLadder then
    if (dir = -1 ∧ ¬ IsTileBlocking K p0.tileAtHead) ∨ (dir = 1 ∧ ¬ IsTileBlocking K p0.tileUnder) then
      let s := setPlayer s id (fun p => { p with x := Int.land p.x 0xf800 })
      let s := if (dir = -1 ∧ (s.player id).y > 3) ∨ dir = 1 then
          setPlayer s id (fun p => { p with y := p.y + p.playerSpeed * dir }) else s
      -- insure enemies doesn't reach the top of the screen
      if id ≠ SPR_INDEX_PLAYER ∧ dir = -1 ∧ y ≤ 4 then
        let s := setPlayer s id (fun p => { p with dir := 1, lastAiAction := AI_ACTION_CLIMB_DOWN })
        Climb.finish K id s
      else if id = SPR_INDEX_PLAYER ∧ (s.player id).y ≤ 4
          ∧ s.game.goldCollected = s.game.goldCount then
        -- we have reached the exit!
        { s with game := { s.game with levelComplete := true } }
      else Climb.finish K id s
    else
      setPlayer (setPlayer s id (fun p => { p with action := ACTION_WALK })) id
        (fun p => { p with lastAction := ACTION_CLIMB })
  else
    -- finished ladder
    let s := if IsTileBG K p0.tileUnder then
        setPlayer s id (fun p => { p with action := ACTION_FALL })
      else setPlayer s id (fun p => { p with action := ACTION_WALK })
    setPlayer s id (fun p => { p with lastAction := ACTION_CLIMB })

def Cling (K : Consts) (id : Nat) (dir : Int) (s : State) : State :=
  let s := if (s.player id).lastAction ≠ ACTION_CLING then
      setPlayer s id (fun p => { p with frame := 0 }) else s
  let s := setPlayer s id (fun p => { p with dir := dir, action := ACTION_CLING })
  let newX : Int := px ((s.player id).x + (s.player id).playerSpeed * dir)
  let newY : Nat := u8 (px (s.player id).y)
  let s :=
    if (newX ≥ 0 ∧ newX < ((K.SCREEN_TILES_H * TILE_WIDTH : Nat) : Int))
        ∧ ¬ IsTileBlocking K (GetTileOnSide K s.vram (u8 newX) newY dir) then
      let s := setPlayer s id (fun p => { p with x := p.x + p.playerSpeed * dir })
      let s := setPlayer s id (fun p => { p with frame := (p.frame + p.frameSpeed) % 256 })
      let s := if (s.player id).frame >>> 4 ≥ playerClingFrames.length then
          setPlayer s id (fun p => { p with frame := 0 }) else s
      if GetTileAtHead K s.vram (u8 newX) newY ≠ K.TILE_ROPE then
        setPlayer s id (fun p => { p with action := ACTION_WALK })
      else s
    else s
  let p := s.player id
  let s := setSprite s p.spriteIndex (fun sp =>
    { sp with tileIndex := playerClingFrames.getD (p.frame >>> 4) 0 + enemyOffset id,
              flags := flipFlags K p.dir, x := u8 (px p.x), y := newY })
  setPlayer s id (fun p => { p with lastAction := ACTION_CLING })

/-- `EndFall`; its only other effect is a sound trigger. -/
def EndFall (id action : Nat) (s : State) : State :=
  RoundYpos id (setPlayer s id (fun p => { p with action := action }))

def Fall (K : Consts) (id : Nat) (s : State) : State :=
  let s := setPlayer s id (fun p => { p with action := ACTION_FALL })
  let newX : Nat := u8 (px (s.player id).x)
  let newY : Nat := u8 (px (s.player id).y)
  let truncY : Nat := ((newY / 12) * 12) % 256
  -- check if an enemy and fell into a hole dug by the player
  if id < SPR_INDEX_PLAYER ∧ IsTileHole K (GetTileAtFeet K s.vram newX truncY) then
    let s := setPlayer s id (fun p => { p with action := ACTION_INHOLE })
    let s := RoundYpos id s
    let s := setSprite s (s.player id).spriteIndex (fun sp => { sp with y := truncY })
    SetTile K (newX / TILE_WIDTH) (truncY / TILE_HEIGHT) K.TILE_BG_STEP_ON s
  else
    -- check if player has touched down on something
    let tile := GetTileUnder K s.vram newX newY
    if IsTileBlocking K tile then
      let dir : Nat := u8 (s.player id).dir
      let s := EndFall id ACTION_WALK s
      let s := Walk K id 0 s
      setPlayer s id (fun p => { p with dir := s8of dir })
    else
      -- ugly hack so enemy does not get sticked on teh rope
      let s := if (s.player id).lastAction = ACTION_CLING ∧ (s.player id).playerSpeed < 0x100 then
          setPlayer s id (fun p => { p with y := p.y + 0x100 }) else s
      let s := setPlayer s id (fun p => { p with y := p.y + p.playerSpeed })
      let newY : Nat := u8 (px (s.player id).y)
      let p := s.player id
      let s := setSprite s p.spriteIndex (fun sp =>
        { sp with tileIndex := SPR_FALL + enemyOffset id, flags := flipFlags K p.dir,
                  x := newX, y := newY })
      if GetTileAtHead K s.vram newX newY = K.TILE_ROPE then
        if newY % 12 = 0 then
          setPlayer (EndFall id ACTION_CLING s) id (fun p => { p with lastAction := ACTION_CLING })
        else setPlayer s id (fun p => { p with lastAction := ACTION_FALL })
      else if IsTileSolid K s.player tile id then
        setPlayer (EndFall id ACTION_WALK s) id (fun p => { p with lastAction := ACTION_FALL })
      else setPlayer s id (fun p => { p with lastAction := ACTION_FALL })

/-- The part of `Fire` after the entry block: count the frame, back to Walk at 25. -/
def Fire.tail (id : Nat) (s : State) : State :=
  let s := setPlayer s id (fun p => { p with frame := (p.frame + 1) % 256 })
  if (s.player id).frame = 25 then
    let s := setPlayer s id (fun p => { p with action := ACTION_WALK, lastAction := ACTION_NONE })
    setSprite s (s.player id).spriteIndex (fun sp =>
      { sp with tileIndex := playerWalkFrames.getD 0 0 })
  else s

/-- The end of the entry block of `Fire`: firing sprite, beam sprite flags and the beam
animation, for the entity at pixel `(playerX, playerY)`. -/
def Fire.shoot (K : Consts) (id playerX playerY : Nat) (s : State) : State :=
  let s := setSprite s (s.player id).spriteIndex (fun sp => { sp with tileIndex := SPR_FIRE })
  let s := setSprite s ((s.player id).spriteIndex + 1) (fun sp =>
    { sp with flags := flipFlags K (s.player id).dir })
  (TriggerAnimation (some anim_fire)
    (u8 ((playerX : Int) + (if (s.player id).dir = 1 then 8 else -8))) playerY
    (u8 ((s.player id).spriteIndex + 1 : Nat)) s).1

def Fire (K : Consts) (id : Nat) (s : State) : State :=
  if (s.player id).lastAction ≠ ACTION_FIRE then
    let s := setPlayer s id (fun p =>
      { p with frame := 0, action := ACTION_FIRE, lastAction := ACTION_FIRE })
    let playerX : Nat := u8 (px (s.player id).x)
    let playerY : Nat := u8 (px (s.player id).y)
    let dir := (s.player id).dir
    let checkDisp : Int := if dir = 1 then 8 else -8
    let aheadX : Nat := u8 ((playerX : Int) + checkDisp)
    if IsTileBlocking K (GetTileAtFeet K s.vram aheadX playerY) then
      setPlayer s id (fun p => { p with action := ACTION_WALK })
    else
      let under := GetTileUnder K s.vram aheadX playerY
      let gold := IsTileGold K (GetTileAtFeet K s.vram aheadX playerY)
      if dir = 1 ∧ under = K.TILE_BREAKABLE ∧ ¬ gold then
        Fire.tail id (Fire.shoot K id playerX playerY
          (TriggerAnimation (some (anim_destroyBrick K)) (u8 (((playerX : Int) + 12) / 8))
            (u8 ((playerY / TILE_HEIGHT + 1 : Nat))) 0 s).1)
      else if dir = -1 ∧ under = K.TILE_BREAKABLE ∧ ¬ gold then
        Fire.tail id (Fire.shoot K id playerX playerY
          (TriggerAnimation (some (anim_destroyBrick K)) (u8 (((playerX : Int) - 4) / 8))
            (u8 ((playerY / TILE_HEIGHT + 1 : Nat))) 0 s).1)
      else if under ≠ K.TILE_UNBREAKABLE then
        setPlayer s id (fun p => { p with action := ACTION_WALK })
      else Fire.tail id (Fire.shoot K id playerX playerY s)
  else Fire.tail id s

def Die (K : Consts) (id : Nat) (s : State) : State :=
  let s := if (s.player id).lastAction ≠ ACTION_DIE then
      setPlayer s id (fun p => { p with frame := 0, lastAction := ACTION_DIE }) else s
  let s := setPlayer s id (fun p => { p with frame := (p.frame + 1) % 256 })
  let p := s.player id
  let s := if p.frame &&& 8 ≠ 0 then
      setSprite s p.spriteIndex (fun sp => { sp with x := SPR_OFF K })
    else setSprite s p.spriteIndex (fun sp => { sp with x := u8 (px p.x) })
  if p.frame = 90 then setPlayer s id (fun p => { p with died := true }) else s

def Respawn (rnd : Nat) (id : Nat) (s : State) : State :=
  let s := if (s.player id).lastAction ≠ ACTION_RESPAWN then
      setPlayer s id (fun p => { p with frame := 0, lastAction := ACTION_RESPAWN }) else s
  let s := setPlayer s id (fun p => { p with frame := (p.frame + 1) % 256 })
  if (s.player id).frame = 20 then
    let respawnX : Nat := (((rnd % 28) + 1) * TILE_WIDTH) % 65536
    let s := setPlayer s id (fun p => { p with y := 5, x := (respawnX : Int) * 256 })
    setSprite s (s.player id).spriteIndex (fun sp =>
      { sp with x := respawnX % 256, y := 0, tileIndex := SPR_EXIT1 + enemyOffset id })
  else if (s.player id).frame = 40 then
    setPlayer s id (fun p => { p with action := ACTION_FALL })
  else s

def InHole (K : Consts) (id : Nat) (s : State) : State :=
  let s :=
    if (s.player id).lastAction ≠ ACTION_INHOLE then
      let s := setPlayer s id (fun p => { p with action := ACTION_INHOLE, frame := 0 })
      if (s.player id).capturedGoldId ≠ -1 then
        let p := s.player id
        let s := setGold s p.capturedGoldId (fun g =>
          { g with state := GOLD_STATE_VISIBLE, x := u8 (p.x / 2048),
                   y := u8 (Int.tdiv (px p.y) TILE_HEIGHT - 1) })
        setPlayer s id (fun p =>
          { p with capturedGoldId := -1, lastCapturedGoldId := -1, capturedGoldDelay := 0 })
      else s
    else s
  let x : Nat := u8 (px (s.player id).x)
  let y : Nat := u8 (px (s.player id).y)
  let frame := (s.player id).frame
  let s :=
    if frame = 150 then
      (TriggerAnimation (some anim_getout_of_hole) x y ((s.player id).spriteIndex % 256) s).1
    else if frame = 170 then
      setPlayer s id (fun p => { p with x := p.x + 0, y := p.y - 0x200 })
    else if frame = 175 then
      setPlayer s id (fun p => { p with x := p.x + 0x100 * p.dir, y := p.y - 0x300 })
    else if frame = 180 then
      setPlayer s id (fun p => { p with x := p.x + 0x200 * p.dir, y := p.y - 0x300 })
    else if frame ≥ 185 then
      let s := setPlayer s id (fun p =>
        { p with x := p.x + 0x300 * p.dir, y := p.y - 0x400, action := ACTION_WALK })
      setSprite s (s.player id).spriteIndex (fun sp =>
        { sp with flags := flipFlags K (s.player id).dir })
    else s
  let p := s.player id
  let s := setSprite s p.spriteIndex (fun sp => { sp with x := u8 (px p.x), y := u8 (px p.y) })
  setPlayer s id (fun p => { p with frame := (p.frame + 1) % 256, lastAction := ACTION_INHOLE })

/-! ## Enemy gold handling and the per-entity tick (`main.cpp`) -/

/-- The loop `Find gold at location (x,y)` of `ProcessEnemy` from index `i` on (`n`
iterations left): the `s8 goldId`, `-1` when no record lies at the cell. -/
def ProcessEnemy.findGold (g : Game) (cx cy : Nat) : Nat → Nat → Int
  | 0, _ => -1
  | n + 1, i =>
    if (g.gold i).x = cx ∧ (g.gold i).y = cy then s8of i
    else ProcessEnemy.findGold g cx cy n (i + 1)

def ProcessEnemy (K : Consts) (inp : Input) (id : Nat) (s : State) : State × Nat :=
  if (s.player id).action = ACTION_RESPAWN then (s, ACTION_NONE)
  else
    let x : Nat := u8 (px (s.player id).x)
    let y : Nat := u8 (px (s.player id).y)
    -- check if dead
    if (s.player id).tileAtFeet = K.TILE_BREAKABLE then
      (setPlayer s id (fun p => { p with action := ACTION_RESPAWN }), ACTION_NONE)
    else
      let p := s.player id
      let s :=
        -- Grab gold
        if p.capturedGoldId = -1 ∧ IsTileGold K p.tileAtFeet then
          let goldId := ProcessEnemy.findGold s.game ((x + 4) / TILE_WIDTH) (y / TILE_HEIGHT)
            s.game.goldCount 0
          if goldId ≠ p.lastCapturedGoldId then
            let s := setGold s goldId (fun g => { g with state := GOLD_STATE_CAPTURED })
            let s := setPlayer s id (fun p =>
              { p with capturedGoldId := goldId,
                       capturedGoldDelay := ((inp.rnd % 500) + 120) % 65536 })
            SetTile K ((x + 4) >>> 3) (y / TILE_HEIGHT) K.TILE_BG s
          else s
        -- release gold
        else if p.capturedGoldId ≠ -1 ∧ p.capturedGoldDelay = 0 ∧ p.action = ACTION_WALK
            ∧ p.tileAtFeet = K.TILE_BG ∧ IsTileSolid K s.player p.tileUnder id then
          let s := setGold s p.capturedGoldId (fun g =>
            { g with state := GOLD_STATE_VISIBLE, x := (x + 4) / TILE_WIDTH,
                     y := y / TILE_HEIGHT })
          setPlayer s id (fun p =>
            { p with lastCapturedGoldId := p.capturedGoldId, capturedGoldId := -1 })
        -- decrease gold release delay
        else if p.capturedGoldId ≠ -1 ∧ p.capturedGoldDelay > 0 then
          setPlayer s id (fun p => { p with capturedGoldDelay := p.capturedGoldDelay - 1 })
        else s
      Ai inp.ai id s

/-- One pass of the outer loop of `RollMenu`. -/
def RollMenu.step (K : Consts) (s : State) : State :=
  let c := s.vram (K.VRAM_TILES_H * 16)
  let s := (List.range 60).foldl (fun (t : State) i =>
    { t with
      vram := Function.update t.vram (K.VRAM_TILES_H * 16 + i)
        (t.vram (K.VRAM_TILES_H * 16 + i + 1)) }) s
  { s with vram := Function.update s.vram (K.VRAM_TILES_H * 17 + 29) c }

def RollMenu (K : Consts) (s : State) : State :=
  (List.range 30).foldl (fun t _ => RollMenu.step K t) s

/-- The selection loop of `PauseMenu` over the joypad readings; the list holds the readings
before the confirming press, and a `BTN_START` or `BTN_A` reading in it confirms at once.
Returns `option`, `pos` and the state. -/
def PauseMenu.loop (K : Consts) : List Nat → Nat → Nat → State → Nat × Nat × State
  | [], option, pos, s =>
    let s := if option = 1 then { s with game := { s.game with levelRestart := true } } else s
    let s := if option = 2 then { s with game := { s.game with levelQuit := true } } else s
    (option, pos, s)
  | joy :: rest, option, pos, s =>
    if joy ≠ 0 then
      let redraw (option : Nat) : Nat × Nat × State :=
        let s := SetTile K pos 16 K.TILE_BLACK s
        let pos := if option = 0 then 3 else pos
        let pos := if option = 1 then 13 else pos
        let pos := if option = 2 then 22 else pos
        PauseMenu.loop K rest option pos (SetTile K pos 16 K.TILE_CURSOR s)
      if joy = K.BTN_RIGHT ∨ joy = K.BTN_SELECT then
        redraw (if option = 2 then 0 else option + 1)
      else if joy = K.BTN_LEFT then
        redraw (if option = 0 then 2 else option - 1)
      else if joy = K.BTN_START ∨ joy = K.BTN_A then
        let s := if option = 1 then { s with game := { s.game with levelRestart := true } } else s
        let s := if option = 2 then { s with game := { s.game with levelQuit := true } } else s
        (option, pos, s)
      else redraw option
    else PauseMenu.loop K rest option pos s

def PauseMenu (K : Consts) (menu : List Nat) (s : State) : State :=
  let s := Print K 4 17 ("CONTINUE  RESTART  QUIT".toList.map Char.toNat) s
  let s := RollMenu K s
  let s := SetTile K 3 16 K.TILE_CURSOR s
  let r := PauseMenu.loop K menu 0 3 s
  if r.1 = 0 then RollMenu K (SetTile K r.2.1 16 K.TILE_BLACK r.2.2) else r.2.2

/-- The body of the hit branch in the loop `check if player have captured some gold` of
`ProcessPlayer`, for the gold record `i`. -/
def ProcessPlayer.pick (K : Consts) (i : Nat) (s : State) : State :=
  let s := setGold s i (fun g => { g with state := GOLD_STATE_COLLECTED })
  let s := { s with game := { s.game with goldCollected := (s.game.goldCollected + 1) % 256 } }
  let s := SetTile K (s.game.gold i).x (s.game.gold i).y K.TILE_BG s
  UpdateInfo K s

/-- The loop `check if player have captured some gold` of `ProcessPlayer` from index `i`
on (`n` iterations left), for the player at pixel `(x, y)`. -/
def ProcessPlayer.collect (K : Consts) (x y : Nat) : Nat → Nat → State → State
  | 0, _, s => s
  | n + 1, i, s =>
    if (s.game.gold i).state = GOLD_STATE_VISIBLE then
      let gx : Nat := ((s.game.gold i).x * TILE_WIDTH) % 256
      let gy : Nat := ((s.game.gold i).y * TILE_HEIGHT) % 256
      if x + 4 ≥ gx ∧ x + 2 ≤ gx + TILE_WIDTH ∧ y ≥ gy ∧ y ≤ gy + TILE_HEIGHT then
        ProcessPlayer.collect K x y n (i + 1) (ProcessPlayer.pick K i s)
      else ProcessPlayer.collect K x y n (i + 1) s
    else ProcessPlayer.collect K x y n (i + 1) s

/-- The loop `check if player collided with enemies` of `ProcessPlayer` from enemy `i` on
(`n` iterations left). -/
def ProcessPlayer.collide (id x y : Nat) : Nat → Nat → State → State
  | 0, _, s => s
  | n + 1, i, s =>
    if (s.player i).active then
      let gx : Nat := u8 (px (s.player i).x)
      let gy : Nat := u8 (px (s.player i).y)
      if x + 4 ≥ gx ∧ x + 2 ≤ gx + TILE_WIDTH ∧ y ≥ gy ∧ y ≤ gy + TILE_HEIGHT - 1 then
        ProcessPlayer.collide id x y n (i + 1)
          (setPlayer s id (fun p => { p with action := ACTION_DIE }))
      else ProcessPlayer.collide id x y n (i + 1) s
    else ProcessPlayer.collide id x y n (i + 1) s

/-- The `switch (player[id].action)` of `ProcessPlayer` with the intent `joy`. -/
def ProcessPlayer.dispatch (K : Consts) (inp : Input) (joy : Nat) (id : Nat) (s : State) : State :=
  let a := (s.player id).action
  if a = ACTION_WALK then
    if joy &&& K.BTN_A ≠ 0 then Fire K id s
    else if joy &&& K.BTN_RIGHT ≠ 0 then Walk K id 1 s
    else if joy &&& K.BTN_LEFT ≠ 0 then Walk K id (-1) s
    else if joy &&& K.BTN_UP ≠ 0 then
      if (s.player id).tileAtFeet = K.TILE_LADDER then Climb K id (-1) s else s
    else if joy &&& K.BTN_DOWN ≠ 0 then
      if (s.player id).tileUnder = K.TILE_LADDER ∨ (s.player id).tileAtFeet = K.TILE_LADDER then
        Climb K id 1 s
      else s
    else s
  else if a = ACTION_FALL then Fall K id s
  else if a = ACTION_CLIMB then
    if joy &&& K.BTN_RIGHT ≠ 0 then Walk K id 1 s
    else if joy &&& K.BTN_LEFT ≠ 0 then Walk K id (-1) s
    else if joy &&& K.BTN_UP ≠ 0 then Climb K id (-1) s
    else if joy &&& K.BTN_DOWN ≠ 0 then Climb K id 1 s
    else s
  else if a = ACTION_CLING then
    if joy &&& K.BTN_RIGHT ≠ 0 then Cling K id 1 s
    else if joy &&& K.BTN_LEFT ≠ 0 then Cling K id (-1) s
    else if joy &&& K.BTN_DOWN ≠ 0 then Fall K id s
    else s
  else if a = ACTION_FIRE then Fire K id s
  else if a = ACTION_DIE then Die K id s
  else if a = ACTION_INHOLE then InHole K id s
  else if a = ACTION_RESPAWN then Respawn inp.rnd id s
  else s

def ProcessPlayer (K : Consts) (inp : Input) (id : Nat) (s : State) : State :=
  if ¬ (s.player id).active then s
  else
    let x : Nat := u8 (px (s.player id).x)
    let y : Nat := u8 (px (s.player id).y)
    let s := setPlayer s id (fun p =>
      { p with tileAtFeet := GetTileAtFeet K s.vram x y,
               tileAtHead := GetTileAtHead K s.vram x y,
               tileUnder := GetTileUnder K s.vram x y })
    if id ≥ SPR_INDEX_PLAYER then
      let joy := inp.joy
      -- pause game
      if joy &&& K.BTN_START ≠ 0 then PauseMenu K inp.menu s
      else
        -- check if player have captured some gold
        let s := ProcessPlayer.collect K x y s.game.goldCount 0 s
        -- check if player died crushed in a brick
        let s :=
          if (s.player id).tileAtFeet = K.TILE_BREAKABLE then
            setPlayer s id (fun p => { p with action := ACTION_DIE })
          else ProcessPlayer.collide id x y SPR_INDEX_PLAYER 0 s
        ProcessPlayer.dispatch K inp joy id s
    else
      let a := (s.player id).action
      if a ≠ ACTION_FALL ∨ a ≠ ACTION_DIE ∨ a ≠ ACTION_RESPAWN ∨ a ≠ ACTION_INHOLE then
        let r := ProcessEnemy K inp id s
        ProcessPlayer.dispatch K inp r.2 id r.1
      else ProcessPlayer.dispatch K inp 0 id s

/-! ## Gold manager (`misc.cpp`) -/

/-- The loop of `ProcessGold` that repaints the visible gold, from index `i` on (`n`
iterations left). -/
def ProcessGold.paint (K : Consts) : Nat → Nat → State → State
  | 0, _, s => s
  | n + 1, i, s =>
    if (s.game.gold i).state = GOLD_STATE_VISIBLE then
      ProcessGold.paint K n (i + 1)
        (SetTile K (s.game.gold i).x (s.game.gold i).y (K.TILE_GOLD1 + s.game.goldAnimFrame) s)
    else ProcessGold.paint K n (i + 1) s

/-- The body of the `nibble` loop of the reveal scan for one nibble. -/
def ProcessGold.cell (K : Consts) (x y nibble pos : Nat) (s : State) : State :=
  let tile : Nat := if nibble = 0 then s.game.map pos >>> 4 else s.game.map pos &&& 0x0f
  if tile = 6 then SetTile K (x + nibble + 1) y K.TILE_LADDER s else s

/-- The `x` loop of the reveal scan (`n` iterations left), threading `pos`. -/
def ProcessGold.row (K : Consts) (y : Nat) : Nat → Nat → Nat → State → Nat × State
  | 0, _, pos, s => (pos, s)
  | n + 1, x, pos, s =>
    ProcessGold.row K y n (x + 2) (pos + 1)
      (ProcessGold.cell K x y 1 pos (ProcessGold.cell K x y 0 pos s))

/-- The `y` loop of the reveal scan (`n` iterations left), threading `pos`. -/
def ProcessGold.rows (K : Consts) : Nat → Nat → Nat → State → Nat × State
  | 0, _, pos, s => (pos, s)
  | n + 1, y, pos, s =>
    let r := ProcessGold.row K y 14 0 pos s
    ProcessGold.rows K n (y + 1) r.1 r.2

/-- The `animate gold` block of `ProcessGold`. -/
def ProcessGold.animate (K : Consts) (s : State) : State :=
  if s.game.goldAnimSpeed > 10 then
    let s := ProcessGold.paint K s.game.goldCount 0 s
    let f := (s.game.goldAnimFrame + 1) % 256
    { s with game := { s.game with goldAnimSpeed := 0, goldAnimFrame := if f ≥ 4 then 0 else f } }
  else { s with game := { s.game with goldAnimSpeed := (s.game.goldAnimSpeed + 1) % 256 } }

/-- The `display exit ladders` block of `ProcessGold`: the scan of the level bytes and
`game.exitLadders = true`. -/
def ProcessGold.reveal (K : Consts) (s : State) : State :=
  let s := (ProcessGold.rows K 16 0 0 s).2
  { s with game := { s.game with exitLadders := true } }

def ProcessGold (K : Consts) (s : State) : State :=
  if ¬ s.game.exitLadders then
    -- animate gold
    let s := ProcessGold.animate K s
    -- check if all gold been collected and display exit ladders
    if s.game.goldCollected = s.game.goldCount then ProcessGold.reveal K s
    else s
  else s

/-! ## Level unpacker (`misc.cpp`) -/

/-- The first loop of `UnpackGameMap`: deactivate the entity `id` and hide its sprite, for
`id = i, i+1, ..` (`n` iterations left). -/
def UnpackGameMap.clear (K : Consts) : Nat → Nat → State → State
  | 0, _, s => s
  | n + 1, id, s =>
    UnpackGameMap.clear K n (id + 1)
      (setSprite (setPlayer s id (fun p => { p with active := false })) (id * 2)
        (fun sp => { sp with x := SPR_OFF K }))

/-- The `fill background` loop of `UnpackGameMap` over the rows (`n` iterations left). -/
def UnpackGameMap.background (K : Consts) : Nat → Nat → State → State
  | 0, _, s => s
  | n + 1, y, s =>
    let s := (List.range (K.VRAM_TILES_H - 1 - 1)).foldl
      (fun t i => SetTile K (i + 1) y K.TILE_BG t) s
    let s := SetTile K 0 y K.TILE_BREAKABLE s
    let s := SetTile K (K.VRAM_TILES_H - 1) y K.TILE_BREAKABLE s
    UnpackGameMap.background K n (y + 1) s

/-- The code after the `switch` of the nibble loop of `UnpackGameMap`, for the tile id
chosen by the `switch`: the tile, and the shadow in the cell below. -/
def UnpackGameMap.put (K : Consts) (x y nibble tile : Nat) (s : State) : State :=
  if tile ≠ 0 then
    let s := SetTile K (x + nibble + 1) y tile s
    if y < 15 ∧ (tile = K.TILE_BREAKABLE ∨ tile = K.TILE_UNBREAKABLE
        ∨ tile = K.TILE_BREAKABLE_FAKE ∨ tile = K.TILE_LADDER) then
      SetTile K (x + nibble + 1) (y + 1) K.TILE_SHADOW s
    else s
  else s

/-- The `case 8` / `case 9` block of the nibble loop of `UnpackGameMap`, up to and with its
call of `Walk`, for the slot `id` chosen at its start. -/
def UnpackGameMap.spawn (K : Consts) (x y nibble tile id : Nat) (s : State) : State :=
  let s := setPlayer s id (fun p =>
    { p with active := true,
             x := u16 ((((x + nibble + 1) * TILE_WIDTH : Nat) : Int) * 256),
             y := u16 (((y * TILE_HEIGHT : Nat) : Int) * 256),
             dir := if id < SPR_INDEX_PLAYER then -1 else 1,
             frame := 0 })
  let s :=
    if tile = 9 then
      setPlayer s id (fun p => { p with playerSpeed := 0x0C0, frameSpeed := 0x04 })
    else
      setPlayer s id (fun p =>
        { p with playerSpeed := 0x060, frameSpeed := 0x04, respawnX := 6 * 8, aiTarget := 0,
                 lastAiAction := 0, capturedGoldId := -1, lastCapturedGoldId := -1,
                 capturedGoldDelay := 0, stuckDelay := 0 })
  let s := setPlayer s id (fun p =>
    { p with action := ACTION_WALK, died := false, spriteIndex := (id * 2) % 256 })
  Walk K id (s.player id).dir s

/-- The `switch (tile)` of the nibble loop of `UnpackGameMap` with the code after it, for
the nibble value `tile`; threads `enemyCount`. -/
def UnpackGameMap.switch (K : Consts) (x y nibble tile : Nat) (enemyCount : Nat) (s : State) :
    Nat × State :=
  if tile = 1 then (enemyCount, UnpackGameMap.put K x y nibble K.TILE_BREAKABLE s)
  else if tile = 2 then (enemyCount, UnpackGameMap.put K x y nibble K.TILE_UNBREAKABLE s)
  else if tile = 3 then (enemyCount, UnpackGameMap.put K x y nibble K.TILE_LADDER s)
  else if tile = 4 then (enemyCount, UnpackGameMap.put K x y nibble K.TILE_ROPE s)
  else if tile = 5 then (enemyCount, UnpackGameMap.put K x y nibble K.TILE_BREAKABLE_FAKE s)
  else if tile = 6 then (enemyCount, UnpackGameMap.put K x y nibble K.TILE_BG s)
  else if tile = 7 then
    if s.game.goldCount < MAX_GOLD then
      let s := setGold s s.game.goldCount (fun _ =>
        { x := (x + nibble + 1) % 256, y := y, state := GOLD_STATE_VISIBLE })
      let s := { s with game := { s.game with goldCount := (s.game.goldCount + 1) % 256 } }
      (enemyCount, UnpackGameMap.put K x y nibble K.TILE_GOLD1 s)
    else (enemyCount, UnpackGameMap.put K x y nibble 0 s)
  else if tile = 8 ∨ tile = 9 then
    let id : Nat := if tile = 8 then enemyCount else SPR_INDEX_PLAYER
    let s := UnpackGameMap.spawn K x y nibble tile id s
    (if tile = 8 then (enemyCount + 1) % 256 else enemyCount, UnpackGameMap.put K x y nibble 0 s)
  else (enemyCount, UnpackGameMap.put K x y nibble 0 s)

/-- The body of the `nibble` loop of `UnpackGameMap` for one nibble; threads
`enemyCount`. -/
def UnpackGameMap.cell (K : Consts) (x y nibble pos : Nat) (enemyCount : Nat) (s : State) :
    Nat × State :=
  let tile : Nat := if nibble = 0 then s.game.map pos >>> 4 else s.game.map pos &&& 0x0f
  UnpackGameMap.switch K x y nibble tile enemyCount s

/-- The `x` loop of `UnpackGameMap` (`n` iterations left), threading `pos` and
`enemyCount`. -/
def UnpackGameMap.row (K : Consts) (y : Nat) : Nat → Nat → Nat → Nat → State → Nat × Nat × State
  | 0, _, pos, ec, s => (pos, ec, s)
  | n + 1, x, pos, ec, s =>
    let r0 := UnpackGameMap.cell K x y 0 pos ec s
    let r1 := UnpackGameMap.cell K x y 1 pos r0.1 r0.2
    UnpackGameMap.row K y n (x + 2) (pos + 1) r1.1 r1.2

/-- The `y` loop of `UnpackGameMap` (`n` iterations left), threading `pos` and
`enemyCount`. -/
def UnpackGameMap.rows (K : Consts) : Nat → Nat → Nat → Nat → State → Nat × Nat × State
  | 0, _, pos, ec, s => (pos, ec, s)
  | n + 1, y, pos, ec, s =>
    let r := UnpackGameMap.row K y 14 0 pos ec s
    UnpackGameMap.rows K n (y + 1) r.1 r.2.1 r.2.2

/-- The start of `UnpackGameMap(mapNo)` up to the nibble scan: read the level bytes into
`game.map`, reset `goldCount`, deactivate the entities, fill the background. `levels` is the
external level store read by `ext_data_read` (one byte per address). -/
def UnpackGameMap.load (K : Consts) (levels : Nat → Nat) (mapNo : Nat) (s : State) : State :=
  let s := { s with game := { s.game with
    map := fun i => if i < LEVEL_SIZE then levels (mapNo * LEVEL_SIZE + i) % 256 else s.game.map i } }
  let s := { s with game := { s.game with goldCount := 0 } }
  let s := UnpackGameMap.clear K MAX_PLAYERS 0 s
  -- fill background
  UnpackGameMap.background K (K.SCREEN_TILES_V - 1) 0 s

/-- The end of `UnpackGameMap(mapNo)` after the nibble scan: the level fields of `game` and
the status row. -/
def UnpackGameMap.status (K : Consts) (mapNo : Nat) (s : State) : State :=
  let s := { s with game := { s.game with
    goldAnimFrame := 0, goldCollected := 0, goldAnimSpeed := 1, level := mapNo,
    totalLevels := LEVELS_COUNT, levelComplete := false, levelRestart := false,
    levelQuit := false, exitLadders := false } }
  let s := Fill K 0 16 K.SCREEN_TILES_H 1 0 s
  let s := SetTile K 20 16 K.TILE_GOLD_STATS s
  let s := Print K 16 16 ("PRINCESS:00/".toList.map Char.toNat) s
  let s := PrintByte2 K 25 16 s.game.goldCount s
  let s := Print K 4 16 ("LEVEL:".toList.map Char.toNat) s
  let s := PrintByte2 K 11 16 ((s.game.level + 1) % 256) s
  UpdateInfo K s

/-- `UnpackGameMap(mapNo)`; `levels` is the external level store read by `ext_data_read`
(one byte per address). -/
def UnpackGameMap (K : Consts) (levels : Nat → Nat) (mapNo : Nat) (s : State) : State :=
  let s := UnpackGameMap.load K levels mapNo s
  let s := (UnpackGameMap.rows K 16 0 0 0 s).2.2
  UnpackGameMap.status K mapNo s

/-! ## Sample constants and states used to evaluate the definitions -/

/-- A sample assignment of the header constants (distinct tile ids, a 30 x 18 tile grid,
one bit per button). -/
def K0 : Consts where
  TILE_BG := 0
  TILE_BREAKABLE := 1
  TILE_UNBREAKABLE := 2
  TILE_LADDER := 3
  TILE_ROPE := 4
  TILE_BREAKABLE_FAKE := 5
  TILE_GOLD1 := 6
  TILE_GOLD2 := 7
  TILE_GOLD3 := 8
  TILE_GOLD4 := 9
  TILE_DESTROY1 := 10
  TILE_DESTROY2 := 11
  TILE_DESTROY3 := 12
  TILE_DESTROY4 := 13
  TILE_DESTROY5 := 14
  TILE_BG_HOLE := 15
  TILE_BG_STEP_ON := 16
  TILE_SHADOW := 17
  TILE_GOLD_STATS := 18
  TILE_CURSOR := 19
  TILE_BLACK := 20
  CHAR_ZERO := 48
  VRAM_TILES_H := 30
  SCREEN_TILES_H := 30
  SCREEN_TILES_V := 18
  SPRITE_FLIP_X := 1
  BTN_A := 256
  BTN_START := 8
  BTN_SELECT := 4
  BTN_UP := 16
  BTN_DOWN := 32
  BTN_LEFT := 64
  BTN_RIGHT := 128
  font := fun c => c + 32

/-- The zero-initialised globals: no entity active, every animation slot free. -/
def State.zero : State where
  game :=
    { goldCount := 0, goldCollected := 0, goldAnimFrame := 0, goldAnimSpeed := 0,
      gold := fun _ => default, animations := fun _ => default, level := 0, totalLevels := 0,
      exitLadders := false, levelComplete := false, levelRestart := false, levelQuit := false,
      demoSaveLevel := 0, displayCredits := false, map := fun _ => 0 }
  player := fun _ => default
  vram := fun _ => 0
  sprites := fun _ => default

/-- An input with nothing pressed: no joypad bits, `rand()` returning 0, `Ai` returning no
intent. -/
def Input.idle : Input := { joy := 0, rnd := 0, ai := default, menu := [] }

/-- A sequence of `TriggerAnimation` calls (non-null stream, x, y, param1), with the values
returned, in order. -/
def triggerAll : List (List Nat × Nat × Nat × Nat) → State → State × List Int
  | [], s => (s, [])
  | c :: cs, s =>
    let r := TriggerAnimation (some c.1) c.2.1 c.2.2.1 c.2.2.2 s
    let rs := triggerAll cs r.1
    (rs.1, r.2 :: rs.2)

/-- Two animations in flight: slot 0 holds the last command group of `anim_fire` (turn the
beam sprite off, then the terminator), slot 1 holds `anim_destroyBrick` waiting in its
first delay of 15 ticks. -/
def C2_state : State :=
  { State.zero with
    game := { State.zero.game with
      animations := fun i =>
        if i = 0 then
          { commandStream := some [ANIM_CMD_TURNOFFSPRITE, ANIM_CMD_END], commandCount := 6,
            x := 88, y := 60, delay := 0, param1 := 11 }
        else if i = 1 then
          { commandStream := some ((anim_destroyBrick K0).drop 1), commandCount := 0,
            x := 12, y := 6, delay := 15, param1 := 0 }
        else default } }

/-- An enemy falling in column 16, one pixel into row 5 (pixel y = 61): gold 0 at cell
(16, 5) was collected by the player, gold 1 at cell (16, 6) is still on the board, so the
tile at the enemy's feet (row 6) is a gold tile. -/
def C3_state : State :=
  { State.zero with
    game := { State.zero.game with
      goldCount := 2, goldCollected := 1,
      gold := fun i =>
        if i = 0 then { x := 16, y := 5, state := GOLD_STATE_COLLECTED }
        else if i = 1 then { x := 16, y := 6, state := GOLD_STATE_VISIBLE }
        else default }
    player := fun i =>
      if i = 0 then
        { (default : Player) with
          x := 0x80A0, y := 0x3D20, playerSpeed := 0x060, frameSpeed := 4, dir := -1,
          action := ACTION_FALL, lastAction := ACTION_FALL, active := true,
          capturedGoldId := -1, lastCapturedGoldId := -1 }
      else default
    vram := fun i => if i = 6 * 30 + 16 then K0.TILE_GOLD1 else K0.TILE_BG }

/-- An enemy falling in column 16 at pixel y = 61 over the gold tile of cell (16, 6), after
it has released gold 0 there (`lastCapturedGoldId = 0`); no gold record lies at the cell
(16, 5) that the capture branch looks up. -/
def C5_state : State :=
  { State.zero with
    game := { State.zero.game with
      goldCount := 1, goldCollected := 0,
      gold := fun i =>
        if i = 0 then { x := 16, y := 6, state := GOLD_STATE_VISIBLE } else default }
    player := fun i =>
      if i = 0 then
        { (default : Player) with
          x := 0x80A0, y := 0x3D20, playerSpeed := 0x060, frameSpeed := 4, dir := -1,
          action := ACTION_FALL, lastAction := ACTION_FALL, active := true,
          capturedGoldId := -1, lastCapturedGoldId := 0 }
      else default
    vram := fun i => if i = 6 * 30 + 16 then K0.TILE_GOLD1 else K0.TILE_BG }

/-- An enemy in `ACTION_FALL` in mid-air that holds gold 0 with 5 ticks left on its release
delay. -/
def C6_state : State :=
  { State.zero with
    game := { State.zero.game with
      goldCount := 1, goldCollected := 0,
      gold := fun i =>
        if i = 0 then { x := 16, y := 6, state := GOLD_STATE_CAPTURED } else default }
    player := fun i =>
      if i = 0 then
        { (default : Player) with
          x := 0x80A0, y := 0x3D20, playerSpeed := 0x060, frameSpeed := 4, dir := -1,
          action := ACTION_FALL, lastAction := ACTION_FALL, active := true,
          capturedGoldId := 0, lastCapturedGoldId := -1, capturedGoldDelay := 5 }
      else default
    vram := fun _ => K0.TILE_BG }

/-- Consecutive ticks of one entity seen from the `switch` of `ProcessPlayer`: one dispatch
per tick, each with its own outside input and intent. -/
def dispatchAll (K : Consts) (id : Nat) : List (Input × Nat) → State → State
  | [], s => s
  | t :: rest, s => dispatchAll K id rest (ProcessPlayer.dispatch K t.1 t.2 id s)

/-- The player walking at pixel (64, 60), facing right; the tile under the spot 8 px ahead
(cell (9, 6)) is Unbreakable, everything else is background. -/
def C8_state : State :=
  { State.zero with
    player := fun i =>
      if i = 5 then
        { (default : Player) with
          x := 0x4000, y := 0x3C00, playerSpeed := 0x0C0, frameSpeed := 4, dir := 1,
          action := ACTION_WALK, lastAction := ACTION_WALK, active := true, spriteIndex := 10 }
      else default
    vram := fun i => if i = 6 * 30 + 9 then K0.TILE_UNBREAKABLE else K0.TILE_BG }

/-- The player walking at pixel (64, 60), facing left; the tile under the spot 8 px ahead
(cell (7, 6)) is Breakable, everything else is background. -/
def C9_state : State :=
  { State.zero with
    player := fun i =>
      if i = 5 then
        { (default : Player) with
          x := 0x4000, y := 0x3C00, playerSpeed := 0x0C0, frameSpeed := 4, dir := -1,
          action := ACTION_WALK, lastAction := ACTION_WALK, active := true, spriteIndex := 10 }
      else default
    vram := fun i => if i = 6 * 30 + 7 then K0.TILE_BREAKABLE else K0.TILE_BG }

/-- The player on the 25th frame of `Fire`: action Fire, `lastAction` Fire, frame counter
at 24, standing on an Unbreakable tile with background around. -/
def C7_state : State :=
  { State.zero with
    player := fun i =>
      if i = 5 then
        { (default : Player) with
          x := 0x4000, y := 0x3C00, playerSpeed := 0x0C0, frameSpeed := 4, dir := 1,
          action := ACTION_FIRE, lastAction := ACTION_FIRE, frame := 24, active := true,
          spriteIndex := 10 }
      else default
    vram := fun i => if i = 6 * 30 + 8 then K0.TILE_UNBREAKABLE else K0.TILE_BG }

/-- One call of the main loop of `main`: `ProcessPlayer(id)` with what it reads from
outside, `ProcessGold()` or `ProcessAnimations()`. -/
inductive Call where
  | player (id : Nat) (inp : Input)
  | gold
  | animations
deriving DecidableEq, Repr

/-- Run the calls in order; `none` when `ProcessAnimations` overruns a command array. -/
def runCalls (K : Consts) : List Call → State → Option State
  | [], s => some s
  | Call.player id inp :: rest, s => runCalls K rest (ProcessPlayer K inp id s)
  | Call.gold :: rest, s => runCalls K rest (ProcessGold K s)
  | Call.animations :: rest, s =>
    match ProcessAnimations K s with
    | some t => runCalls K rest t
    | none => none

/-- One pass of the main loop (`ProcessPlayer` for the slots 0..5, `ProcessGold`,
`ProcessAnimations`), the joypad reading `joy` for the player and nothing else from
outside (`rand()` = 0, no intent from `Ai`). -/
def frameCalls (joy : Nat) : List Call :=
  [Call.player 0 Input.idle, Call.player 1 Input.idle, Call.player 2 Input.idle,
   Call.player 3 Input.idle, Call.player 4 Input.idle,
   Call.player 5 { Input.idle with joy := joy }, Call.gold, Call.animations]

/-- A level of 28 x 16 nibbles: an enemy spawn at cell (10, 3); gold at (10, 5) and
(10, 6) below it; the cell (10, 7) walled in by Unbreakable tiles at (9, 7) and (11, 7),
over a brick at (10, 8); the player spawn at (11, 5) on a brick at (11, 6).
(Cell columns count the border column 0; byte `14 * row + (column - 1) / 2`.) -/
def C4_level : List Nat :=
  List.replicate (14 * 3 + 4) 0 ++ [0x08] ++ List.replicate (9 + 14 + 4) 0   -- rows 3, 4
    ++ [0x07, 0x90] ++ List.replicate 12 0                                    -- row 5
    ++ [0x07, 0x10] ++ List.replicate 12 0                                    -- row 6
    ++ [0x20, 0x20] ++ List.replicate 12 0                                    -- row 7
    ++ [0x01] ++ List.replicate (9 + 14 * 7) 0                                -- rows 8..15

/-- The external level store holding `C4_level` as level 0. -/
def C4_levels (i : Nat) : Nat := C4_level.getD i 0

/-- The joypad readings of the player, one per frame: land, three frames left to the edge
of its brick, one frame right (the gold at (10, 5) is picked up at the start of that
frame), wait while the enemy falls past, lands and drops the gold it holds, then five
frames left and off the brick. -/
def C4_joys : List Nat :=
  [0] ++ List.replicate 3 K0.BTN_LEFT ++ [K0.BTN_RIGHT] ++ List.replicate 184 0
    ++ List.replicate 5 K0.BTN_LEFT ++ List.replicate 33 0

/-- The state at the start of the level `C4_level`: `UnpackGameMap(0)` on the
zero-initialised globals. -/
def C4_start : State := UnpackGameMap K0 C4_levels 0 State.zero

/-- The state after the first `n` frames of the main loop on `C4_level` with the joypad
readings `C4_joys`. -/
def C4_run (n : Nat) : Option State :=
  runCalls K0 ((C4_joys.take n).flatMap frameCalls) C4_start

/-- The player (slot 5) at pixel (84, 60) over a hole being dug at cell (11, 6), and the
active enemy 0 at the same pixel X, one tile height lower, at pixel (84, 72). -/
def C12_state : State :=
  { State.zero with
    player := fun i =>
      if i = 5 then
        { (default : Player) with
          x := 0x5400, y := 0x3C00, playerSpeed := 0x0C0, frameSpeed := 4, dir := 1,
          action := ACTION_WALK, lastAction := ACTION_WALK, active := true, spriteIndex := 10 }
      else if i = 0 then
        { (default : Player) with
          x := 0x5400, y := 0x4800, playerSpeed := 0x060, frameSpeed := 4, dir := -1,
          action := ACTION_INHOLE, lastAction := ACTION_INHOLE, active := true,
          capturedGoldId := -1, lastCapturedGoldId := -1 }
      else default
    vram := fun i => if i = 6 * 30 + 11 then K0.TILE_DESTROY1 else K0.TILE_BG }

/-- The player on a ladder at pixel (64, 62), two pixels below the tile boundary, last tick
in `Climb` with frame counter 0x20, facing a wall: the cells (8, 5) and (8, 6) to its right
are Breakable. -/
def C19_state : State :=
  { State.zero with
    player := fun i =>
      if i = 5 then
        { (default : Player) with
          x := 0x4000, y := 0x3E00, playerSpeed := 0x0C0, frame := 0x20, frameSpeed := 4,
          dir := 1, action := ACTION_CLIMB, lastAction := ACTION_CLIMB, active := true,
          spriteIndex := 10 }
      else default
    vram := fun i => if i = 5 * 30 + 8 ∨ i = 6 * 30 + 8 then K0.TILE_BREAKABLE else K0.TILE_BG }

/-- Enemy 0 at the end of `Respawn`: action Fall, `lastAction` Respawn, x = 80 px, y = 5
(pixel row 0, as `Respawn` leaves it), under a rope at cell (10, 0) with a brick at cell
(10, 1) directly under it. -/
def C11_state : State :=
  { State.zero with
    player := fun i =>
      if i = 0 then
        { (default : Player) with
          x := 0x5000, y := 5, playerSpeed := 0x060, frame := 40, frameSpeed := 4, dir := -1,
          action := ACTION_FALL, lastAction := ACTION_RESPAWN, active := true,
          capturedGoldId := -1, lastCapturedGoldId := -1 }
      else default
    vram := fun i =>
      if i = 0 * 30 + 10 then K0.TILE_ROPE
      else if i = 1 * 30 + 10 then K0.TILE_BREAKABLE else K0.TILE_BG }

/-- The player hanging from a rope at cell (10, 5), pixel (80, 60), with a brick at cell
(10, 6) directly under it. -/
def C11_state_rope : State :=
  { State.zero with
    player := fun i =>
      if i = 5 then
        { (default : Player) with
          x := 0x5000, y := 0x3C00, playerSpeed := 0x0C0, frameSpeed := 4, dir := 1,
          action := ACTION_CLING, lastAction := ACTION_CLING, active := true, spriteIndex := 10 }
      else default
    vram := fun i =>
      if i = 5 * 30 + 10 then K0.TILE_ROPE
      else if i = 6 * 30 + 10 then K0.TILE_BREAKABLE else K0.TILE_BG }

/-- The player on a ladder (cell (8, 5)) under a brick ceiling (cell (8, 4)), at pixel
(64, 58) plus the 0xC0 sub-pixel step of one `Walk` tick to the right: action and
`lastAction` are Walk. -/
def C20_state : State :=
  { State.zero with
    player := fun i =>
      if i = 5 then
        { (default : Player) with
          x := 0x40C0, y := 0x3A80, playerSpeed := 0x0C0, frameSpeed := 4, dir := 1,
          action := ACTION_WALK, lastAction := ACTION_WALK, active := true, spriteIndex := 10 }
      else default
    vram := fun i =>
      if i = 5 * 30 + 8 then K0.TILE_LADDER
      else if i = 4 * 30 + 8 then K0.TILE_BREAKABLE else K0.TILE_BG }

/-- The player on a free ladder, 0x450 sub-pixel units right of the column boundary 0x4000
(pixel 68), with the tiles cached by `ProcessPlayer` all Ladder; `lastAction` is Walk. -/
def C20_state_ladder : State :=
  { State.zero with
    player := fun i =>
      if i = 5 then
        { (default : Player) with
          x := 0x4450, y := 0x3C00, playerSpeed := 0x0C0, frameSpeed := 4, dir := 1,
          action := ACTION_WALK, lastAction := ACTION_WALK, active := true, spriteIndex := 10,
          tileAtFeet := K0.TILE_LADDER, tileAtHead := K0.TILE_LADDER,
          tileUnder := K0.TILE_LADDER }
      else default
    vram := fun i => if i % 30 = 8 then K0.TILE_LADDER else K0.TILE_BG }

/-- A level store whose level 0 has, in row 0, the player spawn at column 1 and seven enemy
spawns at the columns 2..8 (bytes `0x98 0x88 0x88 0x88`), and nothing else. -/
def C17_levels (i : Nat) : Nat := [0x98, 0x88, 0x88, 0x88].getD i 0

/-- A state with all gold collected (`goldCollected = goldCount = 0`), the exit ladders not
yet shown, and a level whose byte 0 is `0x60` (an escape-ladder marker in its high nibble,
the cell (1, 0)) and whose byte 15 is `0x06` (a marker in its low nibble, the cell (4, 1)). -/
def C14_state : State :=
  { State.zero with
    game := { State.zero.game with
      map := fun i => if i = 0 then 0x60 else if i = 15 then 0x06 else 0 } }

/-! ## The nibble scan as one loop -/

/-- A loop over the byte positions `p, p+1, ..` (`n` iterations left). -/
def scanFrom {σ : Type} (f : Nat → σ → σ) : Nat → Nat → σ → σ
  | 0, _, s => s
  | n + 1, p, s => scanFrom f n (p + 1) (f p s)

/-- Nibble `n` of a byte: `n = 0` is the high nibble (`b >> 4`), otherwise the low one
(`b & 0x0f`). -/
def nibbleOf (b n : Nat) : Nat := if n = 0 then b >>> 4 else b &&& 0x0f

/-- What the reveal scan of `ProcessGold` does for the byte at position `p`: both nibbles,
at the loop values `x = 2 * (p mod 14)`, `y = p div 14`. -/
def ProcessGold.byte (K : Consts) (p : Nat) (s : State) : State :=
  ProcessGold.cell K (2 * (p % 14)) (p / 14) 1 p
    (ProcessGold.cell K (2 * (p % 14)) (p / 14) 0 p s)

/-- What the scan of `UnpackGameMap` does for the byte at position `p`: both nibbles, at
the loop values `x = 2 * (p mod 14)`, `y = p div 14`, on `enemyCount` and the state. -/
def UnpackGameMap.byte (K : Consts) (p : Nat) (r : Nat × State) : Nat × State :=
  UnpackGameMap.cell K (2 * (p % 14)) (p / 14) 1 p
    (UnpackGameMap.cell K (2 * (p % 14)) (p / 14) 0 p r.1 r.2).1
    (UnpackGameMap.cell K (2 * (p % 14)) (p / 14) 0 p r.1 r.2).2

/-- The cells of the gold nibbles (value 7) among the level bytes `p .. p+n-1`, in scan
order (byte by byte, high nibble first): nibble `k` of byte `p` is the cell in column
`2 * (p mod 14) + k + 1` of row `p div 14`. -/
def goldCells (map : Nat → Nat) : Nat → Nat → List (Nat × Nat)
  | 0, _ => []
  | n + 1, p =>
    (if nibbleOf (map p) 0 = 7 then [(2 * (p % 14) + 0 + 1, p / 14)] else []) ++
    ((if nibbleOf (map p) 1 = 7 then [(2 * (p % 14) + 1 + 1, p / 14)] else []) ++
      goldCells map n (p + 1))

/-- The gold record of a cell: Visible at column `c.1`, row `c.2`. -/
def goldAt (c : Nat × Nat) : Gold := { x := c.1, y := c.2, state := GOLD_STATE_VISIBLE }

/-- The gold list `g.gold` holds the first 32 cells of `L` as Visible records, in order,
and `g.goldCount` counts them. -/
def Recorded (g : Game) (L : List (Nat × Nat)) : Prop :=
  g.goldCount = min 32 L.length ∧
  ∀ i, i < min 32 L.length → g.gold (i : Int) = goldAt (L.getD i (0, 0))

/-- The overlap test as the claim C15 words it, for the player at pixel `(x, y)` and a gold
record `g`: `g` is Visible and, with `gx = g.x * 8` and `gy = g.y * 12`,
`x + 4 >= gx`, `x + 2 <= gx + 8`, `y >= gy` and `y <= gy + 12`. -/
def hitsGold (x y : Nat) (g : Gold) : Bool :=
  decide (g.state = GOLD_STATE_VISIBLE ∧ x + 4 ≥ g.x * 8 ∧ x + 2 ≤ g.x * 8 + 8
    ∧ y ≥ g.y * 12 ∧ y ≤ g.y * 12 + 12)

/-- The number of records among `gold[i .. i+n)` that `hitsGold` accepts. -/
def hitCount (x y : Nat) (gold : Int → Gold) : Nat → Nat → Nat
  | 0, _ => 0
  | n + 1, i => (if hitsGold x y (gold i) then 1 else 0) + hitCount x y gold n (i + 1)

/-- The player at pixel (80, 60) with three gold records: record 0 at cell (10, 5) under
the player, record 1 at cell (12, 5) out of reach, record 2 at cell (10, 5) already
Collected; `goldCollected` is 1. -/
def C15_state : State :=
  { State.zero with
    game := { State.zero.game with
      goldCount := 3, goldCollected := 1,
      gold := fun i =>
        if i = 0 then { x := 10, y := 5, state := GOLD_STATE_VISIBLE }
        else if i = 1 then { x := 12, y := 5, state := GOLD_STATE_VISIBLE }
        else if i = 2 then { x := 10, y := 5, state := GOLD_STATE_COLLECTED }
        else default }
    player := fun i =>
      if i = 5 then
        { (default : Player) with
          x := 0x5000, y := 0x3C00, playerSpeed := 0x0C0, frameSpeed := 4, dir := 1,
          action := ACTION_WALK, lastAction := ACTION_WALK, active := true, spriteIndex := 10 }
      else default
    vram := fun i =>
      if i = 5 * 30 + 10 ∨ i = 5 * 30 + 12 then K0.TILE_GOLD1
      else if i / 30 = 6 then K0.TILE_UNBREAKABLE else K0.TILE_BG }

/-! ## Save record (`main.cpp`, `misc.cpp`) -/

def EEPROM_ID : Nat := 8

/-- `struct EepromBlock`, the save record: one field per member, the arrays as the lists
of their bytes. -/
structure EepromBlock where
  id : Nat
  completedLevels : List Nat
  playedLevels : List Nat
  blankMarker : Nat
  reservedData : List Nat
deriving DecidableEq, Repr, Inhabited

/-- The record that `memset(&saveGame, 0, sizeof(saveGame))` leaves: every byte zero. -/
def EepromBlock.zero : EepromBlock :=
  { id := 0, completedLevels := List.replicate 10 0, playedLevels := List.replicate 10 0,
    blankMarker := 0, reservedData := List.replicate 6 0 }

/-- The global `saveGame` next to the EEPROM block at `EEPROM_SIZE - EEPROM_BLOCK_SIZE`
(given by the record whose image it holds) and the records handed to `eeprom_write` so far,
oldest first. -/
structure SaveState where
  saveGame : EepromBlock
  eeprom : EepromBlock
  written : List EepromBlock
deriving DecidableEq, Repr, Inhabited

/-- Modelled from the spec: `eeprom_read(EEPROM_SIZE - EEPROM_BLOCK_SIZE, &saveGame,
sizeof(saveGame))` of the storage collaborator copies the stored block over `saveGame`. -/
def eeprom_read (s : SaveState) : SaveState :=
  { s with saveGame := s.eeprom }

/-- Modelled from the spec: `eeprom_write(EEPROM_SIZE - EEPROM_BLOCK_SIZE, &saveGame,
sizeof(saveGame))` of the storage collaborator copies `saveGame` over the stored block. -/
def eeprom_write (s : SaveState) : SaveState :=
  { s with eeprom := s.saveGame, written := s.written ++ [s.saveGame] }

/-- `loadEeprom`; `portable` says whether the build defines `P8X_PORTABLE`, which compiles
the body away. -/
def loadEeprom (portable : Bool) (s : SaveState) : SaveState :=
  if portable then s
  else
    let s := eeprom_read s
    if s.saveGame.id ≠ EEPROM_ID then
      -- setup eeprom save game block
      let s := { s with saveGame := EepromBlock.zero }
      let s := { s with saveGame := { s.saveGame with id := EEPROM_ID } }
      eeprom_write s
    else s

/-- An EEPROM whose save block carries the id 8 with levels 0 and 1 completed and levels
0..2 played, and a `saveGame` still zero-initialised. -/
def C30_state : SaveState :=
  { saveGame := EepromBlock.zero,
    eeprom := { EepromBlock.zero with
      id := 8, completedLevels := [3, 0, 0, 0, 0, 0, 0, 0, 0, 0],
      playedLevels := [7, 0, 0, 0, 0, 0, 0, 0, 0, 0] },
    written := [] }

/-- An EEPROM whose save block was never set up (every byte `0xff`). -/
def C30_state_blank : SaveState :=
  { saveGame := EepromBlock.zero,
    eeprom :=
      { id := 0xffff
        completedLevels := List.replicate 10 0xff
        playedLevels := List.replicate 10 0xff
        blankMarker := 0xffffffff
        reservedData := List.replicate 6 0xff },
    written := [] }

/-- Consecutive `Respawn` ticks of one entity, one value of `rand()` per tick. -/
def respawnAll (id : Nat) (rs : List Nat) (s : State) : State :=
  rs.foldl (fun t r => Respawn r id t) s

/-- An enemy in slot 0 that walked at pixel (64, 60) and has just been switched to
`ACTION_RESPAWN` by `ProcessEnemy`. -/
def C23_state : State :=
  { State.zero with
    player := fun i =>
      if i = 0 then
        { (default : Player) with
          x := 0x4000, y := 0x3C00, playerSpeed := 0x060, frameSpeed := 4, dir := 1,
          action := ACTION_RESPAWN, lastAction := ACTION_WALK, frame := 37, active := true,
          spriteIndex := 0, capturedGoldId := -1, lastCapturedGoldId := -1 }
      else default }

/-- The player in slot 5 walking at pixel (64, 60) when a collision has just switched it to
`ACTION_DIE`. -/
def C24_state : State :=
  { State.zero with
    player := fun i =>
      if i = 5 then
        { (default : Player) with
          x := 0x4000, y := 0x3C00, playerSpeed := 0x0C0, frameSpeed := 4, dir := 1,
          action := ACTION_DIE, lastAction := ACTION_WALK, frame := 52, active := true,
          spriteIndex := 10 }
      else default }

/-- An enemy in slot 0 facing left that `Fall` has just put into the hole at cell (8, 6):
pixel (64, 72), `ACTION_INHOLE`, `lastAction` still Fall. -/
def C25_state : State :=
  { State.zero with
    player := fun i =>
      if i = 0 then
        { (default : Player) with
          x := 0x4000, y := 0x4800, playerSpeed := 0x060, frameSpeed := 4, dir := -1,
          action := ACTION_INHOLE, lastAction := ACTION_FALL, frame := 9, active := true,
          spriteIndex := 0, capturedGoldId := -1, lastCapturedGoldId := -1 }
      else default
    vram := fun i => if i = 6 * 30 + 8 then K0.TILE_BG_STEP_ON else K0.TILE_BG }

/-- The player of `C8_state` (pixel (64, 60), `frameSpeed` 4) with action and `lastAction`
both set to `a` and the frame counter at 0x5e. -/
def C22_state (a : Nat) : State :=
  setPlayer C8_state 5 (fun p => { p with action := a, lastAction := a, frame := 0x5e })

/-- The player on the exit ladder of column 8 at the top of the screen (raw `y` 0x80, pixel
row 0), in `ACTION_CLIMB`, in a level whose gold is all collected (`goldCollected ==
goldCount`). -/
def C21_state : State :=
  { State.zero with
    player := fun i =>
      if i = 5 then
        { (default : Player) with
          x := 0x4000, y := 0x80, playerSpeed := 0x0C0, frameSpeed := 4, dir := -1,
          action := ACTION_CLIMB, lastAction := ACTION_CLIMB, active := true, spriteIndex := 10 }
      else default
    vram := fun i => if i % 30 = 8 then K0.TILE_LADDER else K0.TILE_BG }

/-- Every active entity of the array `player[0 .. MAX_PLAYERS)` has its action among the
eight handler values 1..8 (Walk .. Respawn). -/
def ActionInRange (s : State) : Prop :=
  ∀ j, j < MAX_PLAYERS → (s.player j).active = true →
    1 ≤ (s.player j).action ∧ (s.player j).action ≤ 8

/-- The player of `C9_state` moved to `x = 0x4380` (pixel 67): one step to the right takes it
to 0x4440, past the middle of tile column 8, with nothing solid under that spot. -/
def C32_state : State :=
  setPlayer C9_state 5 (fun p => { p with x := 0x4380 })

/-- Enemy 0 hanging on the rope of cell (8, 5) at pixel (64, 60), `lastAction` Cling, with
background under it. -/
def C33_state : State :=
  { State.zero with
    player := fun i =>
      if i = 0 then
        { (default : Player) with
          x := 0x4000, y := 0x3C00, playerSpeed := 0x060, frameSpeed := 4, dir := 1,
          action := ACTION_CLING, lastAction := ACTION_CLING, active := true, spriteIndex := 0,
          capturedGoldId := -1, lastCapturedGoldId := -1 }
      else default
    vram := fun i => if i = 5 * 30 + 8 then K0.TILE_ROPE else K0.TILE_BG }

/-- Enemy 0 hanging on the rope of cell (9, 5) at pixel (68, 60), eleven `Cling` steps of
0x60 right of the column boundary 0x4000; under the rope the player has dug the hole of
cell (9, 6) into a row of bricks. -/
def C31_state : State :=
  { State.zero with
    player := fun i =>
      if i = 0 then
        { (default : Player) with
          x := 0x4420, y := 0x3C00, playerSpeed := 0x060, frameSpeed := 4, dir := 1,
          action := ACTION_CLING, lastAction := ACTION_CLING, active := true, spriteIndex := 0,
          capturedGoldId := -1, lastCapturedGoldId := -1 }
      else default
    vram := fun i => if i = 5 * 30 + 9 then K0.TILE_ROPE
      else if i = 6 * 30 + 9 then K0.TILE_BG_HOLE
      else if i / 30 = 6 then K0.TILE_BREAKABLE else K0.TILE_BG }

/-- An outside input whose `Ai` outcome is the intent "down". -/
def C31_down : Input :=
  { Input.idle with ai := { (default : AiResult) with joy := K0.BTN_DOWN } }

/-- A level of 28 x 16 nibbles: the player spawn at cell (4, 5) on the bricks (4, 6) and
(5, 6), and a rope at cell (6, 6) right of them, over background. -/
def C35_level : List Nat :=
  List.replicate (14 * 5 + 1) 0 ++ [0x09] ++ List.replicate 12 0       -- row 5
    ++ [0x00, 0x01, 0x14] ++ List.replicate (11 + 14 * 9) 0            -- rows 6..15

/-- The external level store holding `C35_level` as level 0. -/
def C35_levels (i : Nat) : Nat := C35_level.getD i 0

/-- The joypad readings of the player, one per frame: land, 15 frames right (off the edge of
the bricks), 16 frames of falling (the rope is caught in the last one), then left. -/
def C35_joys : List Nat :=
  [0] ++ List.replicate 15 K0.BTN_RIGHT ++ List.replicate 16 0 ++ [K0.BTN_LEFT]

/-- The state after the first `n` frames of the main loop on `C35_level` with the joypad
readings `C35_joys`. -/
def C35_run (n : Nat) : Option State :=
  runCalls K0 ((C35_joys.take n).flatMap frameCalls) (UnpackGameMap K0 C35_levels 0 State.zero)

/-! ## The outer loop of `main` and the title screen (`GameTitle`) -/

/-- A call made by `main` or `GameTitle` that takes the level index as its argument. -/
inductive LevelCall where
  | blitLevelPreview (level : Nat)
  | UnpackGameMap (mapNo : Nat)
deriving DecidableEq, Repr

/-- The level index passed by the call. -/
def LevelCall.index : LevelCall → Nat
  | .blitLevelPreview level => level
  | .UnpackGameMap mapNo => mapNo

/-- The places of `main` and `GameTitle` that call `ReadJoypad(0)`; the program runs from
one of them to the next. The level-selection loop carries its locals. -/
inductive MainPc where
  /-- `while (ReadJoypad(0) == BTN_SELECT);` in the title loop of `GameTitle` -/
  | titleSelect
  /-- `if (ReadJoypad(0) == BTN_START) break;` in the title loop of `GameTitle` -/
  | titleStart
  /-- `key = ReadJoypad(0);` in the level-selection loop of `GameTitle` -/
  | select (lastKey repeatDelay hold : Nat)
  /-- `while (ReadJoypad(0) != 0);` at the end of `GameTitle` -/
  | titleRelease
  /-- `if (ReadJoypad(0) != 0) break;` in the wait loop of `main` before a level starts -/
  | waitKey
  /-- the main game loop of `main`: `ProcessPlayer(SPR_INDEX_PLAYER)` reads the joypad -/
  | play
  /-- `while (ReadJoypad(0) == 0);` on the game-over screen -/
  | overPress
  /-- `while (ReadJoypad(0) != 0);` on the game-over screen -/
  | overRelease
deriving DecidableEq, Repr

/-- The program between two joypad readings: the globals, the place of the next
`ReadJoypad(0)`, and the calls with a level argument made so far, in order. -/
structure MainState where
  s : State
  pc : MainPc
  calls : List LevelCall

/-- The top of the `while (1)` of `main` up to the first joypad reading in `GameTitle`.
Drawing, sound and sprite placement are left out: none of them reads or writes `game.level`
or a level flag. -/
def main.top (m : MainState) : MainState :=
  let s := { m.s with game := { m.s.game with displayCredits := false } }
  let s := setPlayer s SPR_INDEX_PLAYER (fun p => { p with lives := 6 })
  { m with s := s, pc := .titleSelect }

/-- The top of the inner `do` of `main`: the animation slots are freed and
`UnpackGameMap(game.level)` is called; then the wait loop reads the joypad. -/
def main.startLevel (K : Consts) (levels : Nat → Nat) (m : MainState) : MainState :=
  let s := { m.s with game := { m.s.game with
    animations := fun i =>
      if i < ANIMATION_SLOTS_COUNT then { m.s.game.animations i with commandStream := none }
      else m.s.game.animations i } }
  { s := UnpackGameMap K levels (s.game.level % 256) s
    pc := .waitKey
    calls := m.calls ++ [.UnpackGameMap (s.game.level % 256)] }

/-- The code of `main` after the main game loop: the `if (game.levelComplete)` block
(`game.level` is a `u8`), the test of the inner `do .. while`, and the code after it up to
the next joypad reading. The save-game marks are left out. -/
def main.endLevel (K : Consts) (levels : Nat → Nat) (m : MainState) : MainState :=
  let s := m.s
  let s :=
    if s.game.levelComplete then
      let s := if (s.player SPR_INDEX_PLAYER).died then
          setPlayer s SPR_INDEX_PLAYER (fun p => { p with lives := (p.lives + 255) % 256 })
        else s
      { s with game := { s.game with level := (s.game.level + 1) % 256 } }
    else s
  let m := { m with s := s }
  if (s.game.level < LEVELS_COUNT ∧ ¬ s.game.levelQuit) ∨ s.game.levelRestart then
    main.startLevel K levels m
  else if ¬ s.game.levelQuit then { m with pc := .overPress }
  else main.top m

/-- The program from the joypad reading `key`, returned at the place `m.pc`, up to the next
call of `ReadJoypad(0)`. Inside a level a frame takes the reading for the player and
nothing else from outside (`frameCalls`); `none` when `ProcessAnimations` overruns a
command array. -/
def main.step (K : Consts) (levels : Nat → Nat) (key : Nat) (m : MainState) :
    Option MainState :=
  match m.pc with
  | .titleSelect =>
    some (if key = K.BTN_SELECT then m else { m with pc := .titleStart })
  | .titleStart =>
    some (if key = K.BTN_START then
        { m with pc := .select 0 0 0
                 calls := m.calls ++ [.blitLevelPreview m.s.game.level] }
      else { m with pc := .titleSelect })
  | .select lastKey repeatDelay hold =>
    let repeatDelay := if key = 0 then 0 else repeatDelay
    let hold := if key = 0 then 0 else hold
    let speed := if hold > 4 then 2 else 5
    let repeatDelay :=
      if key = lastKey ∧ key ≠ 0 then (repeatDelay + 1) % 65536 else repeatDelay
    if key ≠ lastKey ∨ repeatDelay ≥ speed then
      if key = K.BTN_START then some { m with pc := .titleRelease }
      else
        let level := m.s.game.level
        let level :=
          if key = K.BTN_RIGHT then
            if level < LEVELS_COUNT - 1 then (level + 1) % 256 else level
          else if key = K.BTN_LEFT then
            if level > 0 then (level + 255) % 256 else level
          else level
        some { s := { m.s with game := { m.s.game with level := level } }
               pc := .select key 0 ((hold + 1) % 65536)
               calls := m.calls ++ [.blitLevelPreview level] }
    else some { m with pc := .select lastKey repeatDelay hold }
  | .titleRelease =>
    some (if key ≠ 0 then m else main.startLevel K levels m)
  | .waitKey =>
    some (if key ≠ 0 then { m with pc := .play } else m)
  | .play =>
    match runCalls K (frameCalls key) m.s with
    | none => none
    | some s =>
      if ¬ (s.player SPR_INDEX_PLAYER).died ∧ ¬ s.game.levelComplete ∧ ¬ s.game.levelQuit
          ∧ ¬ s.game.levelRestart then some { m with s := s }
      else some (main.endLevel K levels { m with s := s })
  | .overPress =>
    some (if key = 0 then m else { m with pc := .overRelease })
  | .overRelease =>
    some (if key ≠ 0 then m else main.top m)

/-- The program `main` run on the joypad readings `joys`, from the place given. -/
def main.run (K : Consts) (levels : Nat → Nat) : List Nat → MainState → Option MainState
  | [], m => some m
  | key :: joys, m =>
    match main.step K levels key m with
    | none => none
    | some m2 => main.run K levels joys m2

/-- `main()` from `game.level = 0;` on, run on the joypad readings `joys`, one per call of
`ReadJoypad(0)`: the state in which the program asks for the next reading. `globals` are
the globals as the start-up code of `main` leaves them. -/
def main (K : Consts) (levels : Nat → Nat) (globals : State) (joys : List Nat) :
    Option MainState :=
  main.run K levels joys
    (main.top { s := { globals with game := { globals.game with level := 0 } }
                pc := .titleSelect
                calls := [] })

/-- A level of 28 x 16 nibbles: the player spawn at cell (4, 1), a ladder in the cells
(5, 0) and (5, 1), and bricks under both at (4, 2) and (5, 2); no gold. -/
def C37_level : List Nat :=
  [0x00, 0x00, 0x30] ++ List.replicate 11 0          -- row 0
    ++ [0x00, 0x09, 0x30] ++ List.replicate 11 0     -- row 1
    ++ [0x00, 0x01, 0x10] ++ List.replicate (11 + 14 * 13) 0

/-- The external level store holding `C37_level` as the last level, index 49, and zero
bytes elsewhere. -/
def C37_levels (i : Nat) : Nat :=
  if 49 * LEVEL_SIZE ≤ i then C37_level.getD (i - 49 * LEVEL_SIZE) 0 else 0

/-- The joypad readings of a session, one per call of `ReadJoypad(0)`: Start on the title
screen; Right pressed and released 49 times in the level selection, then Start, released;
a key to start level 49 (`C37_level`); in the level one idle frame, 11 frames right to the
ladder and 16 frames up to the top of it; a key pressed and released on the game-over
screen; Start on the title screen; Start in the level selection, released. -/
def C37_joys : List Nat :=
  [0, K0.BTN_START] ++ (List.replicate 49 [K0.BTN_RIGHT, 0]).flatten
    ++ [K0.BTN_START, 0, K0.BTN_A]
    ++ [0] ++ List.replicate 11 K0.BTN_RIGHT ++ List.replicate 16 K0.BTN_UP
    ++ [K0.BTN_A, 0]
    ++ [0, K0.BTN_START]
    ++ [K0.BTN_START, 0]

/-- The result of `n` consecutive calls of `ProcessAnimations()`; `none` when one of them
overruns a command array. -/
def animCalls (K : Consts) : Nat → State → Option State
  | 0, s => some s
  | n + 1, s =>
    match ProcessAnimations K s with
    | some t => animCalls K n t
    | none => none

/-- The state `s` with slot `i` of the animation pool bound to the cell `(x, y)` with
`rest` as its stream pointer, `delay` calls left to wait and `count` commands done, and
with the tile grid `v`. -/
def slotState (s : State) (i x y param1 : Nat) (rest : Option (List Nat))
    (delay count : Nat) (v : Nat → Nat) : State :=
  { s with
    game := { s.game with
      animations := Function.update s.game.animations i
        { commandStream := rest, commandCount := count, x := x, y := y, delay := delay,
          param1 := param1 } }
    vram := v }

/-- The zero-initialised globals after `TriggerAnimation(anim_destroyBrick, 8, 6, 0)`. -/
def C34_state : State :=
  (TriggerAnimation (some (anim_destroyBrick K0)) 8 6 0 State.zero).1

/-! ## Theorems -/

section Frame

@[simp] theorem setPlayer_player (s : State) (id : Nat) (f : Player → Player) :
    (setPlayer s id f).player = Function.update s.player id (f (s.player id)) := rfl

@[simp] theorem setPlayer_game (s : State) (id : Nat) (f : Player → Player) :
    (setPlayer s id f).game = s.game := rfl

@[simp] theorem setPlayer_vram (s : State) (id : Nat) (f : Player → Player) :
    (setPlayer s id f).vram = s.vram := rfl

@[simp] theorem setPlayer_sprites (s : State) (id : Nat) (f : Player → Player) :
    (setPlayer s id f).sprites = s.sprites := rfl

@[simp] theorem setSprite_player (s : State) (i : Nat) (f : Sprite → Sprite) :
    (setSprite s i f).player = s.player := rfl

@[simp] theorem setSprite_game (s : State) (i : Nat) (f : Sprite → Sprite) :
    (setSprite s i f).game = s.game := rfl

@[simp] theorem setSprite_vram (s : State) (i : Nat) (f : Sprite → Sprite) :
    (setSprite s i f).vram = s.vram := rfl

@[simp] theorem setSprite_sprites (s : State) (i : Nat) (f : Sprite → Sprite) :
    (setSprite s i f).sprites = Function.update s.sprites i (f (s.sprites i)) := rfl

@[simp] theorem setAnim_player (s : State) (i : Nat) (f : Animation → Animation) :
    (setAnim s i f).player = s.player := rfl

@[simp] theorem setAnim_vram (s : State) (i : Nat) (f : Animation → Animation) :
    (setAnim s i f).vram = s.vram := rfl

@[simp] theorem setAnim_sprites (s : State) (i : Nat) (f : Animation → Animation) :
    (setAnim s i f).sprites = s.sprites := rfl

@[simp] theorem setAnim_animations (s : State) (i : Nat) (f : Animation → Animation) :
    (setAnim s i f).game.animations
      = Function.update s.game.animations i (f (s.game.animations i)) := rfl

@[simp] theorem setGold_player (s : State) (i : Int) (f : Gold → Gold) :
    (setGold s i f).player = s.player := rfl

@[simp] theorem setGold_vram (s : State) (i : Int) (f : Gold → Gold) :
    (setGold s i f).vram = s.vram := rfl

@[simp] theorem setGold_sprites (s : State) (i : Int) (f : Gold → Gold) :
    (setGold s i f).sprites = s.sprites := rfl

@[simp] theorem setGold_gold (s : State) (i : Int) (f : Gold → Gold) :
    (setGold s i f).game.gold = Function.update s.game.gold i (f (s.game.gold i)) := rfl

@[simp] theorem SetTile_player (K : Consts) (x y t : Nat) (s : State) :
    (SetTile K x y t s).player = s.player := rfl

@[simp] theorem SetTile_game (K : Consts) (x y t : Nat) (s : State) :
    (SetTile K x y t s).game = s.game := rfl

@[simp] theorem SetTile_sprites (K : Consts) (x y t : Nat) (s : State) :
    (SetTile K x y t s).sprites = s.sprites := rfl

/-- What the search loop of `TriggerAnimation` does to the state: nothing, or one slot is
bound. -/
theorem TriggerAnimation.loop_cases (a : Option (List Nat)) (x y p : Nat) (s : State) :
    ∀ (n i : Nat), (TriggerAnimation.loop a x y p s n i).1 = s ∨
      ∃ k, (TriggerAnimation.loop a x y p s n i).1 = setAnim s k (fun _ => Animation.bound a x y p) := by
  intro n
  induction n with
  | zero => intro i; exact Or.inl rfl
  | succ n ih =>
    intro i
    by_cases h : (s.game.animations i).commandStream = none
    · right; exact ⟨i, by simp only [TriggerAnimation.loop, h, if_true]⟩
    · simp only [TriggerAnimation.loop, h, if_false]; exact ih (i + 1)

@[simp] theorem TriggerAnimation_player (a : Option (List Nat)) (x y p : Nat) (s : State) :
    (TriggerAnimation a x y p s).1.player = s.player := by
  rcases TriggerAnimation.loop_cases a x y p s ANIMATION_SLOTS_COUNT 0 with h | ⟨k, h⟩ <;>
    simp only [TriggerAnimation, h, setAnim_player]

@[simp] theorem TriggerAnimation_vram (a : Option (List Nat)) (x y p : Nat) (s : State) :
    (TriggerAnimation a x y p s).1.vram = s.vram := by
  rcases TriggerAnimation.loop_cases a x y p s ANIMATION_SLOTS_COUNT 0 with h | ⟨k, h⟩ <;>
    simp only [TriggerAnimation, h, setAnim_vram]

@[simp] theorem TriggerAnimation_sprites (a : Option (List Nat)) (x y p : Nat) (s : State) :
    (TriggerAnimation a x y p s).1.sprites = s.sprites := by
  rcases TriggerAnimation.loop_cases a x y p s ANIMATION_SLOTS_COUNT 0 with h | ⟨k, h⟩ <;>
    simp only [TriggerAnimation, h, setAnim_sprites]

/-- The search loop of `TriggerAnimation` reads nothing but the animation pool. -/
theorem TriggerAnimation.loop_congr (a : Option (List Nat)) (x y p : Nat) (s t : State)
    (h : s.game.animations = t.game.animations) :
    ∀ (n i : Nat), (TriggerAnimation.loop a x y p s n i).1.game.animations
        = (TriggerAnimation.loop a x y p t n i).1.game.animations ∧
      (TriggerAnimation.loop a x y p s n i).2 = (TriggerAnimation.loop a x y p t n i).2 := by
  intro n
  induction n with
  | zero => intro i; exact ⟨h, rfl⟩
  | succ n ih =>
    intro i
    by_cases hs : (s.game.animations i).commandStream = none
    · have ht : (t.game.animations i).commandStream = none := by rw [← h]; exact hs
      simp only [TriggerAnimation.loop, hs, ht, if_true, setAnim_animations, h, and_self]
    · have ht : ¬ (t.game.animations i).commandStream = none := by rw [← h]; exact hs
      simp only [TriggerAnimation.loop, hs, ht, if_false]
      exact ih (i + 1)

theorem TriggerAnimation_animations_congr (a : Option (List Nat)) (x y p : Nat) (s t : State)
    (h : s.game.animations = t.game.animations) :
    (TriggerAnimation a x y p s).1.game.animations
      = (TriggerAnimation a x y p t).1.game.animations :=
  (TriggerAnimation.loop_congr a x y p s t h ANIMATION_SLOTS_COUNT 0).1

end Frame

section Animation

theorem setAnim_animations_same (s : State) (i : Nat) (f : Animation → Animation) :
    (setAnim s i f).game.animations i = f (s.game.animations i) := by
  simp [setAnim]

theorem setAnim_animations_ne (s : State) (i j : Nat) (f : Animation → Animation)
    (h : j ≠ i) : (setAnim s i f).game.animations j = s.game.animations j := by
  simp [setAnim, Function.update_noteq h]

/-- The search loop finds nothing when every slot it visits is occupied. -/
theorem TriggerAnimation.loop_full (a : Option (List Nat)) (x y p : Nat) (s : State) :
    ∀ (n i : Nat), (∀ j, i ≤ j → j < i + n → (s.game.animations j).commandStream ≠ none) →
      TriggerAnimation.loop a x y p s n i = (s, -1) := by
  intro n
  induction n with
  | zero => intro i _; rfl
  | succ n ih =>
    intro i h
    have hi : (s.game.animations i).commandStream ≠ none := h i (le_refl _) (by omega)
    simp only [TriggerAnimation.loop, hi, if_false]
    exact ih (i + 1) (fun j h1 h2 => h j (by omega) (by omega))

/-- The search loop binds the first free slot it meets. -/
theorem TriggerAnimation.loop_free (a : Option (List Nat)) (x y p : Nat) (s : State) :
    ∀ (n i k : Nat), i ≤ k → k < i + n → (s.game.animations k).commandStream = none →
      (∀ j, i ≤ j → j < k → (s.game.animations j).commandStream ≠ none) →
      TriggerAnimation.loop a x y p s n i =
        (setAnim s k (fun _ => Animation.bound a x y p), (k : Int)) := by
  intro n
  induction n with
  | zero => intro i k h1 h2; omega
  | succ n ih =>
    intro i k h1 h2 hk hlt
    by_cases hik : i = k
    · subst hik
      simp only [TriggerAnimation.loop, hk, if_true]
    · have hi : (s.game.animations i).commandStream ≠ none := hlt i (le_refl _) (by omega)
      simp only [TriggerAnimation.loop, hi, if_false]
      exact ih (i + 1) k (by omega) (by omega) hk (fun j h3 h4 => hlt j (by omega) h4)

/-- After `k` successful calls on an empty pool the slots below `k` are occupied and the
others are free; the next calls return `k, k+1, .., 31` and then `-1`. -/
theorem triggerAll_from (cs : List (List Nat × Nat × Nat × Nat)) :
    ∀ (k : Nat) (s : State), k ≤ 32 →
      (∀ j, j < k → (s.game.animations j).commandStream ≠ none) →
      (∀ j, k ≤ j → j < 32 → (s.game.animations j).commandStream = none) →
      (triggerAll cs s).2 =
        (List.range cs.length).map (fun n => if k + n < 32 then ((k + n : Nat) : Int) else -1) := by
  induction cs with
  | nil => intro k s _ _ _; rfl
  | cons c cs ih =>
    intro k s hk hocc hfree
    simp only [triggerAll, List.length_cons, List.range_succ_eq_map, List.map_cons,
      List.map_map]
    by_cases hk32 : k < 32
    · have hcall : TriggerAnimation (some c.1) c.2.1 c.2.2.1 c.2.2.2 s =
          (setAnim s k (fun _ => Animation.bound (some c.1) c.2.1 c.2.2.1 c.2.2.2), (k : Int)) :=
        TriggerAnimation.loop_free _ _ _ _ s 32 0 k (Nat.zero_le _) (by omega)
          (hfree k (le_refl _) hk32) (fun j _ h => hocc j h)
      rw [hcall]
      have := ih (k + 1) (setAnim s k (fun _ => Animation.bound (some c.1) c.2.1 c.2.2.1 c.2.2.2))
        (by omega)
        (fun j hj => by
          by_cases hjk : j = k
          · subst hjk; rw [setAnim_animations_same]; simp [Animation.bound]
          · rw [setAnim_animations_ne _ _ _ _ hjk]; exact hocc j (by omega))
        (fun j hj1 hj2 => by
          rw [setAnim_animations_ne _ _ _ _ (by omega)]; exact hfree j (by omega) hj2)
      simp only [this, Nat.add_zero, hk32, if_true]
      congr 1
      apply List.map_congr_left
      intro n _
      simp only [Function.comp, Nat.succ_eq_add_one]
      have : k + 1 + n = k + (n + 1) := by omega
      rw [this]
    · have hk' : k = 32 := by omega
      subst hk'
      have hcall : TriggerAnimation (some c.1) c.2.1 c.2.2.1 c.2.2.2 s = (s, -1) :=
        TriggerAnimation.loop_full _ _ _ _ s 32 0 (fun j _ h => hocc j (by omega))
      rw [hcall]
      have := ih 32 s (le_refl _) hocc hfree
      simp only [this]
      have h0 : ¬ (32 + 0 < 32) := by omega
      simp only [h0, if_false]
      congr 1
      apply List.map_congr_left
      intro n _
      have h1 : ¬ (32 + n < 32) := by omega
      have h2 : ¬ (32 + (n + 1) < 32) := by omega
      simp [h1, h2]

/-- C1: `TriggerAnimation` returns the lowest index `i` in 0..31 whose slot has a null
command stream, binds that slot (stream, x, y, param1, delay 0, commandCount 0) and leaves
every other slot unchanged; when no slot is free it returns -1 and leaves the state
unchanged. Hence, on a pool whose 32 slots are free, 33 calls with non-null streams return
0, 1, .., 31 in order and then -1. -/
theorem C1_TriggerAnimation_first_free_slot :
    (∀ (a : Option (List Nat)) (x y p : Nat) (s : State) (i : Nat), i < 32 →
        (s.game.animations i).commandStream = none →
        (∀ j, j < i → (s.game.animations j).commandStream ≠ none) →
        (TriggerAnimation a x y p s).2 = (i : Int) ∧
        (TriggerAnimation a x y p s).1.game.animations i =
          { commandStream := a, commandCount := 0, delay := 0, x := x, y := y, param1 := p } ∧
        (∀ j, j ≠ i → (TriggerAnimation a x y p s).1.game.animations j = s.game.animations j)) ∧
    (∀ (a : Option (List Nat)) (x y p : Nat) (s : State),
        (∀ j, j < 32 → (s.game.animations j).commandStream ≠ none) →
        TriggerAnimation a x y p s = (s, -1)) ∧
    (∀ (cs : List (List Nat × Nat × Nat × Nat)) (s : State), cs.length = 33 →
        (∀ j, j < 32 → (s.game.animations j).commandStream = none) →
        (triggerAll cs s).2 = (List.range 32).map (fun n => (n : Int)) ++ [-1]) := by
  refine ⟨?_, ?_, ?_⟩
  · intro a x y p s i hi hfree hocc
    have h := TriggerAnimation.loop_free a x y p s 32 0 i (Nat.zero_le _) (by omega) hfree
      (fun j _ hj => hocc j hj)
    have h2 : TriggerAnimation a x y p s = _ := h
    rw [h2]
    refine ⟨rfl, ?_, ?_⟩
    · exact setAnim_animations_same _ _ _
    · intro j hj
      exact setAnim_animations_ne _ _ _ _ hj
  · intro a x y p s hfull
    exact TriggerAnimation.loop_full a x y p s 32 0 (fun j _ hj => hfull j (by omega))
  · intro cs s hlen hfree
    have h := triggerAll_from cs 0 s (by omega) (fun j hj => absurd hj (by omega))
      (fun j _ hj => hfree j hj)
    rw [h, hlen]
    decide

/-- Witness of C1: the brick animation fits the first slot of the zero-initialised pool, a
full pool is left alone, and 33 calls with `x = 5, y = 5, param = 0` on the empty pool give
0..31 and then -1. -/
theorem C1_TriggerAnimation_first_free_slot_witness :
    (TriggerAnimation (some anim_fire) 5 5 0 State.zero).2 = 0 ∧
    (triggerAll (List.replicate 33 (anim_fire, 5, 5, 0)) State.zero).2
      = (List.range 32).map (fun n => (n : Int)) ++ [-1] :=
  ⟨(C1_TriggerAnimation_first_free_slot.1 (some anim_fire) 5 5 0 State.zero 0 (by decide) rfl
      (fun j hj => absurd hj (by omega))).1,
   C1_TriggerAnimation_first_free_slot.2.2 (List.replicate 33 (anim_fire, 5, 5, 0)) State.zero
      (by simp) (fun _ _ => rfl)⟩

/-- C2 (failing input): with the last group of `anim_fire` in slot 0 and `anim_destroyBrick`
waiting with delay 15 in slot 1, one call of `ProcessAnimations` frees slot 0 and returns:
slot 1 is occupied with a positive delay, and its delay is still 15, not 14. -/
theorem C2_ProcessAnimations_returns_at_terminator :
    ((C2_state.game.animations 1).commandStream ≠ none ∧ (C2_state.game.animations 1).delay = 15) ∧
    (ProcessAnimations K0 C2_state).map
      (fun s => ((s.game.animations 0).commandStream, (s.game.animations 1).delay))
      = some (none, 15) := by
  decide

end Animation

section Gold

/-- C3 (failing input): gold 0 is Collected, an enemy falls past its cell while the tile at
its feet is the gold tile of the cell below; after the enemy's tick gold 0 is Captured. -/
theorem C3_collected_gold_captured_again :
    (C3_state.game.gold 0).state = GOLD_STATE_COLLECTED ∧
    ((ProcessPlayer K0 Input.idle 0 C3_state).game.gold 0).state = GOLD_STATE_CAPTURED ∧
    ((ProcessPlayer K0 Input.idle 0 C3_state).player 0).capturedGoldId = 0 := by
  decide

/-- C5 (failing input): the tile at the enemy's feet is a gold tile, no gold record lies at
its cell ((x+4)/8, y/12) = (16, 5), so the search ends with `goldId = -1`; the enemy has
released gold 0 before, `-1 != lastCapturedGoldId`, and the capture branch runs: it writes
`game.gold[-1].state`, starts the release delay and clears the tile of cell (16, 5). -/
theorem C5_capture_writes_gold_minus_one :
    ProcessEnemy.findGold C5_state.game 16 5 C5_state.game.goldCount 0 = -1 ∧
    (C5_state.game.gold (-1)).state = GOLD_STATE_VISIBLE ∧
    ((ProcessPlayer K0 Input.idle 0 C5_state).game.gold (-1)).state = GOLD_STATE_CAPTURED ∧
    ((ProcessPlayer K0 Input.idle 0 C5_state).player 0).capturedGoldId = -1 ∧
    ((ProcessPlayer K0 Input.idle 0 C5_state).player 0).capturedGoldDelay = 120 := by
  decide

/-- C6 (failing input): an enemy whose action at dispatch is Fall still runs `ProcessEnemy`:
its release delay is decremented from 5 to 4 in that tick (and `Fall` runs afterwards), and
the intent handed to the dispatch is the one `Ai` returns, not 0. -/
theorem C6_ProcessEnemy_runs_during_Fall :
    (C6_state.player 0).action = ACTION_FALL ∧
    (C6_state.player 0).capturedGoldDelay = 5 ∧
    ((ProcessPlayer K0 Input.idle 0 C6_state).player 0).capturedGoldDelay = 4 ∧
    ((ProcessPlayer K0 Input.idle 0 C6_state).player 0).action = ACTION_FALL ∧
    (ProcessEnemy K0 { Input.idle with ai := { (default : AiResult) with joy := K0.BTN_LEFT } } 0
      C6_state).2 = K0.BTN_LEFT := by
  decide

/-- C4 (failing input): level `C4_level` played with the joypad readings `C4_joys`. The
player picks up the gold of cell (10, 5) in frame 5 (`goldCollected` = 1); in frame 68 the
enemy, falling past that cell with the gold tile of cell (10, 6) at its feet, captures the
Collected record; it lands, drops the gold in frame 189, and the player, falling down the
same column, picks up the gold of (10, 6) and then the dropped one: after frame 227
`goldCollected` is 3 with `goldCount` 2, and the level has not ended. -/
theorem C4_goldCollected_exceeds_goldCount :
    (C4_run 67).map (fun s => ((s.game.gold 0).state, s.game.goldCollected))
      = some (GOLD_STATE_COLLECTED, 1) ∧
    (C4_run 68).map (fun s => ((s.game.gold 0).state, s.game.goldCollected))
      = some (GOLD_STATE_CAPTURED, 1) ∧
    (C4_run 227).map (fun s => (s.game.goldCollected, s.game.goldCount, (s.player 5).died,
        s.game.levelComplete, s.game.levelQuit, s.game.levelRestart))
      = some (3, 2, false, false, false, false) := by
  decide!

end Gold

section Fire

theorem Fire.tail_frame (id : Nat) (s : State) :
    ((Fire.tail id s).player id).frame = ((s.player id).frame + 1) % 256 := by
  unfold Fire.tail
  by_cases h : ((s.player id).frame + 1) % 256 = 25 <;> simp [h]

theorem Fire.tail_action (id : Nat) (s : State) :
    ((Fire.tail id s).player id).action =
      if ((s.player id).frame + 1) % 256 = 25 then ACTION_WALK else (s.player id).action := by
  unfold Fire.tail
  by_cases h : ((s.player id).frame + 1) % 256 = 25 <;> simp [h]

theorem Fire.tail_lastAction (id : Nat) (s : State) :
    ((Fire.tail id s).player id).lastAction =
      if ((s.player id).frame + 1) % 256 = 25 then ACTION_NONE else (s.player id).lastAction := by
  unfold Fire.tail
  by_cases h : ((s.player id).frame + 1) % 256 = 25 <;> simp [h]

@[simp] theorem Fire.shoot_player (K : Consts) (id x y : Nat) (s : State) :
    (Fire.shoot K id x y s).player = s.player := by
  simp [Fire.shoot]

/-- When the frame counter does not reach 25, the tail of `Fire` only counts the frame. -/
theorem Fire.tail_of_ne (id : Nat) (s : State) (h : ((s.player id).frame + 1) % 256 ≠ 25) :
    Fire.tail id s = setPlayer s id (fun p => { p with frame := (p.frame + 1) % 256 }) := by
  unfold Fire.tail
  simp [h]

/-- C8 (counterexample): the player enters `Fire` facing right, the feet-tile 8 px ahead is
not blocking and the tile under that spot is Unbreakable; after the call the action is
Fire (not Walk), the firing sprite is set and the beam animation sits in slot 0. -/
theorem C8_unbreakable_does_not_abort :
    (C8_state.player 5).lastAction ≠ ACTION_FIRE ∧
    IsTileBlocking K0 (GetTileAtFeet K0 C8_state.vram (64 + 8) 60) = false ∧
    GetTileUnder K0 C8_state.vram (64 + 8) 60 = K0.TILE_UNBREAKABLE ∧
    ((Fire K0 5 C8_state).player 5).action = ACTION_FIRE ∧
    ((Fire K0 5 C8_state).sprites 10).tileIndex = SPR_FIRE ∧
    ((Fire K0 5 C8_state).game.animations 0) = Animation.bound (some anim_fire) 72 60 11 := by
  decide

/-- C8 (amended): on entry to `Fire` with a non-blocking feet-tile 8 px ahead, an
Unbreakable tile under the spot 8 px ahead does not abort: the action stays Fire, the
firing sprite is set and the beam animation is requested (and no brick animation); the
abort back to Walk, with sprites and animation pool untouched, happens when that tile is
neither Unbreakable nor Breakable. -/
theorem C8_Fire_on_unbreakable_or_other (K : Consts) (id : Nat) (s : State)
    (hK : K.TILE_BREAKABLE ≠ K.TILE_UNBREAKABLE)
    (hentry : (s.player id).lastAction ≠ ACTION_FIRE)
    (hfeet : IsTileBlocking K (GetTileAtFeet K s.vram
      (u8 ((u8 (px (s.player id).x) : Int) + (if (s.player id).dir = 1 then 8 else -8)))
      (u8 (px (s.player id).y))) = false) :
    (GetTileUnder K s.vram
        (u8 ((u8 (px (s.player id).x) : Int) + (if (s.player id).dir = 1 then 8 else -8)))
        (u8 (px (s.player id).y)) = K.TILE_UNBREAKABLE →
      ((Fire K id s).player id).action = ACTION_FIRE ∧
      ((Fire K id s).sprites (s.player id).spriteIndex).tileIndex = SPR_FIRE ∧
      (Fire K id s).game.animations =
        (TriggerAnimation (some anim_fire)
          (u8 ((u8 (px (s.player id).x) : Int) + (if (s.player id).dir = 1 then 8 else -8)))
          (u8 (px (s.player id).y)) (u8 ((s.player id).spriteIndex + 1 : Nat)) s).1.game.animations) ∧
    (GetTileUnder K s.vram
        (u8 ((u8 (px (s.player id).x) : Int) + (if (s.player id).dir = 1 then 8 else -8)))
        (u8 (px (s.player id).y)) ≠ K.TILE_UNBREAKABLE →
      GetTileUnder K s.vram
        (u8 ((u8 (px (s.player id).x) : Int) + (if (s.player id).dir = 1 then 8 else -8)))
        (u8 (px (s.player id).y)) ≠ K.TILE_BREAKABLE →
      ((Fire K id s).player id).action = ACTION_WALK ∧
      (Fire K id s).sprites = s.sprites ∧
      (Fire K id s).game.animations = s.game.animations) := by
  constructor
  · intro hu
    have hne : ¬ (K.TILE_UNBREAKABLE = K.TILE_BREAKABLE) := fun h => hK h.symm
    unfold Fire
    simp only [hentry, ne_eq, not_false_eq_true, if_true, setPlayer_player, Function.update_same,
      setPlayer_vram, hfeet, hu, hne, false_and, and_false, if_false, Bool.false_eq_true,
      not_true_eq_false]
    rw [Fire.tail_of_ne]
    · refine ⟨by simp, ?_, ?_⟩
      · simp [Fire.shoot]
      · simp only [Fire.shoot, setPlayer_game, setSprite_player, setPlayer_player,
          Function.update_same]
        exact TriggerAnimation_animations_congr _ _ _ _ _ _ rfl
    · simp
  · intro hu hb
    unfold Fire
    simp [hentry, hfeet, hu, hb]

/-- Witness of C8 (amended): the player facing right with an Unbreakable tile under the
spot ahead keeps the action Fire. -/
theorem C8_Fire_on_unbreakable_or_other_witness :
    K0.TILE_BREAKABLE ≠ K0.TILE_UNBREAKABLE ∧
    (C8_state.player 5).lastAction ≠ ACTION_FIRE ∧
    ((Fire K0 5 C8_state).player 5).action = ACTION_FIRE ∧
    ((Fire K0 5 C8_state).sprites (C8_state.player 5).spriteIndex).tileIndex = SPR_FIRE :=
  ⟨by decide, by decide,
   ((C8_Fire_on_unbreakable_or_other K0 5 C8_state (by decide) (by decide) (by decide)).1
      (by decide)).1,
   ((C8_Fire_on_unbreakable_or_other K0 5 C8_state (by decide) (by decide) (by decide)).1
      (by decide)).2.1⟩

/-- A started `Fire` leaves the frame counter at 1 and `lastAction` at Fire. -/
theorem Fire_entry_started (K : Consts) (id : Nat) (s : State)
    (hentry : (s.player id).lastAction ≠ ACTION_FIRE)
    (hstart : ((Fire K id s).player id).action = ACTION_FIRE) :
    ((Fire K id s).player id).frame = 1 ∧ ((Fire K id s).player id).lastAction = ACTION_FIRE := by
  have hw : ACTION_WALK ≠ ACTION_FIRE := by decide
  unfold Fire at hstart ⊢
  simp only [hentry, ne_eq, not_false_eq_true, if_true] at hstart ⊢
  split_ifs at hstart ⊢ <;>
    simp_all [Fire.tail_frame, Fire.tail_action, Fire.tail_lastAction]

theorem dispatch_Fire (K : Consts) (inp : Input) (joy id : Nat) (s : State)
    (h : (s.player id).action = ACTION_FIRE) :
    ProcessPlayer.dispatch K inp joy id s = Fire K id s := by
  simp [ProcessPlayer.dispatch, h, ACTION_FIRE, ACTION_WALK, ACTION_FALL, ACTION_CLIMB,
    ACTION_CLING]

theorem Fire_running (K : Consts) (id : Nat) (t : State)
    (ha : (t.player id).action = ACTION_FIRE) (hl : (t.player id).lastAction = ACTION_FIRE) :
    ((Fire K id t).player id).frame = ((t.player id).frame + 1) % 256 ∧
    ((Fire K id t).player id).action
      = (if ((t.player id).frame + 1) % 256 = 25 then ACTION_WALK else ACTION_FIRE) ∧
    ((Fire K id t).player id).lastAction
      = (if ((t.player id).frame + 1) % 256 = 25 then ACTION_NONE else ACTION_FIRE) := by
  unfold Fire
  simp [hl, Fire.tail_frame, Fire.tail_action, Fire.tail_lastAction, ha]

/-- While `Fire` runs, each dispatch counts one frame, whatever the input; the action is
Fire until the counter reaches 25. -/
theorem dispatchAll_Fire (K : Consts) (id : Nat) (ticks : List (Input × Nat)) :
    ∀ (t : State), (t.player id).action = ACTION_FIRE → (t.player id).lastAction = ACTION_FIRE →
      (t.player id).frame + ticks.length ≤ 25 → 1 ≤ (t.player id).frame →
      ((t.player id).frame + ticks.length < 25 →
        ((dispatchAll K id ticks t).player id).action = ACTION_FIRE) ∧
      ((t.player id).frame + ticks.length = 25 → 0 < ticks.length →
        ((dispatchAll K id ticks t).player id).action = ACTION_WALK ∧
        ((dispatchAll K id ticks t).player id).lastAction = ACTION_NONE) := by
  induction ticks with
  | nil => intro t ha _ _ _; exact ⟨fun _ => ha, fun _ h => absurd h (by simp)⟩
  | cons c cs ih =>
    intro t ha hl hlen hpos
    simp only [List.length_cons] at hlen ⊢
    simp only [dispatchAll, dispatch_Fire K c.1 c.2 id t ha]
    obtain ⟨hf, hact, hlast⟩ := Fire_running K id t ha hl
    have hmod : ((t.player id).frame + 1) % 256 = (t.player id).frame + 1 :=
      Nat.mod_eq_of_lt (by omega)
    rw [hmod] at hf hact hlast
    by_cases h25 : (t.player id).frame + 1 = 25
    · have hcs : cs.length = 0 := by omega
      have hnil : cs = [] := List.length_eq_zero.mp hcs
      subst hnil
      simp only [h25, if_true] at hact hlast
      refine ⟨fun h => by simp at h; omega, fun _ _ => ⟨?_, ?_⟩⟩
      · simpa [dispatchAll] using hact
      · simpa [dispatchAll] using hlast
    · simp only [h25, if_false] at hact hlast
      have := ih (Fire K id t) hact hlast (by rw [hf]; omega) (by rw [hf]; omega)
      rw [hf] at this
      refine ⟨fun h => this.1 (by omega), fun h _ => this.2 (by omega) ?_⟩
      by_contra hc
      have : cs.length = 0 := by omega
      omega

end Fire

section LastAction

@[simp] theorem RoundYpos_lastAction (id : Nat) (s : State) :
    ((RoundYpos id s).player id).lastAction = (s.player id).lastAction := by
  simp [RoundYpos]

theorem Walk_lastAction (K : Consts) (id : Nat) (dir : Int) (s : State) :
    ((Walk K id dir s).player id).lastAction = ACTION_WALK := by
  simp only [Walk, Walk.finish, setPlayer_player, Function.update_same]

theorem Cling_lastAction (K : Consts) (id : Nat) (dir : Int) (s : State) :
    ((Cling K id dir s).player id).lastAction = ACTION_CLING := by
  simp only [Cling, setPlayer_player, Function.update_same]

theorem InHole_lastAction (K : Consts) (id : Nat) (s : State) :
    ((InHole K id s).player id).lastAction = ACTION_INHOLE := by
  simp only [InHole, setPlayer_player, Function.update_same]

theorem Die_lastAction (K : Consts) (id : Nat) (s : State) :
    ((Die K id s).player id).lastAction = ACTION_DIE := by
  unfold Die
  by_cases h : (s.player id).lastAction = ACTION_DIE
  · simp only [h, ne_eq, not_true_eq_false, if_false]
    split_ifs <;> simp [h]
  · simp only [h, ne_eq, not_false_eq_true, if_true]
    split_ifs <;> simp

theorem Respawn_lastAction (rnd id : Nat) (s : State) :
    ((Respawn rnd id s).player id).lastAction = ACTION_RESPAWN := by
  unfold Respawn
  by_cases h : (s.player id).lastAction = ACTION_RESPAWN
  · simp only [h, ne_eq, not_true_eq_false, if_false]
    split_ifs <;> simp [h]
  · simp only [h, ne_eq, not_false_eq_true, if_true]
    split_ifs <;> simp

/-- `Fire` leaves `lastAction` at Fire, except on the frame that ends it. -/
theorem Fire_lastAction (K : Consts) (id : Nat) (s : State) :
    ((Fire K id s).player id).lastAction =
      if (s.player id).lastAction = ACTION_FIRE ∧ ((s.player id).frame + 1) % 256 = 25
      then ACTION_NONE else ACTION_FIRE := by
  unfold Fire
  by_cases h : (s.player id).lastAction = ACTION_FIRE
  · simp [h, Fire.tail_lastAction]
  · simp only [h, ne_eq, not_false_eq_true, if_true, false_and, if_false]
    split_ifs <;> simp [Fire.tail_lastAction]

/-- `Fall` leaves `lastAction` unchanged (an enemy dropping into a hole), at Walk (landing
on a blocking tile), at Cling (catching a rope) or at Fall. -/
theorem Fall_lastAction (K : Consts) (id : Nat) (s : State) :
    ((Fall K id s).player id).lastAction = (s.player id).lastAction ∨
    ((Fall K id s).player id).lastAction = ACTION_WALK ∨
    ((Fall K id s).player id).lastAction = ACTION_CLING ∨
    ((Fall K id s).player id).lastAction = ACTION_FALL := by
  simp only [Fall]
  split_ifs <;> simp [Walk_lastAction, EndFall]

theorem Climb.entry_lastAction (id : Nat) (s : State) :
    ((Climb.entry id s).player id).lastAction = (s.player id).lastAction := by
  simp only [Climb.entry]
  split_ifs <;> simp

/-- `Climb` leaves `lastAction` at Climb, or unchanged when it returns on the level
exit. -/
theorem Climb_lastAction (K : Consts) (id : Nat) (dir : Int) (s : State) :
    ((Climb K id dir s).player id).lastAction = (s.player id).lastAction ∨
    ((Climb K id dir s).player id).lastAction = ACTION_CLIMB := by
  have he := Climb.entry_lastAction id s
  simp only [Climb]
  generalize Climb.entry id s = t at he ⊢
  split_ifs <;> simp [Climb.finish, he]

/-- C7 (counterexample): the player starts a tick with action Fire on the 25th frame of
`Fire`; at the start of the next tick `lastAction` is None, not Fire. That next tick starts
with action Walk and no input, and leaves `lastAction` at None, not Walk. -/
theorem C7_lastAction_differs_from_previous_action :
    (C7_state.player 5).active = true ∧
    (C7_state.player 5).action = ACTION_FIRE ∧
    ((ProcessPlayer K0 Input.idle 5 C7_state).player 5).lastAction = ACTION_NONE ∧
    ((ProcessPlayer K0 Input.idle 5 C7_state).player 5).action = ACTION_WALK ∧
    ((ProcessPlayer K0 Input.idle 5
        (ProcessPlayer K0 Input.idle 5 C7_state)).player 5).lastAction = ACTION_NONE := by
  decide

/-- C7 (amended): after the dispatch of a tick, `lastAction` is the id of the handler that
ran last, not in general the action dispatched. It equals the dispatched action for Die,
InHole and Respawn, and for Fire except on the 25th frame, where it is None. When Walk is
dispatched it is unchanged (no handler ran), Fire or None, Walk, or Climb; for Fall it is
unchanged, Walk, Cling or Fall; for Climb unchanged, Walk or Climb; for Cling unchanged,
Cling, Walk or Fall. -/
theorem C7_lastAction_is_last_handler (K : Consts) (inp : Input) (joy id : Nat) (s : State) :
    ((s.player id).action = ACTION_DIE →
      ((ProcessPlayer.dispatch K inp joy id s).player id).lastAction = ACTION_DIE) ∧
    ((s.player id).action = ACTION_INHOLE →
      ((ProcessPlayer.dispatch K inp joy id s).player id).lastAction = ACTION_INHOLE) ∧
    ((s.player id).action = ACTION_RESPAWN →
      ((ProcessPlayer.dispatch K inp joy id s).player id).lastAction = ACTION_RESPAWN) ∧
    ((s.player id).action = ACTION_FIRE →
      ((ProcessPlayer.dispatch K inp joy id s).player id).lastAction =
        if (s.player id).lastAction = ACTION_FIRE ∧ ((s.player id).frame + 1) % 256 = 25
        then ACTION_NONE else ACTION_FIRE) ∧
    ((s.player id).action = ACTION_WALK →
      ((ProcessPlayer.dispatch K inp joy id s).player id).lastAction ∈
        [(s.player id).lastAction, ACTION_FIRE, ACTION_NONE, ACTION_WALK, ACTION_CLIMB]) ∧
    ((s.player id).action = ACTION_FALL →
      ((ProcessPlayer.dispatch K inp joy id s).player id).lastAction ∈
        [(s.player id).lastAction, ACTION_WALK, ACTION_CLING, ACTION_FALL]) ∧
    ((s.player id).action = ACTION_CLIMB →
      ((ProcessPlayer.dispatch K inp joy id s).player id).lastAction ∈
        [(s.player id).lastAction, ACTION_WALK, ACTION_CLIMB]) ∧
    ((s.player id).action = ACTION_CLING →
      ((ProcessPlayer.dispatch K inp joy id s).player id).lastAction ∈
        [(s.player id).lastAction, ACTION_CLING, ACTION_WALK, ACTION_FALL]) := by
  have hfire := Fire_lastAction K id s
  have hfall := Fall_lastAction K id s
  refine ⟨?_, ?_, ?_, ?_, ?_, ?_, ?_, ?_⟩
  · intro h
    simp [ProcessPlayer.dispatch, h, ACTION_DIE, ACTION_WALK, ACTION_FALL, ACTION_CLIMB,
      ACTION_CLING, ACTION_FIRE]
    exact Die_lastAction K id s
  · intro h
    simp [ProcessPlayer.dispatch, h, ACTION_DIE, ACTION_WALK, ACTION_FALL, ACTION_CLIMB,
      ACTION_CLING, ACTION_FIRE, ACTION_INHOLE]
    exact InHole_lastAction K id s
  · intro h
    simp [ProcessPlayer.dispatch, h, ACTION_DIE, ACTION_WALK, ACTION_FALL, ACTION_CLIMB,
      ACTION_CLING, ACTION_FIRE, ACTION_INHOLE, ACTION_RESPAWN]
    exact Respawn_lastAction inp.rnd id s
  · intro h
    rw [dispatch_Fire K inp joy id s h]
    exact hfire
  · intro h
    simp only [ProcessPlayer.dispatch, h, if_true]
    split_ifs
    · rw [hfire]; split_ifs <;> simp
    · simp [Walk_lastAction]
    · simp [Walk_lastAction]
    · rcases Climb_lastAction K id (-1) s with h1 | h1 <;> simp [h1]
    · simp
    · rcases Climb_lastAction K id 1 s with h1 | h1 <;> simp [h1]
    · simp
    · simp
  · intro h
    have : ProcessPlayer.dispatch K inp joy id s = Fall K id s := by
      simp [ProcessPlayer.dispatch, h, ACTION_WALK, ACTION_FALL]
    rw [this]
    rcases hfall with h1 | h1 | h1 | h1 <;> simp [h1]
  · intro h
    have h0 : ¬ (ACTION_CLIMB = ACTION_WALK) := by decide
    have h1 : ¬ (ACTION_CLIMB = ACTION_FALL) := by decide
    simp only [ProcessPlayer.dispatch, h, h0, h1, if_false, if_true]
    split_ifs
    · simp [Walk_lastAction]
    · simp [Walk_lastAction]
    · rcases Climb_lastAction K id (-1) s with h1 | h1 <;> simp [h1]
    · rcases Climb_lastAction K id 1 s with h1 | h1 <;> simp [h1]
    · simp
  · intro h
    have h0 : ¬ (ACTION_CLING = ACTION_WALK) := by decide
    have h1 : ¬ (ACTION_CLING = ACTION_FALL) := by decide
    have h2 : ¬ (ACTION_CLING = ACTION_CLIMB) := by decide
    simp only [ProcessPlayer.dispatch, h, h0, h1, h2, if_false, if_true]
    split_ifs
    · simp [Cling_lastAction]
    · simp [Cling_lastAction]
    · rcases hfall with h1 | h1 | h1 | h1 <;> simp [h1]
    · simp

/-- Witness of C7 (amended): the dispatch of Fire on its 25th frame leaves `lastAction` at
None. -/
theorem C7_lastAction_is_last_handler_witness :
    (C7_state.player 5).action = ACTION_FIRE ∧
    ((ProcessPlayer.dispatch K0 Input.idle 0 5 C7_state).player 5).lastAction = ACTION_NONE := by
  refine ⟨by decide, ?_⟩
  rw [(C7_lastAction_is_last_handler K0 Input.idle 0 5 C7_state).2.2.2.1 (by decide)]
  decide

end LastAction

section WalkFrame

@[simp] theorem RoundYpos_game (id : Nat) (s : State) : (RoundYpos id s).game = s.game := rfl
@[simp] theorem RoundYpos_vram (id : Nat) (s : State) : (RoundYpos id s).vram = s.vram := rfl
@[simp] theorem RoundYpos_sprites (id : Nat) (s : State) :
    (RoundYpos id s).sprites = s.sprites := rfl
@[simp] theorem RoundYpos_player (id : Nat) (s : State) :
    (RoundYpos id s).player = Function.update s.player id
      { s.player id with y := (Int.tdiv (px (s.player id).y) TILE_HEIGHT * TILE_HEIGHT) * 256 } := rfl

@[simp] theorem Walk.entry_game (id : Nat) (s : State) : (Walk.entry id s).game = s.game := by
  simp only [Walk.entry]
  split_ifs <;> rfl

@[simp] theorem Walk.entry_vram (id : Nat) (s : State) : (Walk.entry id s).vram = s.vram := by
  simp only [Walk.entry]
  split_ifs <;> rfl

@[simp] theorem Walk.entry_sprites (id : Nat) (s : State) :
    (Walk.entry id s).sprites = s.sprites := by
  simp only [Walk.entry]
  split_ifs <;> rfl

theorem Walk.entry_player_ne (id : Nat) (s : State) (j : Nat) (hj : j ≠ id) :
    (Walk.entry id s).player j = s.player j := by
  simp only [Walk.entry]
  split_ifs <;> simp [Function.update_noteq hj]

@[simp] theorem Walk.move_game (K : Consts) (id : Nat) (dir nx : Int) (ny h f : Nat) (s : State) :
    (Walk.move K id dir nx ny h f s).game = s.game := by
  simp only [Walk.move]
  split_ifs <;> rfl

@[simp] theorem Walk.move_vram (K : Consts) (id : Nat) (dir nx : Int) (ny h f : Nat) (s : State) :
    (Walk.move K id dir nx ny h f s).vram = s.vram := by
  simp only [Walk.move]
  split_ifs <;> rfl

@[simp] theorem Walk.move_sprites (K : Consts) (id : Nat) (dir nx : Int) (ny h f : Nat)
    (s : State) : (Walk.move K id dir nx ny h f s).sprites = s.sprites := by
  simp only [Walk.move]
  split_ifs <;> rfl

theorem Walk.move_player_ne (K : Consts) (id : Nat) (dir nx : Int) (ny h f : Nat) (s : State)
    (j : Nat) (hj : j ≠ id) : (Walk.move K id dir nx ny h f s).player j = s.player j := by
  simp only [Walk.move]
  split_ifs <;> simp [Function.update_noteq hj]

@[simp] theorem Walk_game (K : Consts) (id : Nat) (dir : Int) (s : State) :
    (Walk K id dir s).game = s.game := by
  simp only [Walk, Walk.finish]
  split_ifs <;> simp

@[simp] theorem Walk_vram (K : Consts) (id : Nat) (dir : Int) (s : State) :
    (Walk K id dir s).vram = s.vram := by
  simp only [Walk, Walk.finish]
  split_ifs <;> simp

theorem Walk_player_ne (K : Consts) (id : Nat) (dir : Int) (s : State) (j : Nat) (hj : j ≠ id) :
    (Walk K id dir s).player j = s.player j := by
  simp only [Walk, Walk.finish]
  split_ifs <;> simp [Function.update_noteq hj, Walk.move_player_ne _ _ _ _ _ _ _ _ _ hj,
    Walk.entry_player_ne _ _ _ hj]

end WalkFrame

section Solid

/-- C12 (evaluation): the player at pixel (84, 60) asks about the tile under it, a brick in
its destroy animation at cell (11, 6); the active enemy 0 is at the same pixel X, 12 px
lower, in the cell that `GetTileAtFeet` gives for it, the one `GetTileUnder` gives for the
player. `IsTileSolid` compares column `(84 + 4) >> 3 = 11` of the player with column
`84 >> 3 = 10` of the enemy and returns false. -/
theorem C12_enemy_directly_below_not_seen :
    (C12_state.player 0).active = true ∧
    px (C12_state.player 0).x = px (C12_state.player 5).x ∧
    px (C12_state.player 0).y = px (C12_state.player 5).y + 12 ∧
    GetTileUnder K0 C12_state.vram (u8 (px (C12_state.player 5).x))
      (u8 (px (C12_state.player 5).y)) = K0.TILE_DESTROY1 ∧
    GetTileAtFeet K0 C12_state.vram (u8 (px (C12_state.player 0).x))
      (u8 (px (C12_state.player 0).y)) = K0.TILE_DESTROY1 ∧
    IsTileSolid K0 C12_state.player K0.TILE_DESTROY1 5 = false := by
  decide

end Solid

section WalkBlocked

theorem Walk.entry_x (id : Nat) (s : State) :
    ((Walk.entry id s).player id).x = (s.player id).x := by
  simp only [Walk.entry]
  split_ifs <;> simp

theorem Walk.entry_playerSpeed (id : Nat) (s : State) :
    ((Walk.entry id s).player id).playerSpeed = (s.player id).playerSpeed := by
  simp only [Walk.entry]
  split_ifs <;> simp

theorem Walk.entry_frame (id : Nat) (s : State) :
    ((Walk.entry id s).player id).frame
      = if (s.player id).lastAction = ACTION_WALK then (s.player id).frame else 0 := by
  simp only [Walk.entry]
  split_ifs <;> simp_all

theorem Walk.entry_y (id : Nat) (s : State) :
    ((Walk.entry id s).player id).y
      = if (s.player id).lastAction = ACTION_CLIMB ∧
          |(u16 (Int.tdiv (px (s.player id).y) TILE_HEIGHT * TILE_HEIGHT) : Int)
            - px (s.player id).y| ≤ 4
        then ((u16 (Int.tdiv (px (s.player id).y) TILE_HEIGHT * TILE_HEIGHT) : Int) % 256) * 256
        else (s.player id).y := by
  simp only [Walk.entry]
  split_ifs <;> simp_all

/-- C19 (counterexample): the player on a ladder at pixel (64, 62), frame counter 0x20, walks
right against a wall. The step is blocked, and the call changes `y` (0x3E00 to 0x3C00, the
"round corner" of the entry block) and the frame counter (0x20 to 0). -/
theorem C19_blocked_Walk_changes_y_and_frame :
    IsTileBlocking K0 (GetTileOnSide K0 C19_state.vram
      (u8 (px ((C19_state.player 5).x + (C19_state.player 5).playerSpeed * 1)))
      (u8 (px (C19_state.player 5).y)) 1) = true ∧
    ((Walk K0 5 1 C19_state).player 5).x = (C19_state.player 5).x ∧
    (C19_state.player 5).y = 0x3E00 ∧ ((Walk K0 5 1 C19_state).player 5).y = 0x3C00 ∧
    (C19_state.player 5).frame = 0x20 ∧ ((Walk K0 5 1 C19_state).player 5).frame = 0 := by
  decide

/-- C19 (amended): when the step of `Walk(id, dir)` is blocked (the test is made at the
candidate X and the Y left by the entry block), `x` is unchanged, `action` and `lastAction`
are Walk, an enemy faces `-dir` and the player `dir`; the frame counter is unchanged when
the last handler was Walk and 0 otherwise; `y` is unchanged unless the last handler was Climb
and the pixel Y is within 4 px above its tile boundary, where it is set to that boundary. -/
theorem C19_Walk_blocked (K : Consts) (id : Nat) (dir : Int) (s : State)
    (hblocked : ¬ ((px ((s.player id).x + (s.player id).playerSpeed * dir) ≥ 0 ∧
        px ((s.player id).x + (s.player id).playerSpeed * dir)
          < ((K.SCREEN_TILES_H * TILE_WIDTH : Nat) : Int)) ∧
      ¬ IsTileBlocking K (GetTileOnSide K s.vram
          (u8 (px ((s.player id).x + (s.player id).playerSpeed * dir)))
          (u8 (px ((Walk.entry id s).player id).y)) dir))) :
    ((Walk K id dir s).player id).x = (s.player id).x ∧
    ((Walk K id dir s).player id).action = ACTION_WALK ∧
    ((Walk K id dir s).player id).lastAction = ACTION_WALK ∧
    ((Walk K id dir s).player id).dir = (if id < SPR_INDEX_PLAYER then -dir else dir) ∧
    ((Walk K id dir s).player id).frame
      = (if (s.player id).lastAction = ACTION_WALK then (s.player id).frame else 0) ∧
    ((Walk K id dir s).player id).y
      = (if (s.player id).lastAction = ACTION_CLIMB ∧
          |(u16 (Int.tdiv (px (s.player id).y) TILE_HEIGHT * TILE_HEIGHT) : Int)
            - px (s.player id).y| ≤ 4
        then ((u16 (Int.tdiv (px (s.player id).y) TILE_HEIGHT * TILE_HEIGHT) : Int) % 256) * 256
        else (s.player id).y) := by
  have hx := Walk.entry_x id s
  have hsp := Walk.entry_playerSpeed id s
  have hf := Walk.entry_frame id s
  have hy := Walk.entry_y id s
  have hv := Walk.entry_vram id s
  rw [← hy, ← hf, ← hx]
  rw [← hx, ← hsp, ← hv] at hblocked
  simp only [Walk]
  generalize Walk.entry id s = t at hblocked ⊢
  simp only [Walk.finish, setPlayer_player, setPlayer_vram, Function.update_same,
    if_neg hblocked]
  split_ifs <;> simp

/-- Witness of C19 (amended): the player of `C19_state`, blocked by the wall to its right. -/
theorem C19_Walk_blocked_witness :
    ((Walk K0 5 1 C19_state).player 5).x = 0x4000 ∧
    ((Walk K0 5 1 C19_state).player 5).action = ACTION_WALK ∧
    ((Walk K0 5 1 C19_state).player 5).dir = 1 ∧
    ((Walk K0 5 1 C19_state).player 5).frame = 0 ∧
    ((Walk K0 5 1 C19_state).player 5).y = 0x3C00 := by
  have h := C19_Walk_blocked K0 5 1 C19_state (by decide)
  refine ⟨h.1, h.2.1, ?_, ?_, ?_⟩
  · rw [h.2.2.2.1]; decide
  · rw [h.2.2.2.2.1]; decide
  · rw [h.2.2.2.2.2]; decide

end WalkBlocked

section Landing


/-- C11 (counterexample): two entities over a blocking tile whose call of `Fall` ends in
Cling. Enemy 0 is in Fall right after `Respawn`, its feet cell is not a hole and the tile
under it is a brick; the player drops from a rope that hangs directly over a brick (Down
pressed in Cling, which dispatches `Fall`). In both the landing replays `Walk(id, 0)`, which
finds a rope at the head and turns the action into Cling. -/
theorem C11_landing_under_rope_ends_in_Cling :
    (C11_state.player 0).action = ACTION_FALL ∧
    IsTileHole K0 (GetTileAtFeet K0 C11_state.vram (u8 (px (C11_state.player 0).x))
      ((u8 (px (C11_state.player 0).y) / 12 * 12) % 256)) = false ∧
    IsTileBlocking K0 (GetTileUnder K0 C11_state.vram (u8 (px (C11_state.player 0).x))
      (u8 (px (C11_state.player 0).y))) = true ∧
    ((Fall K0 0 C11_state).player 0).action = ACTION_CLING ∧
    IsTileBlocking K0 (GetTileUnder K0 C11_state_rope.vram (u8 (px (C11_state_rope.player 5).x))
      (u8 (px (C11_state_rope.player 5).y))) = true ∧
    ProcessPlayer.dispatch K0 Input.idle K0.BTN_DOWN 5 C11_state_rope = Fall K0 5 C11_state_rope ∧
    ((Fall K0 5 C11_state_rope).player 5).action = ACTION_CLING := by
  refine ⟨by decide, by decide, by decide, by decide, by decide, ?_, by decide⟩
  rfl


theorem IsTileSolid_of_blocking (K : Consts) (pl : Nat → Player) (tile id : Nat)
    (h : IsTileBlocking K tile = true) : IsTileSolid K pl tile id = true := by
  simp only [IsTileBlocking, decide_eq_true_eq] at h
  simp only [IsTileSolid]
  rcases h with h | h | h <;> simp [h]

/-- The pixel row left by `RoundYpos` for an on-screen entity. -/
theorem RoundYpos_px (y : Int) (h0 : 0 ≤ y) (h1 : px y < 256) :
    u8 (px ((Int.tdiv (px y) TILE_HEIGHT * TILE_HEIGHT) * 256)) = u8 (px y) / 12 * 12 := by
  have hp : 0 ≤ px y := by simp only [px]; omega
  rw [Int.tdiv_eq_ediv hp (Int.ofNat_nonneg _)]
  simp only [px, u8, TILE_HEIGHT, Nat.cast_ofNat] at *
  omega

theorem GetTileUnder_snap (K : Consts) (vram : Nat → Nat) (x y : Nat) :
    GetTileUnder K vram x (y / 12 * 12) = GetTileUnder K vram x y := by
  simp only [GetTileUnder, FIELD_HEIGHT, TILE_HEIGHT]
  have h1 : (y / 12 * 12 + 12) / 12 = (y + 12) / 12 := by omega
  have h2 : (y / 12 * 12 ≥ (16 - 1) * 12) ↔ (y ≥ (16 - 1) * 12) := by omega
  rw [h1]
  by_cases h : y ≥ (16 - 1) * 12
  · rw [if_pos h, if_pos (h2.mpr h)]
  · rw [if_neg h, if_neg (fun h3 => h (h2.mp h3))]

/-- The not-blocked branch of `Walk` on a spot whose tile under is solid: Cling under a
rope (with `y` rounded by `RoundYpos`), otherwise action and `y` stay. -/
theorem Walk.move_over_solid (K : Consts) (id : Nat) (dir nx : Int) (ny h f : Nat) (s : State)
    (hs : ∀ pl, IsTileSolid K pl (GetTileUnder K s.vram (u8 nx) ny) id = true) :
    ((Walk.move K id dir nx ny h f s).player id).action
      = (if h = K.TILE_ROPE then ACTION_CLING else (s.player id).action) ∧
    ((Walk.move K id dir nx ny h f s).player id).y
      = (if h = K.TILE_ROPE then (Int.tdiv (px (s.player id).y) TILE_HEIGHT * TILE_HEIGHT) * 256
         else (s.player id).y) ∧
    ((Walk.move K id dir nx ny h f s).player id).dir = (s.player id).dir := by
  simp only [Walk.move]
  split_ifs <;> simp_all

/-- `Walk` on a spot whose tile under is blocking: the action is Cling when the step is
not blocked and the head tile is Rope, Walk otherwise; `y` is the `y` left by the entry
block, rounded by `RoundYpos` in the Cling case. -/
theorem Walk_over_blocking (K : Consts) (id : Nat) (dir : Int) (t : State)
    (hb : IsTileBlocking K (GetTileUnder K t.vram
      (u8 (px ((t.player id).x + (t.player id).playerSpeed * dir)))
      (u8 (px ((Walk.entry id t).player id).y))) = true) :
    ((Walk K id dir t).player id).action
      = (if ((px ((t.player id).x + (t.player id).playerSpeed * dir) ≥ 0 ∧
            px ((t.player id).x + (t.player id).playerSpeed * dir)
              < ((K.SCREEN_TILES_H * TILE_WIDTH : Nat) : Int)) ∧
          ¬ IsTileBlocking K (GetTileOnSide K t.vram
            (u8 (px ((t.player id).x + (t.player id).playerSpeed * dir)))
            (u8 (px ((Walk.entry id t).player id).y)) dir)) ∧
          GetTileAtHead K t.vram (u8 (px ((t.player id).x + (t.player id).playerSpeed * dir)))
            (u8 (px ((Walk.entry id t).player id).y)) = K.TILE_ROPE
        then ACTION_CLING else ACTION_WALK) ∧
    (((Walk K id dir t).player id).y = ((Walk.entry id t).player id).y ∨
     ((Walk K id dir t).player id).y
       = (Int.tdiv (px ((Walk.entry id t).player id).y) TILE_HEIGHT * TILE_HEIGHT) * 256) := by
  have hx := Walk.entry_x id t
  have hsp := Walk.entry_playerSpeed id t
  have hv := Walk.entry_vram id t
  rw [← hx, ← hsp, ← hv] at hb ⊢
  simp only [Walk]
  generalize Walk.entry id t = e at hb ⊢
  simp only [Walk.finish, setPlayer_player, setPlayer_vram, setSprite_player,
    Function.update_same]
  have hs : ∀ pl, IsTileSolid K pl (GetTileUnder K
      (setPlayer e id (fun p => { p with dir := dir, action := ACTION_WALK })).vram
      (u8 (px ((e.player id).x + (e.player id).playerSpeed * dir)))
      (u8 (px (e.player id).y))) id = true := fun pl => IsTileSolid_of_blocking K pl _ id hb
  have hm := Walk.move_over_solid K id dir
    (px ((e.player id).x + (e.player id).playerSpeed * dir)) (u8 (px (e.player id).y))
    (GetTileAtHead K e.vram (u8 (px ((e.player id).x + (e.player id).playerSpeed * dir)))
      (u8 (px (e.player id).y)))
    (GetTileAtFeet K e.vram (u8 (px ((e.player id).x + (e.player id).playerSpeed * dir)))
      (u8 (px (e.player id).y)))
    (setPlayer e id (fun p => { p with dir := dir, action := ACTION_WALK })) hs
  simp only [setPlayer_player, Function.update_same] at hm
  by_cases hc : ((px ((e.player id).x + (e.player id).playerSpeed * dir) ≥ 0 ∧
      px ((e.player id).x + (e.player id).playerSpeed * dir)
        < ((K.SCREEN_TILES_H * TILE_WIDTH : Nat) : Int)) ∧
      ¬ IsTileBlocking K (GetTileOnSide K e.vram
        (u8 (px ((e.player id).x + (e.player id).playerSpeed * dir)))
        (u8 (px (e.player id).y)) dir))
  · by_cases hr : GetTileAtHead K e.vram
        (u8 (px ((e.player id).x + (e.player id).playerSpeed * dir)))
        (u8 (px (e.player id).y)) = K.TILE_ROPE
    · have hR : (((px ((e.player id).x + (e.player id).playerSpeed * dir) ≥ 0 ∧
          px ((e.player id).x + (e.player id).playerSpeed * dir)
            < ((K.SCREEN_TILES_H * TILE_WIDTH : Nat) : Int)) ∧
        ¬ IsTileBlocking K (GetTileOnSide K e.vram
          (u8 (px ((e.player id).x + (e.player id).playerSpeed * dir)))
          (u8 (px (e.player id).y)) dir)) ∧
        GetTileAtHead K e.vram (u8 (px ((e.player id).x + (e.player id).playerSpeed * dir)))
          (u8 (px (e.player id).y)) = K.TILE_ROPE) := ⟨hc, hr⟩
      rw [if_pos hR]
      simp only [if_pos hc, if_pos hr] at hm ⊢
      simp [hm]
    · have hR : ¬ (((px ((e.player id).x + (e.player id).playerSpeed * dir) ≥ 0 ∧
          px ((e.player id).x + (e.player id).playerSpeed * dir)
            < ((K.SCREEN_TILES_H * TILE_WIDTH : Nat) : Int)) ∧
        ¬ IsTileBlocking K (GetTileOnSide K e.vram
          (u8 (px ((e.player id).x + (e.player id).playerSpeed * dir)))
          (u8 (px (e.player id).y)) dir)) ∧
        GetTileAtHead K e.vram (u8 (px ((e.player id).x + (e.player id).playerSpeed * dir)))
          (u8 (px (e.player id).y)) = K.TILE_ROPE) := fun h => hr h.2
      rw [if_neg hR]
      simp only [if_pos hc, if_neg hr] at hm ⊢
      simp [hm]
  · have hR : ¬ (((px ((e.player id).x + (e.player id).playerSpeed * dir) ≥ 0 ∧
          px ((e.player id).x + (e.player id).playerSpeed * dir)
            < ((K.SCREEN_TILES_H * TILE_WIDTH : Nat) : Int)) ∧
        ¬ IsTileBlocking K (GetTileOnSide K e.vram
          (u8 (px ((e.player id).x + (e.player id).playerSpeed * dir)))
          (u8 (px (e.player id).y)) dir)) ∧
        GetTileAtHead K e.vram (u8 (px ((e.player id).x + (e.player id).playerSpeed * dir)))
          (u8 (px (e.player id).y)) = K.TILE_ROPE) := fun h => hc h.1
    rw [if_neg hR]
    simp only [if_neg hc]
    split_ifs <;> simp

theorem snapped_twice (y : Int) (h0 : 0 ≤ y) (h1 : px y < 256) :
    ((u16 (Int.tdiv (px ((Int.tdiv (px y) TILE_HEIGHT * TILE_HEIGHT) * 256)) TILE_HEIGHT
        * TILE_HEIGHT) : Nat) : Int) % 256 * 256
      = (Int.tdiv (px y) TILE_HEIGHT * TILE_HEIGHT) * 256 := by
  have hp : 0 ≤ px y := by simp only [px]; omega
  rw [Int.tdiv_eq_ediv hp (Int.ofNat_nonneg _)]
  have hq : 0 ≤ px (px y / (TILE_HEIGHT : Int) * TILE_HEIGHT * 256) := by
    simp only [px, TILE_HEIGHT, Nat.cast_ofNat] at *
    omega
  rw [Int.tdiv_eq_ediv hq (Int.ofNat_nonneg _)]
  simp only [px, u16, TILE_HEIGHT, Nat.cast_ofNat] at *
  omega

theorem Fall_landing_eq (K : Consts) (id : Nat) (s : State)
    (hhole : ¬ (id < SPR_INDEX_PLAYER ∧ IsTileHole K (GetTileAtFeet K s.vram
      (u8 (px (s.player id).x)) ((u8 (px (s.player id).y) / 12 * 12) % 256)) = true))
    (hunder : IsTileBlocking K (GetTileUnder K s.vram (u8 (px (s.player id).x))
      (u8 (px (s.player id).y))) = true) :
    Fall K id s = setPlayer (Walk K id 0 (EndFall id ACTION_WALK
        (setPlayer s id (fun p => { p with action := ACTION_FALL })))) id
      (fun p => { p with dir := s8of (u8 (s.player id).dir) }) := by
  simp only [Fall, setPlayer_player, setPlayer_vram, Function.update_same]
  rw [if_neg hhole, if_pos hunder]

/-- C11 (amended): for an on-screen entity (`0 <= y`, pixel Y below 256, `dir` an `int8_t`)
whose tile under is blocking and, for an enemy, whose truncated feet cell is not a hole, one
call of `Fall` leaves Y snapped to the tile grid and `dir` unchanged; the action is Walk,
except that it is Cling when, at the snapped position, the head tile is Rope and the spot
is inside the screen with no blocking tile on its right side (the test of `Walk(id, 0)`). -/
theorem C11_Fall_landing (K : Consts) (id : Nat) (s : State)
    (hy0 : 0 ≤ (s.player id).y) (hy1 : px (s.player id).y < 256)
    (hdir : -128 ≤ (s.player id).dir ∧ (s.player id).dir ≤ 127)
    (hhole : ¬ (id < SPR_INDEX_PLAYER ∧ IsTileHole K (GetTileAtFeet K s.vram
      (u8 (px (s.player id).x)) ((u8 (px (s.player id).y) / 12 * 12) % 256)) = true))
    (hunder : IsTileBlocking K (GetTileUnder K s.vram (u8 (px (s.player id).x))
      (u8 (px (s.player id).y))) = true) :
    ((Fall K id s).player id).action
      = (if ((px (s.player id).x ≥ 0 ∧
            px (s.player id).x < ((K.SCREEN_TILES_H * TILE_WIDTH : Nat) : Int)) ∧
          ¬ IsTileBlocking K (GetTileOnSide K s.vram (u8 (px (s.player id).x))
            (u8 (px (s.player id).y) / 12 * 12) 0)) ∧
          GetTileAtHead K s.vram (u8 (px (s.player id).x))
            (u8 (px (s.player id).y) / 12 * 12) = K.TILE_ROPE
        then ACTION_CLING else ACTION_WALK) ∧
    ((Fall K id s).player id).y
      = (Int.tdiv (px (s.player id).y) TILE_HEIGHT * TILE_HEIGHT) * 256 ∧
    ((Fall K id s).player id).dir = (s.player id).dir := by
  rw [Fall_landing_eq K id s hhole hunder]
  simp only [setPlayer_player, Function.update_same]
  have hd : s8of (u8 (s.player id).dir) = (s.player id).dir := by
    simp only [s8of, u8]; omega
  refine ⟨?_, ?_, hd⟩
  all_goals
    have hsnap := RoundYpos_px (s.player id).y hy0 hy1
    have htw := snapped_twice (s.player id).y hy0 hy1
    have hey := Walk.entry_y id (EndFall id ACTION_WALK
      (setPlayer s id (fun p => { p with action := ACTION_FALL })))
    have hty : ((EndFall id ACTION_WALK
        (setPlayer s id (fun p => { p with action := ACTION_FALL }))).player id).y
        = (Int.tdiv (px (s.player id).y) TILE_HEIGHT * TILE_HEIGHT) * 256 := by
      simp [EndFall]
    have htx : ((EndFall id ACTION_WALK
        (setPlayer s id (fun p => { p with action := ACTION_FALL }))).player id).x
        = (s.player id).x := by
      simp [EndFall]
    have htv : (EndFall id ACTION_WALK
        (setPlayer s id (fun p => { p with action := ACTION_FALL }))).vram = s.vram := by
      simp [EndFall]
    rw [hty, htw] at hey
    have hey2 : ((Walk.entry id (EndFall id ACTION_WALK
        (setPlayer s id (fun p => { p with action := ACTION_FALL })))).player id).y
        = (Int.tdiv (px (s.player id).y) TILE_HEIGHT * TILE_HEIGHT) * 256 := by
      rw [hey]; split_ifs <;> rfl
    have hb : IsTileBlocking K (GetTileUnder K (EndFall id ACTION_WALK
          (setPlayer s id (fun p => { p with action := ACTION_FALL }))).vram
        (u8 (px (((EndFall id ACTION_WALK
          (setPlayer s id (fun p => { p with action := ACTION_FALL }))).player id).x
          + ((EndFall id ACTION_WALK
          (setPlayer s id (fun p => { p with action := ACTION_FALL }))).player id).playerSpeed
            * 0)))
        (u8 (px ((Walk.entry id (EndFall id ACTION_WALK
          (setPlayer s id (fun p => { p with action := ACTION_FALL })))).player id).y)))
        = true := by
      rw [hey2, hsnap, htx, htv, mul_zero, add_zero, GetTileUnder_snap]
      exact hunder
    have hW := Walk_over_blocking K id 0 _ hb
    rw [hey2, hsnap, htx, htv, mul_zero, add_zero] at hW
  · exact hW.1
  · rcases hW.2 with h | h
    · exact h
    · rw [h]
      have hp : 0 ≤ px (s.player id).y := by simp only [px]; omega
      rw [Int.tdiv_eq_ediv hp (Int.ofNat_nonneg _)]
      have hq : 0 ≤ px (px (s.player id).y / (TILE_HEIGHT : Int) * TILE_HEIGHT * 256) := by
        simp only [px, TILE_HEIGHT, Nat.cast_ofNat] at *
        omega
      rw [Int.tdiv_eq_ediv hq (Int.ofNat_nonneg _)]
      simp only [px, TILE_HEIGHT, Nat.cast_ofNat] at *
      omega

/-- Witness of C11 (amended): the respawned enemy of `C11_state` ends in Cling with Y
snapped to 0 and its facing kept. -/
theorem C11_Fall_landing_witness :
    ((Fall K0 0 C11_state).player 0).action = ACTION_CLING ∧
    ((Fall K0 0 C11_state).player 0).y = 0 ∧
    ((Fall K0 0 C11_state).player 0).dir = -1 := by
  have h := C11_Fall_landing K0 0 C11_state (by decide) (by decide) (by decide) (by decide)
    (by decide)
  refine ⟨?_, ?_, h.2.2⟩
  · rw [h.1]; decide
  · rw [h.2.1]; decide

end Landing

section ClimbEntry

theorem and_f800 (n : Nat) (h : n < 65536) : n &&& 0xf800 = n / 2048 * 2048 := by
  apply Nat.eq_of_testBit_eq
  intro i
  have e1 : n / 2048 * 2048 = (n >>> 11) <<< 11 := by
    simp [Nat.shiftRight_eq_div_pow, Nat.shiftLeft_eq]
  rw [e1, Nat.testBit_and, Nat.testBit_shiftLeft, Nat.testBit_shiftRight]
  have e2 : (0xf800 : Nat) = 31 <<< 11 := by decide
  rw [e2, Nat.testBit_shiftLeft]
  by_cases hi : i ≥ 11
  · have : 11 + (i - 11) = i := by omega
    simp only [hi, decide_True, Bool.true_and, this]
    by_cases h5 : i - 11 < 5
    · have : Nat.testBit 31 (i - 11) = true := by
        have : i - 11 = 0 ∨ i - 11 = 1 ∨ i - 11 = 2 ∨ i - 11 = 3 ∨ i - 11 = 4 := by omega
        rcases this with h | h | h | h | h <;> rw [h] <;> decide
      simp [this]
    · have hn : Nat.testBit n i = false := by
        apply Nat.testBit_lt_two_pow
        calc n < 65536 := h
          _ = 2 ^ 16 := by norm_num
          _ ≤ 2 ^ i := Nat.pow_le_pow_right (by norm_num) (by omega)
      simp [hn]
  · simp [hi]

theorem and_f8ff (n : Nat) (h : n < 65536) : n &&& 0xf8ff = n / 2048 * 2048 + n % 256 := by
  have e : (0xf8ff : Nat) = 0xf800 ||| 0xff := by decide
  rw [e, Nat.and_or_distrib_left, and_f800 n h]
  have e3 : n &&& 0xff = n % 256 := Nat.and_pow_two_sub_one_eq_mod n 8
  rw [e3]
  have e4 : n / 2048 * 2048 = 2 ^ 8 * (n / 2048 * 8) := by
    norm_num; omega
  rw [e4]
  have hlt : n % 256 < 2 ^ 8 := by norm_num; omega
  exact (Nat.mul_add_lt_is_or hlt _).symm

/-- The mask `x & 0xf800` on a value of 16 bits clears the position inside the tile
column. -/
theorem land_f800 (v : Int) (h0 : 0 ≤ v) (h1 : v < 65536) :
    Int.land v 0xf800 = v / 2048 * 2048 := by
  obtain ⟨n, rfl⟩ := Int.eq_ofNat_of_zero_le h0
  have hn : n < 65536 := by omega
  show ((n &&& 0xf800 : Nat) : Int) = _
  rw [and_f800 n hn]
  push_cast
  rfl

/-- The mask `x & 0xf8ff` on a value of 16 bits clears the pixel inside the tile column and
keeps the sub-pixel byte. -/
theorem land_f8ff (v : Int) (h0 : 0 ≤ v) (h1 : v < 65536) :
    Int.land v 0xf8ff = v / 2048 * 2048 + v % 256 := by
  obtain ⟨n, rfl⟩ := Int.eq_ofNat_of_zero_le h0
  have hn : n < 65536 := by omega
  show ((n &&& 0xf8ff : Nat) : Int) = _
  rw [and_f8ff n hn]
  push_cast
  rfl

theorem Climb.entry_rounds_x (id : Nat) (s : State) :
    ((Climb.entry id s).player id).x
      = (if (s.player id).lastAction ≠ ACTION_CLIMB ∧
            (s.player id).x / 2048 < ((s.player id).x + 0x400) / 2048
         then Int.land ((s.player id).x + 0x800) 0xf8ff else (s.player id).x) := by
  simp only [Climb.entry]
  split_ifs <;> simp_all

theorem Climb.entry_tiles (id : Nat) (s : State) :
    ((Climb.entry id s).player id).tileAtHead = (s.player id).tileAtHead ∧
    ((Climb.entry id s).player id).tileAtFeet = (s.player id).tileAtFeet ∧
    ((Climb.entry id s).player id).tileUnder = (s.player id).tileUnder := by
  simp only [Climb.entry]
  split_ifs <;> simp

theorem Climb.finish_x (K : Consts) (id : Nat) (s : State) :
    ((Climb.finish K id s).player id).x = (s.player id).x := by
  simp only [Climb.finish]
  split_ifs <;> simp

/-- The X position after `Climb`: the `x` left by the entry block, masked with `0xf800`
when the climb move is made. -/
theorem Climb_x (K : Consts) (id : Nat) (dir : Int) (s : State) :
    ((Climb K id dir s).player id).x
      = (if (if dir = 1 then ((s.player id).tileAtHead = K.TILE_LADDER
                ∨ (s.player id).tileUnder = K.TILE_LADDER)
             else ((s.player id).tileAtFeet = K.TILE_LADDER
                ∨ (s.player id).tileAtHead = K.TILE_LADDER)) ∧
            ((dir = -1 ∧ ¬ IsTileBlocking K (s.player id).tileAtHead)
              ∨ (dir = 1 ∧ ¬ IsTileBlocking K (s.player id).tileUnder))
         then Int.land ((Climb.entry id s).player id).x 0xf800
         else ((Climb.entry id s).player id).x) := by
  obtain ⟨h1, h2, h3⟩ := Climb.entry_tiles id s
  rw [← h1, ← h2, ← h3]
  simp only [Climb]
  generalize Climb.entry id s = t
  by_cases hd : dir = 1
  · subst hd
    simp only [setPlayer_player, Function.update_same, if_true]
    split_ifs <;> simp_all [Climb.finish_x]
  · simp only [setPlayer_player, Function.update_same, if_neg hd]
    split_ifs <;> simp_all [Climb.finish_x]

/-- C20 (counterexample): the player stands on a ladder under a brick ceiling with
`lastAction` Walk, 0xC0 sub-pixel units right of the column boundary 0x4000, and Up is
pressed. `ProcessPlayer` enters `Climb` (`lastAction` becomes Climb); the climb is blocked
by the ceiling and `x` is still 0x40C0, which is not a multiple of 0x800. -/
theorem C20_blocked_Climb_entry_keeps_x :
    (C20_state.player 5).lastAction = ACTION_WALK ∧
    (C20_state.player 5).x = 0x40C0 ∧
    ((ProcessPlayer K0 { Input.idle with joy := K0.BTN_UP } 5 C20_state).player 5).lastAction
      = ACTION_CLIMB ∧
    ((ProcessPlayer K0 { Input.idle with joy := K0.BTN_UP } 5 C20_state).player 5).x = 0x40C0 ∧
    (0x40C0 : Int) % 0x800 ≠ 0 := by
  decide

/-- C20 (amended): a call of `Climb` that enters the state (`lastAction != Climb`) with
`0 <= x < 0xF800`. When the climb move is made (a ladder in the direction of the move and
no blocking tile there), `x` afterwards is the nearest tile-column boundary:
`((x + 0x400) / 0x800) * 0x800`, a multiple of 0x800 at most 0x400 away. Otherwise only the
entry block acts on `x`: it is unchanged when `x mod 0x800 < 0x400`, and it is the next
boundary plus the sub-pixel byte `x mod 0x100` when `x mod 0x800 >= 0x400`. -/
theorem C20_Climb_entry_x (K : Consts) (id : Nat) (dir : Int) (s : State)
    (hla : (s.player id).lastAction ≠ ACTION_CLIMB)
    (hx0 : 0 ≤ (s.player id).x) (hx1 : (s.player id).x < 0xF800) :
    (((if dir = 1 then ((s.player id).tileAtHead = K.TILE_LADDER
                ∨ (s.player id).tileUnder = K.TILE_LADDER)
             else ((s.player id).tileAtFeet = K.TILE_LADDER
                ∨ (s.player id).tileAtHead = K.TILE_LADDER)) ∧
            ((dir = -1 ∧ ¬ IsTileBlocking K (s.player id).tileAtHead)
              ∨ (dir = 1 ∧ ¬ IsTileBlocking K (s.player id).tileUnder))) →
      ((Climb K id dir s).player id).x = ((s.player id).x + 0x400) / 0x800 * 0x800 ∧
      ((Climb K id dir s).player id).x % 0x800 = 0 ∧
      |((Climb K id dir s).player id).x - (s.player id).x| ≤ 0x400) ∧
    (¬ ((if dir = 1 then ((s.player id).tileAtHead = K.TILE_LADDER
                ∨ (s.player id).tileUnder = K.TILE_LADDER)
             else ((s.player id).tileAtFeet = K.TILE_LADDER
                ∨ (s.player id).tileAtHead = K.TILE_LADDER)) ∧
            ((dir = -1 ∧ ¬ IsTileBlocking K (s.player id).tileAtHead)
              ∨ (dir = 1 ∧ ¬ IsTileBlocking K (s.player id).tileUnder))) →
      ((Climb K id dir s).player id).x
        = (if (s.player id).x % 0x800 ≥ 0x400
           then ((s.player id).x / 0x800 + 1) * 0x800 + (s.player id).x % 0x100
           else (s.player id).x)) := by
  have he := Climb.entry_rounds_x id s
  have hl := land_f8ff ((s.player id).x + 0x800) (by omega) (by omega)
  rw [hl] at he
  have hex : ((Climb.entry id s).player id).x
      = (if (s.player id).x % 0x800 ≥ 0x400
         then ((s.player id).x / 0x800 + 1) * 0x800 + (s.player id).x % 0x100
         else (s.player id).x) := by
    rw [he]
    split_ifs <;> omega
  have hC := Climb_x K id dir s
  refine ⟨fun hc => ?_, fun hc => ?_⟩
  · rw [if_pos hc] at hC
    have h0 : 0 ≤ ((Climb.entry id s).player id).x := by
      rw [hex]; split_ifs <;> omega
    have h1 : ((Climb.entry id s).player id).x < 65536 := by
      rw [hex]; split_ifs <;> omega
    rw [land_f800 _ h0 h1, hex] at hC
    rw [hC]
    have habs : ∀ a b : Int, a - b ≤ 0x400 → b - a ≤ 0x400 → |a - b| ≤ 0x400 := by
      intro a b h1 h2
      exact abs_le.mpr ⟨by omega, by omega⟩
    refine ⟨?_, ?_, ?_⟩
    · split_ifs <;> omega
    · split_ifs <;> omega
    · apply habs <;> split_ifs <;> omega
  · rw [if_neg hc] at hC
    rw [hC, hex]

/-- Witness of C20 (amended): the player of `C20_state_ladder` climbing up a free ladder
from `x = 0x4450` ends at the boundary 0x4800. -/
theorem C20_Climb_entry_x_witness :
    ((Climb K0 5 (-1) C20_state_ladder).player 5).x = 0x4800 := by
  have h := (C20_Climb_entry_x K0 5 (-1) C20_state_ladder (by decide) (by decide)
    (by decide)).1 (by decide)
  rw [h.1]
  decide

end ClimbEntry

section Spawn

set_option maxRecDepth 100000 in
/-- C17 (evaluation): `UnpackGameMap` on a level with the player spawn followed by seven
enemy spawns. The sixth enemy nibble is written to slot 5, the player's slot, which ends
active with the enemy speed 0x060 (the player spawn had set 0x0C0); the seventh is written
to `player[6]`, past the six entries of the array: that entry ends active with the enemy
speed and sprite index 12. -/
theorem C17_sixth_enemy_takes_player_slot :
    ((UnpackGameMap K0 C17_levels 0 State.zero).player 4).playerSpeed = 0x060 ∧
    ((UnpackGameMap K0 C17_levels 0 State.zero).player 5).active = true ∧
    ((UnpackGameMap K0 C17_levels 0 State.zero).player 5).playerSpeed = 0x060 ∧
    ((UnpackGameMap K0 C17_levels 0 State.zero).player 5).spriteIndex = 10 ∧
    (State.zero.player 6).active = false ∧
    ((UnpackGameMap K0 C17_levels 0 State.zero).player 6).active = true ∧
    ((UnpackGameMap K0 C17_levels 0 State.zero).player 6).playerSpeed = 0x060 ∧
    ((UnpackGameMap K0 C17_levels 0 State.zero).player 6).spriteIndex = 12 := by
  decide!

end Spawn

section Border

end Border

section Unpack

theorem SetTile_vram (K : Consts) (x y t : Nat) (s : State) (idx : Nat) :
    (SetTile K x y t s).vram idx = if idx = y * K.VRAM_TILES_H + x then t else s.vram idx := by
  simp only [SetTile, Function.update_apply]

theorem SetTile_vram_ne (K : Consts) (x y t : Nat) (s : State) (idx : Nat)
    (h : idx ≠ y * K.VRAM_TILES_H + x) : (SetTile K x y t s).vram idx = s.vram idx := by
  rw [SetTile_vram, if_neg h]

@[simp] theorem UnpackGameMap.put_game (K : Consts) (x y nb tile : Nat) (s : State) :
    (UnpackGameMap.put K x y nb tile s).game = s.game := by
  simp only [UnpackGameMap.put]
  split_ifs <;> rfl

@[simp] theorem UnpackGameMap.put_player (K : Consts) (x y nb tile : Nat) (s : State) :
    (UnpackGameMap.put K x y nb tile s).player = s.player := by
  simp only [UnpackGameMap.put]
  split_ifs <;> rfl

theorem UnpackGameMap.put_vram_other (K : Consts) (x y nb tile : Nat) (s : State) (idx : Nat)
    (h1 : idx ≠ y * K.VRAM_TILES_H + (x + nb + 1))
    (h2 : idx ≠ (y + 1) * K.VRAM_TILES_H + (x + nb + 1)) :
    (UnpackGameMap.put K x y nb tile s).vram idx = s.vram idx := by
  simp only [UnpackGameMap.put]
  split_ifs <;> simp [SetTile_vram_ne, h1, h2]

@[simp] theorem UnpackGameMap.spawn_game (K : Consts) (x y nb tile id : Nat) (s : State) :
    (UnpackGameMap.spawn K x y nb tile id s).game = s.game := by
  simp only [UnpackGameMap.spawn, Walk_game]
  split_ifs <;> rfl

@[simp] theorem UnpackGameMap.spawn_vram (K : Consts) (x y nb tile id : Nat) (s : State) :
    (UnpackGameMap.spawn K x y nb tile id s).vram = s.vram := by
  simp only [UnpackGameMap.spawn, Walk_vram]
  split_ifs <;> rfl

theorem UnpackGameMap.spawn_player_ne (K : Consts) (x y nb tile id : Nat) (s : State) (j : Nat)
    (hj : j ≠ id) : (UnpackGameMap.spawn K x y nb tile id s).player j = s.player j := by
  simp only [UnpackGameMap.spawn]
  rw [Walk_player_ne _ _ _ _ _ hj]
  split_ifs <;> simp [Function.update_noteq hj]

theorem UnpackGameMap.put_zero (K : Consts) (x y nb : Nat) (s : State) :
    UnpackGameMap.put K x y nb 0 s = s := by
  simp [UnpackGameMap.put]

/-- The cases of the `switch` in the nibble loop of `UnpackGameMap`: a gold nibble with a
free record, a gold nibble without, a spawn nibble, any other nibble. -/
theorem UnpackGameMap.switch_cases (K : Consts) (x y nb tile ec : Nat) (s : State) :
    (tile = 7 ∧ s.game.goldCount < MAX_GOLD ∧
      UnpackGameMap.switch K x y nb tile ec s
        = (ec, UnpackGameMap.put K x y nb K.TILE_GOLD1
            { s with game := { s.game with
                gold := Function.update s.game.gold s.game.goldCount
                  { x := (x + nb + 1) % 256, y := y, state := GOLD_STATE_VISIBLE },
                goldCount := (s.game.goldCount + 1) % 256 } })) ∨
    (tile = 7 ∧ ¬ s.game.goldCount < MAX_GOLD ∧
      UnpackGameMap.switch K x y nb tile ec s = (ec, s)) ∨
    ((tile = 8 ∨ tile = 9) ∧
      UnpackGameMap.switch K x y nb tile ec s
        = (if tile = 8 then (ec + 1) % 256 else ec,
           UnpackGameMap.spawn K x y nb tile (if tile = 8 then ec else SPR_INDEX_PLAYER) s)) ∨
    (tile ≠ 7 ∧ tile ≠ 8 ∧ tile ≠ 9 ∧
      ∃ T, UnpackGameMap.switch K x y nb tile ec s = (ec, UnpackGameMap.put K x y nb T s)) := by
  unfold UnpackGameMap.switch
  simp only [UnpackGameMap.put_zero]
  by_cases t7 : tile = 7
  · subst t7
    by_cases hg : s.game.goldCount < MAX_GOLD
    · left
      refine ⟨rfl, hg, ?_⟩
      simp [hg, setGold]
    · right; left
      refine ⟨rfl, hg, ?_⟩
      simp [hg]
  by_cases t8 : tile = 8 ∨ tile = 9
  · right; right; left
    refine ⟨t8, ?_⟩
    rcases t8 with h | h <;> subst h <;> simp
  · right; right; right
    refine ⟨t7, fun h => t8 (Or.inl h), fun h => t8 (Or.inr h), ?_⟩
    rw [if_neg t7, if_neg t8]
    by_cases t1 : tile = 1
    · exact ⟨_, by rw [if_pos t1]⟩
    rw [if_neg t1]
    by_cases t2 : tile = 2
    · exact ⟨_, by rw [if_pos t2]⟩
    rw [if_neg t2]
    by_cases t3 : tile = 3
    · exact ⟨_, by rw [if_pos t3]⟩
    rw [if_neg t3]
    by_cases t4 : tile = 4
    · exact ⟨_, by rw [if_pos t4]⟩
    rw [if_neg t4]
    by_cases t5 : tile = 5
    · exact ⟨_, by rw [if_pos t5]⟩
    rw [if_neg t5]
    by_cases t6 : tile = 6
    · exact ⟨_, by rw [if_pos t6]⟩
    rw [if_neg t6]
    exact ⟨0, by rw [UnpackGameMap.put_zero]⟩

theorem UnpackGameMap.cell_eq (K : Consts) (x y nb pos ec : Nat) (s : State) :
    UnpackGameMap.cell K x y nb pos ec s
      = UnpackGameMap.switch K x y nb (nibbleOf (s.game.map pos) nb) ec s := rfl

/-- One nibble of `UnpackGameMap` writes the grid only at its cell and at the cell below
(the shadow). -/
theorem UnpackGameMap.cell_vram_other (K : Consts) (x y nb pos ec : Nat) (s : State) (idx : Nat)
    (h1 : idx ≠ y * K.VRAM_TILES_H + (x + nb + 1))
    (h2 : idx ≠ (y + 1) * K.VRAM_TILES_H + (x + nb + 1)) :
    (UnpackGameMap.cell K x y nb pos ec s).2.vram idx = s.vram idx := by
  rw [UnpackGameMap.cell_eq]
  rcases UnpackGameMap.switch_cases K x y nb (nibbleOf (s.game.map pos) nb) ec s with
    ⟨_, _, h⟩ | ⟨_, _, h⟩ | ⟨_, h⟩ | ⟨_, _, _, T, h⟩
  · rw [h]; exact UnpackGameMap.put_vram_other K x y nb _ _ idx h1 h2
  · rw [h]
  · rw [h]; simp
  · rw [h]; exact UnpackGameMap.put_vram_other K x y nb _ _ idx h1 h2

/-- What one nibble of `UnpackGameMap` does to `game`: a gold nibble (7) adds a Visible
record at its cell while fewer than `MAX_GOLD` records exist; nothing else changes. -/
theorem UnpackGameMap.cell_game (K : Consts) (x y nb pos ec : Nat) (s : State) :
    (UnpackGameMap.cell K x y nb pos ec s).2.game
      = (if nibbleOf (s.game.map pos) nb = 7 ∧ s.game.goldCount < MAX_GOLD then
          { s.game with
            gold := Function.update s.game.gold s.game.goldCount
              { x := (x + nb + 1) % 256, y := y, state := GOLD_STATE_VISIBLE },
            goldCount := (s.game.goldCount + 1) % 256 }
         else s.game) := by
  rw [UnpackGameMap.cell_eq]
  rcases UnpackGameMap.switch_cases K x y nb (nibbleOf (s.game.map pos) nb) ec s with
    ⟨h7, hg, h⟩ | ⟨h7, hg, h⟩ | ⟨h8, h⟩ | ⟨h7, _, _, T, h⟩
  · rw [h, if_pos ⟨h7, hg⟩]; simp
  · rw [h, if_neg (fun hc => hg hc.2)]
  · have hne : ¬ (nibbleOf (s.game.map pos) nb = 7 ∧ s.game.goldCount < MAX_GOLD) := by
      intro hc
      have h7 := hc.1
      rcases h8 with h8 | h8 <;> omega
    rw [h, if_neg hne]; simp
  · rw [h, if_neg (fun hc => h7 hc.1)]; simp

end Unpack

section UnpackScan

/-- Cells in different columns of the grid have different indices. -/
theorem cell_index_ne (H y r c c0 : Nat) (h0 : c0 < H) (h1 : c < H) (hne : c ≠ c0) :
    y * H + c0 ≠ r * H + c := by
  intro h
  have e1 : (y * H + c0) % H = c0 := by
    rw [Nat.mul_add_mod_of_lt h0]
  have e2 : (r * H + c) % H = c := by
    rw [Nat.mul_add_mod_of_lt h1]
  rw [h, e2] at e1
  exact hne e1

theorem UnpackGameMap.byte_vram_other (K : Consts) (p : Nat) (r : Nat × State) (idx : Nat)
    (h : ∀ nb, nb < 2 → idx ≠ (p / 14) * K.VRAM_TILES_H + (2 * (p % 14) + nb + 1) ∧
      idx ≠ (p / 14 + 1) * K.VRAM_TILES_H + (2 * (p % 14) + nb + 1)) :
    (UnpackGameMap.byte K p r).2.vram idx = r.2.vram idx := by
  simp only [UnpackGameMap.byte]
  rw [UnpackGameMap.cell_vram_other K _ _ 1 _ _ _ idx (h 1 (by omega)).1 (h 1 (by omega)).2,
    UnpackGameMap.cell_vram_other K _ _ 0 _ _ _ idx (h 0 (by omega)).1 (h 0 (by omega)).2]

/-- The scan of `UnpackGameMap` over the bytes `p .. p+n-1` leaves every grid cell that is
not the cell of one of their nibbles, or the cell below one, as it was. -/
theorem UnpackGameMap.scan_vram_other (K : Consts) (idx : Nat) :
    ∀ (n p : Nat) (r : Nat × State),
      (∀ q nb, p ≤ q → q < p + n → nb < 2 →
        idx ≠ (q / 14) * K.VRAM_TILES_H + (2 * (q % 14) + nb + 1) ∧
        idx ≠ (q / 14 + 1) * K.VRAM_TILES_H + (2 * (q % 14) + nb + 1)) →
      (scanFrom (UnpackGameMap.byte K) n p r).2.vram idx = r.2.vram idx := by
  intro n
  induction n with
  | zero => intro p r _; rfl
  | succ n ih =>
    intro p r h
    simp only [scanFrom]
    rw [ih (p + 1) _ (fun q nb h1 h2 h3 => h q nb (by omega) (by omega) h3)]
    exact UnpackGameMap.byte_vram_other K p r idx
      (fun nb hnb => h p nb (Nat.le_refl p) (by omega) hnb)

end UnpackScan

section Scan

theorem scanFrom_add {σ : Type} (f : Nat → σ → σ) :
    ∀ (a b p : Nat) (s : σ), scanFrom f (a + b) p s = scanFrom f b (p + a) (scanFrom f a p s) := by
  intro a
  induction a with
  | zero => intro b p s; simp [scanFrom]
  | succ a ih =>
    intro b p s
    have : a + 1 + b = (a + b) + 1 := by omega
    rw [this]
    simp only [scanFrom]
    rw [ih]
    have : p + 1 + a = p + (a + 1) := by omega
    rw [this]

theorem ProcessGold.row_eq_scan (K : Consts) (y : Nat) :
    ∀ (n k : Nat) (s : State), k + n ≤ 14 →
      ProcessGold.row K y n (2 * k) (14 * y + k) s
        = (14 * y + k + n, scanFrom (ProcessGold.byte K) n (14 * y + k) s) := by
  intro n
  induction n with
  | zero => intro k s _; rfl
  | succ n ih =>
    intro k s hk
    simp only [ProcessGold.row, scanFrom]
    have h1 : 2 * k + 2 = 2 * (k + 1) := by omega
    have h2 : 14 * y + k + 1 = 14 * y + (k + 1) := by omega
    rw [h1, h2, ih (k + 1) _ (by omega)]
    have h3 : (14 * y + k) % 14 = k := by omega
    have h4 : (14 * y + k) / 14 = y := by omega
    simp only [ProcessGold.byte, h3, h4]
    congr 1
    omega

theorem ProcessGold.rows_eq_scan (K : Consts) :
    ∀ (n y : Nat) (s : State),
      ProcessGold.rows K n y (14 * y) s
        = (14 * (y + n), scanFrom (ProcessGold.byte K) (14 * n) (14 * y) s) := by
  intro n
  induction n with
  | zero => intro y s; rfl
  | succ n ih =>
    intro y s
    simp only [ProcessGold.rows]
    have h := ProcessGold.row_eq_scan K y 14 0 s (by omega)
    simp only [Nat.mul_zero, Nat.add_zero] at h
    rw [h]
    have h1 : 14 * y + 14 = 14 * (y + 1) := by omega
    simp only [h1]
    rw [ih (y + 1)]
    have h2 : 14 * (n + 1) = 14 + 14 * n := by omega
    rw [h2, scanFrom_add]
    have h3 : 14 * y + 14 = 14 * (y + 1) := by omega
    have h4 : y + 1 + n = y + (n + 1) := by omega
    rw [h3, h4]

theorem UnpackGameMap.row_eq_byte_scan (K : Consts) (y : Nat) :
    ∀ (n k ec : Nat) (s : State), k + n ≤ 14 →
      UnpackGameMap.row K y n (2 * k) (14 * y + k) ec s
        = (14 * y + k + n, scanFrom (UnpackGameMap.byte K) n (14 * y + k) (ec, s)) := by
  intro n
  induction n with
  | zero => intro k ec s _; rfl
  | succ n ih =>
    intro k ec s hk
    simp only [UnpackGameMap.row, scanFrom]
    have h1 : 2 * k + 2 = 2 * (k + 1) := by omega
    have h2 : 14 * y + k + 1 = 14 * y + (k + 1) := by omega
    rw [h1, h2, ih (k + 1) _ _ (by omega)]
    have h3 : (14 * y + k) % 14 = k := by omega
    have h4 : (14 * y + k) / 14 = y := by omega
    simp only [UnpackGameMap.byte, h3, h4]
    congr 1
    omega

theorem UnpackGameMap.rows_eq_byte_scan (K : Consts) :
    ∀ (n y ec : Nat) (s : State),
      UnpackGameMap.rows K n y (14 * y) ec s
        = (14 * (y + n), scanFrom (UnpackGameMap.byte K) (14 * n) (14 * y) (ec, s)) := by
  intro n
  induction n with
  | zero => intro y ec s; rfl
  | succ n ih =>
    intro y ec s
    simp only [UnpackGameMap.rows]
    have h := UnpackGameMap.row_eq_byte_scan K y 14 0 ec s (by omega)
    simp only [Nat.mul_zero, Nat.add_zero] at h
    rw [h]
    have h1 : 14 * y + 14 = 14 * (y + 1) := by omega
    simp only [h1]
    rw [ih (y + 1)]
    have h2 : 14 * (n + 1) = 14 + 14 * n := by omega
    rw [h2, scanFrom_add]
    have h3 : 14 * y + 14 = 14 * (y + 1) := by omega
    have h4 : y + 1 + n = y + (n + 1) := by omega
    rw [h3, h4]

end Scan

section UnpackFrame

theorem foldl_vram_preserve {α : Type} (g : State → α → State) (idx : Nat)
    (hg : ∀ t a, (g t a).vram idx = t.vram idx) :
    ∀ (l : List α) (s : State), (l.foldl g s).vram idx = s.vram idx := by
  intro l
  induction l with
  | nil => intro s; rfl
  | cons a l ih => intro s; simp only [List.foldl_cons]; rw [ih, hg]

theorem foldl_game_preserve {α : Type} (g : State → α → State)
    (hg : ∀ t a, (g t a).game = t.game) :
    ∀ (l : List α) (s : State), (l.foldl g s).game = s.game := by
  intro l
  induction l with
  | nil => intro s; rfl
  | cons a l ih => intro s; simp only [List.foldl_cons]; rw [ih, hg]

theorem row_index_lt (H y c idx : Nat) (h : idx < y * H) : idx ≠ y * H + c := by
  omega

theorem Fill_game (K : Consts) (x y w h t : Nat) (s : State) :
    (Fill K x y w h t s).game = s.game := by
  simp only [Fill]
  apply foldl_game_preserve
  intro t1 cy
  apply foldl_game_preserve
  intro t2 cx
  rfl

theorem Fill_vram_below (K : Consts) (x y w h t : Nat) (s : State) (idx : Nat)
    (hidx : idx < y * K.VRAM_TILES_H) : (Fill K x y w h t s).vram idx = s.vram idx := by
  simp only [Fill]
  apply foldl_vram_preserve
  intro t1 cy
  apply foldl_vram_preserve
  intro t2 cx
  apply SetTile_vram_ne
  have : y * K.VRAM_TILES_H ≤ (y + cy) * K.VRAM_TILES_H :=
    Nat.mul_le_mul_right _ (by omega)
  omega

theorem Print_game (K : Consts) (x y : Nat) (text : List Nat) (s : State) :
    (Print K x y text s).game = s.game := by
  simp only [Print]
  have : ∀ (l : List Nat) (acc : Nat × State),
      (l.foldl (fun (acc : Nat × State) c => (acc.1 + 1, SetTile K acc.1 y (K.font c) acc.2))
        acc).2.game = acc.2.game := by
    intro l
    induction l with
    | nil => intro acc; rfl
    | cons a l ih => intro acc; simp only [List.foldl_cons]; rw [ih]; rfl
  exact this text (x, s)

theorem Print_vram_below (K : Consts) (x y : Nat) (text : List Nat) (s : State) (idx : Nat)
    (hidx : idx < y * K.VRAM_TILES_H) : (Print K x y text s).vram idx = s.vram idx := by
  simp only [Print]
  have : ∀ (l : List Nat) (acc : Nat × State),
      (l.foldl (fun (acc : Nat × State) c => (acc.1 + 1, SetTile K acc.1 y (K.font c) acc.2))
        acc).2.vram idx = acc.2.vram idx := by
    intro l
    induction l with
    | nil => intro acc; rfl
    | cons a l ih =>
      intro acc
      simp only [List.foldl_cons]
      rw [ih]
      exact SetTile_vram_ne K _ _ _ _ idx (by omega)
  exact this text (x, s)

theorem PrintByte2_game (K : Consts) (x y val : Nat) (s : State) :
    (PrintByte2 K x y val s).game = s.game := by
  simp only [PrintByte2]
  split_ifs <;> rfl

theorem PrintByte2_player (K : Consts) (x y val : Nat) (s : State) :
    (PrintByte2 K x y val s).player = s.player := by
  simp only [PrintByte2]
  split_ifs <;> rfl

theorem PrintByte2_vram_below (K : Consts) (x y val : Nat) (s : State) (idx : Nat)
    (hidx : idx < y * K.VRAM_TILES_H) : (PrintByte2 K x y val s).vram idx = s.vram idx := by
  simp only [PrintByte2]
  split_ifs <;>
    rw [SetTile_vram_ne K _ _ _ _ idx (by omega), SetTile_vram_ne K _ _ _ _ idx (by omega)]

theorem UpdateInfo_game (K : Consts) (s : State) : (UpdateInfo K s).game = s.game :=
  PrintByte2_game K _ _ _ s

theorem UpdateInfo_player (K : Consts) (s : State) : (UpdateInfo K s).player = s.player :=
  PrintByte2_player K _ _ _ s

theorem UpdateInfo_vram_below (K : Consts) (s : State) (idx : Nat)
    (hidx : idx < 16 * K.VRAM_TILES_H) : (UpdateInfo K s).vram idx = s.vram idx :=
  PrintByte2_vram_below K _ _ _ s idx hidx

theorem UnpackGameMap.clear_game (K : Consts) :
    ∀ (n id : Nat) (s : State), (UnpackGameMap.clear K n id s).game = s.game := by
  intro n
  induction n with
  | zero => intro id s; rfl
  | succ n ih => intro id s; simp only [UnpackGameMap.clear]; rw [ih]; rfl

theorem UnpackGameMap.clear_vram (K : Consts) :
    ∀ (n id : Nat) (s : State), (UnpackGameMap.clear K n id s).vram = s.vram := by
  intro n
  induction n with
  | zero => intro id s; rfl
  | succ n ih => intro id s; simp only [UnpackGameMap.clear]; rw [ih]; rfl

theorem UnpackGameMap.background_game (K : Consts) :
    ∀ (n y : Nat) (s : State), (UnpackGameMap.background K n y s).game = s.game := by
  intro n
  induction n with
  | zero => intro y s; rfl
  | succ n ih =>
    intro y s
    simp only [UnpackGameMap.background]
    rw [ih]
    simp only [SetTile_game]
    apply foldl_game_preserve
    intro t i
    rfl

/-- The background loop from row `y` on writes no cell of the rows above `y`. -/
theorem UnpackGameMap.background_vram_below (K : Consts) (idx : Nat) :
    ∀ (n y : Nat) (s : State), idx < y * K.VRAM_TILES_H →
      (UnpackGameMap.background K n y s).vram idx = s.vram idx := by
  intro n
  induction n with
  | zero => intro y s _; rfl
  | succ n ih =>
    intro y s h
    simp only [UnpackGameMap.background]
    have h1 : idx < (y + 1) * K.VRAM_TILES_H := by
      have : y * K.VRAM_TILES_H ≤ (y + 1) * K.VRAM_TILES_H :=
        Nat.mul_le_mul_right _ (by omega)
      omega
    rw [ih (y + 1) _ h1, SetTile_vram_ne K _ _ _ _ idx (by omega),
      SetTile_vram_ne K _ _ _ _ idx (by omega)]
    apply foldl_vram_preserve
    intro t i
    exact SetTile_vram_ne K _ _ _ _ idx (by omega)

/-- The background loop over the rows `y0 .. y0+n-1` leaves `TILE_BREAKABLE` in the first
and in the last column of each of them. -/
theorem UnpackGameMap.background_border (K : Consts) (hH : 1 ≤ K.VRAM_TILES_H) :
    ∀ (n y0 : Nat) (s : State) (y : Nat), y0 ≤ y → y < y0 + n →
      (UnpackGameMap.background K n y0 s).vram (y * K.VRAM_TILES_H + 0) = K.TILE_BREAKABLE ∧
      (UnpackGameMap.background K n y0 s).vram (y * K.VRAM_TILES_H + (K.VRAM_TILES_H - 1))
        = K.TILE_BREAKABLE := by
  intro n
  induction n with
  | zero => intro y0 s y h1 h2; omega
  | succ n ih =>
    intro y0 s y h1 h2
    by_cases hy : y = y0
    · subst hy
      simp only [UnpackGameMap.background]
      have hlt : ∀ c, c < K.VRAM_TILES_H → y * K.VRAM_TILES_H + c < (y + 1) * K.VRAM_TILES_H := by
        intro c hc
        rw [Nat.add_mul]
        omega
      rw [UnpackGameMap.background_vram_below K _ n (y + 1) _ (hlt 0 (by omega)),
        UnpackGameMap.background_vram_below K _ n (y + 1) _ (hlt (K.VRAM_TILES_H - 1) (by omega))]
      simp only [SetTile_vram]
      constructor
      · split_ifs <;> simp_all
      · simp
    · simp only [UnpackGameMap.background]
      exact ih (y0 + 1) _ y (by omega) (by omega)

end UnpackFrame

section Border

theorem UnpackGameMap.status_vram_below (K : Consts) (mapNo : Nat) (s : State) (idx : Nat)
    (hidx : idx < 16 * K.VRAM_TILES_H) :
    (UnpackGameMap.status K mapNo s).vram idx = s.vram idx := by
  unfold UnpackGameMap.status
  refine (UpdateInfo_vram_below K _ idx hidx).trans ?_
  refine (PrintByte2_vram_below K _ _ _ _ idx hidx).trans ?_
  refine (Print_vram_below K _ _ _ _ idx hidx).trans ?_
  refine (PrintByte2_vram_below K _ _ _ _ idx hidx).trans ?_
  refine (Print_vram_below K _ _ _ _ idx hidx).trans ?_
  refine (SetTile_vram_ne K _ _ _ _ idx (by omega)).trans ?_
  exact Fill_vram_below K _ _ _ _ _ _ idx hidx

/-- The fields of `game` that `UnpackGameMap` does not assign after the scan. -/
theorem UnpackGameMap.status_game (K : Consts) (mapNo : Nat) (s : State) :
    (UnpackGameMap.status K mapNo s).game
      = { s.game with
          goldAnimFrame := 0, goldCollected := 0, goldAnimSpeed := 1, level := mapNo,
          totalLevels := LEVELS_COUNT, levelComplete := false, levelRestart := false,
          levelQuit := false, exitLadders := false } := by
  unfold UnpackGameMap.status
  refine (UpdateInfo_game K _).trans ?_
  refine (PrintByte2_game K _ _ _ _).trans ?_
  refine (Print_game K _ _ _ _).trans ?_
  refine (PrintByte2_game K _ _ _ _).trans ?_
  refine (Print_game K _ _ _ _).trans ?_
  refine (SetTile_game K _ _ _ _).trans ?_
  exact Fill_game K _ _ _ _ _ _

theorem UnpackGameMap.load_game (K : Consts) (levels : Nat → Nat) (mapNo : Nat) (s : State) :
    (UnpackGameMap.load K levels mapNo s).game
      = { s.game with
          map := fun i => if i < LEVEL_SIZE then levels (mapNo * LEVEL_SIZE + i) % 256
            else s.game.map i,
          goldCount := 0 } := by
  unfold UnpackGameMap.load
  refine (UnpackGameMap.background_game K _ _ _).trans ?_
  exact UnpackGameMap.clear_game K _ _ _

theorem UnpackGameMap_eq_scan (K : Consts) (levels : Nat → Nat) (mapNo : Nat) (s : State) :
    UnpackGameMap K levels mapNo s
      = UnpackGameMap.status K mapNo
          (scanFrom (UnpackGameMap.byte K) 224 0 (0, UnpackGameMap.load K levels mapNo s)).2 := by
  have h := UnpackGameMap.rows_eq_byte_scan K 16 0 0 (UnpackGameMap.load K levels mapNo s)
  have e1 : 14 * 0 = 0 := rfl
  have e2 : 14 * (0 + 16) = 224 := rfl
  rw [e1, e2] at h
  unfold UnpackGameMap
  simp only []
  rw [h]

theorem UnpackGameMap.load_border (K : Consts) (levels : Nat → Nat) (mapNo : Nat) (s : State)
    (hH : 1 ≤ K.VRAM_TILES_H) (y : Nat) (hV : y < K.SCREEN_TILES_V - 1) :
    (UnpackGameMap.load K levels mapNo s).vram (y * K.VRAM_TILES_H + 0) = K.TILE_BREAKABLE ∧
    (UnpackGameMap.load K levels mapNo s).vram (y * K.VRAM_TILES_H + (K.VRAM_TILES_H - 1))
      = K.TILE_BREAKABLE := by
  unfold UnpackGameMap.load
  exact UnpackGameMap.background_border K hH _ 0 _ y (Nat.zero_le y) (by omega)

/-- The nibble scan of `UnpackGameMap` writes no cell outside the columns 1..28. -/
theorem UnpackGameMap.scan_vram_border (K : Consts) (hH : 30 ≤ K.VRAM_TILES_H) (y c0 : Nat)
    (hc0 : c0 < K.VRAM_TILES_H) (hc : c0 = 0 ∨ 29 ≤ c0) (n p : Nat) (r : Nat × State) :
    (scanFrom (UnpackGameMap.byte K) n p r).2.vram (y * K.VRAM_TILES_H + c0)
      = r.2.vram (y * K.VRAM_TILES_H + c0) := by
  apply UnpackGameMap.scan_vram_other
  intro q nb _ _ hnb
  constructor
  · exact cell_index_ne K.VRAM_TILES_H y (q / 14) (2 * (q % 14) + nb + 1) c0 hc0
      (by omega) (by omega)
  · exact cell_index_ne K.VRAM_TILES_H y (q / 14 + 1) (2 * (q % 14) + nb + 1) c0 hc0
      (by omega) (by omega)

end Border

section Reveal

theorem ProcessGold.paint_frame (K : Consts) :
    ∀ (n i : Nat) (s : State), (ProcessGold.paint K n i s).game = s.game ∧
      (ProcessGold.paint K n i s).player = s.player ∧
      (ProcessGold.paint K n i s).sprites = s.sprites := by
  intro n
  induction n with
  | zero => intro i s; exact ⟨rfl, rfl, rfl⟩
  | succ n ih =>
    intro i s
    simp only [ProcessGold.paint]
    split_ifs
    · have := ih (i + 1) (SetTile K (s.game.gold ↑i).x (s.game.gold ↑i).y
        (K.TILE_GOLD1 + s.game.goldAnimFrame) s)
      simpa using this
    · exact ih (i + 1) s

/-- The `animate gold` block changes only the animation counters of `game` and the grid. -/
theorem ProcessGold.animate_frame (K : Consts) (s : State) :
    (ProcessGold.animate K s).game.exitLadders = s.game.exitLadders ∧
    (ProcessGold.animate K s).game.goldCollected = s.game.goldCollected ∧
    (ProcessGold.animate K s).game.goldCount = s.game.goldCount ∧
    (ProcessGold.animate K s).game.gold = s.game.gold ∧
    (ProcessGold.animate K s).game.map = s.game.map ∧
    (ProcessGold.animate K s).player = s.player ∧
    (ProcessGold.animate K s).sprites = s.sprites := by
  have hp := ProcessGold.paint_frame K s.game.goldCount 0 s
  simp only [ProcessGold.animate]
  split_ifs <;> simp [hp.1, hp.2.1, hp.2.2]

theorem ProcessGold.cell_frame (K : Consts) (x y nb p : Nat) (s : State) :
    (ProcessGold.cell K x y nb p s).game = s.game ∧
    (ProcessGold.cell K x y nb p s).player = s.player ∧
    (ProcessGold.cell K x y nb p s).sprites = s.sprites := by
  simp only [ProcessGold.cell]
  split_ifs <;> simp

theorem ProcessGold.cell_vram (K : Consts) (x y nb p : Nat) (s : State) (idx : Nat) :
    (ProcessGold.cell K x y nb p s).vram idx
      = if nibbleOf (s.game.map p) nb = 6 ∧ idx = y * K.VRAM_TILES_H + (x + nb + 1)
        then K.TILE_LADDER else s.vram idx := by
  simp only [ProcessGold.cell, nibbleOf]
  by_cases h : (if nb = 0 then s.game.map p >>> 4 else s.game.map p &&& 15) = 6
  · simp only [h, if_true, true_and, SetTile_vram]
  · simp only [h, if_false, false_and]

theorem ProcessGold.byte_frame (K : Consts) (p : Nat) (s : State) :
    (ProcessGold.byte K p s).game = s.game ∧
    (ProcessGold.byte K p s).player = s.player ∧
    (ProcessGold.byte K p s).sprites = s.sprites := by
  obtain ⟨a1, a2, a3⟩ := ProcessGold.cell_frame K (2 * (p % 14)) (p / 14) 0 p s
  obtain ⟨b1, b2, b3⟩ := ProcessGold.cell_frame K (2 * (p % 14)) (p / 14) 1 p
    (ProcessGold.cell K (2 * (p % 14)) (p / 14) 0 p s)
  simp only [ProcessGold.byte]
  exact ⟨b1.trans a1, b2.trans a2, b3.trans a3⟩

/-- The reveal scan over the bytes `p .. p+n-1`: a cell ends as Ladder when it is the cell
of a nibble 6 of one of these bytes, and is unchanged otherwise; nothing but the grid
changes. -/
theorem ProcessGold.scan_spec (K : Consts) (idx : Nat) :
    ∀ (n p : Nat) (s : State),
      ((∃ q nb, p ≤ q ∧ q < p + n ∧ nb < 2 ∧ nibbleOf (s.game.map q) nb = 6 ∧
          idx = (q / 14) * K.VRAM_TILES_H + (2 * (q % 14) + nb + 1)) →
        (scanFrom (ProcessGold.byte K) n p s).vram idx = K.TILE_LADDER) ∧
      ((¬ ∃ q nb, p ≤ q ∧ q < p + n ∧ nb < 2 ∧ nibbleOf (s.game.map q) nb = 6 ∧
          idx = (q / 14) * K.VRAM_TILES_H + (2 * (q % 14) + nb + 1)) →
        (scanFrom (ProcessGold.byte K) n p s).vram idx = s.vram idx) ∧
      (scanFrom (ProcessGold.byte K) n p s).game = s.game ∧
      (scanFrom (ProcessGold.byte K) n p s).player = s.player ∧
      (scanFrom (ProcessGold.byte K) n p s).sprites = s.sprites := by
  intro n
  induction n with
  | zero =>
    intro p s
    refine ⟨?_, fun _ => rfl, rfl, rfl, rfl⟩
    rintro ⟨q, nb, h1, h2, _⟩
    omega
  | succ n ih =>
    intro p s
    obtain ⟨g1, g2, g3⟩ := ProcessGold.byte_frame K p s
    obtain ⟨i1, i2, i3, i4, i5⟩ := ih (p + 1) (ProcessGold.byte K p s)
    rw [g1] at i1 i2
    simp only [scanFrom]
    have hbyte : (ProcessGold.byte K p s).vram idx
        = if nibbleOf (s.game.map p) 1 = 6 ∧ idx = (p / 14) * K.VRAM_TILES_H + (2 * (p % 14) + 1 + 1)
          then K.TILE_LADDER
          else if nibbleOf (s.game.map p) 0 = 6
              ∧ idx = (p / 14) * K.VRAM_TILES_H + (2 * (p % 14) + 0 + 1)
            then K.TILE_LADDER else s.vram idx := by
      simp only [ProcessGold.byte]
      rw [ProcessGold.cell_vram, (ProcessGold.cell_frame K _ _ 0 p s).1, ProcessGold.cell_vram]
    refine ⟨?_, ?_, i3.trans g1, i4.trans g2, i5.trans g3⟩
    · rintro ⟨q, nb, h1, h2, h3, h4, h5⟩
      by_cases hlater : ∃ q nb, p + 1 ≤ q ∧ q < p + 1 + n ∧ nb < 2 ∧
          nibbleOf (s.game.map q) nb = 6 ∧
          idx = (q / 14) * K.VRAM_TILES_H + (2 * (q % 14) + nb + 1)
      · exact i1 hlater
      · rw [i2 hlater, hbyte]
        have hq : q = p := by
          by_contra hne
          exact hlater ⟨q, nb, by omega, by omega, h3, h4, h5⟩
        subst hq
        have hnb : nb = 0 ∨ nb = 1 := by omega
        rcases hnb with hnb | hnb
        · subst hnb
          by_cases hc : nibbleOf (s.game.map q) 1 = 6
              ∧ idx = (q / 14) * K.VRAM_TILES_H + (2 * (q % 14) + 1 + 1)
          · rw [if_pos hc]
          · rw [if_neg hc, if_pos ⟨h4, h5⟩]
        · subst hnb
          rw [if_pos ⟨h4, h5⟩]
    · intro hno
      have hlater : ¬ ∃ q nb, p + 1 ≤ q ∧ q < p + 1 + n ∧ nb < 2 ∧
          nibbleOf (s.game.map q) nb = 6 ∧
          idx = (q / 14) * K.VRAM_TILES_H + (2 * (q % 14) + nb + 1) := by
        rintro ⟨q, nb, h1, h2, h3, h4, h5⟩
        exact hno ⟨q, nb, by omega, by omega, h3, h4, h5⟩
      rw [i2 hlater, hbyte]
      have h1 : ¬ (nibbleOf (s.game.map p) 1 = 6
          ∧ idx = (p / 14) * K.VRAM_TILES_H + (2 * (p % 14) + 1 + 1)) := by
        rintro ⟨h4, h5⟩
        exact hno ⟨p, 1, Nat.le_refl p, by omega, by omega, h4, h5⟩
      have h0 : ¬ (nibbleOf (s.game.map p) 0 = 6
          ∧ idx = (p / 14) * K.VRAM_TILES_H + (2 * (p % 14) + 0 + 1)) := by
        rintro ⟨h4, h5⟩
        exact hno ⟨p, 0, Nat.le_refl p, by omega, by omega, h4, h5⟩
      rw [if_neg h1, if_neg h0]

theorem ProcessGold.reveal_eq_scan (K : Consts) (s : State) :
    ProcessGold.reveal K s
      = { scanFrom (ProcessGold.byte K) 224 0 s with
          game := { (scanFrom (ProcessGold.byte K) 224 0 s).game with exitLadders := true } } := by
  have h := ProcessGold.rows_eq_scan K 16 0 s
  have e1 : 14 * 0 = 0 := rfl
  have e2 : 14 * (0 + 16) = 224 := rfl
  rw [e1, e2] at h
  unfold ProcessGold.reveal
  simp only []
  rw [h]

theorem State.vram_with_exit (t : State) :
    ({ t with game := { t.game with exitLadders := true } } : State).vram = t.vram := rfl

theorem State.exit_with_exit (t : State) :
    ({ t with game := { t.game with exitLadders := true } } : State).game.exitLadders = true :=
  rfl

theorem ProcessGold.reveal_vram (K : Consts) (s : State) :
    (ProcessGold.reveal K s).vram = (scanFrom (ProcessGold.byte K) 224 0 s).vram :=
  (congrArg State.vram (ProcessGold.reveal_eq_scan K s)).trans (State.vram_with_exit _)

theorem ProcessGold.reveal_exitLadders (K : Consts) (s : State) :
    (ProcessGold.reveal K s).game.exitLadders = true :=
  (congrArg (fun t : State => t.game.exitLadders) (ProcessGold.reveal_eq_scan K s)).trans
    (State.exit_with_exit _)

/-- A call of `ProcessGold` with `exitLadders` false and all gold collected is the gold
animation followed by the reveal. -/
theorem ProcessGold_reveal_eq (K : Consts) (s : State) (h0 : s.game.exitLadders = false)
    (heq : s.game.goldCollected = s.game.goldCount) :
    ProcessGold K s = ProcessGold.reveal K (ProcessGold.animate K s) := by
  obtain ⟨_, a2, a3, _, _, _, _⟩ := ProcessGold.animate_frame K s
  simp only [ProcessGold, h0, a2, a3, if_pos heq]
  simp

/-- C13: the escape-ladder reveal happens only in a call of `ProcessGold` that starts with
`exitLadders` false and `goldCollected == goldCount`, and at most once. A call with
`exitLadders` true returns the state unchanged; a call with `exitLadders` false and
`goldCollected != goldCount` is the gold animation alone and leaves `exitLadders` false; a
call with `exitLadders` false and `goldCollected == goldCount` is the animation followed by
the reveal, sets `exitLadders`, and a second call after it changes nothing. -/
theorem C13_reveal_once (K : Consts) (s : State) :
    (s.game.exitLadders = true → ProcessGold K s = s) ∧
    (s.game.exitLadders = false → s.game.goldCollected ≠ s.game.goldCount →
      ProcessGold K s = ProcessGold.animate K s ∧
      (ProcessGold K s).game.exitLadders = false) ∧
    (s.game.exitLadders = false → s.game.goldCollected = s.game.goldCount →
      ProcessGold K s = ProcessGold.reveal K (ProcessGold.animate K s) ∧
      (ProcessGold K s).game.exitLadders = true ∧
      ProcessGold K (ProcessGold K s) = ProcessGold K s) := by
  obtain ⟨a1, a2, a3, _, _, _, _⟩ := ProcessGold.animate_frame K s
  have hid : ∀ t : State, t.game.exitLadders = true → ProcessGold K t = t := by
    intro t ht
    simp [ProcessGold, ht]
  refine ⟨hid s, ?_, ?_⟩
  · intro h0 hne
    have e : ProcessGold K s = ProcessGold.animate K s := by
      simp only [ProcessGold, h0, a2, a3, if_neg hne]
      simp
    exact ⟨e, by rw [e, a1, h0]⟩
  · intro h0 heq
    have e := ProcessGold_reveal_eq K s h0 heq
    have hx := ProcessGold.reveal_exitLadders K (ProcessGold.animate K s)
    refine ⟨e, by rw [e, hx], ?_⟩
    rw [e]
    exact hid _ hx

/-- Witness of C13: on the zero-initialised globals (no gold, `goldCollected = goldCount`)
the first call reveals and a second call changes nothing. -/
theorem C13_reveal_once_witness :
    (ProcessGold K0 State.zero).game.exitLadders = true ∧
    ProcessGold K0 (ProcessGold K0 State.zero) = ProcessGold K0 State.zero :=
  ((C13_reveal_once K0 State.zero).2.2 rfl rfl).2

end Reveal

section GoldRecords

theorem Recorded.skip (g : Game) (L : List (Nat × Nat)) (c : Nat × Nat) (h : Recorded g L)
    (hfull : ¬ g.goldCount < MAX_GOLD) : Recorded g (L ++ [c]) := by
  obtain ⟨h1, h2⟩ := h
  have hlen : 32 ≤ L.length := by
    simp only [MAX_GOLD] at hfull
    omega
  constructor
  · rw [h1, List.length_append, List.length_singleton]
    omega
  · intro i hi
    have hi32 : i < 32 := by omega
    rw [h2 i (by omega), List.getD_append _ _ _ _ (by omega)]

theorem Recorded.push (g : Game) (L : List (Nat × Nat)) (c : Nat × Nat) (h : Recorded g L)
    (hfree : g.goldCount < MAX_GOLD) :
    Recorded { g with gold := Function.update g.gold g.goldCount (goldAt c),
                      goldCount := (g.goldCount + 1) % 256 } (L ++ [c]) := by
  obtain ⟨h1, h2⟩ := h
  simp only [MAX_GOLD] at hfree
  have hlen : L.length < 32 := by omega
  have hc : g.goldCount = L.length := by omega
  constructor
  · simp only [List.length_append, List.length_singleton]
    omega
  · intro i hi
    simp only [List.length_append, List.length_singleton] at hi
    show Function.update g.gold (g.goldCount : Int) (goldAt c) (i : Int) = _
    rw [hc]
    by_cases hil : i = L.length
    · subst hil
      rw [Function.update_same, List.getD_append_right _ _ _ _ (Nat.le_refl _)]
      simp
    · have hne : (i : Int) ≠ (L.length : Int) := by omega
      rw [Function.update_noteq hne, h2 i (by omega), List.getD_append _ _ _ _ (by omega)]

theorem UnpackGameMap.cell_map (K : Consts) (x y nb pos ec : Nat) (s : State) :
    (UnpackGameMap.cell K x y nb pos ec s).2.game.map = s.game.map := by
  rw [UnpackGameMap.cell_game]
  split_ifs <;> rfl

theorem UnpackGameMap.cell_recorded (K : Consts) (x y nb pos ec : Nat) (s : State)
    (L : List (Nat × Nat)) (h : Recorded s.game L) (hx : x + nb + 1 < 256) :
    Recorded (UnpackGameMap.cell K x y nb pos ec s).2.game
      (L ++ (if nibbleOf (s.game.map pos) nb = 7 then [(x + nb + 1, y)] else [])) := by
  rw [UnpackGameMap.cell_game]
  by_cases h7 : nibbleOf (s.game.map pos) nb = 7
  · rw [if_pos h7]
    by_cases hg : s.game.goldCount < MAX_GOLD
    · rw [if_pos ⟨h7, hg⟩]
      have hm : (x + nb + 1) % 256 = x + nb + 1 := Nat.mod_eq_of_lt hx
      rw [hm]
      exact Recorded.push s.game L (x + nb + 1, y) h hg
    · rw [if_neg (fun hc => hg hc.2)]
      exact Recorded.skip s.game L (x + nb + 1, y) h hg
  · rw [if_neg h7, if_neg (fun hc => h7 hc.1), List.append_nil]
    exact h

theorem UnpackGameMap.byte_map (K : Consts) (p : Nat) (r : Nat × State) :
    (UnpackGameMap.byte K p r).2.game.map = r.2.game.map := by
  simp only [UnpackGameMap.byte]
  rw [UnpackGameMap.cell_map, UnpackGameMap.cell_map]

theorem UnpackGameMap.byte_recorded (K : Consts) (p : Nat) (r : Nat × State)
    (L : List (Nat × Nat)) (h : Recorded r.2.game L) :
    Recorded (UnpackGameMap.byte K p r).2.game (L ++ goldCells r.2.game.map 1 p) := by
  have h0 := UnpackGameMap.cell_recorded K (2 * (p % 14)) (p / 14) 0 p r.1 r.2 L h (by omega)
  have h1 := UnpackGameMap.cell_recorded K (2 * (p % 14)) (p / 14) 1 p
    (UnpackGameMap.cell K (2 * (p % 14)) (p / 14) 0 p r.1 r.2).1
    (UnpackGameMap.cell K (2 * (p % 14)) (p / 14) 0 p r.1 r.2).2 _ h0 (by omega)
  rw [UnpackGameMap.cell_map] at h1
  simp only [UnpackGameMap.byte, goldCells, List.append_nil]
  rw [← List.append_assoc]
  exact h1

theorem goldCells_succ (map : Nat → Nat) (n p : Nat) :
    goldCells map (n + 1) p = goldCells map 1 p ++ goldCells map n (p + 1) := by
  simp only [goldCells, List.append_nil, List.append_assoc]

/-- The scan of `UnpackGameMap` over the bytes `p .. p+n-1` appends the gold cells of these
bytes to the recorded ones, up to 32 records, and does not change `game.map`. -/
theorem UnpackGameMap.scan_recorded (K : Consts) :
    ∀ (n p : Nat) (r : Nat × State) (L : List (Nat × Nat)), Recorded r.2.game L →
      Recorded (scanFrom (UnpackGameMap.byte K) n p r).2.game (L ++ goldCells r.2.game.map n p) ∧
      (scanFrom (UnpackGameMap.byte K) n p r).2.game.map = r.2.game.map := by
  intro n
  induction n with
  | zero =>
    intro p r L h
    refine ⟨?_, rfl⟩
    simp only [scanFrom, goldCells, List.append_nil]
    exact h
  | succ n ih =>
    intro p r L h
    have hb := UnpackGameMap.byte_recorded K p r L h
    have hm := UnpackGameMap.byte_map K p r
    obtain ⟨i1, i2⟩ := ih (p + 1) (UnpackGameMap.byte K p r) _ hb
    rw [hm] at i1 i2
    simp only [scanFrom]
    rw [goldCells_succ, ← List.append_assoc]
    exact ⟨i1, i2⟩

theorem goldCells_congr (m1 m2 : Nat → Nat) :
    ∀ (n p : Nat), (∀ q, p ≤ q → q < p + n → m1 q = m2 q) →
      goldCells m1 n p = goldCells m2 n p := by
  intro n
  induction n with
  | zero => intro p _; rfl
  | succ n ih =>
    intro p h
    simp only [goldCells]
    rw [h p (Nat.le_refl p) (by omega), ih (p + 1) (fun q h1 h2 => h q (by omega) (by omega))]

theorem UnpackGameMap.status_gold (K : Consts) (mapNo : Nat) (t : State) :
    (UnpackGameMap.status K mapNo t).game.goldCount = t.game.goldCount ∧
    (UnpackGameMap.status K mapNo t).game.gold = t.game.gold ∧
    (UnpackGameMap.status K mapNo t).game.map = t.game.map ∧
    (UnpackGameMap.status K mapNo t).game.goldCollected = 0 := by
  rw [UnpackGameMap.status_game]
  exact ⟨rfl, rfl, rfl, rfl⟩

theorem UnpackGameMap.load_recorded (K : Consts) (levels : Nat → Nat) (mapNo : Nat) (s : State) :
    Recorded (UnpackGameMap.load K levels mapNo s).game [] ∧
    (UnpackGameMap.load K levels mapNo s).game.map
      = (fun i => if i < LEVEL_SIZE then levels (mapNo * LEVEL_SIZE + i) % 256
          else s.game.map i) := by
  rw [UnpackGameMap.load_game]
  refine ⟨⟨rfl, ?_⟩, rfl⟩
  intro i hi
  simp at hi

/-- The gold list after `UnpackGameMap`, as the `Recorded` relation with the gold cells of
the level bytes. -/
theorem UnpackGameMap_recorded (K : Consts) (levels : Nat → Nat) (mapNo : Nat) (s : State) :
    Recorded (UnpackGameMap K levels mapNo s).game
      (goldCells (fun i => levels (mapNo * LEVEL_SIZE + i) % 256) 224 0) := by
  obtain ⟨l1, l2⟩ := UnpackGameMap.load_recorded K levels mapNo s
  obtain ⟨r1, _⟩ := UnpackGameMap.scan_recorded K 224 0
    (0, UnpackGameMap.load K levels mapNo s) [] l1
  obtain ⟨g1, g2, _, _⟩ := UnpackGameMap.status_gold K mapNo
    (scanFrom (UnpackGameMap.byte K) 224 0 (0, UnpackGameMap.load K levels mapNo s)).2
  have hc : goldCells (UnpackGameMap.load K levels mapNo s).game.map 224 0
      = goldCells (fun i => levels (mapNo * LEVEL_SIZE + i) % 256) 224 0 := by
    apply goldCells_congr
    intro q _ hq
    rw [l2]
    have : q < LEVEL_SIZE := by simp only [LEVEL_SIZE]; omega
    simp only [this, if_true]
  rw [List.nil_append] at r1
  have r2 : Recorded (scanFrom (UnpackGameMap.byte K) 224 0
      (0, UnpackGameMap.load K levels mapNo s)).2.game
      (goldCells (fun i => levels (mapNo * LEVEL_SIZE + i) % 256) 224 0) := hc ▸ r1
  rw [UnpackGameMap_eq_scan]
  exact ⟨g1.trans r2.1, fun i hi => (congrFun g2 _).trans (r2.2 i hi)⟩

end GoldRecords

section Pickup

theorem ProcessPlayer.pick_frame (K : Consts) (i : Nat) (s : State) :
    (ProcessPlayer.pick K i s).game.gold
      = Function.update s.game.gold (i : Int)
          { s.game.gold i with state := GOLD_STATE_COLLECTED } ∧
    (ProcessPlayer.pick K i s).game.goldCollected = (s.game.goldCollected + 1) % 256 ∧
    (ProcessPlayer.pick K i s).game.goldCount = s.game.goldCount ∧
    (ProcessPlayer.pick K i s).player = s.player ∧
    (ProcessPlayer.pick K i s).sprites = s.sprites := by
  have hs : ∀ t : State, (UpdateInfo K t).sprites = t.sprites := by
    intro t
    simp only [UpdateInfo, PrintByte2]
    split_ifs <;> rfl
  simp only [ProcessPlayer.pick, UpdateInfo_game, UpdateInfo_player, hs, SetTile_game,
    SetTile_player, SetTile_sprites, setGold, and_self]

theorem ProcessPlayer.pick_vram (K : Consts) (i : Nat) (s : State) (idx : Nat)
    (hidx : idx < 16 * K.VRAM_TILES_H) :
    (ProcessPlayer.pick K i s).vram idx
      = if idx = (s.game.gold i).y * K.VRAM_TILES_H + (s.game.gold i).x then K.TILE_BG
        else s.vram idx := by
  simp only [ProcessPlayer.pick]
  rw [UpdateInfo_vram_below K _ idx hidx, SetTile_vram]
  simp [setGold]

/-- One pass of the pickup loop under the overlap test of the claim: a record inside the
field (`x < 32`, `y < 22`, so that `x * 8` and `y * 12` fit a byte) is picked exactly when
`hitsGold` accepts it. -/
theorem ProcessPlayer.collect_succ (K : Consts) (x y n i : Nat) (s : State)
    (hf : (s.game.gold i).x < 32 ∧ (s.game.gold i).y < 22) :
    ProcessPlayer.collect K x y (n + 1) i s
      = ProcessPlayer.collect K x y n (i + 1)
          (if hitsGold x y (s.game.gold i) then ProcessPlayer.pick K i s else s) := by
  have hx : ((s.game.gold i).x * 8) % 256 = (s.game.gold i).x * 8 := by omega
  have hy : ((s.game.gold i).y * 12) % 256 = (s.game.gold i).y * 12 := by omega
  simp only [ProcessPlayer.collect, hitsGold, TILE_WIDTH, TILE_HEIGHT, decide_eq_true_eq]
  simp only [hx, hy]
  by_cases hv : (s.game.gold i).state = GOLD_STATE_VISIBLE
  · by_cases hc : x + 4 ≥ (s.game.gold i).x * 8 ∧ x + 2 ≤ (s.game.gold i).x * 8 + 8 ∧
        y ≥ (s.game.gold i).y * 12 ∧ y ≤ (s.game.gold i).y * 12 + 12
    · rw [if_pos hv, if_pos hc, if_pos ⟨hv, hc⟩]
    · rw [if_pos hv, if_neg hc, if_neg (fun h => hc h.2)]
  · rw [if_neg hv, if_neg (fun h => hv h.1)]

theorem hitCount_congr (x y : Nat) (g1 g2 : Int → Gold) :
    ∀ (n i : Nat), (∀ k : Nat, i ≤ k → k < i + n → g1 k = g2 k) →
      hitCount x y g1 n i = hitCount x y g2 n i := by
  intro n
  induction n with
  | zero => intro i _; rfl
  | succ n ih =>
    intro i h
    simp only [hitCount]
    rw [h i (Nat.le_refl i) (by omega), ih (i + 1) (fun k h1 h2 => h k (by omega) (by omega))]

/-- The pickup loop over the records `gold[i .. i+n)`, all inside the field: the records
accepted by `hitsGold` become Collected and every other record is unchanged;
`goldCollected` (a byte) grows by their number, modulo 256; below the status row the grid
changes only at their cells, which end as `TILE_BG`. -/
theorem ProcessPlayer.collect_spec (K : Consts) (x y : Nat) :
    ∀ (n i : Nat) (s : State),
      (∀ k : Nat, i ≤ k → k < i + n → (s.game.gold k).x < 32 ∧ (s.game.gold k).y < 22) →
      s.game.goldCollected < 256 →
      (∀ j : Int, (ProcessPlayer.collect K x y n i s).game.gold j
          = if ((i : Int) ≤ j ∧ j < (i : Int) + n) ∧ hitsGold x y (s.game.gold j) = true
            then { s.game.gold j with state := GOLD_STATE_COLLECTED } else s.game.gold j) ∧
      (ProcessPlayer.collect K x y n i s).game.goldCollected
        = (s.game.goldCollected + hitCount x y s.game.gold n i) % 256 ∧
      (ProcessPlayer.collect K x y n i s).game.goldCount = s.game.goldCount ∧
      (ProcessPlayer.collect K x y n i s).player = s.player ∧
      (ProcessPlayer.collect K x y n i s).sprites = s.sprites ∧
      (∀ idx, idx < 16 * K.VRAM_TILES_H →
        ((∃ k : Nat, i ≤ k ∧ k < i + n ∧ hitsGold x y (s.game.gold k) = true ∧
            idx = (s.game.gold k).y * K.VRAM_TILES_H + (s.game.gold k).x) →
          (ProcessPlayer.collect K x y n i s).vram idx = K.TILE_BG) ∧
        ((¬ ∃ k : Nat, i ≤ k ∧ k < i + n ∧ hitsGold x y (s.game.gold k) = true ∧
            idx = (s.game.gold k).y * K.VRAM_TILES_H + (s.game.gold k).x) →
          (ProcessPlayer.collect K x y n i s).vram idx = s.vram idx)) := by
  intro n
  induction n with
  | zero =>
    intro i s _ hgc
    refine ⟨?_, ?_, rfl, rfl, rfl, ?_⟩
    · intro j
      have : ¬ (((i : Int) ≤ j ∧ j < (i : Int) + (0 : Nat)) ∧ hitsGold x y (s.game.gold j) = true) := by
        intro h
        omega
      rw [if_neg this]
      rfl
    · simp only [ProcessPlayer.collect, hitCount]
      omega
    · intro idx _
      refine ⟨?_, fun _ => rfl⟩
      rintro ⟨k, h1, h2, _⟩
      omega
  | succ n ih =>
    intro i s hf hgc
    rw [ProcessPlayer.collect_succ K x y n i s (hf i (Nat.le_refl i) (by omega))]
    by_cases hh : hitsGold x y (s.game.gold i) = true
    · -- record `i` is picked
      rw [if_pos hh]
      obtain ⟨p1, p2, p3, p4, p5⟩ := ProcessPlayer.pick_frame K i s
      have hother : ∀ k : Nat, i + 1 ≤ k → (ProcessPlayer.pick K i s).game.gold k = s.game.gold k := by
        intro k hk
        rw [p1, Function.update_noteq (by omega)]
      obtain ⟨a, b, c, d, e, f⟩ := ih (i + 1) (ProcessPlayer.pick K i s)
        (fun k h1 h2 => by rw [hother k h1]; exact hf k (by omega) (by omega))
        (by rw [p2]; omega)
      refine ⟨?_, ?_, c.trans p3, d.trans p4, e.trans p5, ?_⟩
      · intro j
        rw [a j, p1]
        by_cases hj : j = (i : Int)
        · subst hj
          have h1 : ¬ ((((i + 1 : Nat) : Int) ≤ (i : Int) ∧ (i : Int) < ((i + 1 : Nat) : Int) + n) ∧
              hitsGold x y (Function.update s.game.gold (i : Int)
                { s.game.gold i with state := GOLD_STATE_COLLECTED } (i : Int)) = true) := by
            intro h
            omega
          have h2 : (((i : Int) ≤ (i : Int) ∧ (i : Int) < (i : Int) + ((n + 1 : Nat) : Int)) ∧
              hitsGold x y (s.game.gold i) = true) := ⟨⟨by omega, by omega⟩, hh⟩
          rw [if_neg h1, if_pos h2, Function.update_same]
        · rw [Function.update_noteq hj]
          by_cases hc : (((i + 1 : Nat) : Int) ≤ j ∧ j < ((i + 1 : Nat) : Int) + n) ∧
              hitsGold x y (s.game.gold j) = true
          · rw [if_pos hc, if_pos ⟨⟨by omega, by omega⟩, hc.2⟩]
          · rw [if_neg hc, if_neg (fun h => hc ⟨⟨by omega, by omega⟩, h.2⟩)]
      · rw [b, p2, hitCount_congr x y _ s.game.gold n (i + 1) (fun k h1 _ => hother k h1)]
        simp only [hitCount, hh, if_true]
        omega
      · intro idx hidx
        obtain ⟨f1, f2⟩ := f idx hidx
        have hv := ProcessPlayer.pick_vram K i s idx hidx
        constructor
        · rintro ⟨k, h1, h2, h3, h4⟩
          by_cases hlater : ∃ k : Nat, i + 1 ≤ k ∧ k < i + 1 + n ∧
              hitsGold x y ((ProcessPlayer.pick K i s).game.gold k) = true ∧
              idx = ((ProcessPlayer.pick K i s).game.gold k).y * K.VRAM_TILES_H
                + ((ProcessPlayer.pick K i s).game.gold k).x
          · exact f1 hlater
          · rw [f2 hlater, hv]
            have hk : k = i := by
              by_contra hne
              refine hlater ⟨k, by omega, by omega, ?_, ?_⟩
              · rw [hother k (by omega)]; exact h3
              · rw [hother k (by omega)]; exact h4
            subst hk
            rw [if_pos h4]
        · intro hno
          have hlater : ¬ ∃ k : Nat, i + 1 ≤ k ∧ k < i + 1 + n ∧
              hitsGold x y ((ProcessPlayer.pick K i s).game.gold k) = true ∧
              idx = ((ProcessPlayer.pick K i s).game.gold k).y * K.VRAM_TILES_H
                + ((ProcessPlayer.pick K i s).game.gold k).x := by
            rintro ⟨k, h1, h2, h3, h4⟩
            rw [hother k h1] at h3 h4
            exact hno ⟨k, by omega, by omega, h3, h4⟩
          rw [f2 hlater, hv]
          have : ¬ idx = (s.game.gold i).y * K.VRAM_TILES_H + (s.game.gold i).x :=
            fun h => hno ⟨i, Nat.le_refl i, by omega, hh, h⟩
          rw [if_neg this]
    · -- record `i` is left alone
      rw [if_neg hh]
      obtain ⟨a, b, c, d, e, f⟩ := ih (i + 1) s
        (fun k h1 h2 => hf k (by omega) (by omega)) hgc
      refine ⟨?_, ?_, c, d, e, ?_⟩
      · intro j
        rw [a j]
        by_cases hj : j = (i : Int)
        · subst hj
          have h1 : ¬ ((((i + 1 : Nat) : Int) ≤ (i : Int) ∧ (i : Int) < ((i + 1 : Nat) : Int) + n) ∧
              hitsGold x y (s.game.gold i) = true) := by
            intro h
            omega
          rw [if_neg h1, if_neg (fun h => hh h.2)]
        · by_cases hc : (((i + 1 : Nat) : Int) ≤ j ∧ j < ((i + 1 : Nat) : Int) + n) ∧
              hitsGold x y (s.game.gold j) = true
          · rw [if_pos hc, if_pos ⟨⟨by omega, by omega⟩, hc.2⟩]
          · rw [if_neg hc, if_neg (fun h => hc ⟨⟨by omega, by omega⟩, h.2⟩)]
      · rw [b]
        simp only [hitCount, hh]
        simp
      · intro idx hidx
        obtain ⟨f1, f2⟩ := f idx hidx
        constructor
        · rintro ⟨k, h1, h2, h3, h4⟩
          have hk : k ≠ i := by
            intro h
            subst h
            exact hh h3
          exact f1 ⟨k, by omega, by omega, h3, h4⟩
        · intro hno
          refine f2 ?_
          rintro ⟨k, h1, h2, h3, h4⟩
          exact hno ⟨k, by omega, by omega, h3, h4⟩

/-- The player's tick without a pause: the tiles around the player are cached, the pickup
loop runs over `gold[0 .. goldCount)` at the player's pixel position, then the crush and
collision tests and the action `switch`. -/
theorem ProcessPlayer_player_eq (K : Consts) (inp : Input) (id : Nat) (s : State)
    (hid : id ≥ SPR_INDEX_PLAYER) (hact : (s.player id).active = true)
    (hstart : inp.joy &&& K.BTN_START = 0) :
    ProcessPlayer K inp id s
      = ProcessPlayer.dispatch K inp inp.joy id
          (if ((ProcessPlayer.collect K (u8 (px (s.player id).x)) (u8 (px (s.player id).y))
                s.game.goldCount 0
                (setPlayer s id (fun p =>
                  { p with tileAtFeet := GetTileAtFeet K s.vram (u8 (px (s.player id).x))
                             (u8 (px (s.player id).y)),
                           tileAtHead := GetTileAtHead K s.vram (u8 (px (s.player id).x))
                             (u8 (px (s.player id).y)),
                           tileUnder := GetTileUnder K s.vram (u8 (px (s.player id).x))
                             (u8 (px (s.player id).y)) }))).player id).tileAtFeet
                = K.TILE_BREAKABLE
           then setPlayer (ProcessPlayer.collect K (u8 (px (s.player id).x))
                (u8 (px (s.player id).y)) s.game.goldCount 0
                (setPlayer s id (fun p =>
                  { p with tileAtFeet := GetTileAtFeet K s.vram (u8 (px (s.player id).x))
                             (u8 (px (s.player id).y)),
                           tileAtHead := GetTileAtHead K s.vram (u8 (px (s.player id).x))
                             (u8 (px (s.player id).y)),
                           tileUnder := GetTileUnder K s.vram (u8 (px (s.player id).x))
                             (u8 (px (s.player id).y)) }))) id
                (fun p => { p with action := ACTION_DIE })
           else ProcessPlayer.collide id (u8 (px (s.player id).x)) (u8 (px (s.player id).y))
                SPR_INDEX_PLAYER 0
                (ProcessPlayer.collect K (u8 (px (s.player id).x)) (u8 (px (s.player id).y))
                  s.game.goldCount 0
                  (setPlayer s id (fun p =>
                    { p with tileAtFeet := GetTileAtFeet K s.vram (u8 (px (s.player id).x))
                               (u8 (px (s.player id).y)),
                             tileAtHead := GetTileAtHead K s.vram (u8 (px (s.player id).x))
                               (u8 (px (s.player id).y)),
                             tileUnder := GetTileUnder K s.vram (u8 (px (s.player id).x))
                               (u8 (px (s.player id).y)) })))) := by
  simp only [ProcessPlayer, hact, hid, hstart, setPlayer_game, not_true_eq_false, if_false,
    if_true, ne_eq]

/-- C15: the pickup loop of the player's tick, run for the player at pixel `(x, y)` over the
records `gold[0 .. n)` (`n = goldCount` in the tick), all inside the field. A record becomes
Collected exactly when it is Visible and overlaps the player's box (`hitsGold`); every other
record is unchanged. `goldCollected` grows by one per collected record (modulo 256, the
field is a byte). The cell of a collected record in the playfield rows ends as `TILE_BG`,
and every other cell above the status row is unchanged. In the tick of the player (slot 5
or above, active, Start not pressed) this loop runs with `n = goldCount` at the player's
pixel position, after the tiles around the player are cached and before the crush and
collision tests and the action `switch`. -/
theorem C15_pickup (K : Consts) (x y n : Nat) (s : State)
    (hf : ∀ k : Nat, k < n → (s.game.gold k).x < 32 ∧ (s.game.gold k).y < 22)
    (hgc : s.game.goldCollected < 256) :
    (∀ i : Nat, i < n → (ProcessPlayer.collect K x y n 0 s).game.gold i
        = if hitsGold x y (s.game.gold i) = true
          then { s.game.gold i with state := GOLD_STATE_COLLECTED } else s.game.gold i) ∧
    (∀ j : Int, ¬ (0 ≤ j ∧ j < n) →
      (ProcessPlayer.collect K x y n 0 s).game.gold j = s.game.gold j) ∧
    (ProcessPlayer.collect K x y n 0 s).game.goldCollected
      = (s.game.goldCollected + hitCount x y s.game.gold n 0) % 256 ∧
    (∀ i : Nat, i < n → hitsGold x y (s.game.gold i) = true →
      (s.game.gold i).y * K.VRAM_TILES_H + (s.game.gold i).x < 16 * K.VRAM_TILES_H →
      (ProcessPlayer.collect K x y n 0 s).vram
        ((s.game.gold i).y * K.VRAM_TILES_H + (s.game.gold i).x) = K.TILE_BG) ∧
    (∀ idx, idx < 16 * K.VRAM_TILES_H →
      (∀ i : Nat, i < n → hitsGold x y (s.game.gold i) = true →
        idx ≠ (s.game.gold i).y * K.VRAM_TILES_H + (s.game.gold i).x) →
      (ProcessPlayer.collect K x y n 0 s).vram idx = s.vram idx) ∧
    (∀ (inp : Input) (id : Nat) (s0 : State), id ≥ SPR_INDEX_PLAYER →
      (s0.player id).active = true → inp.joy &&& K.BTN_START = 0 →
      ProcessPlayer K inp id s0
        = ProcessPlayer.dispatch K inp inp.joy id
            (if ((ProcessPlayer.collect K (u8 (px (s0.player id).x)) (u8 (px (s0.player id).y))
                  s0.game.goldCount 0
                  (setPlayer s0 id (fun p =>
                    { p with tileAtFeet := GetTileAtFeet K s0.vram (u8 (px (s0.player id).x))
                               (u8 (px (s0.player id).y)),
                             tileAtHead := GetTileAtHead K s0.vram (u8 (px (s0.player id).x))
                               (u8 (px (s0.player id).y)),
                             tileUnder := GetTileUnder K s0.vram (u8 (px (s0.player id).x))
                               (u8 (px (s0.player id).y)) }))).player id).tileAtFeet
                  = K.TILE_BREAKABLE
             then setPlayer (ProcessPlayer.collect K (u8 (px (s0.player id).x))
                  (u8 (px (s0.player id).y)) s0.game.goldCount 0
                  (setPlayer s0 id (fun p =>
                    { p with tileAtFeet := GetTileAtFeet K s0.vram (u8 (px (s0.player id).x))
                               (u8 (px (s0.player id).y)),
                             tileAtHead := GetTileAtHead K s0.vram (u8 (px (s0.player id).x))
                               (u8 (px (s0.player id).y)),
                             tileUnder := GetTileUnder K s0.vram (u8 (px (s0.player id).x))
                               (u8 (px (s0.player id).y)) }))) id
                  (fun p => { p with action := ACTION_DIE })
             else ProcessPlayer.collide id (u8 (px (s0.player id).x)) (u8 (px (s0.player id).y))
                  SPR_INDEX_PLAYER 0
                  (ProcessPlayer.collect K (u8 (px (s0.player id).x)) (u8 (px (s0.player id).y))
                    s0.game.goldCount 0
                    (setPlayer s0 id (fun p =>
                      { p with tileAtFeet := GetTileAtFeet K s0.vram (u8 (px (s0.player id).x))
                                 (u8 (px (s0.player id).y)),
                               tileAtHead := GetTileAtHead K s0.vram (u8 (px (s0.player id).x))
                                 (u8 (px (s0.player id).y)),
                               tileUnder := GetTileUnder K s0.vram (u8 (px (s0.player id).x))
                                 (u8 (px (s0.player id).y)) }))))) := by
  obtain ⟨a, b, _, _, _, f⟩ := ProcessPlayer.collect_spec K x y n 0 s
    (fun k _ h2 => hf k (by omega)) hgc
  refine ⟨?_, ?_, b, ?_, ?_, fun inp id s0 h1 h2 h3 => ProcessPlayer_player_eq K inp id s0 h1 h2 h3⟩
  · intro i hi
    rw [a i]
    by_cases hh : hitsGold x y (s.game.gold i) = true
    · rw [if_pos hh, if_pos ⟨⟨by omega, by omega⟩, hh⟩]
    · rw [if_neg hh, if_neg (fun h => hh h.2)]
  · intro j hj
    rw [a j, if_neg (fun h => hj ⟨by omega, by omega⟩)]
  · intro i hi hh hidx
    exact (f _ hidx).1 ⟨i, Nat.zero_le i, by omega, hh, rfl⟩
  · intro idx hidx hno
    refine (f idx hidx).2 ?_
    rintro ⟨k, _, h2, h3, h4⟩
    exact hno k (by omega) h3 h4

/-- Witness of C15: the player of `C15_state` at pixel (80, 60) picks up record 0 (its cell
(10, 5) ends as `TILE_BG`, `goldCollected` goes from 1 to 2) and leaves record 1, which is
out of reach. -/
theorem C15_pickup_witness :
    (ProcessPlayer.collect K0 80 60 3 0 C15_state).game.gold 0
      = { x := 10, y := 5, state := GOLD_STATE_COLLECTED } ∧
    (ProcessPlayer.collect K0 80 60 3 0 C15_state).game.gold 1
      = { x := 12, y := 5, state := GOLD_STATE_VISIBLE } ∧
    (ProcessPlayer.collect K0 80 60 3 0 C15_state).game.goldCollected = 2 ∧
    (ProcessPlayer.collect K0 80 60 3 0 C15_state).vram (5 * 30 + 10) = K0.TILE_BG := by
  have h := C15_pickup K0 80 60 3 C15_state (by decide) (by decide)
  refine ⟨?_, ?_, ?_, ?_⟩
  · have h0 := h.1 0 (by decide)
    rw [show ((0 : Nat) : Int) = 0 from rfl] at h0
    rw [h0]; decide
  · have h1 := h.1 1 (by decide)
    rw [show ((1 : Nat) : Int) = 1 from rfl] at h1
    rw [h1]; decide
  · rw [h.2.2.1]; decide
  · exact h.2.2.2.1 0 (by decide) (by decide) (by decide)

end Pickup

section Inactive

/-- C29: `ProcessPlayer(id)` on an entity whose `active` flag is false returns the state it
was given (entity array, gold list, tile grid, sprite table, animation pool and level flags
all unchanged), whatever the outside inputs are: none of them is read. -/
theorem C29_inactive_entity_untouched (K : Consts) (inp : Input) (id : Nat) (s : State)
    (h : (s.player id).active = false) :
    ProcessPlayer K inp id s = s ∧
    (ProcessPlayer K inp id s).player = s.player ∧
    (ProcessPlayer K inp id s).game.gold = s.game.gold ∧
    (ProcessPlayer K inp id s).vram = s.vram ∧
    (ProcessPlayer K inp id s).sprites = s.sprites ∧
    (ProcessPlayer K inp id s).game.animations = s.game.animations ∧
    (ProcessPlayer K inp id s).game.levelComplete = s.game.levelComplete ∧
    (ProcessPlayer K inp id s).game.levelRestart = s.game.levelRestart ∧
    (ProcessPlayer K inp id s).game.levelQuit = s.game.levelQuit ∧
    ∀ other : Input, ProcessPlayer K other id s = ProcessPlayer K inp id s := by
  have e : ∀ i : Input, ProcessPlayer K i id s = s := by
    intro i
    unfold ProcessPlayer
    rw [if_pos (by simp [h])]
  rw [e inp]
  refine ⟨rfl, rfl, rfl, rfl, rfl, rfl, rfl, rfl, rfl, ?_⟩
  intro other
  exact e other

/-- C29 at a concrete input: enemy slot 2 of the player-only state of C8 is inactive, and
a tick with the Start and A buttons down leaves the state as it was. -/
theorem C29_inactive_entity_untouched_witness :
    (C8_state.player 2).active = false ∧
    ProcessPlayer K0 { Input.idle with joy := 264 } 2 C8_state = C8_state :=
  ⟨by decide,
   (C29_inactive_entity_untouched K0 { Input.idle with joy := 264 } 2 C8_state (by decide)).1⟩

end Inactive

section TileUnder

/-- C27: `GetTileUnder` at pixel `(x, y)`: from `y = 180` on the result is
`TILE_UNBREAKABLE` whatever the grid holds (no cell is read); below that the cell read is
`vram[row * VRAM_TILES_H + ((x + 4) >> 3)]` with `row = (y + 12) / 12`, which lies in 1..15,
and the result depends on no other cell; when the column `(x + 4) >> 3` is inside the grid
width the cell lies in the rows 1..15 of the grid. -/
theorem C27_GetTileUnder_row (K : Consts) (vram : Nat → Nat) (x y : Nat) :
    (180 ≤ y → ∀ v : Nat → Nat, GetTileUnder K v x y = K.TILE_UNBREAKABLE) ∧
    (y < 180 →
      GetTileUnder K vram x y = vram ((y + 12) / 12 * K.VRAM_TILES_H + ((x + 4) >>> 3)) ∧
      1 ≤ (y + 12) / 12 ∧ (y + 12) / 12 ≤ 15 ∧
      (∀ v : Nat → Nat,
        v ((y + 12) / 12 * K.VRAM_TILES_H + ((x + 4) >>> 3))
          = vram ((y + 12) / 12 * K.VRAM_TILES_H + ((x + 4) >>> 3)) →
        GetTileUnder K v x y = GetTileUnder K vram x y) ∧
      ((x + 4) >>> 3 < K.VRAM_TILES_H →
        1 * K.VRAM_TILES_H ≤ (y + 12) / 12 * K.VRAM_TILES_H + ((x + 4) >>> 3) ∧
        (y + 12) / 12 * K.VRAM_TILES_H + ((x + 4) >>> 3) < 16 * K.VRAM_TILES_H)) := by
  constructor
  · intro hy v
    unfold GetTileUnder
    rw [if_pos (by simp only [FIELD_HEIGHT, TILE_HEIGHT]; omega)]
  · intro hy
    have e : ∀ v : Nat → Nat,
        GetTileUnder K v x y = v ((y + 12) / 12 * K.VRAM_TILES_H + ((x + 4) >>> 3)) := by
      intro v
      unfold GetTileUnder
      rw [if_neg (by simp only [FIELD_HEIGHT, TILE_HEIGHT]; omega)]
      rfl
    have h1 : 1 ≤ (y + 12) / 12 := by omega
    have h2 : (y + 12) / 12 ≤ 15 := by omega
    refine ⟨e vram, h1, h2, ?_, ?_⟩
    · intro v hv
      rw [e v, e vram, hv]
    · intro hc
      constructor
      · have := Nat.mul_le_mul_right K.VRAM_TILES_H h1
        omega
      · have := Nat.mul_le_mul_right K.VRAM_TILES_H h2
        omega

/-- C27 at concrete inputs: at pixel (64, 179) the cell read is row 15, column 8; at pixel
(64, 180) the result is Unbreakable on a grid that holds only ladders. -/
theorem C27_GetTileUnder_row_witness :
    GetTileUnder K0 (fun i => i) 64 179 = 15 * 30 + 8 ∧
    GetTileUnder K0 (fun _ => K0.TILE_LADDER) 64 180 = K0.TILE_UNBREAKABLE :=
  ⟨((C27_GetTileUnder_row K0 (fun i => i) 64 179).2 (by decide)).1.trans (by decide),
   (C27_GetTileUnder_row K0 (fun i => i) 64 180).1 (by decide) (fun _ => K0.TILE_LADDER)⟩

end TileUnder

section GoldDelay

/-- The gold fields of the enemy after `ProcessEnemy`, branch by branch. -/
theorem ProcessEnemy_gold_fields (K : Consts) (inp : Input) (id : Nat) (s : State) :
    let p := s.player id
    let q := (ProcessEnemy K inp id s).1.player id
    let goldId := ProcessEnemy.findGold s.game ((u8 (px p.x) + 4) / TILE_WIDTH)
      (u8 (px p.y) / TILE_HEIGHT) s.game.goldCount 0
    (q.capturedGoldId = p.capturedGoldId ∧ q.capturedGoldDelay = p.capturedGoldDelay) ∨
    (p.capturedGoldId = -1 ∧ IsTileGold K p.tileAtFeet = true ∧ goldId ≠ p.lastCapturedGoldId ∧
      q.capturedGoldId = goldId ∧ q.capturedGoldDelay = inp.rnd % 500 + 120) ∨
    (p.capturedGoldId ≠ -1 ∧ p.capturedGoldDelay = 0 ∧
      q.capturedGoldId = -1 ∧ q.capturedGoldDelay = 0) ∨
    (p.capturedGoldId ≠ -1 ∧ 0 < p.capturedGoldDelay ∧
      q.capturedGoldId = p.capturedGoldId ∧ q.capturedGoldDelay + 1 = p.capturedGoldDelay) := by
  intro p q goldId
  have hq : q = (ProcessEnemy K inp id s).1.player id := rfl
  unfold ProcessEnemy at hq
  by_cases h1 : (s.player id).action = ACTION_RESPAWN
  · rw [if_pos h1] at hq
    left; rw [hq]; exact ⟨rfl, rfl⟩
  rw [if_neg h1] at hq
  by_cases h2 : (s.player id).tileAtFeet = K.TILE_BREAKABLE
  · rw [if_pos h2] at hq
    left; rw [hq]; simp [setPlayer, p]
  rw [if_neg h2] at hq
  simp only [Ai, setPlayer_player, Function.update_same] at hq
  by_cases h3 : (s.player id).capturedGoldId = -1 ∧ IsTileGold K (s.player id).tileAtFeet = true
  · rw [if_pos h3] at hq
    by_cases h4 : goldId ≠ (s.player id).lastCapturedGoldId
    · rw [if_pos h4] at hq
      right; left
      refine ⟨h3.1, h3.2, h4, ?_, ?_⟩
      · rw [hq]; simp [setPlayer, SetTile]
      · rw [hq]; simp [setPlayer, SetTile]
        omega
    · rw [if_neg h4] at hq
      left; rw [hq]; exact ⟨rfl, rfl⟩
  rw [if_neg h3] at hq
  by_cases h5 : (s.player id).capturedGoldId ≠ -1 ∧ (s.player id).capturedGoldDelay = 0
      ∧ (s.player id).action = ACTION_WALK ∧ (s.player id).tileAtFeet = K.TILE_BG
      ∧ IsTileSolid K s.player (s.player id).tileUnder id = true
  · rw [if_pos h5] at hq
    right; right; left
    refine ⟨h5.1, h5.2.1, ?_, ?_⟩
    · rw [hq]; simp [setPlayer, setGold]
    · rw [hq]; simp [setPlayer, setGold]; exact h5.2.1
  rw [if_neg h5] at hq
  by_cases h6 : (s.player id).capturedGoldId ≠ -1 ∧ (s.player id).capturedGoldDelay > 0
  · rw [if_pos h6] at hq
    right; right; right
    refine ⟨h6.1, h6.2, ?_, ?_⟩
    · rw [hq]; simp [setPlayer]
    · rw [hq]; simp [setPlayer]
      have h6b := h6.2
      show (s.player id).capturedGoldDelay - 1 + 1 = (s.player id).capturedGoldDelay
      omega
  rw [if_neg h6] at hq
  left; rw [hq]; exact ⟨rfl, rfl⟩

/-- C26: the release delay in `ProcessEnemy`, for every value `rnd` of the random source.
A call either leaves `capturedGoldId` and `capturedGoldDelay` as they were, or captures
(the enemy held nothing, and the delay set is `rnd % 500 + 120`, in `[120, 620)`), or
releases (the enemy held an item and the delay was exactly 0), or counts down (the enemy
held an item, the delay was above 0 and drops by exactly one). So the delay never
underflows and an item held by the enemy leaves it only at delay 0. -/
theorem C26_capturedGoldDelay (K : Consts) (inp : Input) (id : Nat) (s : State) :
    ((s.player id).capturedGoldId = -1 →
      ((ProcessEnemy K inp id s).1.player id).capturedGoldId ≠ -1 →
      120 ≤ ((ProcessEnemy K inp id s).1.player id).capturedGoldDelay ∧
      ((ProcessEnemy K inp id s).1.player id).capturedGoldDelay < 620) ∧
    (((ProcessEnemy K inp id s).1.player id).capturedGoldDelay ≠ (s.player id).capturedGoldDelay →
      ((s.player id).capturedGoldId = -1 ∧
        ((ProcessEnemy K inp id s).1.player id).capturedGoldDelay = inp.rnd % 500 + 120 ∧
        120 ≤ ((ProcessEnemy K inp id s).1.player id).capturedGoldDelay ∧
        ((ProcessEnemy K inp id s).1.player id).capturedGoldDelay < 620) ∨
      ((s.player id).capturedGoldId ≠ -1 ∧ 0 < (s.player id).capturedGoldDelay ∧
        ((ProcessEnemy K inp id s).1.player id).capturedGoldDelay + 1
          = (s.player id).capturedGoldDelay)) ∧
    ((s.player id).capturedGoldId ≠ -1 →
      ((ProcessEnemy K inp id s).1.player id).capturedGoldId ≠ (s.player id).capturedGoldId →
      (s.player id).capturedGoldDelay = 0 ∧
      ((ProcessEnemy K inp id s).1.player id).capturedGoldId = -1) := by
  have h := ProcessEnemy_gold_fields K inp id s
  simp only [] at h
  have hr : inp.rnd % 500 < 500 := Nat.mod_lt _ (by decide)
  refine ⟨?_, ?_, ?_⟩
  · intro h0 h1
    rcases h with ⟨a, b⟩ | ⟨a, b, c, d, e⟩ | ⟨a, b, c, d⟩ | ⟨a, b, c, d⟩
    · exact absurd (a.trans h0) h1
    · rw [e]; omega
    · exact absurd h0 a
    · exact absurd h0 a
  · intro h0
    rcases h with ⟨a, b⟩ | ⟨a, b, c, d, e⟩ | ⟨a, b, c, d⟩ | ⟨a, b, c, d⟩
    · exact absurd b h0
    · left; refine ⟨a, e, ?_, ?_⟩ <;> rw [e] <;> omega
    · exact absurd (d.trans b.symm) h0
    · right; exact ⟨a, b, d⟩
  · intro h0 h1
    rcases h with ⟨a, b⟩ | ⟨a, b, c, d, e⟩ | ⟨a, b, c, d⟩ | ⟨a, b, c, d⟩
    · exact absurd a h1
    · exact absurd a h0
    · exact ⟨b, c⟩
    · exact absurd c h1

/-- C26 at a concrete input: the falling enemy of C3 holds nothing and stands in a gold
cell; with the random source at 12345 the call captures and sets the delay to
12345 % 500 + 120 = 465. -/
theorem C26_capturedGoldDelay_witness :
    (C3_state.player 0).capturedGoldId = -1 ∧
    ((ProcessEnemy K0 { Input.idle with rnd := 12345 } 0
      (setPlayer C3_state 0 (fun p => { p with tileAtFeet := K0.TILE_GOLD1 }))).1.player 0).capturedGoldId
      ≠ -1 ∧
    120 ≤ ((ProcessEnemy K0 { Input.idle with rnd := 12345 } 0
      (setPlayer C3_state 0 (fun p => { p with tileAtFeet := K0.TILE_GOLD1 }))).1.player 0).capturedGoldDelay ∧
    ((ProcessEnemy K0 { Input.idle with rnd := 12345 } 0
      (setPlayer C3_state 0 (fun p => { p with tileAtFeet := K0.TILE_GOLD1 }))).1.player 0).capturedGoldDelay
      < 620 :=
  ⟨by decide, by decide,
   (C26_capturedGoldDelay K0 { Input.idle with rnd := 12345 } 0
      (setPlayer C3_state 0 (fun p => { p with tileAtFeet := K0.TILE_GOLD1 }))).1
      (by decide) (by decide)⟩

end GoldDelay

section Save

/-- C30: `loadEeprom` in the build that reads the EEPROM (no `P8X_PORTABLE`). If the
stored record carries the id `EEPROM_ID` (8), `saveGame` ends equal to the stored record,
the stored block is unchanged and nothing is handed to `eeprom_write`. Otherwise `saveGame`
ends with id 8 and every other byte zero (completed bitmap, played bitmap, marker,
reserved), and exactly that record is written back. -/
theorem C30_loadEeprom (s : SaveState) :
    (s.eeprom.id = EEPROM_ID →
      (loadEeprom false s).saveGame = s.eeprom ∧
      (loadEeprom false s).eeprom = s.eeprom ∧
      (loadEeprom false s).written = s.written) ∧
    (s.eeprom.id ≠ EEPROM_ID →
      (loadEeprom false s).saveGame.id = 8 ∧
      (loadEeprom false s).saveGame.completedLevels = List.replicate 10 0 ∧
      (loadEeprom false s).saveGame.playedLevels = List.replicate 10 0 ∧
      (loadEeprom false s).saveGame.blankMarker = 0 ∧
      (loadEeprom false s).saveGame.reservedData = List.replicate 6 0 ∧
      (loadEeprom false s).eeprom = (loadEeprom false s).saveGame ∧
      (loadEeprom false s).written = s.written ++ [(loadEeprom false s).saveGame]) := by
  constructor
  · intro h
    simp [loadEeprom, eeprom_read, h]
  · intro h
    have h8 : ¬ s.eeprom.id = 8 := h
    simp [loadEeprom, eeprom_read, eeprom_write, h8, EepromBlock.zero, EEPROM_ID]

/-- C30 at concrete inputs: a stored record with id 8 is taken over as it is and nothing
is written; a blank EEPROM (every byte `0xff`) is replaced by the record with id 8 and
zeros, which is the one record written. -/
theorem C30_loadEeprom_witness :
    C30_state.eeprom.id = EEPROM_ID ∧
    (loadEeprom false C30_state).saveGame = C30_state.eeprom ∧
    (loadEeprom false C30_state).written = [] ∧
    C30_state_blank.eeprom.id ≠ EEPROM_ID ∧
    (loadEeprom false C30_state_blank).saveGame.id = 8 ∧
    (loadEeprom false C30_state_blank).written
      = [{ EepromBlock.zero with id := 8 }] :=
  ⟨by decide,
   ((C30_loadEeprom C30_state).1 (by decide)).1,
   ((C30_loadEeprom C30_state).1 (by decide)).2.2,
   by decide,
   ((C30_loadEeprom C30_state_blank).2 (by decide)).1,
   by decide⟩

end Save

section Timelines

/-- The frame counter that `Die` tests: reset by the entry block, then incremented. -/
theorem Die_fields (K : Consts) (id : Nat) (s : State) :
    ((Die K id s).player id).frame
      = ((if (s.player id).lastAction ≠ ACTION_DIE then 0 else (s.player id).frame) + 1) % 256 ∧
    ((Die K id s).player id).lastAction = ACTION_DIE ∧
    ((Die K id s).player id).died
      = (if ((Die K id s).player id).frame = 90 then true else (s.player id).died) ∧
    ((Die K id s).sprites (s.player id).spriteIndex).x
      = (if ((Die K id s).player id).frame &&& 8 ≠ 0 then SPR_OFF K
         else u8 (px (s.player id).x)) := by
  by_cases h : (s.player id).lastAction ≠ ACTION_DIE
  · simp only [Die, if_pos h]
    simp only [setPlayer, setSprite, Function.update_same]
    split_ifs <;> simp_all
  · have h2 : (s.player id).lastAction = ACTION_DIE := not_not.mp h
    simp only [Die, if_neg h]
    simp only [setPlayer, setSprite, Function.update_same]
    split_ifs <;> simp_all

theorem Respawn_fields (rnd id : Nat) (s : State) :
    ((Respawn rnd id s).player id).frame
      = ((if (s.player id).lastAction ≠ ACTION_RESPAWN then 0 else (s.player id).frame) + 1)
          % 256 ∧
    ((Respawn rnd id s).player id).lastAction = ACTION_RESPAWN ∧
    ((Respawn rnd id s).player id).x
      = (if ((Respawn rnd id s).player id).frame = 20
          then (((rnd % 28 + 1) * 8 : Nat) : Int) * 256 else (s.player id).x) ∧
    ((Respawn rnd id s).player id).y
      = (if ((Respawn rnd id s).player id).frame = 20 then 5 else (s.player id).y) ∧
    ((Respawn rnd id s).player id).action
      = (if ((Respawn rnd id s).player id).frame = 40 then ACTION_FALL
          else (s.player id).action) := by
  have hr : (rnd % 28 + 1) * 8 % 65536 = (rnd % 28 + 1) * 8 := by
    have := Nat.mod_lt rnd (show 28 > 0 by decide)
    omega
  by_cases h : (s.player id).lastAction ≠ ACTION_RESPAWN
  · simp only [Respawn, if_pos h, TILE_WIDTH, hr]
    simp only [setPlayer, setSprite, Function.update_same]
    split_ifs <;> simp_all
  · have h2 : (s.player id).lastAction = ACTION_RESPAWN := not_not.mp h
    simp only [Respawn, if_neg h, TILE_WIDTH, hr]
    simp only [setPlayer, setSprite, Function.update_same]
    split_ifs <;> simp_all

/-- The entity fields after one `InHole` call that runs the entry block. -/
theorem InHole_entry_fields (K : Consts) (id : Nat) (s : State)
    (h : (s.player id).lastAction ≠ ACTION_INHOLE) :
    ((InHole K id s).player id).frame = 1 ∧
    ((InHole K id s).player id).lastAction = ACTION_INHOLE ∧
    ((InHole K id s).player id).action = ACTION_INHOLE ∧
    ((InHole K id s).player id).x = (s.player id).x ∧
    ((InHole K id s).player id).y = (s.player id).y ∧
    ((InHole K id s).player id).dir = (s.player id).dir := by
  simp only [InHole, if_pos h]
  simp only [setPlayer_player, Function.update_same]
  by_cases hg : (s.player id).capturedGoldId ≠ -1
  · simp only [if_pos hg]
    simp [setPlayer, setGold, setSprite]
  · simp only [if_neg hg]
    simp [setPlayer, setSprite]

/-- The entity fields after one `InHole` call that skips the entry block, by the value
`f` the frame counter reads. -/
theorem InHole_step_fields (K : Consts) (id : Nat) (s : State)
    (h : (s.player id).lastAction = ACTION_INHOLE) :
    ((InHole K id s).player id).frame = ((s.player id).frame + 1) % 256 ∧
    ((InHole K id s).player id).lastAction = ACTION_INHOLE ∧
    ((InHole K id s).player id).action
      = (if (s.player id).frame ≥ 185 then ACTION_WALK else (s.player id).action) ∧
    ((InHole K id s).player id).x
      = (s.player id).x + (if (s.player id).frame = 175 then 0x100
          else if (s.player id).frame = 180 then 0x200
          else if (s.player id).frame ≥ 185 then 0x300 else 0) * (s.player id).dir ∧
    ((InHole K id s).player id).y
      = (s.player id).y - (if (s.player id).frame = 170 then 0x200
          else if (s.player id).frame = 175 then 0x300
          else if (s.player id).frame = 180 then 0x300
          else if (s.player id).frame ≥ 185 then 0x400 else 0) ∧
    ((InHole K id s).player id).dir = (s.player id).dir := by
  have h0 : ¬ (s.player id).lastAction ≠ ACTION_INHOLE := not_not.mpr h
  simp only [InHole, if_neg h0]
  by_cases h150 : (s.player id).frame = 150
  · simp only [if_pos h150]
    simp [setPlayer, setSprite, h150]
  simp only [if_neg h150]
  by_cases h170 : (s.player id).frame = 170
  · simp only [if_pos h170]
    simp [setPlayer, setSprite, h170]
  simp only [if_neg h170]
  by_cases h175 : (s.player id).frame = 175
  · simp only [if_pos h175]
    simp [setPlayer, setSprite, h175]
  simp only [if_neg h175]
  by_cases h180 : (s.player id).frame = 180
  · simp only [if_pos h180]
    simp [setPlayer, setSprite, h180]
  simp only [if_neg h180]
  by_cases h185 : (s.player id).frame ≥ 185
  · simp only [if_pos h185]
    have : ¬ (s.player id).frame = 170 := h170
    simp [setPlayer, setSprite, h185, h170, h175, h180]
  simp only [if_neg h185]
  simp [setPlayer, setSprite, h185, h170, h175, h180]

theorem Die_ticks (K : Consts) (id : Nat) (s : State)
    (h : (s.player id).lastAction ≠ ACTION_DIE) (hd : (s.player id).died = false) :
    ∀ n, n ≤ 89 →
      ((Nat.iterate (Die K id) (n + 1) s).player id).frame = n + 1 ∧
      ((Nat.iterate (Die K id) (n + 1) s).player id).lastAction = ACTION_DIE ∧
      ((Nat.iterate (Die K id) (n + 1) s).player id).died = decide (n + 1 = 90) := by
  intro n
  induction n with
  | zero =>
    intro _
    have e : Nat.iterate (Die K id) (0 + 1) s = Die K id s := rfl
    rw [e]
    obtain ⟨a, b, c, _⟩ := Die_fields K id s
    rw [if_pos h] at a
    refine ⟨a, b, ?_⟩
    rw [c, a, hd]; rfl
  | succ n ih =>
    intro hn
    obtain ⟨i1, i2, i3⟩ := ih (by omega)
    rw [Function.iterate_succ_apply']
    generalize Nat.iterate (Die K id) (n + 1) s = t at i1 i2 i3 ⊢
    obtain ⟨a, b, c, _⟩ := Die_fields K id t
    have hn2 : ¬ (t.player id).lastAction ≠ ACTION_DIE := not_not.mpr i2
    rw [if_neg hn2, i1] at a
    have a2 : ((Die K id t).player id).frame = n + 1 + 1 := by rw [a]; omega
    refine ⟨a2, b, ?_⟩
    rw [c, a2, i3]
    by_cases h90 : n + 1 + 1 = 90
    · simp [h90]
    · have : ¬ n + 1 = 90 := by omega
      simp [h90, this]

/-- C24: an entity that enters `Die` with `lastAction != Die` and `died == false` still has
`died == false` after each of its first 89 `Die` ticks (and before them), and has
`died == true` after the 90th; the frame counter after the n-th tick is n. On every `Die`
tick, from any state: the frame counter is incremented (after the entry block's reset),
the sprite X is `SPR_OFF` when bit 3 of the incremented counter is set and the entity's
pixel X otherwise, so for an entity whose pixel X is not `SPR_OFF` itself the sprite is
at `SPR_OFF` iff that bit is set. -/
theorem C24_Die_timeline (K : Consts) (id : Nat) (s : State)
    (h : (s.player id).lastAction ≠ ACTION_DIE) (hd : (s.player id).died = false) :
    (∀ n, n ≤ 89 → ((Nat.iterate (Die K id) n s).player id).died = false) ∧
    ((Nat.iterate (Die K id) 90 s).player id).died = true ∧
    (∀ n, 1 ≤ n → n ≤ 90 → ((Nat.iterate (Die K id) n s).player id).frame = n) ∧
    (∀ t : State,
      ((Die K id t).player id).frame
        = ((if (t.player id).lastAction ≠ ACTION_DIE then 0 else (t.player id).frame) + 1)
            % 256 ∧
      ((Die K id t).sprites (t.player id).spriteIndex).x
        = (if ((Die K id t).player id).frame &&& 8 ≠ 0 then SPR_OFF K
           else u8 (px (t.player id).x)) ∧
      (u8 (px (t.player id).x) ≠ SPR_OFF K →
        (((Die K id t).sprites (t.player id).spriteIndex).x = SPR_OFF K
          ↔ ((Die K id t).player id).frame &&& 8 ≠ 0))) := by
  have T := Die_ticks K id s h hd
  refine ⟨?_, ?_, ?_, ?_⟩
  · intro n hn
    cases n with
    | zero => exact hd
    | succ m =>
      have := (T m (by omega)).2.2
      rw [this]
      have : ¬ m + 1 = 90 := by omega
      simp [this]
  · have := (T 89 (by omega)).2.2
    rw [this]; rfl
  · intro n h1 h2
    obtain ⟨m, rfl⟩ : ∃ m, n = m + 1 := ⟨n - 1, by omega⟩
    exact (T m (by omega)).1
  · intro t
    obtain ⟨a, _, _, d⟩ := Die_fields K id t
    refine ⟨a, d, ?_⟩
    intro hx
    rw [d]
    by_cases hb : ((Die K id t).player id).frame &&& 8 ≠ 0
    · simp only [if_pos hb, true_iff]
      exact hb
    · simp only [if_neg hb]
      exact ⟨fun e => absurd e hx, fun e => absurd e hb⟩

/-- C24 at a concrete input: the player of `C24_state` has just been switched to Die
(`lastAction` still Walk, frame counter 52); `died` is still false after 89 ticks and true
after 90, and the first tick leaves the sprite at the player's pixel X 64 (counter 1,
bit 3 clear). -/
theorem C24_Die_timeline_witness :
    (C24_state.player 5).lastAction ≠ ACTION_DIE ∧ (C24_state.player 5).died = false ∧
    ((Nat.iterate (Die K0 5) 89 C24_state).player 5).died = false ∧
    ((Nat.iterate (Die K0 5) 90 C24_state).player 5).died = true ∧
    ((Die K0 5 C24_state).sprites 10).x = 64 :=
  ⟨by decide, by decide,
   (C24_Die_timeline K0 5 C24_state (by decide) (by decide)).1 89 (by decide),
   (C24_Die_timeline K0 5 C24_state (by decide) (by decide)).2.1,
   by decide⟩

theorem respawnAll_snoc (id : Nat) (l : List Nat) (a : Nat) (s : State) :
    respawnAll id (l ++ [a]) s = Respawn a id (respawnAll id l s) := by
  simp [respawnAll, List.foldl_append]

theorem respawnAll_fields (id : Nat) (s : State)
    (h : (s.player id).lastAction ≠ ACTION_RESPAWN) :
    ∀ rs : List Nat, 1 ≤ rs.length → rs.length ≤ 40 →
      ((respawnAll id rs s).player id).frame = rs.length ∧
      ((respawnAll id rs s).player id).lastAction = ACTION_RESPAWN ∧
      ((respawnAll id rs s).player id).x
        = (if 20 ≤ rs.length then (((rs.getD 19 0 % 28 + 1) * 8 : Nat) : Int) * 256
           else (s.player id).x) ∧
      ((respawnAll id rs s).player id).y = (if 20 ≤ rs.length then 5 else (s.player id).y) ∧
      ((respawnAll id rs s).player id).action
        = (if rs.length = 40 then ACTION_FALL else (s.player id).action) := by
  intro rs
  induction rs using List.reverseRecOn with
  | nil => intro h1; simp at h1
  | append_singleton l a ih =>
    intro _ hlen
    rw [List.length_append, List.length_singleton] at hlen ⊢
    rw [respawnAll_snoc]
    obtain ⟨f1, f2, f3, f4, f5⟩ := Respawn_fields a id (respawnAll id l s)
    by_cases hl : l = []
    · subst hl
      have e : respawnAll id [] s = s := rfl
      rw [e] at f1 f2 f3 f4 f5 ⊢
      rw [if_pos h] at f1
      have f1b : ((Respawn a id s).player id).frame = 1 := f1
      rw [f1b] at f3 f4 f5
      refine ⟨f1b, f2, ?_, ?_, ?_⟩
      · rw [f3]; simp
      · rw [f4]; simp
      · rw [f5]; simp
    · have hl1 : 1 ≤ l.length := by
        cases l with
        | nil => exact absurd rfl hl
        | cons b t => simp
      obtain ⟨i1, i2, i3, i4, i5⟩ := ih hl1 (by omega)
      generalize respawnAll id l s = t at i1 i2 i3 i4 i5 f1 f2 f3 f4 f5 ⊢
      have hn2 : ¬ (t.player id).lastAction ≠ ACTION_RESPAWN := not_not.mpr i2
      rw [if_neg hn2, i1] at f1
      have f1b : ((Respawn a id t).player id).frame = l.length + 1 := by rw [f1]; omega
      rw [f1b] at f3 f4 f5
      refine ⟨f1b, f2, ?_, ?_, ?_⟩
      · rw [f3, i3]
        by_cases h20 : l.length + 1 = 20
        · have h19 : l.length = 19 := by omega
          have hg : (l ++ [a]).getD 19 0 = a := by
            rw [← h19, List.getD_eq_getElem?_getD, List.getElem?_append_right (le_refl _)]
            simp
          rw [hg, if_pos h20, if_pos (by omega : 20 ≤ l.length + 1)]
        · rw [if_neg h20]
          by_cases h20b : 20 ≤ l.length
          · have hg : (l ++ [a]).getD 19 0 = l.getD 19 0 := by
              rw [List.getD_eq_getElem?_getD, List.getD_eq_getElem?_getD,
                List.getElem?_append_left (by omega)]
            have : 20 ≤ l.length + 1 := by omega
            rw [hg, if_pos h20b, if_pos this]
          · have : ¬ 20 ≤ l.length + 1 := by omega
            simp [h20b, this]
      · rw [f4, i4]
        by_cases h20 : l.length + 1 = 20
        · simp [h20]
        · rw [if_neg h20]
          by_cases h20b : 20 ≤ l.length
          · have : 20 ≤ l.length + 1 := by omega
            simp [h20b, this]
          · have : ¬ 20 ≤ l.length + 1 := by omega
            simp [h20b, this]
      · rw [f5, i5]
        by_cases h40 : l.length + 1 = 40
        · simp [h40]
        · have : ¬ l.length = 40 := by omega
          simp [h40, this]

/-- C23: an entity that enters `Respawn` with `lastAction != Respawn`, over its first 40
`Respawn` ticks (`rs` holds the value of the random source at each tick so far). Before
the 20th tick its position is untouched. From the 20th tick on, with `r` the value drawn
on that tick and `c = r % 28 + 1`, which lies in 1..28: `x = (8 * c) << 8` and the raw Y
is 5, so the pixel Y is 0. Before the 40th tick the action is untouched; after the 40th it
is Fall. After the n-th tick the frame counter is n. -/
theorem C23_Respawn_timeline (id : Nat) (s : State) (rs : List Nat)
    (h : (s.player id).lastAction ≠ ACTION_RESPAWN) :
    (rs.length < 20 →
      ((respawnAll id rs s).player id).x = (s.player id).x ∧
      ((respawnAll id rs s).player id).y = (s.player id).y) ∧
    (20 ≤ rs.length → rs.length ≤ 40 →
      ((respawnAll id rs s).player id).x = (((8 * (rs.getD 19 0 % 28 + 1) : Nat) : Int)) * 256 ∧
      1 ≤ rs.getD 19 0 % 28 + 1 ∧ rs.getD 19 0 % 28 + 1 ≤ 28 ∧
      ((respawnAll id rs s).player id).y = 5 ∧
      px ((respawnAll id rs s).player id).y = 0) ∧
    (rs.length < 40 → ((respawnAll id rs s).player id).action = (s.player id).action) ∧
    (rs.length = 40 → ((respawnAll id rs s).player id).action = ACTION_FALL) ∧
    (1 ≤ rs.length → rs.length ≤ 40 → ((respawnAll id rs s).player id).frame = rs.length) := by
  have T := respawnAll_fields id s h rs
  have hm : rs.getD 19 0 % 28 < 28 := Nat.mod_lt _ (by decide)
  by_cases h0 : rs.length = 0
  · have e : rs = [] := List.length_eq_zero.mp h0
    subst e
    refine ⟨fun _ => ⟨rfl, rfl⟩, fun h20 => ?_, fun _ => rfl, fun h40 => ?_, fun h1 => ?_⟩
    · simp at h20
    · simp at h40
    · simp at h1
  have h1 : 1 ≤ rs.length := by omega
  refine ⟨?_, ?_, ?_, ?_, ?_⟩
  · intro hlt
    obtain ⟨_, _, t3, t4, _⟩ := T h1 (by omega)
    have : ¬ 20 ≤ rs.length := by omega
    rw [if_neg this] at t3 t4
    exact ⟨t3, t4⟩
  · intro h20 h40
    obtain ⟨_, _, t3, t4, _⟩ := T h1 h40
    rw [if_pos h20] at t3 t4
    refine ⟨?_, by omega, by omega, t4, ?_⟩
    · rw [t3, Nat.mul_comm]
    · rw [t4]; decide
  · intro hlt
    obtain ⟨_, _, _, _, t5⟩ := T h1 (by omega)
    have : ¬ rs.length = 40 := by omega
    rw [if_neg this] at t5
    exact t5
  · intro h40
    obtain ⟨_, _, _, _, t5⟩ := T h1 (by omega)
    rw [if_pos h40] at t5
    exact t5
  · intro _ h40
    exact (T h1 h40).1

/-- C23 at a concrete input: the enemy of `C23_state` (just switched to Respawn, old frame
counter 37) with the random source at 1000 on the 20th tick: after 20 ticks it sits at
column 1000 % 28 + 1 = 21, `x = 168 << 8`, pixel Y 0; after 39 ticks it is still in
Respawn, after 40 in Fall. -/
theorem C23_Respawn_timeline_witness :
    (C23_state.player 0).lastAction ≠ ACTION_RESPAWN ∧
    ((respawnAll 0 (List.replicate 19 7 ++ [1000]) C23_state).player 0).x = 168 * 256 ∧
    px ((respawnAll 0 (List.replicate 19 7 ++ [1000]) C23_state).player 0).y = 0 ∧
    ((respawnAll 0 (List.replicate 39 7) C23_state).player 0).action = ACTION_RESPAWN ∧
    ((respawnAll 0 (List.replicate 40 7) C23_state).player 0).action = ACTION_FALL :=
  ⟨by decide,
   ((C23_Respawn_timeline 0 C23_state (List.replicate 19 7 ++ [1000]) (by decide)).2.1
      (by decide) (by decide)).1,
   ((C23_Respawn_timeline 0 C23_state (List.replicate 19 7 ++ [1000]) (by decide)).2.1
      (by decide) (by decide)).2.2.2.2,
   (C23_Respawn_timeline 0 C23_state (List.replicate 39 7) (by decide)).2.2.1 (by decide),
   (C23_Respawn_timeline 0 C23_state (List.replicate 40 7) (by decide)).2.2.2.1 (by decide)⟩

set_option maxRecDepth 100000 in
theorem InHole_dx_succ :
    ∀ n : Nat, n < 185 →
    ((if 175 ≤ n + 1 then 0x100 else 0) + (if 180 ≤ n + 1 then 0x200 else 0)
        + (if 185 ≤ n + 1 then 0x300 else 0) : Int)
      = ((if 175 ≤ n then 0x100 else 0) + (if 180 ≤ n then 0x200 else 0)
        + (if 185 ≤ n then 0x300 else 0))
        + (if n + 1 = 175 then 0x100 else if n + 1 = 180 then 0x200
            else if n + 1 ≥ 185 then 0x300 else 0) := by
  decide

set_option maxRecDepth 100000 in
theorem InHole_dy_succ :
    ∀ n : Nat, n < 185 →
    ((if 170 ≤ n + 1 then 0x200 else 0) + (if 175 ≤ n + 1 then 0x300 else 0)
        + (if 180 ≤ n + 1 then 0x300 else 0) + (if 185 ≤ n + 1 then 0x400 else 0) : Int)
      = ((if 170 ≤ n then 0x200 else 0) + (if 175 ≤ n then 0x300 else 0)
        + (if 180 ≤ n then 0x300 else 0) + (if 185 ≤ n then 0x400 else 0))
        + (if n + 1 = 170 then 0x200 else if n + 1 = 175 then 0x300
            else if n + 1 = 180 then 0x300 else if n + 1 ≥ 185 then 0x400 else 0) := by
  decide

/-- The entity fields after `n + 1` consecutive `InHole` ticks that start with the entry
block: the displacement so far is the sum of the steps at the counter values passed. -/
theorem InHole_ticks (K : Consts) (id : Nat) (s : State)
    (h : (s.player id).lastAction ≠ ACTION_INHOLE) :
    ∀ n, n ≤ 185 →
      ((Nat.iterate (InHole K id) (n + 1) s).player id).frame = n + 1 ∧
      ((Nat.iterate (InHole K id) (n + 1) s).player id).lastAction = ACTION_INHOLE ∧
      ((Nat.iterate (InHole K id) (n + 1) s).player id).action
        = (if 185 ≤ n then ACTION_WALK else ACTION_INHOLE) ∧
      ((Nat.iterate (InHole K id) (n + 1) s).player id).x
        = (s.player id).x + ((if 175 ≤ n then 0x100 else 0) + (if 180 ≤ n then 0x200 else 0)
            + (if 185 ≤ n then 0x300 else 0)) * (s.player id).dir ∧
      ((Nat.iterate (InHole K id) (n + 1) s).player id).y
        = (s.player id).y - ((if 170 ≤ n then 0x200 else 0) + (if 175 ≤ n then 0x300 else 0)
            + (if 180 ≤ n then 0x300 else 0) + (if 185 ≤ n then 0x400 else 0)) ∧
      ((Nat.iterate (InHole K id) (n + 1) s).player id).dir = (s.player id).dir := by
  intro n
  induction n with
  | zero =>
    intro _
    have e : Nat.iterate (InHole K id) (0 + 1) s = InHole K id s := rfl
    rw [e]
    obtain ⟨a, b, c, d, e2, f⟩ := InHole_entry_fields K id s h
    refine ⟨a, b, ?_, ?_, ?_, f⟩
    · rw [c]; simp
    · rw [d]; simp
    · rw [e2]; simp
  | succ n ih =>
    intro hn
    obtain ⟨i1, i2, i3, i4, i5, i6⟩ := ih (by omega)
    rw [Function.iterate_succ_apply']
    generalize Nat.iterate (InHole K id) (n + 1) s = t at i1 i2 i3 i4 i5 i6 ⊢
    obtain ⟨a, b, c, d, e2, f⟩ := InHole_step_fields K id t i2
    rw [i1] at a c d e2
    refine ⟨?_, b, ?_, ?_, ?_, f.trans i6⟩
    · rw [a]; omega
    · rw [c, i3]
      by_cases h185 : n + 1 ≥ 185
      · rw [if_pos h185, if_pos h185]
      · have : ¬ 185 ≤ n := by omega
        rw [if_neg h185, if_neg this, if_neg h185]
    · rw [d, i4, i6, InHole_dx_succ n (by omega)]
      ring
    · rw [e2, i5, InHole_dy_succ n (by omega)]
      ring

/-- C25: an entity that enters `InHole` with `lastAction != InHole` and is touched by
nothing but the `InHole` handler. After each of the ticks 1..185 the action is InHole and
after the 186th it is Walk; after the n-th tick the frame counter is n, so the 186th tick,
the exit, is the one on which the counter reads 185. Through the first 170 ticks (the
counter reads less than 170) the position is the one at entry; the 171st tick, on which the
counter reads 170, is the first to change it (Y drops by 0x200). After the 186th tick Y
has dropped by 0xC00 = 0x200 + 0x300 + 0x300 + 0x400 (12 px) and X has moved by
0x600 * dir (6 px in the facing direction). -/
theorem C25_InHole_timeline (K : Consts) (id : Nat) (s : State)
    (h : (s.player id).lastAction ≠ ACTION_INHOLE) :
    (∀ n, 1 ≤ n → n ≤ 185 →
      ((Nat.iterate (InHole K id) n s).player id).action = ACTION_INHOLE) ∧
    ((Nat.iterate (InHole K id) 186 s).player id).action = ACTION_WALK ∧
    (∀ n, 1 ≤ n → n ≤ 186 → ((Nat.iterate (InHole K id) n s).player id).frame = n) ∧
    (∀ n, n ≤ 170 →
      ((Nat.iterate (InHole K id) n s).player id).x = (s.player id).x ∧
      ((Nat.iterate (InHole K id) n s).player id).y = (s.player id).y) ∧
    ((Nat.iterate (InHole K id) 171 s).player id).y = (s.player id).y - 0x200 ∧
    ((Nat.iterate (InHole K id) 186 s).player id).x
      = (s.player id).x + 0x600 * (s.player id).dir ∧
    ((Nat.iterate (InHole K id) 186 s).player id).y = (s.player id).y - 0xC00 ∧
    (0x200 + 0x300 + 0x300 + 0x400 : Int) = 0xC00 ∧ px 0xC00 = 12 ∧ px 0x600 = 6 := by
  have T := InHole_ticks K id s h
  refine ⟨?_, ?_, ?_, ?_, ?_, ?_, ?_, by decide, by decide, by decide⟩
  · intro n h1 h2
    obtain ⟨m, rfl⟩ : ∃ m, n = m + 1 := ⟨n - 1, by omega⟩
    have := (T m (by omega)).2.2.1
    rw [this, if_neg (by omega)]
  · have := (T 185 (by omega)).2.2.1
    rw [this]; rfl
  · intro n h1 h2
    obtain ⟨m, rfl⟩ : ∃ m, n = m + 1 := ⟨n - 1, by omega⟩
    exact (T m (by omega)).1
  · intro n hn
    cases n with
    | zero => exact ⟨rfl, rfl⟩
    | succ m =>
      obtain ⟨_, _, _, tx, ty, _⟩ := T m (by omega)
      rw [tx, ty, if_neg (by omega), if_neg (by omega), if_neg (by omega), if_neg (by omega),
        if_neg (by omega), if_neg (by omega), if_neg (by omega)]
      simp
  · have := (T 170 (by omega)).2.2.2.2.1
    rw [this]; simp
  · have := (T 185 (by omega)).2.2.2.1
    rw [this]; simp
  · have := (T 185 (by omega)).2.2.2.2.1
    rw [this]; simp

/-- C25 at a concrete input: the enemy of `C25_state` facing left, in the hole at pixel
(64, 72): after 185 ticks it is still in InHole, after 186 it walks at raw position
(0x4000 - 0x600, 0x4800 - 0xC00), that is pixel (58, 60). -/
theorem C25_InHole_timeline_witness :
    (C25_state.player 0).lastAction ≠ ACTION_INHOLE ∧
    ((Nat.iterate (InHole K0 0) 185 C25_state).player 0).action = ACTION_INHOLE ∧
    ((Nat.iterate (InHole K0 0) 186 C25_state).player 0).action = ACTION_WALK ∧
    ((Nat.iterate (InHole K0 0) 186 C25_state).player 0).x = 0x4000 + 0x600 * (-1) ∧
    ((Nat.iterate (InHole K0 0) 186 C25_state).player 0).y = 0x4800 - 0xC00 :=
  ⟨by decide,
   (C25_InHole_timeline K0 0 C25_state (by decide)).1 185 (by decide) (by decide),
   (C25_InHole_timeline K0 0 C25_state (by decide)).2.1,
   (C25_InHole_timeline K0 0 C25_state (by decide)).2.2.2.2.2.1,
   (C25_InHole_timeline K0 0 C25_state (by decide)).2.2.2.2.2.2.1⟩

end Timelines

section FrameCounter

theorem Walk.move_frame (K : Consts) (id : Nat) (dir nx : Int) (ny h f : Nat) (s : State) :
    ((Walk.move K id dir nx ny h f s).player id).frame
      = (if (((s.player id).frame + (s.player id).frameSpeed) % 256) >>> 4
            ≥ playerWalkFrames.length then 0
         else ((s.player id).frame + (s.player id).frameSpeed) % 256) := by
  simp only [Walk.move]
  split_ifs <;> simp_all [RoundYpos]

/-- The frame counter after `Walk`: the one left by the entry block when the step is
blocked, else advanced by `frameSpeed` and wrapped at the end of the sprite table. -/
theorem Walk_frame (K : Consts) (id : Nat) (dir : Int) (s : State) :
    ((Walk K id dir s).player id).frame = ((Walk.entry id s).player id).frame ∨
    ((Walk K id dir s).player id).frame
      = (if ((((Walk.entry id s).player id).frame
                + ((Walk.entry id s).player id).frameSpeed) % 256) >>> 4
              ≥ playerWalkFrames.length then 0
         else (((Walk.entry id s).player id).frame
              + ((Walk.entry id s).player id).frameSpeed) % 256) := by
  simp only [Walk]
  generalize Walk.entry id s = t
  generalize hF : (if (((t.player id).frame + (t.player id).frameSpeed) % 256) >>> 4
      ≥ playerWalkFrames.length then 0
    else ((t.player id).frame + (t.player id).frameSpeed) % 256) = F
  simp only [Walk.finish, setPlayer_player, setPlayer_vram, Function.update_same,
    setSprite_player]
  split_ifs <;> first
    | (left; simp)
    | (right; rw [Walk.move_frame]; simpa using hF)

theorem Walk.entry_skip (id : Nat) (s : State) (h : (s.player id).lastAction = ACTION_WALK) :
    Walk.entry id s = s := by
  have h1 : ¬ (s.player id).lastAction = ACTION_CLIMB := by rw [h]; decide
  have h2 : ¬ (s.player id).lastAction ≠ ACTION_WALK := not_not.mpr h
  simp only [Walk.entry, if_neg h1, if_neg h2]

theorem Climb.entry_skipped (id : Nat) (s : State) (h : (s.player id).lastAction = ACTION_CLIMB) :
    Climb.entry id s = s := by
  have h2 : ¬ (s.player id).lastAction ≠ ACTION_CLIMB := not_not.mpr h
  simp only [Climb.entry, if_neg h2]

theorem Climb.finish_frame (K : Consts) (id : Nat) (s : State) :
    ((Climb.finish K id s).player id).frame
      = (if (((s.player id).frame + (s.player id).frameSpeed) % 256) >>> 4
            ≥ playerClimbFrames.length then 0
         else ((s.player id).frame + (s.player id).frameSpeed) % 256) := by
  simp only [Climb.finish]
  split_ifs <;> simp_all

/-- The frame counter after `Climb`: the one left by the entry block (no move, or the
level exit), else advanced by `frameSpeed` and wrapped at the end of the sprite table. -/
theorem Climb_frame (K : Consts) (id : Nat) (dir : Int) (s : State) :
    ((Climb K id dir s).player id).frame = ((Climb.entry id s).player id).frame ∨
    ((Climb K id dir s).player id).frame
      = (if ((((Climb.entry id s).player id).frame
                + ((Climb.entry id s).player id).frameSpeed) % 256) >>> 4
              ≥ playerClimbFrames.length then 0
         else (((Climb.entry id s).player id).frame
              + ((Climb.entry id s).player id).frameSpeed) % 256) := by
  simp only [Climb]
  generalize Climb.entry id s = t
  generalize hF : (if (((t.player id).frame + (t.player id).frameSpeed) % 256) >>> 4
      ≥ playerClimbFrames.length then 0
    else ((t.player id).frame + (t.player id).frameSpeed) % 256) = F
  split_ifs <;> first
    | (left; simp)
    | (right; rw [Climb.finish_frame]; simpa using hF)

/-- The frame counter after `Cling` when the entry block is skipped. -/
theorem Cling_frame (K : Consts) (id : Nat) (dir : Int) (s : State)
    (h : (s.player id).lastAction = ACTION_CLING) :
    ((Cling K id dir s).player id).frame = (s.player id).frame ∨
    ((Cling K id dir s).player id).frame
      = (if (((s.player id).frame + (s.player id).frameSpeed) % 256) >>> 4
            ≥ playerClingFrames.length then 0
         else ((s.player id).frame + (s.player id).frameSpeed) % 256) := by
  have h2 : ¬ (s.player id).lastAction ≠ ACTION_CLING := not_not.mpr h
  simp only [Cling, if_neg h2]
  simp only [setPlayer_player, setPlayer_vram, Function.update_same, setSprite_player]
  split_ifs <;> first
    | (left; simp; done)
    | (right; simp)

/-- The three outcomes of a frame step: kept, advanced by `frameSpeed`, or wrapped to 0
when the advanced counter reaches the end of a sprite table of `len` entries. -/
theorem frame_step_cases (f' f fs len : Nat)
    (h : f' = f ∨ f' = (if ((f + fs) % 256) >>> 4 ≥ len then 0 else (f + fs) % 256)) :
    f' = f ∨ (f' = (f + fs) % 256 ∧ ((f + fs) % 256) >>> 4 < len) ∨
      (f' = 0 ∧ len ≤ ((f + fs) % 256) >>> 4) := by
  rcases h with h | h
  · left; exact h
  · by_cases c : ((f + fs) % 256) >>> 4 ≥ len
    · rw [if_pos c] at h
      right; right; exact ⟨h, c⟩
    · rw [if_neg c] at h
      right; left; exact ⟨h, by omega⟩

/-- C22: a handler called with `lastAction` already equal to its own action skips its
entry block, so the frame counter is not reset. `Fire`, `Die`, `Respawn` and `InHole`
leave `frame_before + 1` (mod 256). `Walk`, `Climb` and `Cling` leave `frame_before` (no
move), or `frame_before + frameSpeed` (mod 256) when that value shifted right by 4 is below
the length of the handler's sprite table (6, 4 and 3 entries), or 0 when it is not. -/
theorem C22_frame_counter_kept (K : Consts) (id : Nat) (dir : Int) (rnd : Nat) (s : State) :
    ((s.player id).lastAction = ACTION_FIRE →
      ((Fire K id s).player id).frame = ((s.player id).frame + 1) % 256) ∧
    ((s.player id).lastAction = ACTION_DIE →
      ((Die K id s).player id).frame = ((s.player id).frame + 1) % 256) ∧
    ((s.player id).lastAction = ACTION_RESPAWN →
      ((Respawn rnd id s).player id).frame = ((s.player id).frame + 1) % 256) ∧
    ((s.player id).lastAction = ACTION_INHOLE →
      ((InHole K id s).player id).frame = ((s.player id).frame + 1) % 256) ∧
    ((s.player id).lastAction = ACTION_WALK →
      ((Walk K id dir s).player id).frame = (s.player id).frame ∨
      (((Walk K id dir s).player id).frame = ((s.player id).frame + (s.player id).frameSpeed) % 256
        ∧ (((s.player id).frame + (s.player id).frameSpeed) % 256) >>> 4
            < playerWalkFrames.length) ∨
      (((Walk K id dir s).player id).frame = 0
        ∧ playerWalkFrames.length
            ≤ (((s.player id).frame + (s.player id).frameSpeed) % 256) >>> 4)) ∧
    ((s.player id).lastAction = ACTION_CLIMB →
      ((Climb K id dir s).player id).frame = (s.player id).frame ∨
      (((Climb K id dir s).player id).frame
          = ((s.player id).frame + (s.player id).frameSpeed) % 256
        ∧ (((s.player id).frame + (s.player id).frameSpeed) % 256) >>> 4
            < playerClimbFrames.length) ∨
      (((Climb K id dir s).player id).frame = 0
        ∧ playerClimbFrames.length
            ≤ (((s.player id).frame + (s.player id).frameSpeed) % 256) >>> 4)) ∧
    ((s.player id).lastAction = ACTION_CLING →
      ((Cling K id dir s).player id).frame = (s.player id).frame ∨
      (((Cling K id dir s).player id).frame
          = ((s.player id).frame + (s.player id).frameSpeed) % 256
        ∧ (((s.player id).frame + (s.player id).frameSpeed) % 256) >>> 4
            < playerClingFrames.length) ∨
      (((Cling K id dir s).player id).frame = 0
        ∧ playerClingFrames.length
            ≤ (((s.player id).frame + (s.player id).frameSpeed) % 256) >>> 4)) := by
  refine ⟨?_, ?_, ?_, ?_, ?_, ?_, ?_⟩
  · intro h
    have h2 : ¬ (s.player id).lastAction ≠ ACTION_FIRE := not_not.mpr h
    unfold Fire
    rw [if_neg h2, Fire.tail_frame]
  · intro h
    have h2 : ¬ (s.player id).lastAction ≠ ACTION_DIE := not_not.mpr h
    have := (Die_fields K id s).1
    rw [if_neg h2] at this
    exact this
  · intro h
    have h2 : ¬ (s.player id).lastAction ≠ ACTION_RESPAWN := not_not.mpr h
    have := (Respawn_fields rnd id s).1
    rw [if_neg h2] at this
    exact this
  · intro h
    exact (InHole_step_fields K id s h).1
  · intro h
    have := Walk_frame K id dir s
    rw [Walk.entry_skip id s h] at this
    exact frame_step_cases _ _ _ _ this
  · intro h
    have := Climb_frame K id dir s
    rw [Climb.entry_skipped id s h] at this
    exact frame_step_cases _ _ _ _ this
  · intro h
    exact frame_step_cases _ _ _ _ (Cling_frame K id dir s h)

/-- C22 at concrete inputs: the player with the frame counter at 0x5e and `frameSpeed` 4,
re-entering each handler: `Fire`, `Die`, `Respawn` and `InHole` leave 0x5f; `Walk` to the
right moves and wraps to 0 (0x62 >> 4 = 6); `Cling` to the right moves and wraps to 0;
`Climb` upwards, with no ladder there, leaves 0x5e. -/
theorem C22_frame_counter_kept_witness :
    ((Fire K0 5 (C22_state ACTION_FIRE)).player 5).frame = 0x5f ∧
    ((Die K0 5 (C22_state ACTION_DIE)).player 5).frame = 0x5f ∧
    ((Respawn 3 5 (C22_state ACTION_RESPAWN)).player 5).frame = 0x5f ∧
    ((InHole K0 5 (C22_state ACTION_INHOLE)).player 5).frame = 0x5f ∧
    ((Walk K0 5 1 (C22_state ACTION_WALK)).player 5).frame = 0 ∧
    ((Climb K0 5 (-1) (C22_state ACTION_CLIMB)).player 5).frame = 0x5e ∧
    ((Cling K0 5 1 (C22_state ACTION_CLING)).player 5).frame = 0 :=
  ⟨(C22_frame_counter_kept K0 5 1 3 (C22_state ACTION_FIRE)).1 (by decide),
   (C22_frame_counter_kept K0 5 1 3 (C22_state ACTION_DIE)).2.1 (by decide),
   (C22_frame_counter_kept K0 5 1 3 (C22_state ACTION_RESPAWN)).2.2.1 (by decide),
   (C22_frame_counter_kept K0 5 1 3 (C22_state ACTION_INHOLE)).2.2.2.1 (by decide),
   ((C22_frame_counter_kept K0 5 1 3 (C22_state ACTION_WALK)).2.2.2.2.1 (by decide)).elim
      (fun _ => by decide) (fun _ => by decide),
   ((C22_frame_counter_kept K0 5 (-1) 3 (C22_state ACTION_CLIMB)).2.2.2.2.2.1 (by decide)).elim
      (fun _ => by decide) (fun _ => by decide),
   ((C22_frame_counter_kept K0 5 1 3 (C22_state ACTION_CLING)).2.2.2.2.2.2 (by decide)).elim
      (fun _ => by decide) (fun _ => by decide)⟩

end FrameCounter

section Handlers

@[simp] theorem setAnim_levelComplete (s : State) (i : Nat) (f : Animation → Animation) :
    (setAnim s i f).game.levelComplete = s.game.levelComplete := rfl

@[simp] theorem setGold_levelComplete (s : State) (i : Int) (f : Gold → Gold) :
    (setGold s i f).game.levelComplete = s.game.levelComplete := rfl

@[simp] theorem TriggerAnimation_levelComplete (a : Option (List Nat)) (x y p : Nat) (s : State) :
    (TriggerAnimation a x y p s).1.game.levelComplete = s.game.levelComplete := by
  rcases TriggerAnimation.loop_cases a x y p s ANIMATION_SLOTS_COUNT 0 with h | ⟨k, h⟩ <;>
    simp only [TriggerAnimation, h, setAnim_levelComplete]

theorem setPlayer_player_ne (s : State) (id j : Nat) (f : Player → Player) (hj : j ≠ id) :
    (setPlayer s id f).player j = s.player j := by
  simp [setPlayer, Function.update_noteq hj]

/-! ### Walk -/

theorem Walk.move_action (K : Consts) (id : Nat) (dir nx : Int) (ny h f : Nat) (s : State) :
    ((Walk.move K id dir nx ny h f s).player id).action = (s.player id).action ∨
    ((Walk.move K id dir nx ny h f s).player id).action = ACTION_CLING ∨
    ((Walk.move K id dir nx ny h f s).player id).action = ACTION_FALL := by
  simp only [Walk.move]
  split_ifs <;> simp [RoundYpos]

theorem Walk_action (K : Consts) (id : Nat) (dir : Int) (s : State) :
    ((Walk K id dir s).player id).action = ACTION_WALK ∨
    ((Walk K id dir s).player id).action = ACTION_CLING ∨
    ((Walk K id dir s).player id).action = ACTION_FALL := by
  simp only [Walk]
  generalize Walk.entry id s = t
  simp only [Walk.finish, setPlayer_player, setPlayer_vram, Function.update_same,
    setSprite_player]
  split_ifs
  · exact (Walk.move_action K id dir _ _ _ _ _).imp (fun h => h.trans (by simp)) (fun h => h)
  · left; simp
  · left; simp

/-! ### Cling, Die, Respawn -/

theorem Cling_game (K : Consts) (id : Nat) (dir : Int) (s : State) :
    (Cling K id dir s).game = s.game := by
  simp only [Cling]
  split_ifs <;> simp

theorem Cling_player_ne (K : Consts) (id : Nat) (dir : Int) (s : State) (j : Nat)
    (hj : j ≠ id) : (Cling K id dir s).player j = s.player j := by
  simp only [Cling]
  split_ifs <;> simp [setPlayer, Function.update_noteq hj]

theorem Cling_action (K : Consts) (id : Nat) (dir : Int) (s : State) :
    ((Cling K id dir s).player id).action = ACTION_CLING ∨
    ((Cling K id dir s).player id).action = ACTION_WALK := by
  simp only [Cling]
  split_ifs <;> simp

theorem Die_game (K : Consts) (id : Nat) (s : State) : (Die K id s).game = s.game := by
  simp only [Die]
  split_ifs <;> simp

theorem Die_player_ne (K : Consts) (id : Nat) (s : State) (j : Nat) (hj : j ≠ id) :
    (Die K id s).player j = s.player j := by
  simp only [Die]
  split_ifs <;> simp [setPlayer, Function.update_noteq hj]

theorem Die_action (K : Consts) (id : Nat) (s : State) :
    ((Die K id s).player id).action = (s.player id).action := by
  simp only [Die]
  split_ifs <;> simp

theorem Respawn_game (rnd id : Nat) (s : State) : (Respawn rnd id s).game = s.game := by
  simp only [Respawn]
  split_ifs <;> simp

theorem Respawn_player_ne (rnd id : Nat) (s : State) (j : Nat) (hj : j ≠ id) :
    (Respawn rnd id s).player j = s.player j := by
  simp only [Respawn]
  split_ifs <;> simp [setPlayer, Function.update_noteq hj]

theorem Respawn_action (rnd id : Nat) (s : State) :
    ((Respawn rnd id s).player id).action = (s.player id).action ∨
    ((Respawn rnd id s).player id).action = ACTION_FALL := by
  obtain ⟨_, _, _, _, h⟩ := Respawn_fields rnd id s
  rw [h]
  split_ifs
  · right; rfl
  · left; rfl

/-! ### InHole -/

theorem InHole_levelComplete (K : Consts) (id : Nat) (s : State) :
    (InHole K id s).game.levelComplete = s.game.levelComplete := by
  by_cases h : (s.player id).lastAction ≠ ACTION_INHOLE
  · simp only [InHole, if_pos h]
    simp only [setPlayer_player, Function.update_same]
    by_cases hg : (s.player id).capturedGoldId ≠ -1
    · simp only [if_pos hg]
      simp [setPlayer, setGold, setSprite]
    · simp only [if_neg hg]
      simp [setPlayer, setSprite]
  · simp only [InHole, if_neg h]
    split_ifs <;> simp

theorem InHole_player_ne (K : Consts) (id : Nat) (s : State) (j : Nat) (hj : j ≠ id) :
    (InHole K id s).player j = s.player j := by
  by_cases h : (s.player id).lastAction ≠ ACTION_INHOLE
  · simp only [InHole, if_pos h]
    simp only [setPlayer_player, Function.update_same]
    by_cases hg : (s.player id).capturedGoldId ≠ -1
    · simp only [if_pos hg]
      simp [setPlayer, setGold, setSprite, Function.update_noteq hj]
    · simp only [if_neg hg]
      simp [setPlayer, setSprite, Function.update_noteq hj]
  · simp only [InHole, if_neg h]
    split_ifs <;> simp [setPlayer, Function.update_noteq hj]

theorem InHole_action (K : Consts) (id : Nat) (s : State) :
    ((InHole K id s).player id).action = ACTION_INHOLE ∨
    ((InHole K id s).player id).action = ACTION_WALK ∨
    ((InHole K id s).player id).action = (s.player id).action := by
  by_cases h : (s.player id).lastAction = ACTION_INHOLE
  · obtain ⟨_, _, c, _⟩ := InHole_step_fields K id s h
    rw [c]
    split_ifs
    · right; left; rfl
    · right; right; rfl
  · left; exact (InHole_entry_fields K id s h).2.2.1

/-! ### Fire -/

theorem Fire.tail_player_ne (id : Nat) (s : State) (j : Nat) (hj : j ≠ id) :
    (Fire.tail id s).player j = s.player j := by
  simp only [Fire.tail]
  split_ifs <;> simp [setPlayer, Function.update_noteq hj]

theorem Fire.tail_levelComplete (id : Nat) (s : State) :
    (Fire.tail id s).game.levelComplete = s.game.levelComplete := by
  simp only [Fire.tail]
  split_ifs <;> simp

theorem Fire.shoot_levelComplete (K : Consts) (id x y : Nat) (s : State) :
    (Fire.shoot K id x y s).game.levelComplete = s.game.levelComplete := by
  simp [Fire.shoot]

theorem Fire_levelComplete (K : Consts) (id : Nat) (s : State) :
    (Fire K id s).game.levelComplete = s.game.levelComplete := by
  simp only [Fire]
  split_ifs <;> simp [Fire.tail_levelComplete, Fire.shoot_levelComplete]

theorem Fire_player_ne (K : Consts) (id : Nat) (s : State) (j : Nat) (hj : j ≠ id) :
    (Fire K id s).player j = s.player j := by
  simp only [Fire]
  split_ifs <;> simp [Fire.tail_player_ne _ _ _ hj, setPlayer, Function.update_noteq hj]

theorem Fire_action (K : Consts) (id : Nat) (s : State) :
    ((Fire K id s).player id).action = ACTION_FIRE ∨
    ((Fire K id s).player id).action = ACTION_WALK ∨
    ((Fire K id s).player id).action = (s.player id).action := by
  have ht : ∀ t : State, ((Fire.tail id t).player id).action = ACTION_WALK ∨
      ((Fire.tail id t).player id).action = (t.player id).action := by
    intro t
    rw [Fire.tail_action]
    split_ifs
    · left; rfl
    · right; rfl
  by_cases h : (s.player id).lastAction ≠ ACTION_FIRE
  · simp only [Fire, if_pos h]
    split_ifs <;> first
      | (right; left; simp; done)
      | (refine (ht _).elim (fun e => Or.inr (Or.inl e)) (fun e => Or.inl (e.trans ?_)); simp)
  · simp only [Fire, if_neg h]
    exact (ht s).elim (fun e => Or.inr (Or.inl e)) (fun e => Or.inr (Or.inr e))

/-! ### Fall -/

theorem Fall_game (K : Consts) (id : Nat) (s : State) : (Fall K id s).game = s.game := by
  simp only [Fall]
  split_ifs <;> simp [EndFall]

theorem Fall_player_ne (K : Consts) (id : Nat) (s : State) (j : Nat) (hj : j ≠ id) :
    (Fall K id s).player j = s.player j := by
  simp only [Fall]
  split_ifs <;>
    simp [EndFall, RoundYpos, Walk_player_ne _ _ _ _ _ hj, setPlayer, Function.update_noteq hj]

theorem Fall_action (K : Consts) (id : Nat) (s : State) :
    ((Fall K id s).player id).action = ACTION_INHOLE ∨
    ((Fall K id s).player id).action = ACTION_WALK ∨
    ((Fall K id s).player id).action = ACTION_CLING ∨
    ((Fall K id s).player id).action = ACTION_FALL := by
  simp only [Fall]
  split_ifs <;> first
    | (left; simp [RoundYpos]; done)
    | (right; left; simp [EndFall, RoundYpos]; done)
    | (right; right; left; simp [EndFall, RoundYpos]; done)
    | (right; right; right; simp [EndFall, RoundYpos]; done)
    | (simp only [setPlayer_player, Function.update_same]
       exact (Walk_action K id 0 _).elim (fun e => Or.inr (Or.inl e))
         (fun e => e.elim (fun e => Or.inr (Or.inr (Or.inl e)))
           (fun e => Or.inr (Or.inr (Or.inr e)))))

/-! ### Climb -/

theorem Climb.entry_player_other (id : Nat) (s : State) (j : Nat) (hj : j ≠ id) :
    (Climb.entry id s).player j = s.player j := by
  simp only [Climb.entry]
  split_ifs <;> simp [setPlayer, Function.update_noteq hj]

theorem Climb.entry_keeps_game (id : Nat) (s : State) : (Climb.entry id s).game = s.game := by
  simp only [Climb.entry]
  split_ifs <;> simp

theorem Climb.finish_game (K : Consts) (id : Nat) (s : State) :
    (Climb.finish K id s).game = s.game := by
  simp only [Climb.finish]
  split_ifs <;> simp

theorem Climb.finish_player_other (K : Consts) (id : Nat) (s : State) (j : Nat) (hj : j ≠ id) :
    (Climb.finish K id s).player j = s.player j := by
  simp only [Climb.finish]
  split_ifs <;> simp [setPlayer, Function.update_noteq hj]

theorem Climb.finish_action (K : Consts) (id : Nat) (s : State) :
    ((Climb.finish K id s).player id).action = (s.player id).action := by
  simp only [Climb.finish]
  split_ifs <;> simp

theorem Climb_player_ne (K : Consts) (id : Nat) (dir : Int) (s : State) (j : Nat)
    (hj : j ≠ id) : (Climb K id dir s).player j = s.player j := by
  have he := Climb.entry_player_other id s j hj
  simp only [Climb]
  generalize Climb.entry id s = t at he ⊢
  split_ifs <;>
    simp [Climb.finish_player_other _ _ _ _ hj, setPlayer, Function.update_noteq hj, he]

theorem Climb_action (K : Consts) (id : Nat) (dir : Int) (s : State) :
    ((Climb K id dir s).player id).action = ACTION_CLIMB ∨
    ((Climb K id dir s).player id).action = ACTION_WALK ∨
    ((Climb K id dir s).player id).action = ACTION_FALL := by
  simp only [Climb]
  generalize Climb.entry id s = t
  split_ifs <;> simp [Climb.finish_action]

/-- `Climb` sets `levelComplete` only on its exit branch: the slot is the player's and all
gold is collected; otherwise the flag is as before. -/
theorem Climb_levelComplete (K : Consts) (id : Nat) (dir : Int) (s : State) :
    (Climb K id dir s).game.levelComplete = s.game.levelComplete ∨
    ((Climb K id dir s).game.levelComplete = true ∧ id = SPR_INDEX_PLAYER ∧
      s.game.goldCollected = s.game.goldCount) := by
  have he := Climb.entry_keeps_game id s
  simp only [Climb]
  generalize Climb.entry id s = t at he ⊢
  split_ifs with h1 h2 h3 h4 h5 h6 <;> first
    | (left; simp [Climb.finish_game, he]; done)
    | (right; rw [← he]; simp_all)

end Handlers

section Tick

/-! ### ProcessEnemy -/

theorem ProcessEnemy_player_ne (K : Consts) (inp : Input) (id : Nat) (s : State) (j : Nat)
    (hj : j ≠ id) : (ProcessEnemy K inp id s).1.player j = s.player j := by
  simp only [ProcessEnemy, Ai]
  split_ifs <;> simp [setPlayer, setGold, SetTile, Function.update_noteq hj]

theorem ProcessEnemy_action (K : Consts) (inp : Input) (id : Nat) (s : State) :
    ((ProcessEnemy K inp id s).1.player id).action = (s.player id).action ∨
    ((ProcessEnemy K inp id s).1.player id).action = ACTION_RESPAWN := by
  simp only [ProcessEnemy, Ai]
  split_ifs <;> simp [setPlayer, setGold, SetTile]

theorem ProcessEnemy_levelComplete (K : Consts) (inp : Input) (id : Nat) (s : State) :
    (ProcessEnemy K inp id s).1.game.levelComplete = s.game.levelComplete := by
  simp only [ProcessEnemy, Ai]
  split_ifs <;> simp [setPlayer, setGold, SetTile]

/-! ### The gold and collision loops of the player -/

theorem ProcessPlayer.pick_levelComplete (K : Consts) (i : Nat) (s : State) :
    (ProcessPlayer.pick K i s).game.levelComplete = s.game.levelComplete := by
  simp [ProcessPlayer.pick, UpdateInfo_game]

theorem ProcessPlayer.collect_player (K : Consts) (x y : Nat) :
    ∀ (n i : Nat) (s : State),
      (ProcessPlayer.collect K x y n i s).player = s.player ∧
      (ProcessPlayer.collect K x y n i s).game.levelComplete = s.game.levelComplete := by
  intro n
  induction n with
  | zero => intro i s; exact ⟨rfl, rfl⟩
  | succ n ih =>
    intro i s
    simp only [ProcessPlayer.collect]
    split_ifs
    · obtain ⟨a, b⟩ := ih (i + 1) (ProcessPlayer.pick K i s)
      exact ⟨a.trans (ProcessPlayer.pick_frame K i s).2.2.2.1,
        b.trans (ProcessPlayer.pick_levelComplete K i s)⟩
    · exact ih (i + 1) s
    · exact ih (i + 1) s

theorem ProcessPlayer.collide_frame (id x y : Nat) :
    ∀ (n i : Nat) (s : State),
      (ProcessPlayer.collide id x y n i s).game = s.game ∧
      (∀ j, j ≠ id → (ProcessPlayer.collide id x y n i s).player j = s.player j) ∧
      (((ProcessPlayer.collide id x y n i s).player id).action = (s.player id).action ∨
        ((ProcessPlayer.collide id x y n i s).player id).action = ACTION_DIE) := by
  intro n
  induction n with
  | zero => intro i s; exact ⟨rfl, fun _ _ => rfl, Or.inl rfl⟩
  | succ n ih =>
    intro i s
    simp only [ProcessPlayer.collide]
    split_ifs
    · obtain ⟨a, b, c⟩ := ih (i + 1) (setPlayer s id (fun p => { p with action := ACTION_DIE }))
      refine ⟨a, fun j hj => (b j hj).trans (setPlayer_player_ne _ _ _ _ hj), ?_⟩
      right
      rcases c with c | c
      · rw [c]; simp
      · exact c
    · exact ih (i + 1) s
    · exact ih (i + 1) s

/-! ### PauseMenu -/

theorem Print_player (K : Consts) (x y : Nat) (text : List Nat) (s : State) :
    (Print K x y text s).player = s.player := by
  unfold Print
  have : ∀ (l : List Nat) (acc : Nat × State),
      (l.foldl (fun (acc : Nat × State) c => (acc.1 + 1, SetTile K acc.1 y (K.font c) acc.2))
        acc).2.player = acc.2.player := by
    intro l
    induction l with
    | nil => intro acc; rfl
    | cons c l ih => intro acc; rw [List.foldl_cons, ih]; rfl
  exact this text (x, s)

theorem RollMenu.step_frame (K : Consts) (s : State) :
    (RollMenu.step K s).player = s.player ∧ (RollMenu.step K s).game = s.game := by
  unfold RollMenu.step
  have : ∀ (l : List Nat) (t : State),
      (l.foldl (fun (t : State) i =>
        { t with
          vram := Function.update t.vram (K.VRAM_TILES_H * 16 + i)
            (t.vram (K.VRAM_TILES_H * 16 + i + 1)) }) t).player = t.player ∧
      (l.foldl (fun (t : State) i =>
        { t with
          vram := Function.update t.vram (K.VRAM_TILES_H * 16 + i)
            (t.vram (K.VRAM_TILES_H * 16 + i + 1)) }) t).game = t.game := by
    intro l
    induction l with
    | nil => intro t; exact ⟨rfl, rfl⟩
    | cons c l ih => intro t; rw [List.foldl_cons]; exact ih _
  exact this (List.range 60) s

theorem RollMenu_frame (K : Consts) (s : State) :
    (RollMenu K s).player = s.player ∧ (RollMenu K s).game = s.game := by
  unfold RollMenu
  have : ∀ (l : List Nat) (t : State),
      (l.foldl (fun t _ => RollMenu.step K t) t).player = t.player ∧
      (l.foldl (fun t _ => RollMenu.step K t) t).game = t.game := by
    intro l
    induction l with
    | nil => intro t; exact ⟨rfl, rfl⟩
    | cons c l ih =>
      intro t
      rw [List.foldl_cons]
      obtain ⟨a, b⟩ := ih (RollMenu.step K t)
      obtain ⟨c1, c2⟩ := RollMenu.step_frame K t
      exact ⟨a.trans c1, b.trans c2⟩
  exact this (List.range 30) s

theorem PauseMenu.loop_keeps (K : Consts) :
    ∀ (menu : List Nat) (option pos : Nat) (s : State),
      (PauseMenu.loop K menu option pos s).2.2.player = s.player ∧
      (PauseMenu.loop K menu option pos s).2.2.game.levelComplete = s.game.levelComplete := by
  intro menu
  induction menu with
  | nil =>
    intro option pos s
    simp only [PauseMenu.loop]
    split_ifs <;> exact ⟨rfl, rfl⟩
  | cons joy rest ih =>
    intro option pos s
    simp only [PauseMenu.loop]
    split_ifs <;> first
      | exact ⟨rfl, rfl⟩
      | exact ih _ _ _

theorem PauseMenu_frame (K : Consts) (menu : List Nat) (s : State) :
    (PauseMenu K menu s).player = s.player ∧
    (PauseMenu K menu s).game.levelComplete = s.game.levelComplete := by
  have h0 : (SetTile K 3 16 K.TILE_CURSOR (RollMenu K
      (Print K 4 17 ("CONTINUE  RESTART  QUIT".toList.map Char.toNat) s))).player = s.player := by
    rw [SetTile_player, (RollMenu_frame K _).1, Print_player]
  have h1 : (SetTile K 3 16 K.TILE_CURSOR (RollMenu K
      (Print K 4 17 ("CONTINUE  RESTART  QUIT".toList.map Char.toNat) s))).game.levelComplete
        = s.game.levelComplete := by
    rw [SetTile_game, (RollMenu_frame K _).2, Print_game]
  simp only [PauseMenu]
  generalize SetTile K 3 16 K.TILE_CURSOR (RollMenu K
      (Print K 4 17 ("CONTINUE  RESTART  QUIT".toList.map Char.toNat) s)) = t at h0 h1 ⊢
  obtain ⟨a, b⟩ := PauseMenu.loop_keeps K menu 0 3 t
  split_ifs
  · rw [(RollMenu_frame K _).1, (RollMenu_frame K _).2, SetTile_player, SetTile_game]
    exact ⟨a.trans h0, b.trans h1⟩
  · exact ⟨a.trans h0, b.trans h1⟩

/-! ### The action switch -/

/-- The switch of `ProcessPlayer` returns the state as it is or calls one handler. -/
theorem ProcessPlayer.dispatch_cases (K : Consts) (inp : Input) (joy id : Nat) (s : State) :
    ProcessPlayer.dispatch K inp joy id s = s ∨
    ProcessPlayer.dispatch K inp joy id s = Fire K id s ∨
    (∃ dir, ProcessPlayer.dispatch K inp joy id s = Walk K id dir s) ∨
    (∃ dir, ProcessPlayer.dispatch K inp joy id s = Climb K id dir s) ∨
    (∃ dir, ProcessPlayer.dispatch K inp joy id s = Cling K id dir s) ∨
    ProcessPlayer.dispatch K inp joy id s = Fall K id s ∨
    ProcessPlayer.dispatch K inp joy id s = Die K id s ∨
    ProcessPlayer.dispatch K inp joy id s = InHole K id s ∨
    ProcessPlayer.dispatch K inp joy id s = Respawn inp.rnd id s := by
  generalize hr : ProcessPlayer.dispatch K inp joy id s = r
  unfold ProcessPlayer.dispatch at hr
  simp only [] at hr
  split_ifs at hr
  · exact Or.inr (Or.inl hr.symm)
  · exact Or.inr (Or.inr (Or.inl ⟨1, hr.symm⟩))
  · exact Or.inr (Or.inr (Or.inl ⟨-1, hr.symm⟩))
  · exact Or.inr (Or.inr (Or.inr (Or.inl ⟨-1, hr.symm⟩)))
  · exact Or.inl hr.symm
  · exact Or.inr (Or.inr (Or.inr (Or.inl ⟨1, hr.symm⟩)))
  · exact Or.inl hr.symm
  · exact Or.inl hr.symm
  · exact Or.inr (Or.inr (Or.inr (Or.inr (Or.inr (Or.inl hr.symm)))))
  · exact Or.inr (Or.inr (Or.inl ⟨1, hr.symm⟩))
  · exact Or.inr (Or.inr (Or.inl ⟨-1, hr.symm⟩))
  · exact Or.inr (Or.inr (Or.inr (Or.inl ⟨-1, hr.symm⟩)))
  · exact Or.inr (Or.inr (Or.inr (Or.inl ⟨1, hr.symm⟩)))
  · exact Or.inl hr.symm
  · exact Or.inr (Or.inr (Or.inr (Or.inr (Or.inl ⟨1, hr.symm⟩))))
  · exact Or.inr (Or.inr (Or.inr (Or.inr (Or.inl ⟨-1, hr.symm⟩))))
  · exact Or.inr (Or.inr (Or.inr (Or.inr (Or.inr (Or.inl hr.symm)))))
  · exact Or.inl hr.symm
  · exact Or.inr (Or.inl hr.symm)
  · exact Or.inr (Or.inr (Or.inr (Or.inr (Or.inr (Or.inr (Or.inl hr.symm))))))
  · exact Or.inr (Or.inr (Or.inr (Or.inr (Or.inr (Or.inr (Or.inr (Or.inl hr.symm)))))))
  · exact Or.inr (Or.inr (Or.inr (Or.inr (Or.inr (Or.inr (Or.inr (Or.inr hr.symm)))))))
  · exact Or.inl hr.symm

theorem ProcessPlayer.dispatch_player_ne (K : Consts) (inp : Input) (joy id : Nat) (s : State)
    (j : Nat) (hj : j ≠ id) : (ProcessPlayer.dispatch K inp joy id s).player j = s.player j := by
  rcases ProcessPlayer.dispatch_cases K inp joy id s with
    e | e | ⟨d, e⟩ | ⟨d, e⟩ | ⟨d, e⟩ | e | e | e | e <;> rw [e]
  · exact Fire_player_ne K id s j hj
  · exact Walk_player_ne K id d s j hj
  · exact Climb_player_ne K id d s j hj
  · exact Cling_player_ne K id d s j hj
  · exact Fall_player_ne K id s j hj
  · exact Die_player_ne K id s j hj
  · exact InHole_player_ne K id s j hj
  · exact Respawn_player_ne _ id s j hj

/-- The switch leaves an action in 1..8 when it is given one. -/
theorem ProcessPlayer.dispatch_action (K : Consts) (inp : Input) (joy id : Nat) (s : State)
    (h : 1 ≤ (s.player id).action ∧ (s.player id).action ≤ 8) :
    1 ≤ ((ProcessPlayer.dispatch K inp joy id s).player id).action ∧
    ((ProcessPlayer.dispatch K inp joy id s).player id).action ≤ 8 := by
  rcases ProcessPlayer.dispatch_cases K inp joy id s with
    e | e | ⟨d, e⟩ | ⟨d, e⟩ | ⟨d, e⟩ | e | e | e | e <;> rw [e]
  · exact h
  · have := Fire_action K id s
    simp only [ACTION_FIRE, ACTION_WALK] at this
    omega
  · have := Walk_action K id d s
    simp only [ACTION_FALL, ACTION_WALK, ACTION_CLING] at this
    omega
  · have := Climb_action K id d s
    simp only [ACTION_FALL, ACTION_WALK, ACTION_CLIMB] at this
    omega
  · have := Cling_action K id d s
    simp only [ACTION_WALK, ACTION_CLING] at this
    omega
  · have := Fall_action K id s
    simp only [ACTION_FALL, ACTION_WALK, ACTION_CLING, ACTION_INHOLE] at this
    omega
  · have := Die_action K id s
    omega
  · have := InHole_action K id s
    simp only [ACTION_WALK, ACTION_INHOLE] at this
    omega
  · have := Respawn_action inp.rnd id s
    simp only [ACTION_FALL] at this
    omega

/-- The switch sets `levelComplete` only through `Climb`, for the player's slot, with all
gold collected. -/
theorem ProcessPlayer.dispatch_levelComplete (K : Consts) (inp : Input) (joy id : Nat)
    (s : State) :
    (ProcessPlayer.dispatch K inp joy id s).game.levelComplete = s.game.levelComplete ∨
    ((ProcessPlayer.dispatch K inp joy id s).game.levelComplete = true ∧
      id = SPR_INDEX_PLAYER ∧ s.game.goldCollected = s.game.goldCount ∧
      ∃ dir, ProcessPlayer.dispatch K inp joy id s = Climb K id dir s) := by
  rcases ProcessPlayer.dispatch_cases K inp joy id s with
    e | e | ⟨d, e⟩ | ⟨d, e⟩ | ⟨d, e⟩ | e | e | e | e <;> rw [e]
  · left; rfl
  · left; exact Fire_levelComplete K id s
  · left; exact congrArg Game.levelComplete (Walk_game K id d s)
  · rcases Climb_levelComplete K id d s with c | ⟨a, b, c⟩
    · left; exact c
    · right; exact ⟨a, b, c, d, rfl⟩
  · left; exact congrArg Game.levelComplete (Cling_game K id d s)
  · left; exact congrArg Game.levelComplete (Fall_game K id s)
  · left; exact congrArg Game.levelComplete (Die_game K id s)
  · left; exact InHole_levelComplete K id s
  · left; exact congrArg Game.levelComplete (Respawn_game _ id s)

/-! ### The per-entity tick -/

/-- The shape of a tick of an active entity: either the pause menu ran, which leaves the
entities and `levelComplete` as they were but for the tiles cached in the entity, or the
tick ends in the action switch, entered from a state `t` that differs from the start in the
entity `id` only (in `action`: unchanged, Die or Respawn) and has the same
`levelComplete`. -/
theorem ProcessPlayer_shape (K : Consts) (inp : Input) (id : Nat) (s : State)
    (ha : (s.player id).active = true) :
    (∃ t joy, ProcessPlayer K inp id s = ProcessPlayer.dispatch K inp joy id t ∧
      (∀ j, j ≠ id → t.player j = s.player j) ∧
      ((t.player id).action = (s.player id).action ∨ (t.player id).action = ACTION_DIE ∨
        (t.player id).action = ACTION_RESPAWN) ∧
      t.game.levelComplete = s.game.levelComplete) ∨
    ((∀ j, j ≠ id → (ProcessPlayer K inp id s).player j = s.player j) ∧
      ((ProcessPlayer K inp id s).player id).action = (s.player id).action ∧
      (ProcessPlayer K inp id s).game.levelComplete = s.game.levelComplete) := by
  generalize hr : ProcessPlayer K inp id s = r
  unfold ProcessPlayer at hr
  simp only [] at hr
  rw [if_neg (by simp [ha])] at hr
  generalize hs1 : setPlayer s id (fun p =>
      { p with tileAtFeet := GetTileAtFeet K s.vram (u8 (px (s.player id).x))
                 (u8 (px (s.player id).y)),
               tileAtHead := GetTileAtHead K s.vram (u8 (px (s.player id).x))
                 (u8 (px (s.player id).y)),
               tileUnder := GetTileUnder K s.vram (u8 (px (s.player id).x))
                 (u8 (px (s.player id).y)) }) = s1 at hr
  have p1 : ∀ j, j ≠ id → s1.player j = s.player j := by
    intro j hj; rw [← hs1]; exact setPlayer_player_ne _ _ _ _ hj
  have a1 : (s1.player id).action = (s.player id).action := by rw [← hs1]; simp
  have l1 : s1.game.levelComplete = s.game.levelComplete := by rw [← hs1]; rfl
  split_ifs at hr
  · right
    obtain ⟨a, b⟩ := PauseMenu_frame K inp.menu s1
    rw [← hr, a, b]
    exact ⟨p1, a1, l1⟩
  · left
    obtain ⟨a, b⟩ := ProcessPlayer.collect_player K (u8 (px (s.player id).x))
      (u8 (px (s.player id).y)) s1.game.goldCount 0 s1
    refine ⟨_, _, hr.symm, ?_, ?_, ?_⟩
    · intro j hj
      rw [setPlayer_player_ne _ _ _ _ hj, a]
      exact p1 j hj
    · right; left; simp
    · exact b.trans l1
  · left
    obtain ⟨a, b⟩ := ProcessPlayer.collect_player K (u8 (px (s.player id).x))
      (u8 (px (s.player id).y)) s1.game.goldCount 0 s1
    obtain ⟨c, d, e⟩ := ProcessPlayer.collide_frame id (u8 (px (s.player id).x))
      (u8 (px (s.player id).y)) SPR_INDEX_PLAYER 0
      (ProcessPlayer.collect K (u8 (px (s.player id).x)) (u8 (px (s.player id).y))
        s1.game.goldCount 0 s1)
    refine ⟨_, _, hr.symm, ?_, ?_, ?_⟩
    · intro j hj
      rw [d j hj, a]
      exact p1 j hj
    · rw [a] at e
      rcases e with e | e
      · left; exact e.trans a1
      · right; left; exact e
    · rw [c]; exact b.trans l1
  · left
    refine ⟨_, _, hr.symm, ?_, ?_, ?_⟩
    · intro j hj
      rw [ProcessEnemy_player_ne K inp id s1 j hj]
      exact p1 j hj
    · rcases ProcessEnemy_action K inp id s1 with e | e
      · left; exact e.trans a1
      · right; right; exact e
    · exact (ProcessEnemy_levelComplete K inp id s1).trans l1
  · left
    exact ⟨_, _, hr.symm, p1, Or.inl a1, l1⟩

theorem ProcessPlayer_player_ne (K : Consts) (inp : Input) (id : Nat) (s : State) (j : Nat)
    (hj : j ≠ id) : (ProcessPlayer K inp id s).player j = s.player j := by
  by_cases ha : (s.player id).active = true
  · rcases ProcessPlayer_shape K inp id s ha with ⟨t, joy, e, p, _, _⟩ | ⟨p, _, _⟩
    · rw [e, ProcessPlayer.dispatch_player_ne K inp joy id t j hj]
      exact p j hj
    · exact p j hj
  · unfold ProcessPlayer
    rw [if_pos ha]

/-- A tick leaves the action of the entity in 1..8 when it was there. -/
theorem ProcessPlayer_action (K : Consts) (inp : Input) (id : Nat) (s : State)
    (h : 1 ≤ (s.player id).action ∧ (s.player id).action ≤ 8) :
    1 ≤ ((ProcessPlayer K inp id s).player id).action ∧
    ((ProcessPlayer K inp id s).player id).action ≤ 8 := by
  by_cases ha : (s.player id).active = true
  · rcases ProcessPlayer_shape K inp id s ha with ⟨t, joy, e, _, a, _⟩ | ⟨_, a, _⟩
    · rw [e]
      apply ProcessPlayer.dispatch_action
      simp only [ACTION_DIE, ACTION_RESPAWN] at a
      omega
    · rw [a]; exact h
  · unfold ProcessPlayer
    rw [if_pos ha]
    exact h

end Tick

section Managers

theorem State.player_with_exit (t : State) :
    ({ t with game := { t.game with exitLadders := true } } : State).player = t.player := rfl

theorem State.complete_with_exit (t : State) :
    ({ t with game := { t.game with exitLadders := true } } : State).game.levelComplete
      = t.game.levelComplete := rfl

theorem ProcessGold.reveal_frame (K : Consts) (s : State) :
    (ProcessGold.reveal K s).player = s.player ∧
    (ProcessGold.reveal K s).game.levelComplete = s.game.levelComplete := by
  obtain ⟨_, _, g, p, _⟩ := ProcessGold.scan_spec K 0 224 0 s
  constructor
  · exact ((congrArg State.player (ProcessGold.reveal_eq_scan K s)).trans
      (State.player_with_exit _)).trans p
  · exact ((congrArg (fun t : State => t.game.levelComplete)
      (ProcessGold.reveal_eq_scan K s)).trans (State.complete_with_exit _)).trans
      (congrArg Game.levelComplete g)

theorem ProcessGold_frame (K : Consts) (s : State) :
    (ProcessGold K s).player = s.player ∧
    (ProcessGold K s).game.levelComplete = s.game.levelComplete := by
  have hp := ProcessGold.paint_frame K s.game.goldCount 0 s
  have ha : (ProcessGold.animate K s).player = s.player ∧
      (ProcessGold.animate K s).game.levelComplete = s.game.levelComplete := by
    simp only [ProcessGold.animate]
    split_ifs <;> simp [hp.1, hp.2.1]
  have hr := ProcessGold.reveal_frame K (ProcessGold.animate K s)
  unfold ProcessGold
  simp only []
  generalize ProcessGold.animate K s = a at ha hr
  generalize ProcessGold.reveal K a = r at hr
  split_ifs <;> first
    | exact ⟨rfl, rfl⟩
    | exact ha
    | exact ⟨hr.1.trans ha.1, hr.2.trans ha.2⟩

theorem ProcessAnimations.run_one (K : Consts) (i x y : Nat) (command : Nat) (s : State) :
    ProcessAnimations.run K i x y [command] s =
    if command &&& 0x80 ≠ 0 then
      .delayed (setAnim s i (fun a =>
        { a with delay := command &&& 0x7f, commandStream := some [] }))
    else if command = ANIM_CMD_END then
      .ended (setAnim s i (fun a => { a with commandStream := none }))
    else if command = ANIM_CMD_SETTILE then .overrun
    else if command = ANIM_CMD_SETSPRITE then .overrun
    else if command = ANIM_CMD_TURNOFFSPRITE then .overrun
    else if command = ANIM_CMD_SETSPRITEATTR then .overrun
    else if command = ANIM_CMD_FLIP_SPRITE_ATTR then .overrun
    else .overrun := by
  rfl

theorem ProcessAnimations.run_two (K : Consts) (i x y : Nat) (command t : Nat) (ptr2 : List Nat)
    (s : State) :
    ProcessAnimations.run K i x y (command :: t :: ptr2) s =
    if command &&& 0x80 ≠ 0 then
      .delayed (setAnim s i (fun a =>
        { a with delay := command &&& 0x7f, commandStream := some (t :: ptr2) }))
    else
      let bump (t : State) : State :=
        setAnim t i (fun a => { a with commandCount := (a.commandCount + 1) % 256 })
      let param1 := (s.game.animations i).param1
      if command = ANIM_CMD_END then
        .ended (setAnim s i (fun a => { a with commandStream := none }))
      else if command = ANIM_CMD_SETTILE then
        ProcessAnimations.run K i x y ptr2 (bump (SetTile K x y t s))
      else if command = ANIM_CMD_SETSPRITE then
          let s1 := if (s.game.animations i).commandCount = 0 then
              setSprite s param1 (fun sp => { sp with x := x, y := y })
            else s
          ProcessAnimations.run K i x y ptr2
            (bump (setSprite s1 param1 (fun sp => { sp with tileIndex := t })))
      else if command = ANIM_CMD_TURNOFFSPRITE then
        ProcessAnimations.run K i x y (t :: ptr2)
          (bump (setSprite s param1 (fun sp => { sp with x := SPR_OFF K })))
      else if command = ANIM_CMD_SETSPRITEATTR then
          ProcessAnimations.run K i x y ptr2
            (bump (setSprite s param1 (fun sp => { sp with flags := t })))
      else if command = ANIM_CMD_FLIP_SPRITE_ATTR then
          ProcessAnimations.run K i x y ptr2
            (bump (setSprite s param1 (fun sp => { sp with flags := sp.flags ^^^ t })))
      else ProcessAnimations.run K i x y (t :: ptr2) (bump s) := by
  rfl

/-- The command loop of one slot leaves the entities and `levelComplete` as they were. -/
theorem ProcessAnimations.run_frame (K : Consts) (i x y : Nat) :
    ∀ (n : Nat) (l : List Nat) (s t : State), l.length ≤ n →
      (ProcessAnimations.run K i x y l s = AnimRun.delayed t ∨
        ProcessAnimations.run K i x y l s = AnimRun.ended t) →
      t.player = s.player ∧ t.game.levelComplete = s.game.levelComplete := by
  intro n
  induction n with
  | zero =>
    intro l s t hl h
    have : l = [] := List.length_eq_zero.mp (Nat.le_zero.mp hl)
    subst this
    have e : ProcessAnimations.run K i x y [] s = AnimRun.overrun := rfl
    rw [e] at h
    simp at h
  | succ n ih =>
    intro l s t hl h
    cases l with
    | nil =>
      have e : ProcessAnimations.run K i x y [] s = AnimRun.overrun := rfl
      rw [e] at h
      simp at h
    | cons command ptr =>
      cases ptr with
      | nil =>
        rw [ProcessAnimations.run_one] at h
        split_ifs at h <;> simp at h
        · subst h; exact ⟨rfl, rfl⟩
        · subst h; exact ⟨rfl, rfl⟩
      | cons a ptr2 =>
        have hlen : ptr2.length + 1 ≤ n := by simpa using hl
        rw [ProcessAnimations.run_two] at h
        simp only [] at h
        split_ifs at h
        · simp only [AnimRun.delayed.injEq, or_false] at h
          subst h; exact ⟨rfl, rfl⟩
        · simp only [AnimRun.ended.injEq, false_or] at h
          subst h; exact ⟨rfl, rfl⟩
        · obtain ⟨p, q⟩ := ih ptr2 _ t (by omega) h
          exact ⟨p.trans (by simp), q.trans (by simp)⟩
        · obtain ⟨p, q⟩ := ih ptr2 _ t (by omega) h
          exact ⟨p.trans (by simp), q.trans (by simp)⟩
        · obtain ⟨p, q⟩ := ih ptr2 _ t (by omega) h
          exact ⟨p.trans (by simp), q.trans (by simp)⟩
        · obtain ⟨p, q⟩ := ih (a :: ptr2) _ t (by simpa using hlen) h
          exact ⟨p.trans (by simp), q.trans (by simp)⟩
        · obtain ⟨p, q⟩ := ih ptr2 _ t (by omega) h
          exact ⟨p.trans (by simp), q.trans (by simp)⟩
        · obtain ⟨p, q⟩ := ih ptr2 _ t (by omega) h
          exact ⟨p.trans (by simp), q.trans (by simp)⟩
        · obtain ⟨p, q⟩ := ih (a :: ptr2) _ t (by simpa using hlen) h
          exact ⟨p.trans (by simp), q.trans (by simp)⟩

theorem ProcessAnimations.loop_frame (K : Consts) :
    ∀ (n i : Nat) (s t : State), ProcessAnimations.loop K n i s = some t →
      t.player = s.player ∧ t.game.levelComplete = s.game.levelComplete := by
  intro n
  induction n with
  | zero =>
    intro i s t h
    simp only [ProcessAnimations.loop, Option.some.injEq] at h
    subst h; exact ⟨rfl, rfl⟩
  | succ n ih =>
    intro i s t h
    simp only [ProcessAnimations.loop] at h
    cases hc : (s.game.animations i).commandStream with
    | none =>
      rw [hc] at h
      exact ih _ _ _ h
    | some ptr =>
      rw [hc] at h
      simp only [] at h
      split_ifs at h
      · obtain ⟨a, b⟩ := ih _ _ _ h
        exact ⟨a.trans (by simp), b.trans (by simp)⟩
      · cases hr : ProcessAnimations.run K i (s.game.animations i).x (s.game.animations i).y
          ptr s with
        | delayed s2 =>
          rw [hr] at h
          obtain ⟨a, b⟩ := ih _ _ _ h
          obtain ⟨c, d⟩ := ProcessAnimations.run_frame K i _ _ ptr.length ptr s s2 (le_refl _)
            (Or.inl hr)
          exact ⟨a.trans c, b.trans d⟩
        | ended s2 =>
          rw [hr] at h
          simp only [Option.some.injEq] at h
          subst h
          exact ProcessAnimations.run_frame K i _ _ ptr.length ptr s s2 (le_refl _) (Or.inr hr)
        | overrun =>
          rw [hr] at h
          simp at h

theorem ProcessAnimations_frame (K : Consts) (s t : State) (h : ProcessAnimations K s = some t) :
    t.player = s.player ∧ t.game.levelComplete = s.game.levelComplete :=
  ProcessAnimations.loop_frame K ANIMATION_SLOTS_COUNT 0 s t h

end Managers

section LevelComplete

/-- C21: `levelComplete` goes from false to true only in a tick of the player's slot that
ends in `Climb`, called in a state `t` with `goldCollected == goldCount` (and
`levelComplete` still false); a tick of any other slot, `ProcessGold` and
`ProcessAnimations` leave the flag as it was. -/
theorem C21_levelComplete_only_by_player (K : Consts) (inp : Input) (id : Nat) (s : State) :
    (s.game.levelComplete = false → (ProcessPlayer K inp id s).game.levelComplete = true →
      id = SPR_INDEX_PLAYER ∧
      ∃ t dir, ProcessPlayer K inp id s = Climb K id dir t ∧
        t.game.goldCollected = t.game.goldCount ∧ t.game.levelComplete = false) ∧
    (id ≠ SPR_INDEX_PLAYER →
      (ProcessPlayer K inp id s).game.levelComplete = s.game.levelComplete) ∧
    (ProcessGold K s).game.levelComplete = s.game.levelComplete ∧
    (∀ t, ProcessAnimations K s = some t → t.game.levelComplete = s.game.levelComplete) := by
  have key : (ProcessPlayer K inp id s).game.levelComplete = s.game.levelComplete ∨
      ((ProcessPlayer K inp id s).game.levelComplete = true ∧ id = SPR_INDEX_PLAYER ∧
        ∃ t dir, ProcessPlayer K inp id s = Climb K id dir t ∧
          t.game.goldCollected = t.game.goldCount ∧
          t.game.levelComplete = s.game.levelComplete) := by
    by_cases ha : (s.player id).active = true
    · rcases ProcessPlayer_shape K inp id s ha with ⟨t, joy, e, _, _, l⟩ | ⟨_, _, l⟩
      · rcases ProcessPlayer.dispatch_levelComplete K inp joy id t with c | ⟨c1, c2, c3, d, c4⟩
        · left; rw [e, c, l]
        · right
          refine ⟨by rw [e]; exact c1, c2, t, d, e.trans c4, c3, l⟩
      · left; exact l
    · left
      unfold ProcessPlayer
      rw [if_pos ha]
  refine ⟨?_, ?_, (ProcessGold_frame K s).2, fun t h => (ProcessAnimations_frame K s t h).2⟩
  · intro h0 h1
    rcases key with c | ⟨_, c2, t, d, c3, c4, c5⟩
    · rw [c, h0] at h1
      exact absurd h1 (by decide)
    · exact ⟨c2, t, d, c3, c4, c5.trans h0⟩
  · intro hid
    rcases key with c | ⟨_, c2, _⟩
    · exact c
    · exact absurd c2 hid

/-- C21 at a concrete input: the player of `C21_state` on the exit ladder at the top row
with all gold collected; one tick with Up pressed sets `levelComplete`, and the slot is
the player's. -/
theorem C21_levelComplete_only_by_player_witness :
    C21_state.game.levelComplete = false ∧
    (ProcessPlayer K0 { Input.idle with joy := K0.BTN_UP } 5 C21_state).game.levelComplete
      = true ∧
    (5 : Nat) = SPR_INDEX_PLAYER :=
  ⟨by decide, by decide,
   ((C21_levelComplete_only_by_player K0 { Input.idle with joy := K0.BTN_UP } 5 C21_state).1
      (by decide) (by decide)).1⟩

end LevelComplete

section ActionRange

theorem foldl_player_preserve {α : Type} (g : State → α → State)
    (hg : ∀ t a, (g t a).player = t.player) :
    ∀ (l : List α) (s : State), (l.foldl g s).player = s.player := by
  intro l
  induction l with
  | nil => intro s; rfl
  | cons a l ih => intro s; simp only [List.foldl_cons]; rw [ih, hg]

theorem Fill_player (K : Consts) (x y w h t : Nat) (s : State) :
    (Fill K x y w h t s).player = s.player := by
  simp only [Fill]
  apply foldl_player_preserve
  intro t1 cy
  apply foldl_player_preserve
  intro t2 cx
  rfl

theorem UnpackGameMap.status_player (K : Consts) (mapNo : Nat) (s : State) :
    (UnpackGameMap.status K mapNo s).player = s.player := by
  unfold UnpackGameMap.status
  refine (UpdateInfo_player K _).trans ?_
  refine (PrintByte2_player K _ _ _ _).trans ?_
  refine (Print_player K _ _ _ _).trans ?_
  refine (PrintByte2_player K _ _ _ _).trans ?_
  refine (Print_player K _ _ _ _).trans ?_
  refine (SetTile_player K _ _ _ _).trans ?_
  exact Fill_player K _ _ _ _ _ _

theorem UnpackGameMap.background_player (K : Consts) :
    ∀ (n y : Nat) (s : State), (UnpackGameMap.background K n y s).player = s.player := by
  intro n
  induction n with
  | zero => intro y s; rfl
  | succ n ih =>
    intro y s
    simp only [UnpackGameMap.background]
    rw [ih]
    simp only [SetTile_player]
    apply foldl_player_preserve
    intro t i
    rfl

/-- The first loop of `UnpackGameMap` leaves an inactive entity inactive and deactivates
the entities `i .. i+n-1`. -/
theorem UnpackGameMap.clear_inactive (K : Consts) :
    ∀ (n i : Nat) (s : State) (j : Nat),
      ((s.player j).active = false ∨ (i ≤ j ∧ j < i + n)) →
      ((UnpackGameMap.clear K n i s).player j).active = false := by
  intro n
  induction n with
  | zero =>
    intro i s j h
    rcases h with h | h
    · exact h
    · omega
  | succ n ih =>
    intro i s j h
    simp only [UnpackGameMap.clear]
    apply ih
    by_cases hj : j = i
    · left; subst hj; simp
    · rcases h with h | h
      · left
        rw [setSprite_player, setPlayer_player_ne _ _ _ _ hj]
        exact h
      · right; omega

theorem UnpackGameMap.load_inactive (K : Consts) (levels : Nat → Nat) (mapNo : Nat) (s : State)
    (j : Nat) (hj : j < MAX_PLAYERS) :
    ((UnpackGameMap.load K levels mapNo s).player j).active = false := by
  unfold UnpackGameMap.load
  simp only []
  rw [UnpackGameMap.background_player]
  apply UnpackGameMap.clear_inactive
  right
  exact ⟨Nat.zero_le _, by omega⟩

theorem UnpackGameMap.spawn_action (K : Consts) (x y nb tile id : Nat) (s : State) :
    1 ≤ ((UnpackGameMap.spawn K x y nb tile id s).player id).action ∧
    ((UnpackGameMap.spawn K x y nb tile id s).player id).action ≤ 8 := by
  have hw : ∀ (dir : Int) (t : State),
      1 ≤ ((Walk K id dir t).player id).action ∧ ((Walk K id dir t).player id).action ≤ 8 := by
    intro dir t
    have := Walk_action K id dir t
    simp only [ACTION_WALK, ACTION_CLING, ACTION_FALL] at this
    omega
  simp only [UnpackGameMap.spawn]
  exact hw _ _

/-- One nibble of `UnpackGameMap` keeps the action of every active entity in 1..8. -/
theorem UnpackGameMap.cell_range (K : Consts) (x y nb pos ec : Nat) (s : State)
    (h : ActionInRange s) : ActionInRange (UnpackGameMap.cell K x y nb pos ec s).2 := by
  rw [UnpackGameMap.cell_eq]
  rcases UnpackGameMap.switch_cases K x y nb (nibbleOf (s.game.map pos) nb) ec s with
    ⟨_, _, e⟩ | ⟨_, _, e⟩ | ⟨_, e⟩ | ⟨_, _, _, T, e⟩
  · rw [e]
    intro j hj ha
    rw [UnpackGameMap.put_player] at ha ⊢
    exact h j hj ha
  · rw [e]; exact h
  · rw [e]
    intro j hj ha
    simp only [] at ha ⊢
    by_cases hji : j = (if nibbleOf (s.game.map pos) nb = 8 then ec else SPR_INDEX_PLAYER)
    · rw [hji]
      exact UnpackGameMap.spawn_action K x y nb _ _ s
    · rw [UnpackGameMap.spawn_player_ne K x y nb _ _ s j hji] at ha ⊢
      exact h j hj ha
  · rw [e]
    intro j hj ha
    rw [UnpackGameMap.put_player] at ha ⊢
    exact h j hj ha

theorem UnpackGameMap.scan_range (K : Consts) :
    ∀ (n p : Nat) (r : Nat × State), ActionInRange r.2 →
      ActionInRange (scanFrom (UnpackGameMap.byte K) n p r).2 := by
  intro n
  induction n with
  | zero => intro p r h; exact h
  | succ n ih =>
    intro p r h
    simp only [scanFrom]
    apply ih
    simp only [UnpackGameMap.byte]
    exact UnpackGameMap.cell_range K _ _ _ _ _ _ (UnpackGameMap.cell_range K _ _ _ _ _ _ h)

/-- After `UnpackGameMap` every active entity has its action in 1..8. -/
theorem UnpackGameMap_range (K : Consts) (levels : Nat → Nat) (mapNo : Nat) (s : State) :
    ActionInRange (UnpackGameMap K levels mapNo s) := by
  have h0 : ActionInRange (UnpackGameMap.load K levels mapNo s) := by
    intro j hj ha
    rw [UnpackGameMap.load_inactive K levels mapNo s j hj] at ha
    exact absurd ha (by decide)
  have h1 := UnpackGameMap.scan_range K 224 0 (0, UnpackGameMap.load K levels mapNo s) h0
  rw [UnpackGameMap_eq_scan]
  intro j hj ha
  rw [UnpackGameMap.status_player] at ha ⊢
  exact h1 j hj ha

/-- A tick of any slot keeps the action of every active entity in 1..8. -/
theorem ProcessPlayer_range (K : Consts) (inp : Input) (id : Nat) (s : State)
    (h : ActionInRange s) : ActionInRange (ProcessPlayer K inp id s) := by
  intro j hj ha
  by_cases hji : j = id
  · subst hji
    by_cases hact : (s.player j).active = true
    · exact ProcessPlayer_action K inp j s (h j hj hact)
    · have e : ProcessPlayer K inp j s = s := by
        unfold ProcessPlayer
        rw [if_pos hact]
      rw [e] at ha
      exact absurd ha hact
  · rw [ProcessPlayer_player_ne K inp id s j hji] at ha ⊢
    exact h j hj ha

theorem runCalls_range (K : Consts) :
    ∀ (calls : List Call) (s t : State), ActionInRange s → runCalls K calls s = some t →
      ActionInRange t := by
  intro calls
  induction calls with
  | nil =>
    intro s t h e
    simp only [runCalls, Option.some.injEq] at e
    subst e; exact h
  | cons c rest ih =>
    intro s t h e
    cases c with
    | player id inp =>
      simp only [runCalls] at e
      exact ih _ t (ProcessPlayer_range K inp id s h) e
    | gold =>
      simp only [runCalls] at e
      refine ih _ t ?_ e
      intro j hj ha
      rw [(ProcessGold_frame K s).1] at ha ⊢
      exact h j hj ha
    | animations =>
      simp only [runCalls] at e
      cases ha : ProcessAnimations K s with
      | none => rw [ha] at e; simp at e
      | some u =>
        rw [ha] at e
        refine ih u t ?_ e
        intro j hj hact
        rw [(ProcessAnimations_frame K s u ha).1] at hact ⊢
        exact h j hj hact

end ActionRange

section DieAbsorbing

theorem ProcessPlayer.dispatch_Die (K : Consts) (inp : Input) (joy id : Nat) (s : State)
    (h : (s.player id).action = ACTION_DIE) :
    ProcessPlayer.dispatch K inp joy id s = Die K id s := by
  simp [ProcessPlayer.dispatch, h, ACTION_DIE, ACTION_WALK, ACTION_FALL, ACTION_CLIMB,
    ACTION_CLING, ACTION_FIRE]

/-- A tick of the player's slot that starts in `ACTION_DIE` ends in `ACTION_DIE`. -/
theorem ProcessPlayer_Die (K : Consts) (inp : Input) (id : Nat) (s : State)
    (hid : id ≥ SPR_INDEX_PLAYER) (h : (s.player id).action = ACTION_DIE) :
    ((ProcessPlayer K inp id s).player id).action = ACTION_DIE := by
  generalize hr : ProcessPlayer K inp id s = r
  unfold ProcessPlayer at hr
  simp only [] at hr
  by_cases ha : (s.player id).active = true
  · rw [if_neg (by simp [ha])] at hr
    generalize hs1 : setPlayer s id (fun p =>
        { p with tileAtFeet := GetTileAtFeet K s.vram (u8 (px (s.player id).x))
                   (u8 (px (s.player id).y)),
                 tileAtHead := GetTileAtHead K s.vram (u8 (px (s.player id).x))
                   (u8 (px (s.player id).y)),
                 tileUnder := GetTileUnder K s.vram (u8 (px (s.player id).x))
                   (u8 (px (s.player id).y)) }) = s1 at hr
    have a1 : (s1.player id).action = ACTION_DIE := by rw [← hs1]; simpa using h
    rw [if_pos hid] at hr
    split_ifs at hr
    · rw [← hr, (PauseMenu_frame K inp.menu s1).1]
      exact a1
    · rw [← hr, ProcessPlayer.dispatch_Die K inp _ id _ (by simp), Die_action]
      simp
    · obtain ⟨a, _⟩ := ProcessPlayer.collect_player K (u8 (px (s.player id).x))
        (u8 (px (s.player id).y)) s1.game.goldCount 0 s1
      obtain ⟨_, _, e⟩ := ProcessPlayer.collide_frame id (u8 (px (s.player id).x))
        (u8 (px (s.player id).y)) SPR_INDEX_PLAYER 0
        (ProcessPlayer.collect K (u8 (px (s.player id).x)) (u8 (px (s.player id).y))
          s1.game.goldCount 0 s1)
      rw [a, a1] at e
      have e2 : ((ProcessPlayer.collide id (u8 (px (s.player id).x)) (u8 (px (s.player id).y))
          SPR_INDEX_PLAYER 0
          (ProcessPlayer.collect K (u8 (px (s.player id).x)) (u8 (px (s.player id).y))
            s1.game.goldCount 0 s1)).player id).action = ACTION_DIE := by
        rcases e with e | e <;> exact e
      rw [← hr, ProcessPlayer.dispatch_Die K inp _ id _ e2, Die_action]
      exact e2
  · rw [if_pos (by simp [ha])] at hr
    rw [← hr]; exact h

theorem runCalls_Die (K : Consts) :
    ∀ (calls : List Call) (s t : State),
      (s.player SPR_INDEX_PLAYER).action = ACTION_DIE → runCalls K calls s = some t →
      (t.player SPR_INDEX_PLAYER).action = ACTION_DIE := by
  intro calls
  induction calls with
  | nil =>
    intro s t h e
    simp only [runCalls, Option.some.injEq] at e
    subst e; exact h
  | cons c rest ih =>
    intro s t h e
    cases c with
    | player id inp =>
      simp only [runCalls] at e
      refine ih _ t ?_ e
      by_cases hid : id = SPR_INDEX_PLAYER
      · subst hid
        exact ProcessPlayer_Die K inp _ s (le_refl _) h
      · rw [ProcessPlayer_player_ne K inp id s _ (fun hc => hid hc.symm)]
        exact h
    | gold =>
      simp only [runCalls] at e
      refine ih _ t ?_ e
      rw [(ProcessGold_frame K s).1]
      exact h
    | animations =>
      simp only [runCalls] at e
      cases ha : ProcessAnimations K s with
      | none => rw [ha] at e; simp at e
      | some u =>
        rw [ha] at e
        refine ih u t ?_ e
        rw [(ProcessAnimations_frame K s u ha).1]
        exact h

/-- C36: once the player's action is Die it stays Die: through any sequence of
`ProcessPlayer` (any slot, any input: joypad, pause-menu readings, random source),
`ProcessGold` and `ProcessAnimations` calls the action of slot 5 is still Die, and one more
tick of the player with any input leaves it Die. Only the `died` flag, which `Die` sets on
its 90th tick, ends the level. -/
theorem C36_Die_absorbing (K : Consts) (calls : List Call) (s t : State)
    (hd : (s.player SPR_INDEX_PLAYER).action = ACTION_DIE)
    (h : runCalls K calls s = some t) :
    (t.player SPR_INDEX_PLAYER).action = ACTION_DIE ∧
    ∀ inp : Input,
      ((ProcessPlayer K inp SPR_INDEX_PLAYER t).player SPR_INDEX_PLAYER).action = ACTION_DIE := by
  have ht := runCalls_Die K calls s t hd h
  exact ⟨ht, fun inp => ProcessPlayer_Die K inp _ t (le_refl _) ht⟩

/-- C36 at a concrete input: the dying player of `C24_state`; a tick with Start pressed
(the pause menu, answered with Start on "continue") leaves the action at Die, and so does a
tick with Left and A pressed after it. -/
theorem C36_Die_absorbing_witness :
    (C24_state.player SPR_INDEX_PLAYER).action = ACTION_DIE ∧
    ((ProcessPlayer K0 { Input.idle with joy := K0.BTN_START, menu := [K0.BTN_START] } 5
        C24_state).player SPR_INDEX_PLAYER).action = ACTION_DIE ∧
    ((ProcessPlayer K0 { Input.idle with joy := K0.BTN_LEFT + K0.BTN_A } SPR_INDEX_PLAYER
        (ProcessPlayer K0 { Input.idle with joy := K0.BTN_START, menu := [K0.BTN_START] } 5
          C24_state)).player SPR_INDEX_PLAYER).action = ACTION_DIE :=
  ⟨by decide,
   (C36_Die_absorbing K0
      [Call.player 5 { Input.idle with joy := K0.BTN_START, menu := [K0.BTN_START] }]
      C24_state _ (by decide) rfl).1,
   (C36_Die_absorbing K0
      [Call.player 5 { Input.idle with joy := K0.BTN_START, menu := [K0.BTN_START] }]
      C24_state _ (by decide) rfl).2 { Input.idle with joy := K0.BTN_LEFT + K0.BTN_A }⟩

end DieAbsorbing

section WalkFall

/-- When the unblocked branch of `Walk` ends in Fall from another action, `x` is the moved
position, advanced by 0x800 when it lies in the right half of its tile, masked with
`0xf8ff`. -/
theorem Walk.move_fall_x (K : Consts) (id : Nat) (dir nx : Int) (ny h f : Nat) (s : State)
    (ha : (s.player id).action ≠ ACTION_FALL)
    (hf : ((Walk.move K id dir nx ny h f s).player id).action = ACTION_FALL) :
    ((Walk.move K id dir nx ny h f s).player id).x
      = Int.land
          (if ((s.player id).x + (s.player id).playerSpeed * dir) / 2048
              < ((s.player id).x + (s.player id).playerSpeed * dir + 0x400) / 2048
           then (s.player id).x + (s.player id).playerSpeed * dir + 0x800
           else (s.player id).x + (s.player id).playerSpeed * dir) 0xf8ff := by
  have hc : ACTION_CLING ≠ ACTION_FALL := by decide
  simp only [Walk.move] at hf ⊢
  split_ifs at hf ⊢ <;> simp_all [RoundYpos]

/-- C32: when a call of `Walk` ends with the action Fall (the step was made and the spot
has nothing solid under it), with the moved position `xm = x + playerSpeed * dir` in
`[0, 0xF800)`: the resulting `x` is `c * 0x800 + xm mod 0x100`, where the tile column `c` is
`xm / 0x800 + 1` when `xm mod 0x800 >= 0x400` and `xm / 0x800` otherwise. So the pixel X
`x >> 8` is `8 * c`, a multiple of 8, the sub-pixel byte is the one of `xm`, and `c` is the
column nearest to `xm`. -/
theorem C32_Walk_fall_x (K : Consts) (id : Nat) (dir : Int) (s : State)
    (hf : ((Walk K id dir s).player id).action = ACTION_FALL)
    (h0 : 0 ≤ (s.player id).x + (s.player id).playerSpeed * dir)
    (h1 : (s.player id).x + (s.player id).playerSpeed * dir < 0xF800) :
    ((Walk K id dir s).player id).x
      = (if ((s.player id).x + (s.player id).playerSpeed * dir) % 0x800 ≥ 0x400
         then ((s.player id).x + (s.player id).playerSpeed * dir) / 0x800 + 1
         else ((s.player id).x + (s.player id).playerSpeed * dir) / 0x800) * 0x800
        + ((s.player id).x + (s.player id).playerSpeed * dir) % 0x100 ∧
    px ((Walk K id dir s).player id).x
      = 8 * (if ((s.player id).x + (s.player id).playerSpeed * dir) % 0x800 ≥ 0x400
         then ((s.player id).x + (s.player id).playerSpeed * dir) / 0x800 + 1
         else ((s.player id).x + (s.player id).playerSpeed * dir) / 0x800) ∧
    px ((Walk K id dir s).player id).x % 8 = 0 ∧
    ((Walk K id dir s).player id).x % 0x100
      = ((s.player id).x + (s.player id).playerSpeed * dir) % 0x100 := by
  have hx := Walk.entry_x id s
  have hsp := Walk.entry_playerSpeed id s
  rw [← hx, ← hsp] at h0 h1 ⊢
  have key : ((Walk K id dir s).player id).x
      = Int.land
          (if (((Walk.entry id s).player id).x + ((Walk.entry id s).player id).playerSpeed * dir)
                / 2048
              < (((Walk.entry id s).player id).x
                  + ((Walk.entry id s).player id).playerSpeed * dir + 0x400) / 2048
           then ((Walk.entry id s).player id).x
                  + ((Walk.entry id s).player id).playerSpeed * dir + 0x800
           else ((Walk.entry id s).player id).x
                  + ((Walk.entry id s).player id).playerSpeed * dir) 0xf8ff := by
    simp only [Walk] at hf ⊢
    generalize Walk.entry id s = t at hf ⊢
    generalize hR : Int.land
      (if ((t.player id).x + (t.player id).playerSpeed * dir) / 2048
          < ((t.player id).x + (t.player id).playerSpeed * dir + 0x400) / 2048
       then (t.player id).x + (t.player id).playerSpeed * dir + 0x800
       else (t.player id).x + (t.player id).playerSpeed * dir) 0xf8ff = R
    simp only [Walk.finish, setPlayer_player, setPlayer_vram, Function.update_same,
      setSprite_player] at hf ⊢
    split_ifs at hf ⊢ with hb hid
    · have := Walk.move_fall_x K id dir _ _ _ _ _ (by simp [ACTION_WALK, ACTION_FALL]) hf
      simp only [setPlayer_player, Function.update_same] at this
      rw [this]
      exact hR
    · simp [ACTION_WALK, ACTION_FALL] at hf
    · simp [ACTION_WALK, ACTION_FALL] at hf
  generalize ((Walk.entry id s).player id).x
    + ((Walk.entry id s).player id).playerSpeed * dir = xm at h0 h1 key ⊢
  have e : ((Walk K id dir s).player id).x
      = (if xm % 0x800 ≥ 0x400 then xm / 0x800 + 1 else xm / 0x800) * 0x800 + xm % 0x100 := by
    rw [key]
    by_cases hc : xm / 2048 < (xm + 0x400) / 2048
    · rw [if_pos hc, land_f8ff _ (by omega) (by omega)]
      split_ifs <;> omega
    · rw [if_neg hc, land_f8ff _ h0 (by omega)]
      split_ifs <;> omega
  refine ⟨e, ?_, ?_, ?_⟩
  · rw [e]; unfold px; split_ifs <;> omega
  · rw [e]; unfold px; split_ifs <;> omega
  · rw [e]; split_ifs <;> omega

/-- C32 at a concrete input: the player of `C32_state` steps right from 0x4380 to 0x4440
and starts to fall; 0x440 >= 0x400, so it is put on column 9: `x = 0x4840`, pixel 72. -/
theorem C32_Walk_fall_x_witness :
    ((Walk K0 5 1 C32_state).player 5).action = ACTION_FALL ∧
    ((Walk K0 5 1 C32_state).player 5).x = 0x4840 ∧
    px ((Walk K0 5 1 C32_state).player 5).x % 8 = 0 :=
  ⟨by decide,
   (C32_Walk_fall_x K0 5 1 C32_state (by decide) (by decide) (by decide)).1.trans (by decide),
   (C32_Walk_fall_x K0 5 1 C32_state (by decide) (by decide) (by decide)).2.2.1⟩

end WalkFall

section RopeDrop

/-- C33: an entity on screen (`0 <= y < 0x10000`) calls `Fall` with `lastAction` Cling, `y`
a multiple of 0xC00, `0 <= playerSpeed < 0x100`, a Rope tile at its head, a non-blocking
tile under it and, for an enemy, no hole at its feet cell. Then `y` grows by exactly
`playerSpeed + 0x100`, and action and `lastAction` are both Fall afterwards: the entity
does not re-attach to the rope. -/
theorem C33_Fall_from_rope (K : Consts) (id : Nat) (s : State)
    (hla : (s.player id).lastAction = ACTION_CLING)
    (hy0 : 0 ≤ (s.player id).y) (hy1 : (s.player id).y < 0x10000)
    (hy : (s.player id).y % 0xC00 = 0)
    (hs0 : 0 ≤ (s.player id).playerSpeed) (hs1 : (s.player id).playerSpeed < 0x100)
    (hrope : GetTileAtHead K s.vram (u8 (px (s.player id).x)) (u8 (px (s.player id).y))
      = K.TILE_ROPE)
    (hunder : IsTileBlocking K
      (GetTileUnder K s.vram (u8 (px (s.player id).x)) (u8 (px (s.player id).y))) = false)
    (hhole : id < SPR_INDEX_PLAYER →
      IsTileHole K (GetTileAtFeet K s.vram (u8 (px (s.player id).x))
        (((u8 (px (s.player id).y) / 12) * 12) % 256)) = false) :
    ((Fall K id s).player id).y = (s.player id).y + ((s.player id).playerSpeed + 0x100) ∧
    ((Fall K id s).player id).action = ACTION_FALL ∧
    ((Fall K id s).player id).lastAction = ACTION_FALL := by
  have hh : ¬ (id < SPR_INDEX_PLAYER ∧
      IsTileHole K (GetTileAtFeet K s.vram (u8 (px (s.player id).x))
        (((u8 (px (s.player id).y) / 12) * 12) % 256)) = true) := by
    intro hc
    rw [hhole hc.1] at hc
    exact absurd hc.2 (by decide)
  have hb : ¬ IsTileBlocking K
      (GetTileUnder K s.vram (u8 (px (s.player id).x)) (u8 (px (s.player id).y))) = true := by
    rw [hunder]; decide
  have hcl : (s.player id).lastAction = ACTION_CLING ∧ (s.player id).playerSpeed < 0x100 :=
    ⟨hla, hs1⟩
  -- the pixel row before and after the step
  obtain ⟨k, hk⟩ : ∃ k : Int, (s.player id).y = 0xC00 * k := ⟨(s.player id).y / 0xC00, by omega⟩
  have hk0 : 0 ≤ k := by omega
  obtain ⟨n, rfl⟩ := Int.eq_ofNat_of_zero_le hk0
  have hn : n < 22 := by omega
  have e0 : u8 (px (s.player id).y) = 12 * n := by
    unfold u8 px
    rw [hk]
    omega
  have e1 : u8 (px ((s.player id).y + 0x100 + (s.player id).playerSpeed)) = 12 * n + 1 := by
    unfold u8 px
    rw [hk]
    omega
  have hhead : GetTileAtHead K s.vram (u8 (px (s.player id).x)) (12 * n + 1) = K.TILE_ROPE := by
    rw [e0] at hrope
    unfold GetTileAtHead at hrope ⊢
    have : (12 * n + 1 + 1) / TILE_HEIGHT = (12 * n + 1) / TILE_HEIGHT := by
      simp only [TILE_HEIGHT]; omega
    rw [this]
    exact hrope
  have hmod : ¬ (12 * n + 1) % 12 = 0 := by omega
  refine ⟨?_, ?_, ?_⟩
  · simp only [Fall, setPlayer_player, setPlayer_vram, Function.update_same, setSprite_player,
      setSprite_vram, if_neg hh, if_neg hb, if_pos hcl, e1, hhead, if_true, if_neg hmod]
    omega
  · simp only [Fall, setPlayer_player, setPlayer_vram, Function.update_same, setSprite_player,
      setSprite_vram, if_neg hh, if_neg hb, if_pos hcl, e1, hhead, if_true, if_neg hmod]
  · simp only [Fall, setPlayer_player, setPlayer_vram, Function.update_same, setSprite_player,
      setSprite_vram, if_neg hh, if_neg hb, if_pos hcl, e1, hhead, if_true, if_neg hmod]

/-- C33 at a concrete input: enemy 0 of `C33_state` lets go of the rope at raw `y` 0x3C00
with speed 0x060: after `Fall`, `y = 0x3C00 + 0x160` and the action is Fall. -/
theorem C33_Fall_from_rope_witness :
    (C33_state.player 0).lastAction = ACTION_CLING ∧
    ((Fall K0 0 C33_state).player 0).y = 0x3C00 + (0x060 + 0x100) ∧
    ((Fall K0 0 C33_state).player 0).action = ACTION_FALL ∧
    ((Fall K0 0 C33_state).player 0).lastAction = ACTION_FALL :=
  ⟨by decide,
   C33_Fall_from_rope K0 0 C33_state (by decide) (by decide) (by decide) (by decide)
     (by decide) (by decide) (by decide) (by decide) (fun _ => by decide)⟩

end RopeDrop

section HoleCell

/-- C31 (failing input): enemy 0 lets go of a rope at pixel X 68 (68 mod 8 = 4) over the
hole of cell (9, 6). `Fall` probes the hole at column (68 + 4) >> 3 = 9 but marks column
68 / 8 = 8: after the 31 ticks of the drop the enemy is in InHole, the hole cell (9, 6) still
holds `TILE_BG_HOLE`, and the brick of cell (8, 6) has been replaced by
`TILE_BG_STEP_ON`. -/
theorem C31_marks_cell_left_of_hole :
    u8 (px (C31_state.player 0).x) = 68 ∧
    C31_state.vram (6 * 30 + 8) = K0.TILE_BREAKABLE ∧
    C31_state.vram (6 * 30 + 9) = K0.TILE_BG_HOLE ∧
    ((Nat.iterate (ProcessPlayer K0 C31_down 0) 30 C31_state).player 0).action = ACTION_FALL ∧
    ((Nat.iterate (ProcessPlayer K0 C31_down 0) 31 C31_state).player 0).action
      = ACTION_INHOLE ∧
    u8 (px ((Nat.iterate (ProcessPlayer K0 C31_down 0) 31 C31_state).player 0).x) = 68 ∧
    (Nat.iterate (ProcessPlayer K0 C31_down 0) 31 C31_state).vram (6 * 30 + 9)
      = K0.TILE_BG_HOLE ∧
    (Nat.iterate (ProcessPlayer K0 C31_down 0) 31 C31_state).vram (6 * 30 + 8)
      = K0.TILE_BG_STEP_ON := by
  decide!

end HoleCell

section ClingIndex

set_option maxRecDepth 100000 in
/-- C35 (failing input): level `C35_level` played with the joypad readings `C35_joys`. The
player walks right for 15 frames, which leaves the frame counter at 68, steps off the
bricks and falls; `Fall` does not touch the counter, and in frame 32 it catches the rope of
cell (6, 6) and sets `lastAction = Cling`. In frame 33 Left is pressed: `Cling` skips its
entry block, the move is blocked by the brick of cell (5, 6), and the sprite is looked up at
`playerClingFrames[68 >> 4]`, index 4 of a table of 3 entries. -/
theorem C35_Cling_index_out_of_table :
    (C35_run 16).map (fun s => ((s.player 5).action, (s.player 5).frame))
      = some (ACTION_FALL, 68) ∧
    (C35_run 32).map (fun s => ((s.player 5).action, (s.player 5).lastAction,
        (s.player 5).x, (s.player 5).frame))
      = some (ACTION_CLING, ACTION_CLING, 0x3000, 68) ∧
    (C35_run 32).map (fun s => IsTileBlocking K0
        (GetTileOnSide K0 s.vram (u8 (px ((s.player 5).x + (s.player 5).playerSpeed * (-1))))
          (u8 (px (s.player 5).y)) (-1)))
      = some true ∧
    (C35_run 33).map (fun s => ((s.player 5).action, (s.player 5).lastAction,
        (s.player 5).x, (s.player 5).frame))
      = some (ACTION_CLING, ACTION_CLING, 0x3000, 68) ∧
    68 >>> 4 = 4 ∧ playerClingFrames.length = 3 ∧ playerClingFrames.get? (68 >>> 4) = none := by
  decide!

end ClingIndex

section LevelIndex

set_option maxRecDepth 100000 in
set_option maxHeartbeats 4000000 in
/-- C37 (failing input): `main` run on the joypad readings `C37_joys` with the level store
`C37_levels`. Level 49 is selected on the title screen and started (`UnpackGameMap(49)`);
the 131st reading ends it with `levelComplete`, `game.level` becomes 50 and the inner loop
of `main` is left for the game-over screen. Nothing resets `game.level`: the next pass
through `GameTitle` calls `blitLevelPreview(50)` (reading 135), and Start in the level
selection leads to `UnpackGameMap(50)` (reading 137), both with
`game.level = LEVELS_COUNT`. -/
theorem C37_level_index_reaches_LEVELS_COUNT :
    (main K0 C37_levels State.zero (C37_joys.take 130)).map
        (fun m => (m.pc, m.s.game.level, m.s.game.levelComplete, m.calls.getLast?))
      = some (MainPc.play, 49, false, some (LevelCall.UnpackGameMap 49)) ∧
    (main K0 C37_levels State.zero (C37_joys.take 131)).map
        (fun m => (m.pc, m.s.game.level, m.s.game.levelComplete, m.s.game.levelQuit,
          m.calls.filter (fun c => decide (LEVELS_COUNT ≤ c.index))))
      = some (MainPc.overPress, 50, true, false, []) ∧
    (main K0 C37_levels State.zero (C37_joys.take 135)).map
        (fun m => (m.pc, m.s.game.level, m.calls.getLast?))
      = some (MainPc.select 0 0 0, 50, some (LevelCall.blitLevelPreview 50)) ∧
    (main K0 C37_levels State.zero C37_joys).map
        (fun m => (m.pc, m.s.game.level, m.calls.getLast?))
      = some (MainPc.waitKey, 50, some (LevelCall.UnpackGameMap 50)) ∧
    (main K0 C37_levels State.zero C37_joys).map
        (fun m => m.calls.filter (fun c => decide (LEVELS_COUNT ≤ c.index)))
      = some [LevelCall.blitLevelPreview 50, LevelCall.UnpackGameMap 50] ∧
    C37_joys.length = 137 ∧ LEVELS_COUNT = 50 := by
  refine ⟨?_, ?_, ?_, ?_, ?_, ?_, ?_⟩ <;> decide!

end LevelIndex

section BrickTimeline

/-- The loop over the slots passes over free slots. -/
theorem ProcessAnimations.loop_passes_free (K : Consts) :
    ∀ (n a : Nat) (s : State), (∀ j, a ≤ j → (s.game.animations j).commandStream = none) →
      ProcessAnimations.loop K n a s = some s := by
  intro n
  induction n with
  | zero => intro a s _; rfl
  | succ n ih =>
    intro a s h
    simp only [ProcessAnimations.loop]
    rw [h a (le_refl _)]
    exact ih (a + 1) s (fun j hj => h j (by omega))

/-- The loop over the slots reaches slot `i` when the slots before it are free. -/
theorem ProcessAnimations.loop_reach (K : Consts) (i : Nat) :
    ∀ (n a : Nat) (s : State), a ≤ i → i < a + n →
      (∀ j, j < i → (s.game.animations j).commandStream = none) →
      ProcessAnimations.loop K n a s = ProcessAnimations.loop K (a + n - i) i s := by
  intro n
  induction n with
  | zero => intro a s h1 h2 _; omega
  | succ n ih =>
    intro a s h1 h2 h
    by_cases e : a = i
    · subst e
      rw [Nat.add_sub_cancel_left]
    · have hlt : a < i := by omega
      have e2 : a + (n + 1) - i = (a + 1) + n - i := by omega
      rw [e2, ← ih (a + 1) s (by omega) (by omega) h]
      simp only [ProcessAnimations.loop]
      rw [h a hlt]

/-- One call of `ProcessAnimations` on a pool whose only busy slot is `i`. -/
theorem ProcessAnimations_slot (K : Consts) (s : State) (i : Nat) (ptr : List Nat)
    (hi : i < ANIMATION_SLOTS_COUNT)
    (hfree : ∀ j, j ≠ i → (s.game.animations j).commandStream = none)
    (hs : (s.game.animations i).commandStream = some ptr) :
    ProcessAnimations K s =
      if (s.game.animations i).delay > 0 then
        some (setAnim s i (fun a => { a with delay := a.delay - 1 }))
      else
        match ProcessAnimations.run K i (s.game.animations i).x (s.game.animations i).y ptr s with
        | .delayed s2 => ProcessAnimations.loop K (ANIMATION_SLOTS_COUNT - 1 - i) (i + 1) s2
        | .ended s2 => some s2
        | .overrun => none := by
  unfold ProcessAnimations
  rw [ProcessAnimations.loop_reach K i ANIMATION_SLOTS_COUNT 0 s (Nat.zero_le _) (by omega)
    (fun j hj => hfree j (by omega))]
  have e : 0 + ANIMATION_SLOTS_COUNT - i = (ANIMATION_SLOTS_COUNT - 1 - i) + 1 := by omega
  rw [e]
  simp only [ProcessAnimations.loop]
  rw [hs]
  simp only []
  split_ifs with hd
  · apply ProcessAnimations.loop_passes_free
    intro j hj
    have : j ≠ i := by omega
    simp [setAnim, this, hfree j this]
  · rfl

/-- A delay command ends the command group of the call. -/
theorem ProcessAnimations.run_delay (K : Consts) (i x y command : Nat) (ptr : List Nat)
    (s : State) (h : command &&& 0x80 ≠ 0) :
    ProcessAnimations.run K i x y (command :: ptr) s =
      .delayed (setAnim s i (fun a =>
        { a with delay := command &&& 0x7f, commandStream := some ptr })) := by
  cases ptr with
  | nil => rw [ProcessAnimations.run_one, if_pos h]
  | cons t ptr2 => rw [ProcessAnimations.run_two, if_pos h]

/-- The terminator frees the slot. -/
theorem ProcessAnimations.run_end (K : Consts) (i x y : Nat) (ptr : List Nat) (s : State) :
    ProcessAnimations.run K i x y (ANIM_CMD_END :: ptr) s =
      .ended (setAnim s i (fun a => { a with commandStream := none })) := by
  cases ptr with
  | nil => rw [ProcessAnimations.run_one]; rfl
  | cons t ptr2 => rw [ProcessAnimations.run_two]; rfl

/-- A set-tile command writes the bound cell and the loop goes on. -/
theorem ProcessAnimations.run_settile (K : Consts) (i x y t : Nat) (ptr : List Nat)
    (s : State) :
    ProcessAnimations.run K i x y (ANIM_CMD_SETTILE :: t :: ptr) s =
      ProcessAnimations.run K i x y ptr
        (setAnim (SetTile K x y t s) i
          (fun a => { a with commandCount := (a.commandCount + 1) % 256 })) := by
  rw [ProcessAnimations.run_two]; rfl

@[simp] theorem slotState_animations_same (s : State) (i x y p : Nat) (rest : Option (List Nat))
    (d c : Nat) (v : Nat → Nat) :
    (slotState s i x y p rest d c v).game.animations i =
      { commandStream := rest, commandCount := c, x := x, y := y, delay := d, param1 := p } := by
  simp [slotState]

theorem slotState_animations_ne (s : State) (i x y p : Nat) (rest : Option (List Nat))
    (d c : Nat) (v : Nat → Nat) (j : Nat) (h : j ≠ i) :
    (slotState s i x y p rest d c v).game.animations j = s.game.animations j := by
  simp [slotState, h]

@[simp] theorem slotState_vram (s : State) (i x y p : Nat) (rest : Option (List Nat))
    (d c : Nat) (v : Nat → Nat) :
    (slotState s i x y p rest d c v).vram = v := rfl

theorem setAnim_slotState (s : State) (i x y p : Nat) (rest : Option (List Nat))
    (d c : Nat) (v : Nat → Nat) (f : Animation → Animation) :
    setAnim (slotState s i x y p rest d c v) i f =
      slotState s i (f ⟨rest, c, x, y, d, p⟩).x (f ⟨rest, c, x, y, d, p⟩).y
        (f ⟨rest, c, x, y, d, p⟩).param1 (f ⟨rest, c, x, y, d, p⟩).commandStream
        (f ⟨rest, c, x, y, d, p⟩).delay (f ⟨rest, c, x, y, d, p⟩).commandCount v := by
  simp [slotState, setAnim]

theorem SetTile_slotState (K : Consts) (s : State) (i x y p : Nat) (rest : Option (List Nat))
    (d c : Nat) (v : Nat → Nat) (a b t : Nat) :
    SetTile K a b t (slotState s i x y p rest d c v) =
      slotState s i x y p rest d c (Function.update v (b * K.VRAM_TILES_H + a) t) := by
  simp [slotState, SetTile]

/-- A call while the slot waits counts its delay down. -/
theorem ProcessAnimations_wait (K : Consts) (s : State) (i x y p : Nat) (l : List Nat)
    (d c : Nat) (v : Nat → Nat) (hi : i < ANIMATION_SLOTS_COUNT)
    (hfree : ∀ j, j ≠ i → (s.game.animations j).commandStream = none) :
    ProcessAnimations K (slotState s i x y p (some l) (d + 1) c v) =
      some (slotState s i x y p (some l) d c v) := by
  rw [ProcessAnimations_slot K _ i l hi
    (fun j hj => by rw [slotState_animations_ne _ _ _ _ _ _ _ _ _ _ hj]; exact hfree j hj)
    (by simp)]
  rw [if_pos (by simp)]
  rw [setAnim_slotState]
  rfl

/-- A call with a delay command at the pointer sets the delay. -/
theorem ProcessAnimations_delay (K : Consts) (s : State) (i x y p command : Nat)
    (rest : List Nat) (c : Nat) (v : Nat → Nat) (hi : i < ANIMATION_SLOTS_COUNT)
    (hfree : ∀ j, j ≠ i → (s.game.animations j).commandStream = none)
    (h : command &&& 0x80 ≠ 0) :
    ProcessAnimations K (slotState s i x y p (some (command :: rest)) 0 c v) =
      some (slotState s i x y p (some rest) (command &&& 0x7f) c v) := by
  rw [ProcessAnimations_slot K _ i (command :: rest) hi
    (fun j hj => by rw [slotState_animations_ne _ _ _ _ _ _ _ _ _ _ hj]; exact hfree j hj)
    (by simp)]
  rw [if_neg (by simp)]
  rw [ProcessAnimations.run_delay K i _ _ command rest _ h]
  simp only []
  rw [setAnim_slotState]
  apply ProcessAnimations.loop_passes_free
  intro j hj
  rw [slotState_animations_ne _ _ _ _ _ _ _ _ _ _ (by omega)]
  exact hfree j (by omega)

/-- A call with a set-tile command followed by a delay command at the pointer writes the
bound cell and sets the delay. -/
theorem ProcessAnimations_settile (K : Consts) (s : State) (i x y p t command : Nat)
    (rest : List Nat) (c : Nat) (v : Nat → Nat) (hi : i < ANIMATION_SLOTS_COUNT)
    (hfree : ∀ j, j ≠ i → (s.game.animations j).commandStream = none)
    (h : command &&& 0x80 ≠ 0) :
    ProcessAnimations K
        (slotState s i x y p (some (ANIM_CMD_SETTILE :: t :: command :: rest)) 0 c v) =
      some (slotState s i x y p (some rest) (command &&& 0x7f) ((c + 1) % 256)
        (Function.update v (y * K.VRAM_TILES_H + x) t)) := by
  rw [ProcessAnimations_slot K _ i (ANIM_CMD_SETTILE :: t :: command :: rest) hi
    (fun j hj => by rw [slotState_animations_ne _ _ _ _ _ _ _ _ _ _ hj]; exact hfree j hj)
    (by simp)]
  rw [if_neg (by simp)]
  rw [ProcessAnimations.run_settile, ProcessAnimations.run_delay K i _ _ command rest _ h]
  simp only []
  rw [slotState_animations_same, SetTile_slotState, setAnim_slotState, setAnim_slotState]
  apply ProcessAnimations.loop_passes_free
  intro j hj
  rw [slotState_animations_ne _ _ _ _ _ _ _ _ _ _ (by omega)]
  exact hfree j (by omega)

/-- A call with a set-tile command followed by the terminator at the pointer writes the
bound cell and frees the slot. -/
theorem ProcessAnimations_last (K : Consts) (s : State) (i x y p t : Nat)
    (rest : List Nat) (c : Nat) (v : Nat → Nat) (hi : i < ANIMATION_SLOTS_COUNT)
    (hfree : ∀ j, j ≠ i → (s.game.animations j).commandStream = none) :
    ProcessAnimations K
        (slotState s i x y p (some (ANIM_CMD_SETTILE :: t :: ANIM_CMD_END :: rest)) 0 c v) =
      some (slotState s i x y p none 0 ((c + 1) % 256)
        (Function.update v (y * K.VRAM_TILES_H + x) t)) := by
  rw [ProcessAnimations_slot K _ i (ANIM_CMD_SETTILE :: t :: ANIM_CMD_END :: rest) hi
    (fun j hj => by rw [slotState_animations_ne _ _ _ _ _ _ _ _ _ _ hj]; exact hfree j hj)
    (by simp)]
  rw [if_neg (by simp)]
  rw [ProcessAnimations.run_settile, ProcessAnimations.run_end]
  simp only []
  rw [slotState_animations_same, SetTile_slotState, setAnim_slotState, setAnim_slotState]

/-- A call on a pool with every slot free returns the state it was given. -/
theorem ProcessAnimations_idle (K : Consts) (s : State) (i x y p : Nat)
    (d c : Nat) (v : Nat → Nat)
    (hfree : ∀ j, j ≠ i → (s.game.animations j).commandStream = none) :
    ProcessAnimations K (slotState s i x y p none d c v) =
      some (slotState s i x y p none d c v) := by
  apply ProcessAnimations.loop_passes_free
  intro j _
  by_cases e : j = i
  · subst e; simp
  · rw [slotState_animations_ne _ _ _ _ _ _ _ _ _ _ e]
    exact hfree j e

theorem animCalls_add (K : Consts) :
    ∀ (a b : Nat) (s : State),
      animCalls K (a + b) s = (animCalls K a s).bind (animCalls K b) := by
  intro a
  induction a with
  | zero => intro b s; rw [Nat.zero_add]; rfl
  | succ a ih =>
    intro b s
    have e : a + 1 + b = (a + b) + 1 := by omega
    rw [e]
    simp only [animCalls]
    cases ProcessAnimations K s with
    | none => rfl
    | some t => exact ih b t

/-- The calls made while the slot waits count its delay down and change nothing else. -/
theorem animCalls_wait (K : Consts) (s : State) (i x y p : Nat) (l : List Nat)
    (c : Nat) (v : Nat → Nat) (hi : i < ANIMATION_SLOTS_COUNT)
    (hfree : ∀ j, j ≠ i → (s.game.animations j).commandStream = none) :
    ∀ (m d : Nat), animCalls K m (slotState s i x y p (some l) (d + m) c v) =
      some (slotState s i x y p (some l) d c v) := by
  intro m
  induction m with
  | zero => intro d; rfl
  | succ m ih =>
    intro d
    simp only [animCalls]
    have e : d + (m + 1) = (d + m) + 1 := by omega
    rw [e, ProcessAnimations_wait K s i x y p l (d + m) c v hi hfree]
    exact ih d

/-- The calls made on a pool with every slot free change nothing. -/
theorem animCalls_idle (K : Consts) (s : State) (i x y p : Nat)
    (d c : Nat) (v : Nat → Nat)
    (hfree : ∀ j, j ≠ i → (s.game.animations j).commandStream = none) :
    ∀ (m : Nat), animCalls K m (slotState s i x y p none d c v) =
      some (slotState s i x y p none d c v) := by
  intro m
  induction m with
  | zero => rfl
  | succ m ih =>
    simp only [animCalls]
    rw [ProcessAnimations_idle K s i x y p d c v hfree]
    exact ih

/-- From a wait of `D` calls before a delay command to the wait set by that command. -/
theorem animCalls_phase_delay (K : Consts) (s s0 : State) (i x y p : Nat)
    (hi : i < ANIMATION_SLOTS_COUNT)
    (hfree : ∀ j, j ≠ i → (s.game.animations j).commandStream = none)
    (N D command c : Nat) (rest : List Nat) (v : Nat → Nat)
    (hprev : ∀ m, m ≤ D → animCalls K (N + m) s0 =
      some (slotState s i x y p (some (command :: rest)) (D - m) c v))
    (h : command &&& 0x80 ≠ 0) :
    ∀ m, m ≤ command &&& 0x7f → animCalls K (N + D + 1 + m) s0 =
      some (slotState s i x y p (some rest) ((command &&& 0x7f) - m) c v) := by
  intro m hm
  have h0 := hprev D (le_refl _)
  rw [Nat.sub_self] at h0
  have e : N + D + 1 + m = (N + D) + (m + 1) := by omega
  rw [e, animCalls_add, h0]
  simp only [Option.bind, animCalls]
  rw [ProcessAnimations_delay K s i x y p command rest c v hi hfree h]
  simp only []
  have e2 : command &&& 0x7f = ((command &&& 0x7f) - m) + m := by omega
  rw [e2]
  rw [animCalls_wait K s i x y p rest c v hi hfree m]
  simp

/-- From a wait of `D` calls before a set-tile command and a delay command to the wait set
by that command, with the bound cell written. -/
theorem animCalls_phase_settile (K : Consts) (s s0 : State) (i x y p : Nat)
    (hi : i < ANIMATION_SLOTS_COUNT)
    (hfree : ∀ j, j ≠ i → (s.game.animations j).commandStream = none)
    (N D t command c : Nat) (rest : List Nat) (v : Nat → Nat)
    (hprev : ∀ m, m ≤ D → animCalls K (N + m) s0 =
      some (slotState s i x y p (some (ANIM_CMD_SETTILE :: t :: command :: rest)) (D - m) c v))
    (h : command &&& 0x80 ≠ 0) :
    ∀ m, m ≤ command &&& 0x7f → animCalls K (N + D + 1 + m) s0 =
      some (slotState s i x y p (some rest) ((command &&& 0x7f) - m) ((c + 1) % 256)
        (Function.update v (y * K.VRAM_TILES_H + x) t)) := by
  intro m hm
  have h0 := hprev D (le_refl _)
  rw [Nat.sub_self] at h0
  have e : N + D + 1 + m = (N + D) + (m + 1) := by omega
  rw [e, animCalls_add, h0]
  simp only [Option.bind, animCalls]
  rw [ProcessAnimations_settile K s i x y p t command rest c v hi hfree h]
  simp only []
  have e2 : command &&& 0x7f = ((command &&& 0x7f) - m) + m := by omega
  rw [e2]
  rw [animCalls_wait K s i x y p rest _ _ hi hfree m]
  simp

/-- From a wait of `D` calls before a set-tile command and the terminator to the free slot,
with the bound cell written. -/
theorem animCalls_phase_last (K : Consts) (s s0 : State) (i x y p : Nat)
    (hi : i < ANIMATION_SLOTS_COUNT)
    (hfree : ∀ j, j ≠ i → (s.game.animations j).commandStream = none)
    (N D t c : Nat) (rest : List Nat) (v : Nat → Nat)
    (hprev : ∀ m, m ≤ D → animCalls K (N + m) s0 =
      some (slotState s i x y p (some (ANIM_CMD_SETTILE :: t :: ANIM_CMD_END :: rest))
        (D - m) c v)) :
    ∀ m, animCalls K (N + D + 1 + m) s0 =
      some (slotState s i x y p none 0 ((c + 1) % 256)
        (Function.update v (y * K.VRAM_TILES_H + x) t)) := by
  intro m
  have h0 := hprev D (le_refl _)
  rw [Nat.sub_self] at h0
  have e : N + D + 1 + m = (N + D) + (m + 1) := by omega
  rw [e, animCalls_add, h0]
  simp only [Option.bind, animCalls]
  rw [ProcessAnimations_last K s i x y p t rest c v hi hfree]
  simp only []
  exact animCalls_idle K s i x y p 0 _ _ hfree m

/-- A state equals itself with one slot and the tile grid written back. -/
theorem slotState_self (s : State) (i : Nat) :
    slotState s i (s.game.animations i).x (s.game.animations i).y (s.game.animations i).param1
      (s.game.animations i).commandStream (s.game.animations i).delay
      (s.game.animations i).commandCount s.vram = s := by
  simp [slotState]

end BrickTimeline

end Princesse
